import Mathlib

/-!
# A shallow embedding of the BPF program synthesizer (`prog/bpf_generate.go`)

Go values are embedded as follows.

* `int` is `Int` (no arithmetic of the generator comes near the 64-bit range);
  `/` and `%` are the truncating `Int.tdiv` and `Int.tmod`.
* `string` is `String`; byte slicing of the ASCII tags is slicing of the character list.
* A `map[K]V` that is only probed for key presence is the list of its keys; other maps are
  association lists.
* `*BpfMap` is an index into `s.Maps` (every map the generator creates is appended there and
  never removed); `*StructDef` and `*BpfHelperFunc` are never written through after creation
  and are embedded by value; a `*BpfCallGenHint` is owned by the one call it was made for and
  is stored in that call.
* A run-time panic (index out of range, nil dereference, `Intn` of a non-positive bound,
  division by zero) is `Outcome.fault`; a recursion that does not return within the budget
  given to the model is `Outcome.spin`.
* The random source is an arbitrary stream of naturals read through a cursor.
-/

namespace Brf

/-! ## Outcomes and the generator monad -/

/-- What running a piece of Go code yields: a value, a run-time panic, or no answer within
the recursion budget of the model. -/
inductive Outcome (α : Type) where
  | ok (val : α)
  | fault (msg : String)
  | spin

namespace Outcome

/-- The value of a run that returned. -/
def toOption {α : Type} : Outcome α → Option α
  | ok a => some a
  | _ => none

/-- Whether the run returned a value. -/
def isOk {α : Type} : Outcome α → Bool
  | ok _ => true
  | _ => false

/-- Whether the run exhausted the recursion budget. -/
def isSpin {α : Type} : Outcome α → Bool
  | spin => true
  | _ => false

/-- Sequencing of runs; a panic or an exhausted budget is passed on. -/
def bind {α β : Type} (o : Outcome α) (f : α → Outcome β) : Outcome β :=
  match o with
  | ok a => f a
  | fault m => fault m
  | spin => spin

instance : Monad Outcome where
  pure := Outcome.ok
  bind := Outcome.bind

end Outcome

/-! ## Data model -/

/-- The type `ArgHint` (an `int32`). -/
abbrev ArgHint := Int

def HintGenSpinlock : ArgHint := 0
def HintGenTimer : ArgHint := 1
def HintGenConstStr : ArgHint := 2
def HintGenXdpSockMap : ArgHint := 3
def HintGenSockMap : ArgHint := 4

/-- A `map[ArgHint]bool`, of which the code only ever tests key presence: the list of keys. -/
abbrev HintSet := List ArgHint

/-- The test `_, ok := hints[h]`. -/
def HintSet.has (hints : HintSet) (h : ArgHint) : Bool := hints.contains h

/-- The assignment `hints[h] = true`. -/
def HintSet.set (hints : HintSet) (h : ArgHint) : HintSet :=
  if hints.contains h then hints else hints ++ [h]

/-- The statement `delete(hints, h)`. -/
def HintSet.delete (hints : HintSet) (h : ArgHint) : HintSet := hints.filter (fun k => k != h)

structure StructDef where
  Name : String := ""
  FieldNames : List String := []
  FieldTypes : List String := []
  Size : Int := 0
  Hints : HintSet := []
  IsStruct : Bool := false
  deriving DecidableEq, Repr, Inhabited

structure BpfHelperFunc where
  Num : Int := 0
  Enum : String := ""
  Name : String := ""
  Proto : String := ""
  Args : List String := []
  ArgBtfIds : List String := []
  Ret : String := ""
  RetBtfId : String := ""
  GplOnly : Bool := false
  PktAccess : Bool := false
  deriving DecidableEq, Repr, Inhabited

/-- A pointer to a map: its index in `s.Maps`. -/
abbrev MapRef := Nat

structure BpfMap where
  MapType : String := ""
  MapFlags : List String := []
  MapName : String := ""
  Key : Option StructDef := none
  Val : Option StructDef := none
  MaxEntries : Int := 0
  InnerMap : Option MapRef := none
  deriving DecidableEq, Repr, Inhabited

structure BpfCallGenHint where
  ArgHints : HintSet := []
  RetAccessSize : Int := 0
  IsRetAccessRaw : Bool := false
  PreferredMap : Option MapRef := none
  deriving DecidableEq, Repr, Inhabited

structure BpfArg where
  Name : String := ""
  ArgType : String := ""
  Prepare : String := ""
  CanBeNull : Bool := false
  IsNotNull : Bool := false
  Umin : Int := 0
  Umax : Int := 0
  IsPktAccess : Bool := false
  IsPktMetaAccess : Bool := false
  AccessSize : Int := 0
  deriving DecidableEq, Repr, Inhabited

structure BpfCall where
  Helper : BpfHelperFunc
  Args : List (Option BpfArg) := []
  ArgMap : Option MapRef := none
  Ret : String := ""
  RetType : String := ""
  StackVarSize : Int := 0
  Hint : BpfCallGenHint := {}
  PostCalls : List BpfCall := []

/-- The register-type classes (the implementations of the interface `RegType`). -/
inductive RegType where
  | ScalarValRegType | PtrToCtxRegType | ConstPtrToMapRegType | PtrToMapValueRegType
  | PtrToStackRegType | PtrToPacketMetaRegType | PtrToPacketRegType | PtrToPacketEndRegType
  | PtrToFlowKeysRegType | PtrToSocketRegType | PtrToSockCommonRegType | PtrToTcpSockRegType
  | PtrToTpBufferRegType | PtrToXdpSockRegType | PtrToBtfIdRegType | PtrToMemRegType
  | PtrToRdOnlyBufRegType | PtrToRdWrBufRegType | PtrToPercpuBtfIdRegType | PtrToFuncRegType
  | PtrToMapKeyRegType
  deriving DecidableEq, Repr, Inhabited

structure BpfCtxAccessAttr where
  rangeInCtx : List String := []
  canRead : Bool := false
  canWrite : Bool := false
  size : Int := 0
  defaultSize : Int := 0
  wideAccess : Bool := false
  narrowAccess : Bool := false
  regType : Option RegType := none
  attachTypes : List String := []
  deriving DecidableEq, Repr, Inhabited

structure BpfCtxAccess where
  regTypeMap : List (String × List (List String)) := []
  accesses : List BpfCtxAccessAttr := []
  deriving DecidableEq, Repr, Inhabited

/-- The random source `*randGen`: a stream of naturals and the number of draws made. -/
structure randGen where
  src : Nat → Nat
  pos : Nat := 0

/-- The call `r.Intn(n)` of `math/rand`: panics unless `0 < n`, else a value in `[0, n)`. -/
def randGen.Intn (r : randGen) (n : Int) : Outcome (Int × randGen) :=
  if n ≤ 0 then .fault "invalid argument to Intn"
  else .ok (((r.src r.pos : Nat) : Int) % n, { r with pos := r.pos + 1 })

structure SecDef where
  Sec : String := ""
  SecDefGen : Option (randGen → Outcome (String × randGen)) := none
  Sleepable : Bool := false

structure BpfProgTypeDef where
  Name : String := ""
  User : String := ""
  Kern : String := ""
  Enum : String := ""
  Num : Int := 0
  SecDefs : List SecDef := []
  FuncProtos : List String := []
  Helpers : List BpfHelperFunc := []
  ctxAccess : Option BpfCtxAccess := none

structure BpfProgState where
  pt : BpfProgTypeDef
  VarId : Int := 0
  Maps : List BpfMap := []
  Calls : List BpfCall := []
  Structs : List StructDef := []
  Externs : List (String × String) := []
  CtxVars : List (String × String) := []
  CtxTypes : List (String × String) := []
  RetVal : Int := 0
  SecStr : String := ""
  Sec : SecDef := {}

structure BpfMapType where
  Type_ : String
  ManFlags : List (List String)
  OptFlags : List (List String)
  KeySize : List Int
  ValSize : List Int
  MaxEntries : Int
  deriving DecidableEq, Repr, Inhabited

/-! ## State threaded through the generator -/

/-- Everything the generator reads and writes: the program state `s`, the random source `r`,
the package-level recursion counter `rd`, and the backing arrays of the package-level
register-type slices (`map_key_value_types`, `mem_types`, ...), which
`genCompatibleRegTypes` overwrites in place. -/
structure Env where
  s : BpfProgState
  r : randGen
  rd : Int := 0
  regArrays : List (String × List RegType) := []

/-- A piece of generator code: a state transformer that may panic or fail to return. -/
def Gen (α : Type) : Type := Env → Outcome (α × Env)

namespace Gen

/-- Return without touching the state. -/
def ret {α : Type} (a : α) : Gen α := fun e => .ok (a, e)

/-- Sequencing. -/
def bind {α β : Type} (m : Gen α) (f : α → Gen β) : Gen β := fun e =>
  match m e with
  | .ok (a, e1) => f a e1
  | .fault msg => .fault msg
  | .spin => .spin

instance : Monad Gen where
  pure := Gen.ret
  bind := Gen.bind

/-- A run-time panic. -/
def fault {α : Type} (msg : String) : Gen α := fun _ => .fault msg

/-- The recursion budget of the model is used up. -/
def spin {α : Type} : Gen α := fun _ => .spin

/-- Read the program state. -/
def getS : Gen BpfProgState := fun e => .ok (e.s, e)

/-- Update the program state. -/
def modifyS (f : BpfProgState → BpfProgState) : Gen Unit := fun e => .ok ((), { e with s := f e.s })

/-- Read the whole environment. -/
def getE : Gen Env := fun e => .ok (e, e)

/-- Update the whole environment. -/
def modifyE (f : Env → Env) : Gen Unit := fun e => .ok ((), f e)

/-- The call `r.Intn(n)`. -/
def Intn (n : Int) : Gen Int := fun e =>
  match e.r.Intn n with
  | .ok (v, r1) => .ok (v, { e with r := r1 })
  | .fault msg => .fault msg
  | .spin => .spin

/-- Modelled from the spec: the method `nOutOf` of `randGen` is not in the sources at hand; the
spec describes `nOutOf(n, outOf)` as true with probability `n/outOf`. It is taken as in
syzkaller: a panic on a bad probability, else one draw below `outOf` compared with `n`. -/
def nOutOf (n outOf : Int) : Gen Bool :=
  if n ≤ 0 ∨ n ≥ outOf then fault "bad probability"
  else bind (Intn outOf) (fun v => ret (decide (v < n)))

/-- Indexing `xs[i]` of a slice, with the bounds check. -/
def index {α : Type} (xs : List α) (i : Int) : Gen α :=
  if i < 0 then fault "index out of range"
  else match xs[i.toNat]? with
    | some x => ret x
    | none => fault "index out of range"

end Gen

/-! ## Struct layouts -/

/-- The byte size that the `switch` of `offsetOfMember` adds for a field type. -/
def fieldSize (t : String) : Int :=
  if t = "struct bpf_spin_lock" then 4
  else if t = "struct bpf_timer" then 16
  else if t = "char [8]" then 8
  else if t = "uint64_t" then 8
  else if t = "uint32_t" then 4
  else if t = "uint16_t" then 2
  else if t = "uint8_t" then 1
  else 0

/-- The loop of `offsetOfMember`: `todo` iterations are left, `i` is the loop index. -/
def offsetOfMemberFrom (sd : StructDef) : (todo : Nat) → (i : Nat) → (offset : Int) → Outcome Int
  | 0, _, offset => .ok offset
  | todo + 1, i, offset =>
    match sd.FieldTypes[i]? with
    | none => .fault "index out of range"
    | some t => offsetOfMemberFrom sd todo (i + 1) (offset + fieldSize t)

/-- The method `StructDef.offsetOfMember`. -/
def StructDef.offsetOfMember (sd : StructDef) (mi : Int) : Outcome Int :=
  offsetOfMemberFrom sd mi.toNat 0 0

/-- The loop of `StructDef.findMember`, from index `i` on. -/
def findMemberFrom (m : String) : List String → Int → Int
  | [], _ => -1
  | mt :: rest, i => if mt = m then i else findMemberFrom m rest (i + 1)

/-- The method `StructDef.findMember`. -/
def StructDef.findMember (sd : StructDef) (m : String) : Int :=
  findMemberFrom m sd.FieldTypes 0

/-- The function `occupiedSize`. -/
def occupiedSize (hints : HintSet) : Int :=
  (if hints.has HintGenSpinlock then 4 else 0) +
  (if hints.has HintGenTimer then 16 else 0) +
  (if hints.has HintGenConstStr then 8 else 0)

/-- The variables of the fill loop of `generateStruct`: the offset, the caller's hint map
(members are deleted from it as they are placed), and the struct being built. -/
structure FillState where
  offset : Int := 0
  hints : HintSet := []
  sdHints : HintSet := []
  fieldTypes : List String := []
  deriving DecidableEq, Repr

/-- One pass through the body of the fill loop of `generateStruct`. -/
def fillStep (size : Int) (useHint : Bool) (st : FillState) : FillState :=
  let toEnd := size - st.offset
  if useHint && st.hints.has HintGenSpinlock then
    { offset := st.offset + 4, hints := st.hints.delete HintGenSpinlock,
      sdHints := st.sdHints.set HintGenSpinlock,
      fieldTypes := st.fieldTypes ++ ["struct bpf_spin_lock"] }
  else if useHint && st.hints.has HintGenTimer then
    { offset := st.offset + 16, hints := st.hints.delete HintGenTimer,
      sdHints := st.sdHints.set HintGenTimer,
      fieldTypes := st.fieldTypes ++ ["struct bpf_timer"] }
  else if useHint && st.hints.has HintGenConstStr then
    { offset := st.offset + 8, hints := st.hints.delete HintGenConstStr,
      sdHints := st.sdHints.set HintGenConstStr,
      fieldTypes := st.fieldTypes ++ ["char [8]"] }
  else if toEnd ≥ 8 then { st with offset := st.offset + 8, fieldTypes := st.fieldTypes ++ ["uint64_t"] }
  else if toEnd ≥ 4 then { st with offset := st.offset + 4, fieldTypes := st.fieldTypes ++ ["uint32_t"] }
  else if toEnd ≥ 2 then { st with offset := st.offset + 2, fieldTypes := st.fieldTypes ++ ["uint16_t"] }
  else { st with offset := st.offset + 1, fieldTypes := st.fieldTypes ++ ["uint8_t"] }

/-- The fill loop of `generateStruct` (`for { if offset >= size { break } ... }`), run for at
most `fuel` passes; every pass advances the offset, so `size.toNat` passes always reach the
`break` (`fillLoop_exit`). -/
def fillLoop (size : Int) (useHint : Bool) : (fuel : Nat) → FillState → FillState
  | 0, st => st
  | fuel + 1, st =>
    if st.offset ≥ size then st else fillLoop size useHint fuel (fillStep size useHint st)

/-- The `useHint` block of `generateStruct`: the raised minimum, or `none` where the function
returns `nil, false`. -/
def hintedMin (min max : Int) (hints : HintSet) (minSizeHint : Int) : Option Int :=
  let occupied := occupiedSize hints
  if occupied > max then none
  else
    let min1 := if occupied > min then occupied else min
    if minSizeHint > max then none
    else if min1 ≠ max ∧ minSizeHint > min1 then some minSizeHint
    else some min1

/-- The choice of `size` in `generateStruct`; `none` is the branch `max < min`. -/
def chooseSize (min max align : Int) : Gen (Option Int) :=
  if min = max then pure (some min)
  else if max > min then do
    let max1 := if max > 128 then 128 else max
    let v ← Gen.Intn (max1 - min + 1)
    let size := v + min
    if align ≠ 1 then
      if align = 0 then Gen.fault "integer divide by zero"
      else pure (some (size - size.tmod align))
    else pure (some size)
  else pure none

/-- The function `generateStruct`. Beside the results of the Go function it returns the hint
map as the function leaves it, because the map is shared with the caller. -/
def generateStruct (sizeConstraints : List Int) (hints : HintSet) (useHint : Bool)
    (minSizeHint : Int) : Gen ((Option StructDef × Bool) × HintSet) := do
  let min0 ← Gen.index sizeConstraints 0
  let max ← Gen.index sizeConstraints 1
  let align ← if sizeConstraints.length = 3 then Gen.index sizeConstraints 2 else pure 1
  match (if useHint then hintedMin min0 max hints minSizeHint else some min0) with
  | none => pure ((none, false), hints)
  | some min =>
    match ← chooseSize min max align with
    | none => pure ((none, false), hints)
    | some size =>
      if size = 0 then pure ((none, true), hints)
      else do
        let st := fillLoop size useHint size.toNat { hints := hints }
        let s ← Gen.getS
        let sd : StructDef :=
          { Name := if st.fieldTypes.length = 1 then st.fieldTypes.headD ""
                    else "struct_" ++ toString s.Structs.length
            FieldTypes := st.fieldTypes
            Size := size
            Hints := st.sdHints
            IsStruct := st.fieldTypes.length != 1 }
        Gen.modifyS (fun s => { s with Structs := s.Structs ++ [sd] })
        pure ((some sd, true), st.hints)

/-! ## Catalogues -/

/-- The table `bpfMapTypes`. -/
def bpfMapTypes : List BpfMapType := [
  { Type_ := "BPF_MAP_TYPE_HASH", ManFlags := [],
    OptFlags := [["BPF_F_NO_PREALLOC"], ["BPF_F_NUMA_NODE"], ["BPF_F_WRONLY", "BPF_F_RDONLY"],
      ["BPF_F_WRONLY_PROG", "BPF_F_RDONLY_PROG"], ["BPF_F_ZERO_SEED"]],
    KeySize := [1, 4096], ValSize := [1, 4096], MaxEntries := -1 },
  { Type_ := "BPF_MAP_TYPE_ARRAY", ManFlags := [],
    OptFlags := [["BPF_F_NUMA_NODE"], ["BPF_F_MMAPABLE"], ["BPF_F_WRONLY", "BPF_F_RDONLY"],
      ["BPF_F_WRONLY_PROG", "BPF_F_RDONLY_PROG"], ["BPF_F_INNER_MAP"]],
    KeySize := [4, 4], ValSize := [1, 4096], MaxEntries := -1 },
  { Type_ := "BPF_MAP_TYPE_PROG_ARRAY", ManFlags := [],
    OptFlags := [["BPF_F_NUMA_NODE"], ["BPF_F_WRONLY", "BPF_F_RDONLY"]],
    KeySize := [4, 4], ValSize := [4, 4], MaxEntries := -1 },
  { Type_ := "BPF_MAP_TYPE_PERF_EVENT_ARRAY", ManFlags := [],
    OptFlags := [["BPF_F_NUMA_NODE"], ["BPF_F_WRONLY", "BPF_F_RDONLY"], ["BPF_F_PRESERVE_ELEMS"]],
    KeySize := [4, 4], ValSize := [4, 4], MaxEntries := -1 },
  { Type_ := "BPF_MAP_TYPE_PERCPU_HASH", ManFlags := [],
    OptFlags := [["BPF_F_NO_PREALLOC"], ["BPF_F_WRONLY", "BPF_F_RDONLY"], ["BPF_F_WRONLY_PROG",
      "BPF_F_RDONLY_PROG"], ["BPF_F_ZERO_SEED"]],
    KeySize := [1, 4096], ValSize := [1, 4096], MaxEntries := -1 },
  { Type_ := "BPF_MAP_TYPE_PERCPU_ARRAY", ManFlags := [],
    OptFlags := [["BPF_F_WRONLY", "BPF_F_RDONLY"], ["BPF_F_WRONLY_PROG", "BPF_F_RDONLY_PROG"]],
    KeySize := [4, 4], ValSize := [1, 4096], MaxEntries := -1 },
  { Type_ := "BPF_MAP_TYPE_STACK_TRACE", ManFlags := [],
    OptFlags := [["BPF_F_NUMA_NODE"], ["BPF_F_RDONLY", "BPF_F_WRONLY"], ["BPF_F_STACK_BUILD_ID"]],
    KeySize := [4, 4], ValSize := [8, 4096, 8], MaxEntries := -1 },
  { Type_ := "BPF_MAP_TYPE_CGROUP_ARRAY", ManFlags := [],
    OptFlags := [["BPF_F_NUMA_NODE"], ["BPF_F_WRONLY", "BPF_F_RDONLY"]],
    KeySize := [4, 4], ValSize := [4, 4], MaxEntries := -1 },
  { Type_ := "BPF_MAP_TYPE_LRU_HASH", ManFlags := [],
    OptFlags := [["BPF_F_NO_COMMON_LRU", "BPF_F_NUMA_NODE"], ["BPF_F_WRONLY", "BPF_F_RDONLY"],
      ["BPF_F_WRONLY_PROG", "BPF_F_RDONLY_PROG"], ["BPF_F_ZERO_SEED"]],
    KeySize := [1, 4096], ValSize := [1, 4096], MaxEntries := -1 },
  { Type_ := "BPF_MAP_TYPE_LRU_PERCPU_HASH", ManFlags := [],
    OptFlags := [["BPF_F_NO_COMMON_LRU"], ["BPF_F_WRONLY", "BPF_F_RDONLY"], ["BPF_F_WRONLY_PROG",
      "BPF_F_RDONLY_PROG"], ["BPF_F_ZERO_SEED"]],
    KeySize := [1, 4096], ValSize := [1, 4096], MaxEntries := -1 },
  { Type_ := "BPF_MAP_TYPE_LPM_TRIE", ManFlags := [["BPF_F_NO_PREALLOC"]],
    OptFlags := [["BPF_F_NUMA_NODE"], ["BPF_F_WRONLY"], ["BPF_F_WRONLY_PROG", "BPF_F_RDONLY_PROG"]],
    KeySize := [9, 264], ValSize := [1, 4096], MaxEntries := -1 },
  { Type_ := "BPF_MAP_TYPE_ARRAY_OF_MAPS", ManFlags := [],
    OptFlags := [["BPF_F_NUMA_NODE"], ["BPF_F_WRONLY", "BPF_F_RDONLY"]],
    KeySize := [4, 4], ValSize := [4, 4], MaxEntries := -1 },
  { Type_ := "BPF_MAP_TYPE_HASH_OF_MAPS", ManFlags := [],
    OptFlags := [["BPF_F_NO_PREALLOC"], ["BPF_F_NUMA_NODE"], ["BPF_F_WRONLY"],
      ["BPF_F_WRONLY_PROG", "BPF_F_RDONLY_PROG"], ["BPF_F_ZERO_SEED"]],
    KeySize := [1, 4096], ValSize := [4, 4], MaxEntries := -1 },
  { Type_ := "BPF_MAP_TYPE_DEVMAP", ManFlags := [],
    OptFlags := [["BPF_F_NUMA_NODE"], ["BPF_F_WRONLY", "BPF_F_RDONLY"]],
    KeySize := [4, 4], ValSize := [4, 8, 4], MaxEntries := -1 },
  { Type_ := "BPF_MAP_TYPE_SOCKMAP", ManFlags := [],
    OptFlags := [["BPF_F_NUMA_NODE"], ["BPF_F_WRONLY", "BPF_F_RDONLY"]],
    KeySize := [4, 4], ValSize := [4, 8, 4], MaxEntries := -1 },
  { Type_ := "BPF_MAP_TYPE_CPUMAP", ManFlags := [],
    OptFlags := [["BPF_F_NUMA_NODE"]],
    KeySize := [4, 4], ValSize := [4, 8, 4], MaxEntries := -1 },
  { Type_ := "BPF_MAP_TYPE_XSKMAP", ManFlags := [],
    OptFlags := [["BPF_F_NUMA_NODE"], ["BPF_F_WRONLY", "BPF_F_RDONLY"]],
    KeySize := [4, 4], ValSize := [4, 4], MaxEntries := -1 },
  { Type_ := "BPF_MAP_TYPE_SOCKHASH", ManFlags := [],
    OptFlags := [["BPF_F_NUMA_NODE"], ["BPF_F_WRONLY", "BPF_F_RDONLY"]],
    KeySize := [1, 512], ValSize := [4, 8, 4], MaxEntries := -1 },
  { Type_ := "BPF_MAP_TYPE_CGROUP_STORAGE", ManFlags := [],
    OptFlags := [["BPF_F_NUMA_NODE"], ["BPF_F_RDONLY_PROG", "BPF_F_WRONLY_PROG"]],
    KeySize := [8, 12, 4], ValSize := [8, 65536], MaxEntries := 0 },
  { Type_ := "BPF_MAP_TYPE_REUSEPORT_SOCKARRAY", ManFlags := [],
    OptFlags := [["BPF_F_NUMA_NODE"], ["BPF_F_WRONLY", "BPF_F_RDONLY"], ["BPF_F_WRONLY_PROG",
      "BPF_F_RDONLY_PROG"]],
    KeySize := [1, 65536], ValSize := [4, 8, 4], MaxEntries := -1 },
  { Type_ := "BPF_MAP_TYPE_PERCPU_CGROUP_STORAGE", ManFlags := [],
    OptFlags := [["BPF_F_NUMA_NODE"], ["BPF_F_RDONLY_PROG", "BPF_F_WRONLY_PROG"]],
    KeySize := [8, 12, 4], ValSize := [8, 65536], MaxEntries := 0 },
  { Type_ := "BPF_MAP_TYPE_QUEUE", ManFlags := [],
    OptFlags := [["BPF_F_NUMA_NODE"], ["BPF_F_WRONLY", "BPF_F_RDONLY"], ["BPF_F_RDONLY_PROG"],
      ["BPF_F_WRONLY_PROG"]],
    KeySize := [0, 0], ValSize := [1, 4096], MaxEntries := -1 },
  { Type_ := "BPF_MAP_TYPE_STACK", ManFlags := [],
    OptFlags := [["BPF_F_NUMA_NODE"], ["BPF_F_WRONLY", "BPF_F_RDONLY"], ["BPF_F_RDONLY_PROG"],
      ["BPF_F_WRONLY_PROG"]],
    KeySize := [0, 0], ValSize := [1, 4096], MaxEntries := -1 },
  { Type_ := "BPF_MAP_TYPE_SK_STORAGE", ManFlags := [["BPF_F_NO_PREALLOC"]],
    OptFlags := [["BPF_F_CLONE"]],
    KeySize := [4, 4], ValSize := [1, 65536], MaxEntries := 0 },
  { Type_ := "BPF_MAP_TYPE_DEVMAP_HASH", ManFlags := [],
    OptFlags := [["BPF_F_NUMA_NODE"], ["BPF_F_WRONLY", "BPF_F_RDONLY"]],
    KeySize := [4, 4], ValSize := [4, 8, 4], MaxEntries := -1 },
  { Type_ := "BPF_MAP_TYPE_STRUCT_OPS", ManFlags := [],
    OptFlags := [],
    KeySize := [4, 4], ValSize := [0, 4096], MaxEntries := 1 },
  { Type_ := "BPF_MAP_TYPE_RINGBUF", ManFlags := [],
    OptFlags := [["BPF_F_NUMA_NODE"]],
    KeySize := [0, 0], ValSize := [0, 0], MaxEntries := 24 },
  { Type_ := "BPF_MAP_TYPE_INODE_STORAGE", ManFlags := [["BPF_F_NO_PREALLOC"]],
    OptFlags := [["BPF_F_CLONE"]],
    KeySize := [4, 4], ValSize := [1, 65536], MaxEntries := 0 },
  { Type_ := "BPF_MAP_TYPE_TASK_STORAGE", ManFlags := [["BPF_F_NO_PREALLOC"]],
    OptFlags := [["BPF_F_CLONE"]],
    KeySize := [4, 4], ValSize := [1, 65536], MaxEntries := 0 }
]

/-- The table `funcCompMaps`. -/
def funcCompMaps : List (String × List String) := [
  ("BPF_FUNC_tail_call", ["BPF_MAP_TYPE_PROG_ARRAY"]),
  ("BPF_FUNC_perf_event_read", ["BPF_MAP_TYPE_PERF_EVENT_ARRAY"]),
  ("BPF_FUNC_perf_event_output", ["BPF_MAP_TYPE_PERF_EVENT_ARRAY"]),
  ("BPF_FUNC_perf_event_read_value", ["BPF_MAP_TYPE_PERF_EVENT_ARRAY"]),
  ("BPF_FUNC_skb_output", ["BPF_MAP_TYPE_PERF_EVENT_ARRAY"]),
  ("BPF_FUNC_xdp_output", ["BPF_MAP_TYPE_PERF_EVENT_ARRAY"]),
  ("BPF_FUNC_ringbuf_output", ["BPF_MAP_TYPE_RINGBUF"]),
  ("BPF_FUNC_ringbuf_reserve", ["BPF_MAP_TYPE_RINGBUF"]),
  ("BPF_FUNC_ringbuf_query", ["BPF_MAP_TYPE_RINGBUF"]),
  ("BPF_FUNC_get_stackid", ["BPF_MAP_TYPE_STACK_TRACE"]),
  ("BPF_FUNC_current_task_under_cgroup", ["BPF_MAP_TYPE_CGROUP_ARRAY"]),
  ("BPF_FUNC_skb_under_cgroup", ["BPF_MAP_TYPE_CGROUP_ARRAY"]),
  ("BPF_FUNC_redirect_map", ["BPF_MAP_TYPE_DEVMAP", "BPF_MAP_TYPE_DEVMAP_HASH",
    "BPF_MAP_TYPE_CPUMAP", "BPF_MAP_TYPE_XSKMAP"]),
  ("BPF_FUNC_sk_redirect_map", ["BPF_MAP_TYPE_SOCKMAP"]),
  ("BPF_FUNC_msg_redirect_map", ["BPF_MAP_TYPE_SOCKMAP"]),
  ("BPF_FUNC_sock_map_update", ["BPF_MAP_TYPE_SOCKMAP"]),
  ("BPF_FUNC_sk_redirect_hash", ["BPF_MAP_TYPE_SOCKHASH"]),
  ("BPF_FUNC_msg_redirect_hash", ["BPF_MAP_TYPE_SOCKHASH"]),
  ("BPF_FUNC_sock_hash_update", ["BPF_MAP_TYPE_SOCKHASH"]),
  ("BPF_FUNC_get_local_storage", ["BPF_MAP_TYPE_CGROUP_STORAGE",
    "BPF_MAP_TYPE_PERCPU_CGROUP_STORAGE"]),
  ("BPF_FUNC_sk_select_reuseport", ["BPF_MAP_TYPE_REUSEPORT_SOCKARRAY", "BPF_MAP_TYPE_SOCKMAP",
    "BPF_MAP_TYPE_SOCKHASH"]),
  ("BPF_FUNC_map_peek_elem", ["BPF_MAP_TYPE_QUEUE", "BPF_MAP_TYPE_STACK"]),
  ("BPF_FUNC_map_pop_elem", ["BPF_MAP_TYPE_QUEUE", "BPF_MAP_TYPE_STACK"]),
  ("BPF_FUNC_map_push_elem", ["BPF_MAP_TYPE_QUEUE", "BPF_MAP_TYPE_STACK"]),
  ("BPF_FUNC_sk_storage_get", ["BPF_MAP_TYPE_SK_STORAGE"]),
  ("BPF_FUNC_sk_storage_delete", ["BPF_MAP_TYPE_SK_STORAGE"]),
  ("BPF_FUNC_inode_storage_get", ["BPF_MAP_TYPE_INODE_STORAGE"]),
  ("BPF_FUNC_inode_storage_delete", ["BPF_MAP_TYPE_INODE_STORAGE"]),
  ("BPF_FUNC_task_storage_get", ["BPF_MAP_TYPE_TASK_STORAGE"]),
  ("BPF_FUNC_task_storage_delete", ["BPF_MAP_TYPE_TASK_STORAGE"])
]

/-- The table `mapCompFuncs`. -/
def mapCompFuncs : List (String × List String) := [
  ("BPF_MAP_TYPE_PROG_ARRAY", ["BPF_FUNC_tail_call"]),
  ("BPF_MAP_TYPE_PERF_EVENT_ARRAY", ["BPF_FUNC_perf_event_read", "BPF_FUNC_perf_event_output",
    "BPF_FUNC_skb_output", "BPF_FUNC_perf_event_read_value", "BPF_FUNC_xdp_output"]),
  ("BPF_MAP_TYPE_RINGBUF", ["BPF_FUNC_ringbuf_output", "BPF_FUNC_ringbuf_reserve",
    "BPF_FUNC_ringbuf_query"]),
  ("BPF_MAP_TYPE_STACK_TRACE", ["BPF_FUNC_get_stackid"]),
  ("BPF_MAP_TYPE_CGROUP_ARRAY", ["BPF_FUNC_skb_under_cgroup",
    "BPF_FUNC_current_task_under_cgroup"]),
  ("BPF_MAP_TYPE_CGROUP_STORAGE", ["BPF_FUNC_get_local_storage"]),
  ("BPF_MAP_TYPE_PERCPU_CGROUP_STORAGE", ["BPF_FUNC_get_local_storage"]),
  ("BPF_MAP_TYPE_DEVMAP", ["BPF_FUNC_redirect_map", "BPF_FUNC_map_lookup_elem"]),
  ("BPF_MAP_TYPE_DEVMAP_HASH", ["BPF_FUNC_redirect_map", "BPF_FUNC_map_lookup_elem"]),
  ("BPF_MAP_TYPE_CPUMAP", ["BPF_FUNC_redirect_map"]),
  ("BPF_MAP_TYPE_XSKMAP", ["BPF_FUNC_redirect_map", "BPF_FUNC_map_lookup_elem"]),
  ("BPF_MAP_TYPE_ARRAY_OF_MAPS", ["BPF_FUNC_map_lookup_elem"]),
  ("BPF_MAP_TYPE_HASH_OF_MAPS", ["BPF_FUNC_map_lookup_elem"]),
  ("BPF_MAP_TYPE_SOCKMAP", ["BPF_FUNC_sk_redirect_map", "BPF_FUNC_sock_map_update",
    "BPF_FUNC_map_delete_elem", "BPF_FUNC_msg_redirect_map", "BPF_FUNC_sk_select_reuseport",
    "BPF_FUNC_map_lookup_elem"]),
  ("BPF_MAP_TYPE_SOCKHASH", ["BPF_FUNC_sk_redirect_hash", "BPF_FUNC_sock_hash_update",
    "BPF_FUNC_map_delete_elem", "BPF_FUNC_msg_redirect_hash", "BPF_FUNC_sk_select_reuseport",
    "BPF_FUNC_map_lookup_elem"]),
  ("BPF_MAP_TYPE_REUSEPORT_SOCKARRAY", ["BPF_FUNC_sk_select_reuseport"]),
  ("BPF_MAP_TYPE_QUEUE", ["BPF_FUNC_map_peek_elem", "BPF_FUNC_map_pop_elem",
    "BPF_FUNC_map_push_elem"]),
  ("BPF_MAP_TYPE_STACK", ["BPF_FUNC_map_peek_elem", "BPF_FUNC_map_pop_elem",
    "BPF_FUNC_map_push_elem"]),
  ("BPF_MAP_TYPE_SK_STORAGE", ["BPF_FUNC_sk_storage_get", "BPF_FUNC_sk_storage_delete"]),
  ("BPF_MAP_TYPE_INODE_STORAGE", ["BPF_FUNC_inode_storage_get", "BPF_FUNC_inode_storage_delete"]),
  ("BPF_MAP_TYPE_TASK_STORAGE", ["BPF_FUNC_task_storage_get", "BPF_FUNC_task_storage_delete"])
]

/-- The key set of the table `mayUpdateSockmapProgs`. -/
def mayUpdateSockmapProgs : List String :=
  ["BPF_PROG_TYPE_TRACING", "BPF_PROG_TYPE_SOCKET_FILTER", "BPF_PROG_TYPE_SCHED_CLS",
    "BPF_PROG_TYPE_SCHED_ACT", "BPF_PROG_TYPE_XDP", "BPF_PROG_TYPE_SK_REUSEPORT",
    "BPF_PROG_TYPE_FLOW_DISSECTOR", "BPF_PROG_TYPE_SK_LOOKUP"]

/-- The key set of the table `PktPtrReadOnly`. -/
def PktPtrReadOnly : List String :=
  ["BPF_PROG_TYPE_LWT_IN", "BPF_PROG_TYPE_LWT_OUT", "BPF_PROG_TYPE_LWT_SEG6LOCAL",
    "BPF_PROG_TYPE_SK_REUSEPORT", "BPF_PROG_TYPE_FLOW_DISSECTOR", "BPF_PROG_TYPE_CGROUP_SKB"]

/-- The key set of the table `PktPtrReadWrite`. -/
def PktPtrReadWrite : List String :=
  ["BPF_PROG_TYPE_SCHED_CLS", "BPF_PROG_TYPE_SCHED_ACT", "BPF_PROG_TYPE_XDP",
    "BPF_PROG_TYPE_LWT_XMIT", "BPF_PROG_TYPE_SK_SKB", "BPF_PROG_TYPE_SK_MSG"]

/-- The key set of the table `PktPtrReadWriteNoCheck`. -/
def PktPtrReadWriteNoCheck : List String :=
  ["BPF_PROG_TYPE_CGROUP_SOCKOPT"]

/-- The table `ctxStructsMap`. -/
def ctxStructsMap : List (String × StructDef) := [
  ("bpf_sock_ops",
    { Name := "bpf_sock_ops", Size := 216, IsStruct := true,
      FieldTypes := ["uint32_t", "uint32_t [4]", "uint32_t", "uint32_t", "uint32_t",
        "uint32_t [4]", "uint32_t [4]", "uint32_t", "uint32_t", "uint32_t", "uint32_t", "uint32_t",
        "uint32_t", "uint32_t", "uint32_t", "uint32_t", "uint32_t", "uint32_t", "uint32_t",
        "uint32_t", "uint32_t", "uint32_t", "uint32_t", "uint32_t", "uint32_t", "uint32_t",
        "uint32_t", "uint32_t", "uint32_t", "uint32_t", "uint32_t", "uint32_t", "uint32_t",
        "uint64_t", "uint64_t", "struct bpf_sock*", "void*", "void*", "uint32_t", "uint32_t"],
      FieldNames := ["op", "args", "family", "remote_ip4", "local_ip4", "remote_ip6", "local_ip6",
        "remote_port", "local_port", "is_fullsock", "snd_cwnd", "srtt_us", "bpf_sock_ops_cb_flags",
        "state", "rtt_min", "snd_ssthresh", "rcv_nxt", "snd_nxt", "snd_una", "mss_cache",
        "ecn_flags", "rate_delivered", "rate_interval_us", "packets_out", "retrans_out",
        "total_retrans", "segs_in", "data_segs_in", "segs_out", "data_segs_out", "lost_out",
        "sacked_out", "sk_txhash", "bytes_received", "bytes_acked", "sk", "skb_data",
        "skb_data_end", "skb_len", "skb_tcp_flags"] }),
  ("sk_reuseport_md",
    { Name := "sk_reuseport_md", Size := 52, IsStruct := true,
      FieldTypes := ["void *", "void *", "uint32_t", "uint32_t", "uint32_t", "uint32_t",
        "uint32_t", "struct bpf_sock*", "struct bpf_sock*"],
      FieldNames := ["data", "data_end", "len", "eth_protocol", "ip_protocol", "bind_inany",
        "hash", "sk", "migrating_sk"] }),
  ("sk_msg_md",
    { Name := "sk_msg_md", Size := 80, IsStruct := true,
      FieldTypes := ["void *", "void *", "uint32_t", "uint32_t", "uint32_t", "uint32_t [4]",
        "uint32_t [4]", "uint32_t", "uint32_t", "uint32_t", "struct bpf_sock*"],
      FieldNames := ["data", "data_end", "family", "remote_ip4", "local_ip4", "remote_ip6",
        "local_ip6", "remote_port", "local_port", "size", "sk"] }),
  ("__sk_buff",
    { Name := "__sk_buff", Size := 180, IsStruct := true,
      FieldTypes := ["uint32_t", "uint32_t", "uint32_t", "uint32_t", "uint32_t", "uint32_t",
        "uint32_t", "uint32_t", "uint32_t", "uint32_t", "uint32_t", "uint32_t", "uint32_t [5]",
        "uint32_t", "uint32_t", "uint32_t", "uint32_t", "uint32_t", "uint32_t", "uint32_t",
        "uint32_t", "uint32_t [4]", "uint32_t [4]", "uint32_t", "uint32_t", "uint32_t",
        "struct bpf_flow_keys*", "uint64_t", "uint32_t", "uint32_t", "struct bpf_sock*",
        "uint32_t"],
      FieldNames := ["len", "pkt_type", "mark", "queue_mapping", "protocol", "vlan_present",
        "vlan_tci", "vlan_proto", "priority", "ingress_ifindex", "ifindex", "tc_index", "cb",
        "hash", "tc_classid", "data", "data_end", "napi_id", "family", "remote_ip4", "local_ip4",
        "remote_ip6", "local_ip6", "remote_port", "local_port", "data_meta", "flow_keys", "tstamp",
        "wire_len", "gso_segs", "sk", "gso_size"] }),
  ("bpf_sock",
    { Name := "bpf_sock", Size := 80, IsStruct := true,
      FieldTypes := ["uint32_t", "uint32_t", "uint32_t", "uint32_t", "uint32_t", "uint32_t",
        "uint32_t", "uint32_t [4]", "uint32_t", "uint32_t", "uint32_t", "uint32_t [4]", "uint32_t",
        "int32_t"],
      FieldNames := ["bound_dev_if", "family", "type", "protocol", "mark", "priority", "src_ip4",
        "src_ip6", "src_port", "dst_port", "dst_ip4", "dst_ip6", "state", "rx_queue_mapping"] }),
  ("bpf_raw_tracepoint_args",
    { Name := "bpf_raw_tracepoint_args", Size := 8, IsStruct := true,
      FieldTypes := ["uint64_t [0]"],
      FieldNames := ["args"] }),
  ("bpf_sockopt",
    { Name := "bpf_sockopt", Size := 40, IsStruct := true,
      FieldTypes := ["struct bpf_sock*", "void *", "void *", "int32_t", "int32_t", "int32_t",
        "int32_t"],
      FieldNames := ["sk", "optval", "optval_end", "level", "optname", "optlen", "retval"] }),
  ("bpf_sk_lookup",
    { Name := "bpf_sk_lookup", Size := 64, IsStruct := true,
      FieldTypes := ["struct bpf_sock*", "uint32_t", "uint32_t", "uint32_t", "uint32_t [4]",
        "uint32_t", "uint32_t", "uint32_t [4]", "uint32_t"],
      FieldNames := ["sk", "family", "protocol", "remote_ip4", "remote_ip6", "remote_port",
        "local_ip4", "local_ip6", "local_port"] }),
  ("bpf_sock_addr",
    { Name := "bpf_sock_addr", Size := 68, IsStruct := true,
      FieldTypes := ["uint32_t", "uint32_t", "uint32_t [4]", "uint32_t", "uint32_t", "uint32_t",
        "uint32_t", "uint32_t", "uint32_t [4]", "struct bpf_sock*"],
      FieldNames := ["user_family", "user_ip4", "user_ip6", "user_port", "family", "type",
        "protocol", "msg_src_ip4", "msg_src_ip6", "sk"] }),
  ("bpf_perf_event_data",
    { Name := "bpf_perf_event_data", Size := 184, IsStruct := true,
      FieldTypes := ["struct bpf_user_pt_regs_t", "uint64_t", "uint64_t"],
      FieldNames := ["regs", "sample_period", "addr"] }),
  ("bpf_sysctl",
    { Name := "bpf_sysctl", Size := 8, IsStruct := true,
      FieldTypes := ["uint32_t", "uint32_t"],
      FieldNames := ["write", "file_pos"] }),
  ("xdp_md",
    { Name := "xdp_md", Size := 24, IsStruct := true,
      FieldTypes := ["uint32_t", "uint32_t", "uint32_t", "uint32_t", "uint32_t", "uint32_t"],
      FieldNames := ["data", "data_end", "data_meta", "ingress_ifindex", "rx_queue_index",
        "egress_ifindex"] }),
  ("bpf_user_pt_regs_t",
    { Name := "bpf_user_pt_regs_t", Size := 168, IsStruct := true,
      FieldTypes := ["uint64_t", "uint64_t", "uint64_t", "uint64_t", "uint64_t", "uint64_t",
        "uint64_t", "uint64_t", "uint64_t", "uint64_t", "uint64_t", "uint64_t", "uint64_t",
        "uint64_t", "uint64_t", "uint64_t", "uint64_t", "uint64_t", "uint64_t", "uint64_t",
        "uint64_t"],
      FieldNames := ["r15", "r14", "r13", "r12", "bp", "bx", "r11", "r10", "r9", "r8", "ax", "cx",
        "dx", "si", "di", "orig_ax", "ip", "cs", "flags", "sp", "ss"] })
]

/-- The package-level register-type slices, by variable name, as initialised. -/
def initialRegArrays : List (String × List RegType) := [
  ("map_key_value_types", [.PtrToStackRegType, .PtrToPacketRegType, .PtrToPacketMetaRegType,
    .PtrToMapKeyRegType, .PtrToMapValueRegType]),
  ("scalar_types", [.ScalarValRegType]),
  ("const_map_ptr_types", [.ConstPtrToMapRegType]),
  ("context_types", [.PtrToCtxRegType]),
  ("sock_types", [.PtrToSockCommonRegType, .PtrToSocketRegType, .PtrToTcpSockRegType,
    .PtrToXdpSockRegType]),
  ("btf_id_sock_common_types", [.PtrToSockCommonRegType, .PtrToSocketRegType, .PtrToTcpSockRegType,
    .PtrToXdpSockRegType, .PtrToBtfIdRegType]),
  ("fullsock_types", [.PtrToSocketRegType]),
  ("btf_ptr_types", [.PtrToBtfIdRegType]),
  ("spin_lock_types", [.PtrToMapValueRegType]),
  ("mem_types", [.PtrToStackRegType, .PtrToPacketRegType, .PtrToPacketMetaRegType,
    .PtrToMapKeyRegType, .PtrToMapValueRegType, .PtrToMemRegType, .PtrToRdOnlyBufRegType,
    .PtrToRdWrBufRegType]),
  ("alloc_mem_types", [.PtrToMemRegType]),
  ("int_ptr_types", [.PtrToStackRegType, .PtrToPacketRegType, .PtrToPacketMetaRegType,
    .PtrToMapKeyRegType, .PtrToMapValueRegType]),
  ("percpu_btf_ptr_types", [.PtrToPercpuBtfIdRegType]),
  ("func_ptr_types", [.PtrToFuncRegType]),
  ("stack_ptr_types", [.PtrToStackRegType]),
  ("const_str_ptr_types", [.PtrToMapValueRegType]),
  ("timer_types", [.PtrToMapValueRegType]),
  ("all_types", [.ScalarValRegType, .PtrToCtxRegType, .ConstPtrToMapRegType, .PtrToMapValueRegType,
    .PtrToStackRegType, .PtrToPacketMetaRegType, .PtrToPacketRegType, .PtrToPacketEndRegType,
    .PtrToFlowKeysRegType, .PtrToSocketRegType, .PtrToSockCommonRegType, .PtrToTcpSockRegType,
    .PtrToTpBufferRegType, .PtrToXdpSockRegType, .PtrToBtfIdRegType, .PtrToMemRegType,
    .PtrToRdOnlyBufRegType, .PtrToRdWrBufRegType, .PtrToPercpuBtfIdRegType, .PtrToFuncRegType,
    .PtrToMapKeyRegType])
]

/-- The table `compatibleRegType`: each argument tag holds a slice header over the whole of
one of the package-level slices, named here by its variable. -/
def compatibleRegType : List (String × String) := [
  ("ARG_ANYTHING", "all_types"),
  ("ARG_PTR_TO_MAP_KEY", "map_key_value_types"),
  ("ARG_PTR_TO_MAP_VALUE", "map_key_value_types"),
  ("ARG_PTR_TO_UNINIT_MAP_VALUE", "map_key_value_types"),
  ("ARG_PTR_TO_MAP_VALUE_OR_NULL", "map_key_value_types"),
  ("ARG_CONST_SIZE", "scalar_types"),
  ("ARG_CONST_SIZE_OR_ZERO", "scalar_types"),
  ("ARG_CONST_ALLOC_SIZE_OR_ZERO", "scalar_types"),
  ("ARG_CONST_MAP_PTR", "const_map_ptr_types"),
  ("ARG_PTR_TO_CTX", "context_types"),
  ("ARG_PTR_TO_CTX_OR_NULL", "context_types"),
  ("ARG_PTR_TO_SOCK_COMMON", "sock_types"),
  ("ARG_PTR_TO_BTF_ID_SOCK_COMMON", "btf_id_sock_common_types"),
  ("ARG_PTR_TO_SOCKET", "fullsock_types"),
  ("ARG_PTR_TO_SOCKET_OR_NULL", "fullsock_types"),
  ("ARG_PTR_TO_BTF_ID", "btf_ptr_types"),
  ("ARG_PTR_TO_SPIN_LOCK", "spin_lock_types"),
  ("ARG_PTR_TO_MEM", "mem_types"),
  ("ARG_PTR_TO_MEM_OR_NULL", "mem_types"),
  ("ARG_PTR_TO_UNINIT_MEM", "mem_types"),
  ("ARG_PTR_TO_ALLOC_MEM", "alloc_mem_types"),
  ("ARG_PTR_TO_ALLOC_MEM_OR_NULL", "alloc_mem_types"),
  ("ARG_PTR_TO_INT", "int_ptr_types"),
  ("ARG_PTR_TO_LONG", "int_ptr_types"),
  ("ARG_PTR_TO_PERCPU_BTF_ID", "percpu_btf_ptr_types"),
  ("ARG_PTR_TO_FUNC", "func_ptr_types"),
  ("ARG_PTR_TO_STACK_OR_NULL", "stack_ptr_types"),
  ("ARG_PTR_TO_CONST_STR", "const_str_ptr_types"),
  ("ARG_PTR_TO_TIMER", "timer_types")
]

/-- The table `retToRegTypeMap` (every value stored is `true`). -/
def retToRegTypeMap : List (String × List String) := [
  ("RET_INTEGER", ["SCALAR_VALUE"]),
  ("RET_VOID", ["NOT_INIT"]),
  ("RET_PTR_TO_MAP_VALUE", ["PTR_TO_MAP_VALUE"]),
  ("RET_PTR_TO_MAP_VALUE_OR_NULL", ["PTR_TO_MAP_VALUE", "PTR_TO_XDP_SOCK", "PTR_TO_SOCKET"]),
  ("RET_PTR_TO_SOCKET_OR_NULL", ["PTR_TO_SOCKET"]),
  ("RET_PTR_TO_TCP_SOCK_OR_NULL", ["PTR_TO_TCP_SOCK"]),
  ("RET_PTR_TO_SOCK_COMMON_OR_NULL", ["PTR_TO_SOCK_COMMON"]),
  ("RET_PTR_TO_ALLOC_MEM_OR_NULL", ["PTR_TO_ALLOC_MEM"]),
  ("RET_PTR_TO_BTF_ID_OR_NULL", ["PTR_TO_BTF_ID"]),
  ("RET_PTR_TO_MEM_OR_BTF_ID_OR_NULL", ["PTR_TO_MEM", "PTR_TO_BTF_ID"]),
  ("RET_PTR_TO_MEM_OR_BTF_ID", ["PTR_TO_MEM", "PTR_TO_BTF_ID"]),
  ("RET_PTR_TO_BTF_ID", ["PTR_TO_BTF_ID"])
]

/-! ## Small helpers -/

namespace Outcome

/-- Indexing `xs[i]` of a slice, with the bounds check. -/
def index {α : Type} (xs : List α) (i : Int) : Outcome α :=
  if i < 0 then .fault "index out of range"
  else match xs[i.toNat]? with
    | some x => .ok x
    | none => .fault "index out of range"

end Outcome

/-- Run a stateless computation inside the generator. -/
def Gen.lift {α : Type} (o : Outcome α) : Gen α := fun e =>
  match o with
  | .ok a => .ok (a, e)
  | .fault msg => .fault msg
  | .spin => .spin

/-- The loop `for i, x := range xs { if x == v { return i } }; return -1`, from index `i`. -/
def indexFrom (v : String) : List String → Int → Int
  | [], _ => -1
  | x :: rest, i => if x = v then i else indexFrom v rest (i + 1)

/-- An assignment `m[k] = v` to a map held as an association list. -/
def assocSet (k v : String) : List (String × String) → List (String × String)
  | [] => [(k, v)]
  | (k1, v1) :: rest => if k1 = k then (k, v) :: rest else (k1, v1) :: assocSet k v rest

/-- Reduction of a mathematical integer to the `int64` it is stored as. -/
def wrapInt64 (x : Int) : Int := (x + 2 ^ 63) % 2 ^ 64 - 2 ^ 63

/-- The byte slice `s[lo:hi]` of an ASCII string, with the bounds check. -/
def sliceStr (s : String) (lo hi : Int) : Outcome String :=
  if 0 ≤ lo ∧ lo ≤ hi ∧ hi ≤ s.length then
    .ok (String.mk ((s.toList.drop lo.toNat).take (hi - lo).toNat))
  else .fault "slice bounds out of range"

/-- The function `roundUp`. -/
def roundUp (val align : Int) : Outcome Int :=
  if align = 0 then .fault "integer divide by zero"
  else
    let ret := val.tdiv align
    let ret1 := if val.tmod align ≠ 0 then ret + 1 else ret
    .ok (ret1 * align)

/-! ## Maps -/

/-- The method `BpfMap.getFlag`. -/
def BpfMap.getFlag (m : BpfMap) (f : String) : Int := indexFrom f m.MapFlags 0

/-- The method `BpfMap.removeFlag`. -/
def BpfMap.removeFlag (m : BpfMap) (flag : String) : BpfMap :=
  let f := m.getFlag flag
  if f ≠ -1 then { m with MapFlags := m.MapFlags.take f.toNat ++ m.MapFlags.drop (f.toNat + 1) }
  else m

/-- The function `isMapFuncCompatible`. -/
def isMapFuncCompatible (m f : String) : Bool :=
  (match funcCompMaps.lookup f with
   | some maps => maps.contains m
   | none => true) &&
  (match mapCompFuncs.lookup m with
   | some funcs => funcs.contains f
   | none => true)

/-- The function `isTracingProgType`. -/
def isTracingProgType (pt : String) : Bool :=
  pt = "BPF_PROG_TYPE_KPROBE" || pt = "BPF_PROG_TYPE_TRACEPOINT" ||
  pt = "BPF_PROG_TYPE_PERF_EVENT" || pt = "BPF_PROG_TYPE_RAW_TRACEPOINT"

/-- The map types a sleepable program may use (the list tested in `getHelperCompatMaps`,
`getHelperCompatMapTypes`). -/
def sleepableMapType (t : String) : Bool :=
  t = "BPF_MAP_TYPE_HASH" || t = "BPF_MAP_TYPE_LRU_HASH" || t = "BPF_MAP_TYPE_ARRAY" ||
  t = "BPF_MAP_TYPE_PERCPU_HASH" || t = "BPF_MAP_TYPE_PERCPU_ARRAY" ||
  t = "BPF_MAP_TYPE_LRU_PERCPU_HASH" || t = "BPF_MAP_TYPE_ARRAY_OF_MAPS" ||
  t = "BPF_MAP_TYPE_HASH_OF_MAPS" || t = "BPF_MAP_TYPE_RINGBUF"

/-- The inner loops of the compatibility filters: whether `s.Maps` holds a map of type `t`. -/
def hasMapOfType (s : BpfProgState) (t : String) : Bool :=
  s.Maps.any (fun pm => pm.MapType = t)

/-- The helpers that write to a map (`map_delete_elem`, `map_update_elem`, `map_push_elem`,
`map_pop_elem`). -/
def isMapWriteHelper (e : String) : Bool :=
  e = "BPF_FUNC_map_delete_elem" || e = "BPF_FUNC_map_update_elem" ||
  e = "BPF_FUNC_map_push_elem" || e = "BPF_FUNC_map_pop_elem"

/-- The body of the loop of `getHelperCompatMaps`: `true` where the map is appended, `false`
where an iteration ends in `continue`. -/
def helperCompatMap (s : BpfProgState) (call : BpfCall) (m : BpfMap) : Bool :=
  if !isMapFuncCompatible m.MapType call.Helper.Enum then false
  else
    let mapHasSpinlock := match m.Val with
      | some v => v.findMember "struct bpf_spin_lock" != -1
      | none => false
    let mapHasTimer := match m.Val with
      | some v => v.findMember "struct bpf_timer" != -1
      | none => false
    let mapHasConstStr := match m.Val with
      | some v => v.findMember "char [8]" != -1
      | none => false
    let mapIsRdOnly := m.getFlag "BPF_F_RDONLY_PROG" != -1
    let mapIsWrOnly := m.getFlag "BPF_F_WRONLY_PROG" != -1
    if isMapWriteHelper call.Helper.Enum && mapIsRdOnly then false
    else
      let genSpinlock := call.Hint.ArgHints.has HintGenSpinlock
      let genTimer := call.Hint.ArgHints.has HintGenTimer
      let genConstStr := call.Hint.ArgHints.has HintGenConstStr
      if (genSpinlock && (!mapHasSpinlock || mapIsRdOnly)) ||
         (genTimer && (!mapHasTimer || mapIsRdOnly)) ||
         (genConstStr && !mapHasConstStr) then false
      else if mapHasSpinlock &&
          (s.pt.Enum = "BPF_PROG_TYPE_SOCKET_FILTER" || isTracingProgType s.pt.Enum ||
            s.Sec.Sleepable) then false
      else if m.MapType = "BPF_MAP_TYPE_STRUCT_OPS" then false
      else if s.Sec.Sleepable && !sleepableMapType m.MapType then false
      else if m.MapType = "BPF_MAP_TYPE_CGROUP_STORAGE" &&
          hasMapOfType s "BPF_MAP_TYPE_CGROUP_STORAGE" then false
      else if m.MapType = "BPF_MAP_TYPE_PERCPU_CGROUP_STORAGE" &&
          hasMapOfType s "BPF_MAP_TYPE_PERCPU_CGROUP_STORAGE" then false
      else
        let genSockMap := call.Hint.ArgHints.has HintGenSockMap
        let genXdpSockMap := call.Hint.ArgHints.has HintGenXdpSockMap
        if call.Helper.Ret = "RET_PTR_TO_MAP_VALUE_OR_NULL" &&
            ((genXdpSockMap != (m.MapType = "BPF_MAP_TYPE_XSKMAP")) ||
             (genSockMap != (m.MapType = "BPF_MAP_TYPE_SOCKMAP" ||
                             m.MapType = "BPF_MAP_TYPE_SOCKHASH"))) then false
        else if (call.Helper.Ret = "RET_PTR_TO_MAP_VALUE" ||
                   call.Helper.Ret = "RET_PTR_TO_MAP_VALUE_OR_NULL") &&
                 call.Hint.RetAccessSize != 0 &&
                 ((match m.Val with
                    | some v => decide (v.Size < call.Hint.RetAccessSize)
                    | none => true) ||
                  (mapIsRdOnly && call.Hint.IsRetAccessRaw) ||
                  (mapIsWrOnly && !call.Hint.IsRetAccessRaw) ||
                  (call.Hint.IsRetAccessRaw &&
                    (m.MapType = "BPF_MAP_TYPE_DEVMAP" ||
                     m.MapType = "BPF_MAP_TYPE_DEVMAP_HASH"))) then false
        else true

/-- The loop of `getHelperCompatMaps` over `s.Maps`, from index `i` on; the result lists the
selected maps by their pointers. -/
def compatMapsFrom (s : BpfProgState) (call : BpfCall) : List BpfMap → Nat → List MapRef
  | [], _ => []
  | m :: rest, i =>
    if helperCompatMap s call m then i :: compatMapsFrom s call rest (i + 1)
    else compatMapsFrom s call rest (i + 1)

/-- The function `getHelperCompatMaps`. -/
def getHelperCompatMaps (s : BpfProgState) (call : BpfCall) : List MapRef :=
  compatMapsFrom s call s.Maps 0

/-- The body of the loop of `getHelperCompatMapTypes`. Every entry of `bpfMapTypes` has a
`ValSize` of two or three numbers, so `mt.ValSize[1]` is in range for the table. -/
def helperCompatMapType (s : BpfProgState) (call : BpfCall) (mt : BpfMapType) : Bool :=
  if !isMapFuncCompatible mt.Type_ call.Helper.Enum then false
  else if mt.ValSize[1]?.getD 0 < occupiedSize call.Hint.ArgHints then false
  else if call.Hint.ArgHints.has HintGenSpinlock &&
      ((mt.Type_ != "BPF_MAP_TYPE_HASH" && mt.Type_ != "BPF_MAP_TYPE_ARRAY" &&
        mt.Type_ != "BPF_MAP_TYPE_CGROUP_STORAGE" && mt.Type_ != "BPF_MAP_TYPE_SK_STORAGE" &&
        mt.Type_ != "BPF_MAP_TYPE_INODE_STORAGE" && mt.Type_ != "BPF_MAP_TYPE_TASK_STORAGE") ||
       (s.pt.Enum = "BPF_PROG_TYPE_SOCKET_FILTER" || isTracingProgType s.pt.Enum ||
         s.Sec.Sleepable)) then false
  else if call.Hint.ArgHints.has HintGenTimer &&
      ((mt.Type_ != "BPF_MAP_TYPE_HASH" && mt.Type_ != "BPF_MAP_TYPE_LRU_HASH" &&
        mt.Type_ != "BPF_MAP_TYPE_ARRAY") || isTracingProgType s.pt.Enum) then false
  else if mt.Type_ = "BPF_MAP_TYPE_STRUCT_OPS" then false
  else if s.Sec.Sleepable && !sleepableMapType mt.Type_ then false
  else if mt.Type_ = "BPF_MAP_TYPE_CGROUP_STORAGE" &&
      hasMapOfType s "BPF_MAP_TYPE_CGROUP_STORAGE" then false
  else if mt.Type_ = "BPF_MAP_TYPE_PERCPU_CGROUP_STORAGE" &&
      hasMapOfType s "BPF_MAP_TYPE_PERCPU_CGROUP_STORAGE" then false
  else
    let genSockMap := call.Hint.ArgHints.has HintGenSockMap
    let genXdpSockMap := call.Hint.ArgHints.has HintGenXdpSockMap
    if call.Helper.Ret = "RET_PTR_TO_MAP_VALUE_OR_NULL" &&
        ((genXdpSockMap != (mt.Type_ = "BPF_MAP_TYPE_XSKMAP")) ||
         (genSockMap != (mt.Type_ = "BPF_MAP_TYPE_SOCKMAP" ||
                         mt.Type_ = "BPF_MAP_TYPE_SOCKHASH"))) then false
    else if call.Hint.IsRetAccessRaw &&
        (mt.Type_ = "BPF_MAP_TYPE_DEVMAP" || mt.Type_ = "BPF_MAP_TYPE_DEVMAP_HASH") then false
    else if call.Helper.Enum = "BPF_FUNC_map_update_elem" &&
        (mt.Type_ = "BPF_MAP_TYPE_SOCKMAP" || mt.Type_ = "BPF_MAP_TYPE_SOCKHASH") &&
        !mayUpdateSockmapProgs.contains s.pt.Enum then false
    else true

/-- The function `getHelperCompatMapTypes`. -/
def getHelperCompatMapTypes (s : BpfProgState) (call : BpfCall) : List BpfMapType :=
  bpfMapTypes.filter (helperCompatMapType s call)

/-- The loop of `getCompatKeyStructDefs`. -/
def compatKeyStructsFrom (mapType : BpfMapType) : List StructDef → Outcome (List StructDef)
  | [] => .ok []
  | structDef :: rest => do
    let lo ← Outcome.index mapType.KeySize 0
    if structDef.Size < lo then compatKeyStructsFrom mapType rest
    else do
      let hi ← Outcome.index mapType.KeySize 1
      if structDef.Size > hi then compatKeyStructsFrom mapType rest
      else do
        let more ← compatKeyStructsFrom mapType rest
        pure (structDef :: more)

/-- The function `getCompatKeyStructDefs`. -/
def getCompatKeyStructDefs (s : BpfProgState) (mapType : BpfMapType) : Outcome (List StructDef) :=
  compatKeyStructsFrom mapType s.Structs

/-- The loop of `getCompatValStructDefs`. -/
def compatValStructsFrom (hint : BpfCallGenHint) (minValSize : Int) (mapType : BpfMapType) :
    List StructDef → Outcome (List StructDef)
  | [] => .ok []
  | structDef :: rest =>
    if minValSize ≠ -1 ∧ structDef.Size < minValSize then
      compatValStructsFrom hint minValSize mapType rest
    else if hint.ArgHints.has HintGenSpinlock &&
        structDef.findMember "struct bpf_spin_lock" == -1 then
      compatValStructsFrom hint minValSize mapType rest
    else if hint.ArgHints.has HintGenTimer && structDef.findMember "struct bpf_timer" == -1 then
      compatValStructsFrom hint minValSize mapType rest
    else if hint.ArgHints.has HintGenConstStr && structDef.findMember "char [8]" == -1 then
      compatValStructsFrom hint minValSize mapType rest
    else if hint.ArgHints.has HintGenSockMap then
      compatValStructsFrom hint minValSize mapType rest
    else if hint.ArgHints.has HintGenXdpSockMap then
      compatValStructsFrom hint minValSize mapType rest
    else do
      let lo ← Outcome.index mapType.ValSize 0
      if structDef.Size < lo then compatValStructsFrom hint minValSize mapType rest
      else do
        let hi ← Outcome.index mapType.ValSize 1
        if structDef.Size > hi then compatValStructsFrom hint minValSize mapType rest
        else if mapType.KeySize.length = 3 then do
          let al ← Outcome.index mapType.KeySize 2
          if al = 0 then .fault "integer divide by zero"
          else if structDef.Size.tmod al ≠ 0 then
            compatValStructsFrom hint minValSize mapType rest
          else do
            let more ← compatValStructsFrom hint minValSize mapType rest
            pure (structDef :: more)
        else do
          let more ← compatValStructsFrom hint minValSize mapType rest
          pure (structDef :: more)

/-- The function `getCompatValStructDefs`. -/
def getCompatValStructDefs (s : BpfProgState) (hint : BpfCallGenHint) (minValSize : Int)
    (mapType : BpfMapType) : Outcome (List StructDef) :=
  compatValStructsFrom hint minValSize mapType s.Structs

/-- The choice of `maxEntries` at the head of `NewMap`. -/
def newMapMaxEntries (newMapType : BpfMapType) (hint : BpfCallGenHint) : Gen Int := do
  let maxEntries ←
    if newMapType.MaxEntries = -1 then Gen.Intn (2 ^ 10)
    else if newMapType.MaxEntries = 0 then pure 0
    else if newMapType.Type_ = "BPF_MAP_TYPE_RINGBUF" then do
      let k ← Gen.Intn newMapType.MaxEntries
      pure (wrapInt64 (wrapInt64 (2 ^ k.toNat) * 4096))
    else Gen.Intn newMapType.MaxEntries
  if hint.ArgHints.has HintGenConstStr then pure 1 else pure maxEntries

/-- One flag group taken in `NewMap`: its only member, or a random one. -/
def pickFlag (fs : List String) : Gen String :=
  if fs.length = 1 then Gen.index fs 0
  else do
    let k ← Gen.Intn fs.length
    Gen.index fs k

/-- The loop of `NewMap` over the mandatory flag groups. -/
def manFlagsFrom : List (List String) → Gen (List String)
  | [] => pure []
  | fs :: rest => do
    let f ← pickFlag fs
    let more ← manFlagsFrom rest
    pure (f :: more)

/-- The loop of `NewMap` over the optional flag groups. -/
def optFlagsFrom (mapVal : Option StructDef) : List (List String) → Gen (List String)
  | [] => pure []
  | fs :: rest =>
    if (match mapVal with
        | some v => v.Hints.has HintGenConstStr && fs.length == 2 && fs[0]? == some "BPF_F_WRONLY"
        | none => false) then do
      let f ← Gen.index fs 1
      let more ← optFlagsFrom mapVal rest
      pure (f :: more)
    else do
      let skip ← Gen.Intn 2
      if skip = 1 then optFlagsFrom mapVal rest
      else do
        let f ← pickFlag fs
        let more ← optFlagsFrom mapVal rest
        pure (f :: more)

/-- The method `BpfProgState.NewMap`. The result is the pointer to the new map (`none` for
`nil`) and the hint as the call leaves it (`generateStruct` deletes from `hint.ArgHints`).
`fuel` bounds the nesting of inner maps, which the Go code does not bound. -/
def NewMap : (fuel : Nat) → BpfMapType → BpfCallGenHint → Int →
    Gen (Option MapRef × BpfCallGenHint)
  | 0, _, _, _ => Gen.spin
  | fuel + 1, newMapType, hint, minValSize => do
    let mapType := newMapType.Type_
    let maxEntries ← newMapMaxEntries newMapType hint
    let s ← Gen.getS
    let compatKeyStructs ← Gen.lift (getCompatKeyStructDefs s newMapType)
    let pickKey ← Gen.Intn 2
    let (keyRes, hints1) ←
      (if pickKey = 1 ∧ compatKeyStructs.length > 0 then do
        let k ← Gen.Intn compatKeyStructs.length
        let sd ← Gen.index compatKeyStructs k
        pure ((some sd, true), hint.ArgHints)
      else generateStruct newMapType.KeySize hint.ArgHints false 0 :
        Gen ((Option StructDef × Bool) × HintSet))
    let hint1 := { hint with ArgHints := hints1 }
    if !keyRes.2 then pure (none, hint1)
    else do
      let mapKey := keyRes.1
      let s ← Gen.getS
      let compatValStructs ← Gen.lift (getCompatValStructDefs s hint1 minValSize newMapType)
      let pickVal ← Gen.Intn 2
      let (valRes, hints2) ←
        (if pickVal = 1 ∧ compatValStructs.length > 0 then do
          let k ← Gen.Intn compatValStructs.length
          let sd ← Gen.index compatValStructs k
          pure ((some sd, true), hint1.ArgHints)
        else generateStruct newMapType.ValSize hint1.ArgHints true minValSize :
          Gen ((Option StructDef × Bool) × HintSet))
      let hint2 := { hint1 with ArgHints := hints2 }
      if !valRes.2 then pure (none, hint2)
      else do
        let mapVal := valRes.1
        let innerMap ←
          (if mapType = "BPF_MAP_TYPE_ARRAY_OF_MAPS" ∨ mapType = "BPF_MAP_TYPE_HASH_OF_MAPS" then do
            let k ← Gen.Intn bpfMapTypes.length
            let innerMapType ← Gen.index bpfMapTypes k
            let (inner, _) ← NewMap fuel innerMapType {} 0
            pure inner
          else pure none : Gen (Option MapRef))
        let manFlags ← manFlagsFrom newMapType.ManFlags
        let optFlags ← optFlagsFrom mapVal newMapType.OptFlags
        let s ← Gen.getS
        let newMap : BpfMap :=
          { MapType := mapType
            MapFlags := manFlags ++ optFlags
            MapName := "map_" ++ toString s.Maps.length
            Key := mapKey
            Val := mapVal
            MaxEntries := maxEntries
            InnerMap := innerMap }
        Gen.modifyS (fun s => { s with Maps := s.Maps ++ [newMap] })
        pure (some s.Maps.length, hint2)

/-! ## Arguments, calls and register types -/

/-- The function `NewBpfArg`. -/
def NewBpfArg (helper : BpfHelperFunc) (arg : Int) : Outcome BpfArg := do
  let argType ← Outcome.index helper.Args arg
  let newArg : BpfArg := { ArgType := argType, CanBeNull := true, Umin := -1, Umax := -1 }
  let head ← sliceStr argType 0 9
  if head = "ARG_CONST" then
    if argType = "ARG_CONST_SIZE" then pure { newArg with Umin := 0, Umax := 2 ^ 29 }
    else if argType = "ARG_CONST_SIZE_OR_ZERO" then pure { newArg with Umax := 2 ^ 29 }
    else pure newArg
  else do
    let tail ← sliceStr argType (argType.length - 7) argType.length
    if tail ≠ "OR_NULL" ∨ argType = "ARG_PTR_TO_MAP_VALUE_OR_NULL" then
      pure { newArg with CanBeNull := false }
    else pure newArg

/-- The function `NewBpfCall`. -/
def NewBpfCall (helper : BpfHelperFunc) (hint : BpfCallGenHint) : BpfCall :=
  { Helper := helper, Args := List.replicate helper.Args.length none, Hint := hint,
    PostCalls := [] }

/-- The assignment `call.Args[i] = a`, with the bounds check. -/
def BpfCall.setArg (call : BpfCall) (i : Int) (a : BpfArg) : Outcome BpfCall :=
  if 0 ≤ i ∧ i < call.Args.length then .ok { call with Args := call.Args.set i.toNat (some a) }
  else .fault "index out of range"

/-- The read `call.Args[i].Name` (bounds check, then the nil check of the element). -/
def BpfCall.argName (call : BpfCall) (i : Int) : Outcome String := do
  match ← Outcome.index call.Args i with
  | some a => pure a.Name
  | none => .fault "nil pointer dereference"

/-- The assignment `call.Args[i].Name = v`. -/
def BpfCall.setArgName (call : BpfCall) (i : Int) (v : String) : Outcome BpfCall := do
  match ← Outcome.index call.Args i with
  | some a => pure { call with Args := call.Args.set i.toNat (some { a with Name := v }) }
  | none => .fault "nil pointer dereference"

/-- The methods `String` of the register types. -/
def RegType.String : RegType → String
  | .ScalarValRegType => "SCALAR_VALUE"
  | .PtrToCtxRegType => "PTR_TO_CTX"
  | .ConstPtrToMapRegType => "CONST_PTR_TO_MAP"
  | .PtrToMapValueRegType => "PTR_TO_MAP_VALUE"
  | .PtrToStackRegType => "PTR_TO_STACK"
  | .PtrToPacketMetaRegType => "PTR_TO_PACKET_META"
  | .PtrToPacketRegType => "PTR_TO_PACKET"
  | .PtrToPacketEndRegType => "PTR_TO_PACKET_END"
  | .PtrToFlowKeysRegType => "PTR_TO_FLOW_KEYS"
  | .PtrToSocketRegType => "PTR_TO_SOCKET"
  | .PtrToSockCommonRegType => "PTR_TO_SOCK_COMMON"
  | .PtrToTcpSockRegType => "PTR_TO_TCP_SOCK"
  | .PtrToTpBufferRegType => "PTR_TO_TP_BUFFER"
  | .PtrToXdpSockRegType => "PTR_TO_XDP_SOCK"
  | .PtrToBtfIdRegType => "PTR_TO_BTF_ID"
  | .PtrToMemRegType => "PTR_TO_ALLOC_MEM"
  | .PtrToRdOnlyBufRegType => "PTR_TO_RDONLY_BUF"
  | .PtrToRdWrBufRegType => "PTR_TO_RDWR_BUF"
  | .PtrToPercpuBtfIdRegType => "PTR_TO_PERCPU_BTF_ID"
  | .PtrToFuncRegType => "PTR_TO_FUNC"
  | .PtrToMapKeyRegType => "PTR_TO_MAP_KEY"

/-- The function `checkPktAccess`. -/
def checkPktAccess (s : BpfProgState) (h : BpfHelperFunc) (isWrite : Bool) : Bool :=
  if PktPtrReadOnly.contains s.pt.Enum then
    if isWrite then false else h.PktAccess
  else if PktPtrReadWrite.contains s.pt.Enum then h.PktAccess
  else if PktPtrReadWriteNoCheck.contains s.pt.Enum then true
  else false

/-- The methods `CheckAccess` of the register types. -/
def RegType.CheckAccess (t : RegType) (s : BpfProgState) (h : BpfHelperFunc) (isWrite : Bool) :
    Bool :=
  match t with
  | .PtrToPacketMetaRegType => checkPktAccess s h isWrite
  | .PtrToPacketRegType => checkPktAccess s h isWrite
  | .PtrToPacketEndRegType => false
  | .PtrToSocketRegType => !isWrite
  | .PtrToSockCommonRegType => !isWrite
  | .PtrToTcpSockRegType => !isWrite
  | .PtrToXdpSockRegType => !isWrite
  | .PtrToRdOnlyBufRegType => !isWrite
  | .PtrToPercpuBtfIdRegType => false
  | .PtrToFuncRegType => false
  | .PtrToMapKeyRegType => !isWrite
  | _ => true

/-- The dereference of a map pointer. -/
def derefMap (m : MapRef) : Gen BpfMap := fun e =>
  match e.s.Maps[m]? with
  | some bm => .ok (bm, e)
  | none => .fault "invalid memory address or nil pointer dereference"

/-- A write through a map pointer. -/
def updateMap (m : MapRef) (f : BpfMap → BpfMap) : Gen Unit := fun e =>
  match e.s.Maps[m]? with
  | some bm => .ok ((), { e with s := { e.s with Maps := e.s.Maps.set m (f bm) } })
  | none => .fault "invalid memory address or nil pointer dereference"

/-- The statement `s.VarId += 1`. -/
def bumpVarId : Gen Unit := Gen.modifyS (fun s => { s with VarId := s.VarId + 1 })

/-- The method `ScalarValRegType.Generate`. -/
def ScalarValRegType.Generate (call : BpfCall) (arg : Int) : Gen (Option BpfArg × BpfCall) := do
  let a ← Gen.lift (NewBpfArg call.Helper arg)
  let size0 ← Gen.Intn 64
  let size := if call.StackVarSize ≠ 0 then call.StackVarSize else size0
  let s ← Gen.getS
  let name := "v" ++ toString s.VarId
  bumpVarId
  pure (some { a with IsNotNull := true, Name := name,
                      Prepare := "\tint64_t " ++ name ++ " = " ++ toString size ++ ";\n" }, call)

/-- The method `PtrToCtxRegType.Generate`. -/
def PtrToCtxRegType.Generate (call : BpfCall) (arg : Int) : Gen (Option BpfArg × BpfCall) := do
  let a ← Gen.lift (NewBpfArg call.Helper arg)
  pure (some { a with Name := "ctx", IsNotNull := true }, call)

/-- The tail of `ConstPtrToMapRegType.Generate` after a new map was made: the flags it drops. -/
def trimNewMapFlags (s : BpfProgState) (call : BpfCall) (newMapType : BpfMapType) (m : BpfMap) :
    BpfMap :=
  let m1 := if isMapWriteHelper call.Helper.Enum then m.removeFlag "BPF_F_RDONLY_PROG" else m
  let m2 :=
    if (match m1.Val with
        | some v => v.findMember "struct bpf_spin_lock" != -1 ||
                    v.findMember "struct bpf_timer" != -1
        | none => false) then m1.removeFlag "BPF_F_RDONLY_PROG" else m1
  let m3 :=
    if s.pt.Enum = "BPF_PROG_TYPE_PERF_EVENT" &&
        (newMapType.Type_ = "BPF_MAP_TYPE_HASH" || newMapType.Type_ = "BPF_MAP_TYPE_PERCPU_HASH" ||
         newMapType.Type_ = "BPF_MAP_TYPE_HASH_OF_MAPS") then m2.removeFlag "BPF_F_NO_PREALLOC"
    else m2
  if s.Sec.Sleepable &&
      (newMapType.Type_ = "BPF_MAP_TYPE_HASH" || newMapType.Type_ = "BPF_MAP_TYPE_LRU_HASH" ||
       newMapType.Type_ = "BPF_MAP_TYPE_ARRAY" || newMapType.Type_ = "BPF_MAP_TYPE_PERCPU_HASH" ||
       newMapType.Type_ = "BPF_MAP_TYPE_PERCPU_ARRAY" ||
       newMapType.Type_ = "BPF_MAP_TYPE_LRU_PERCPU_HASH" ||
       newMapType.Type_ = "BPF_MAP_TYPE_ARRAY_OF_MAPS" ||
       newMapType.Type_ = "BPF_MAP_TYPE_HASH_OF_MAPS") then m3.removeFlag "BPF_F_NO_PREALLOC"
  else m3

/-- The choice of the type of a new map in `ConstPtrToMapRegType.Generate`; `none` where the
method returns `nil`. -/
def pickNewMapType (call : BpfCall) (compatMapTypes : List BpfMapType) :
    Gen (Option BpfMapType) :=
  if compatMapTypes.length = 0 then pure none
  else if call.Hint.ArgHints.has HintGenConstStr then
    pure (compatMapTypes.find? (fun mt => mt.Type_ = "BPF_MAP_TYPE_ARRAY"))
  else do
    let k ← Gen.Intn compatMapTypes.length
    let mt ← Gen.index compatMapTypes k
    pure (some mt)

/-- The end of `ConstPtrToMapRegType.Generate`: bind the map `m` and name the argument. -/
def bindMapArg (a : BpfArg) (call : BpfCall) (m : MapRef) : Gen (Option BpfArg × BpfCall) := do
  let bm ← derefMap m
  pure (some { a with Name := "&" ++ bm.MapName }, { call with ArgMap := some m })

/-- The method `ConstPtrToMapRegType.Generate`. It returns the argument (`none` for `nil`)
and the call as the method leaves it. -/
def ConstPtrToMapRegType.Generate (mapFuel : Nat) (call : BpfCall) (arg : Int) :
    Gen (Option BpfArg × BpfCall) := do
  let a0 ← Gen.lift (NewBpfArg call.Helper arg)
  let a := { a0 with IsNotNull := true }
  match call.Hint.PreferredMap with
  | some pm => bindMapArg a call pm
  | none =>
    match call.ArgMap with
    | some am => bindMapArg a call am
    | none => do
      let s ← Gen.getS
      let compatMaps := getHelperCompatMaps s call
      let useOld ← (if compatMaps.length ≠ 0 then Gen.nOutOf 2 3 else pure false : Gen Bool)
      if useOld then do
        let k ← Gen.Intn compatMaps.length
        let m ← Gen.index compatMaps k
        bindMapArg a call m
      else do
        let compatMapTypes := getHelperCompatMapTypes s call
        match ← pickNewMapType call compatMapTypes with
        | none => pure (none, call)
        | some newMapType =>
          let minValSize :=
            if call.Helper.Ret = "RET_PTR_TO_MAP_VALUE" ∨
                call.Helper.Ret = "RET_PTR_TO_MAP_VALUE_OR_NULL" then call.Hint.RetAccessSize
            else -1
          let (res, hint1) ← NewMap mapFuel newMapType call.Hint minValSize
          let call1 := { call with Hint := hint1 }
          match res with
          | none => pure (none, call1)
          | some m => do
            let s1 ← Gen.getS
            updateMap m (trimNewMapFlags s1 call1 newMapType)
            bindMapArg a call1 m

/-- The method `PtrToStackRegType.Generate`. -/
def PtrToStackRegType.Generate (call : BpfCall) (arg : Int) : Gen (Option BpfArg × BpfCall) := do
  let a ← Gen.lift (NewBpfArg call.Helper arg)
  let varSize0 ← Gen.Intn 64
  let varSize ←
    (match call.ArgMap with
     | none => pure varSize0
     | some am => do
       let bm ← derefMap am
       let argType ← Gen.index call.Helper.Args arg
       let v1 ←
         (match bm.Key with
          | some k => if argType = "ARG_PTR_TO_MAP_KEY" then Gen.lift (roundUp k.Size 8)
                      else pure varSize0
          | none => pure varSize0 : Gen Int)
       match bm.Val with
       | some v =>
         if argType = "ARG_PTR_TO_MAP_VALUE" ∨ argType = "ARG_PTR_TO_MAP_VALUE_OR_NULL" ∨
             argType = "ARG_PTR_TO_UNINIT_MAP_VALUE" then Gen.lift (roundUp v.Size 8)
         else pure v1
       | none => pure v1 : Gen Int)
  let s ← Gen.getS
  let name := "v" ++ toString s.VarId
  bumpVarId
  pure (some { a with IsNotNull := true, Name := name,
                      Prepare := "\tchar " ++ name ++ "[" ++ toString varSize ++ "] = \x7b\x7d;\n" },
        { call with StackVarSize := varSize })

/-- The method `PtrToPercpuBtfIdRegType.Generate`. -/
def PtrToPercpuBtfIdRegType.Generate (call : BpfCall) (arg : Int) :
    Gen (Option BpfArg × BpfCall) := do
  let a ← Gen.lift (NewBpfArg call.Helper arg)
  Gen.modifyS (fun s => { s with Externs := assocSet "bpf_prog_active" "int" s.Externs })
  pure (some { a with IsNotNull := true, Name := "&bpf_prog_active" }, call)

/-- The methods `Generate` of the register types; all but five return `nil`. -/
def RegType.Generate (t : RegType) (mapFuel : Nat) (call : BpfCall) (arg : Int) :
    Gen (Option BpfArg × BpfCall) :=
  match t with
  | .ScalarValRegType => ScalarValRegType.Generate call arg
  | .PtrToCtxRegType => PtrToCtxRegType.Generate call arg
  | .ConstPtrToMapRegType => ConstPtrToMapRegType.Generate mapFuel call arg
  | .PtrToStackRegType => PtrToStackRegType.Generate call arg
  | .PtrToPercpuBtfIdRegType => PtrToPercpuBtfIdRegType.Generate call arg
  | _ => pure (none, call)

/-! ## Compatible register types -/

/-- The loops `for i, t := range regTypes { if drop(t) { regTypes = append(regTypes[0:i],
regTypes[i+1:]...) } }` of `genCompatibleRegTypes`. The `append` never exceeds the capacity,
so it moves the elements inside the backing array `arr`, which the `range` keeps reading;
`len` is the current length of `regTypes`, `todo` the iterations left, `i` the index. -/
def removeLoop (drop : RegType → Bool) :
    (todo : Nat) → (i : Nat) → (arr : List RegType) → (len : Nat) → Outcome (List RegType × Nat)
  | 0, _, arr, len => .ok (arr, len)
  | todo + 1, i, arr, len =>
    match arr[i]? with
    | none => .fault "index out of range"
    | some t =>
      if drop t then
        if i + 1 > len then .fault "slice bounds out of range"
        else removeLoop drop todo (i + 1)
          (arr.take i ++ (arr.drop (i + 1)).take (len - (i + 1)) ++ arr.drop (len - 1)) (len - 1)
      else removeLoop drop todo (i + 1) arr len

/-- The method `genCompatibleRegTypes`. The slice it returns is read by the callers before
the backing array is written again, so its elements are returned. -/
def genCompatibleRegTypes (call : BpfCall) (arg : Int) : Gen (List RegType × String) := do
  let argType ← Gen.index call.Helper.Args arg
  let e ← Gen.getE
  let regTypes ←
    (match compatibleRegType.lookup argType with
     | none => pure []
     | some var => do
       let arr := (e.regArrays.lookup var).getD []
       let (arr1, len1) ←
         (if argType = "ARG_PTR_TO_UNINIT_MAP_VALUE" ∨ argType = "ARG_PTR_TO_UNINIT_MEM" then
            Gen.lift (removeLoop (fun t => !t.CheckAccess e.s call.Helper true)
              arr.length 0 arr arr.length)
          else pure (arr, arr.length) : Gen (List RegType × Nat))
       let (arr2, len2) ←
         (if !checkPktAccess e.s call.Helper false then
            Gen.lift (removeLoop
              (fun t => t.String = "PTR_TO_PACKET" || t.String = "PTR_TO_PACKET_META")
              len1 0 arr1 len1)
          else pure (arr1, len1) : Gen (List RegType × Nat))
       let store := fun (p : String × List RegType) => if p.1 = var then (p.1, arr2) else p
       Gen.modifyE (fun e => { e with regArrays := e.regArrays.map store })
       pure (arr2.take len2) : Gen (List RegType))
  let btfId ←
    (if argType = "ARG_PTR_TO_BTF_ID" then Gen.index call.Helper.ArgBtfIds 0
     else if argType = "ARG_PTR_TO_BTF_ID_SOCK_COMMON" then pure "struct sock_common"
     else pure "" : Gen String)
  pure (regTypes, btfId)

/-- The loop of `genRandDirectAccess`, with `left` tries to go. -/
def directAccessLoop (mapFuel : Nat) (compatRegTypes : List RegType) (arg : Int) :
    (left : Nat) → BpfCall → Gen (Option BpfArg × BpfCall)
  | 0, call => pure (none, call)
  | left + 1, call => do
    let k ← Gen.Intn compatRegTypes.length
    let rt ← Gen.index compatRegTypes k
    let (a, call1) ← rt.Generate mapFuel call arg
    match a with
    | some a1 => pure (some a1, call1)
    | none => directAccessLoop mapFuel compatRegTypes arg left call1

/-- The method `genRandDirectAccess`; `none` stands for the result `nil, false`. -/
def genRandDirectAccess (mapFuel : Nat) (call : BpfCall) (arg : Int) :
    Gen (Option BpfArg × BpfCall) := do
  let (compatRegTypes, _) ← genCompatibleRegTypes call arg
  directAccessLoop mapFuel compatRegTypes arg 5 call

/-! ## Context access -/

/-- The method `StructDef.fieldIdx`, called on a pointer that may be nil. -/
def fieldIdx (sd : Option StructDef) (f : String) : Outcome Int := do
  let last ← sliceStr f (f.length - 1) f.length
  let fieldName ← (if last = "]" then sliceStr f 0 (f.length - 3) else pure f : Outcome String)
  match sd with
  | none => .fault "invalid memory address or nil pointer dereference"
  | some d => pure (indexFrom fieldName d.FieldNames 0)

/-- The loop of `genRandBpfCtxAccess` that looks for the `default` access. -/
def defaultAccessFrom : List BpfCtxAccessAttr → BpfCtxAccessAttr → Outcome BpfCtxAccessAttr
  | [], acc => .ok acc
  | access :: rest, acc => do
    let r0 ← Outcome.index access.rangeInCtx 0
    if r0 = "default" then defaultAccessFrom rest access else defaultAccessFrom rest acc

/-- The access check of `genRandBpfCtxAccess`: `false` where the iteration ends in
`continue`. -/
def ctxFieldAllowed (pt : BpfProgTypeDef) (ca : BpfCtxAccess) (ranges : List (List String)) :
    Outcome Bool :=
  if pt.User.length > 6 ∧ (sliceStr pt.User 0 6).toOption = some "struct" then do
    let key ← sliceStr pt.User 7 pt.User.length
    let ctxStruct := ctxStructsMap.lookup key
    let r0 ← Outcome.index ranges 0
    let f ← Outcome.index r0 2
    let fi ← fieldIdx ctxStruct f
    let ra ← Outcome.index ca.accesses (fi * 2)
    let wa ← Outcome.index ca.accesses (fi * 2 + 1)
    pure (ra.canRead || wa.canWrite)
  else do
    let defaultAccess ← defaultAccessFrom ca.accesses {}
    pure (defaultAccess.canRead || defaultAccess.canWrite)

/-- The access size that `genRandBpfCtxAccess` gives a packet argument; it may also set
`call.StackVarSize`. -/
def pktAccessSize (call : BpfCall) (arg : Int) (a : BpfArg) : Gen (BpfArg × BpfCall) := do
  let argType ← Gen.index call.Helper.Args arg
  let am ← (match call.ArgMap with
            | some m => do
              let bm ← derefMap m
              pure (some bm)
            | none => pure none : Gen (Option BpfMap))
  let a1 ←
    (match am with
     | some bm =>
       match bm.Key with
       | some k =>
         if argType = "ARG_PTR_TO_MAP_KEY" then do
           let v ← Gen.lift (roundUp k.Size 8)
           pure { a with AccessSize := v }
         else pure a
       | none => pure a
     | none => pure a : Gen BpfArg)
  let a2 ←
    (match am with
     | some bm =>
       match bm.Val with
       | some v =>
         if argType = "ARG_PTR_TO_MAP_VALUE" ∨ argType = "ARG_PTR_TO_MAP_VALUE_OR_NULL" ∨
             argType = "ARG_PTR_TO_UNINIT_MAP_VALUE" then do
           let sz ← Gen.lift (roundUp v.Size 8)
           pure { a1 with AccessSize := sz }
         else pure a1
       | none => pure a1
     | none => pure a1 : Gen BpfArg)
  let (a3, call1) ←
    (if argType = "ARG_PTR_TO_MEM" ∨ argType = "ARG_PTR_TO_MEM_OR_NULL" ∨
         argType = "ARG_PTR_TO_UNINIT_MEM" then do
       let size ← Gen.Intn 128
       pure ({ a2 with AccessSize := size }, { call with StackVarSize := size })
     else pure (a2, call) : Gen (BpfArg × BpfCall))
  let a4 := if argType = "ARG_PTR_TO_INT" then { a3 with AccessSize := 4 } else a3
  let a5 := if argType = "ARG_PTR_TO_LONG" then { a4 with AccessSize := 8 } else a4
  pure (a5, call1)

/-- The binding of a context field to a variable in `genRandBpfCtxAccess`: the variable
already bound to `field`, or a fresh one that is then recorded. -/
def bindCtxVar (field typ : String) : Gen String := do
  let s ← Gen.getS
  match s.CtxVars.lookup field with
  | some v => pure v
  | none => do
    let name := "v" ++ toString s.VarId
    Gen.modifyS (fun s => { s with VarId := s.VarId + 1,
                                   CtxVars := assocSet field name s.CtxVars,
                                   CtxTypes := assocSet field typ s.CtxTypes })
    pure name

/-- The lookup of the register type in `regTypeMap` in `genRandBpfCtxAccess`, with the second
try under the name extended by `_OR_NULL`. -/
def lookupRanges (ca : BpfCtxAccess) (rt : String) : Option (List (List String)) :=
  match ca.regTypeMap.lookup rt with
  | some ranges => some ranges
  | none => ca.regTypeMap.lookup (rt ++ "_OR_NULL")

/-- The C type that `genRandBpfCtxAccess` gives the variable bound to a context field. -/
def ctxVarType (rt : String) : String :=
  if rt = "PTR_TO_SOCK_COMMON" then "struct sock_common*" else "void *"

/-- One pass through the loop body of `genRandBpfCtxAccess`; `none` where it ends in
`continue`. -/
def ctxAccessOnce (compatRegTypes : List RegType) (call : BpfCall) (arg : Int) :
    Gen (Option BpfArg × BpfCall) := do
  let a ← Gen.lift (NewBpfArg call.Helper arg)
  let k ← Gen.Intn compatRegTypes.length
  let rt0 ← Gen.index compatRegTypes k
  let rt := rt0.String
  let s ← Gen.getS
  match s.pt.ctxAccess with
  | none => Gen.fault "invalid memory address or nil pointer dereference"
  | some ca =>
    match lookupRanges ca rt with
    | none => pure (none, call)
    | some ranges => do
      let allowed ← Gen.lift (ctxFieldAllowed s.pt ca ranges)
      if !allowed then pure (none, call)
      else do
        let typ := ctxVarType rt
        let r0 ← Gen.index ranges 0
        let field ← Gen.index r0 2
        let name ← bindCtxVar field typ
        let a1 := { a with Name := name }
        let (a2, call1) ←
          (if rt = "PTR_TO_PACKET_META" then do
             let _ ← bindCtxVar "data" typ
             pktAccessSize call arg { a1 with IsPktMetaAccess := true }
           else pure (a1, call) : Gen (BpfArg × BpfCall))
        let (a3, call2) ←
          (if rt = "PTR_TO_PACKET" then do
             let _ ← bindCtxVar "data_end" typ
             pktAccessSize call1 arg { a2 with IsPktAccess := true }
           else pure (a2, call1) : Gen (BpfArg × BpfCall))
        pure (some a3, call2)

/-- The loop of `genRandBpfCtxAccess`, with `left` tries to go. -/
def ctxAccessLoop (compatRegTypes : List RegType) (arg : Int) :
    (left : Nat) → BpfCall → Gen (Option BpfArg × BpfCall)
  | 0, call => pure (none, call)
  | left + 1, call => do
    let (a, call1) ← ctxAccessOnce compatRegTypes call arg
    match a with
    | some a1 => pure (some a1, call1)
    | none => ctxAccessLoop compatRegTypes arg left call1

/-- The method `genRandBpfCtxAccess`; `none` stands for the result `nil, false`. -/
def genRandBpfCtxAccess (call : BpfCall) (arg : Int) : Gen (Option BpfArg × BpfCall) := do
  let (compatRegTypes, _) ← genCompatibleRegTypes call arg
  ctxAccessLoop compatRegTypes arg 5 call

/-! ## The call generator -/

/-- The method `BpfCall.isRefAcquireCall`; the lookup of the map type dereferences
`call.ArgMap`. -/
def BpfCall.isRefAcquireCall (call : BpfCall) : Gen Int := do
  let sock ←
    (if call.Helper.Enum = "BPF_FUNC_sk_lookup_tcp" ∨ call.Helper.Enum = "BPF_FUNC_sk_lookup_udp" ∨
         call.Helper.Enum = "BPF_FUNC_skc_lookup_tcp" then pure true
     else if call.Helper.Enum = "BPF_FUNC_map_lookup_elem" then
       match call.ArgMap with
       | none => Gen.fault "invalid memory address or nil pointer dereference"
       | some m => do
         let bm ← derefMap m
         pure (bm.MapType = "BPF_MAP_TYPE_SOCKMAP" || bm.MapType = "BPF_MAP_TYPE_SOCKHASH")
     else pure false : Gen Bool)
  let refType : Int := if sock then 1 else -1
  if call.Helper.Enum = "BPF_FUNC_ringbuf_reserve" then pure 2 else pure refType

/-- The method `BpfCall.isRefReleaseCall`. -/
def BpfCall.isRefReleaseCall (call : BpfCall) : Int :=
  let refType : Int := if call.Helper.Enum = "BPF_FUNC_sk_release" then 1 else -1
  if call.Helper.Enum = "BPF_FUNC_ringbuf_submit" ∨ call.Helper.Enum = "BPF_FUNC_ringbuf_discard"
  then 2 else refType

/-- The method `BpfCall.isRefPropagateCall`. -/
def BpfCall.isRefPropagateCall (call : BpfCall) : Int :=
  if call.Helper.Enum = "BPF_FUNC_tcp_sock" ∨ call.Helper.Enum = "BPF_FUNC_sk_fullsock" ∨
     call.Helper.Enum = "BPF_FUNC_skc_to_tcp_sock" ∨
     call.Helper.Enum = "BPF_FUNC_skc_to_tcp6_sock" ∨
     call.Helper.Enum = "BPF_FUNC_skc_to_udp6_sock" ∨
     call.Helper.Enum = "BPF_FUNC_skc_to_tcp_timewait_sock" ∨
     call.Helper.Enum = "BPF_FUNC_skc_to_tcp_request_sock" then 1 else -1

/-- The function `bpfRetType`. -/
def bpfRetType (call : BpfCall) : Gen String :=
  if call.Helper.Ret = "RET_INTEGER" then pure "uint64_t"
  else if call.Helper.Ret = "RET_PTR_TO_MAP_VALUE" ∨
      call.Helper.Ret = "RET_PTR_TO_MAP_VALUE_OR_NULL" then
    match call.ArgMap with
    | none => Gen.fault "invalid memory address or nil pointer dereference"
    | some m => do
      let bm ← derefMap m
      match bm.Val with
      | none => pure "void *"
      | some v => pure (v.Name ++ "*")
  else if call.Helper.Ret = "RET_PTR_TO_BTF_ID_OR_NULL" ∨ call.Helper.Ret = "RET_PTR_TO_BTF_ID" then
    pure (call.Helper.RetBtfId ++ "*")
  else if call.Helper.Ret = "RET_PTR_TO_ALLOC_MEM_OR_NULL" ∨
      call.Helper.Ret = "RET_PTR_TO_MEM_OR_BTF_ID_OR_NULL" ∨
      call.Helper.Ret = "RET_PTR_TO_MEM_OR_BTF_ID" then pure "void *"
  else if call.Helper.Ret = "RET_PTR_TO_TCP_SOCK_OR_NULL" ∨
      call.Helper.Ret = "RET_PTR_TO_SOCKET_OR_NULL" ∨
      call.Helper.Ret = "RET_PTR_TO_SOCK_COMMON_OR_NULL" then pure "struct bpf_sock*"
  else pure ""

/-- The loops of `getBpfHelpers` and `BpfProgTypeDef.getHelpers`. -/
def helpersAmong (enums : List String) : List BpfHelperFunc → List BpfHelperFunc
  | [] => []
  | helper :: rest =>
    (enums.filter (fun en => helper.Enum = en)).map (fun _ => helper) ++ helpersAmong enums rest

/-- The method `BpfProgState.getBpfHelpers`. -/
def BpfProgState.getBpfHelpers (s : BpfProgState) (enums : List String) : List BpfHelperFunc :=
  helpersAmong enums s.pt.Helpers

/-- The method `BpfProgTypeDef.getHelper`. -/
def BpfProgTypeDef.getHelper (pt : BpfProgTypeDef) (helperEnum : String) : Option BpfHelperFunc :=
  pt.Helpers.find? (fun helper => helper.Enum = helperEnum)

/-- The function `helperCanReturn`. -/
def helperCanReturn (helper : BpfHelperFunc) (reg : RegType) (btfId : String) : Bool :=
  if ((retToRegTypeMap.lookup helper.Ret).getD []).contains reg.String then
    if btfId ≠ "" then
      if helper.Ret = "RET_PTR_TO_BTF_ID_OR_NULL" ∨ helper.Ret = "RET_PTR_TO_BTF_ID" then
        btfId = helper.RetBtfId
      else if helper.Ret = "RET_PTR_TO_MEM_OR_BTF_ID_OR_NULL" ∨
          helper.Ret = "RET_PTR_TO_MEM_OR_BTF_ID" then false
      else true
    else true
  else false

/-- The function `newBpfCallGenHint`. -/
def newBpfCallGenHint (m : Option MapRef) : BpfCallGenHint :=
  { ArgHints := [], RetAccessSize := 0, IsRetAccessRaw := false, PreferredMap := m }

/-- The function `genHint`. -/
def genHint (producer : BpfHelperFunc) (consumer : BpfCall) (arg : Int) : Gen BpfCallGenHint := do
  let hint := newBpfCallGenHint none
  let consumerArg ← Gen.index consumer.Helper.Args arg
  let hint1 ←
    (if (consumerArg = "ARG_PTR_TO_SOCK_COMMON" ∨ consumerArg = "ARG_PTR_TO_BTF_ID_SOCK_COMMON") ∧
         producer.Ret = "RET_PTR_TO_MAP_VALUE_OR_NULL" then do
       let xdp ← Gen.nOutOf 1 2
       if xdp then pure { hint with ArgHints := hint.ArgHints.set HintGenXdpSockMap }
       else pure { hint with ArgHints := hint.ArgHints.set HintGenSockMap }
     else pure hint : Gen BpfCallGenHint)
  let hint2 :=
    if (consumerArg = "ARG_PTR_TO_SOCKET" ∨ consumerArg = "ARG_PTR_TO_SOCKET_OR_NULL") ∧
        producer.Ret = "RET_PTR_TO_MAP_VALUE_OR_NULL" then
      { hint1 with ArgHints := hint1.ArgHints.set HintGenSockMap }
    else hint1
  let hint3 := if consumerArg = "ARG_PTR_TO_SPIN_LOCK" then
      { hint2 with ArgHints := hint2.ArgHints.set HintGenSpinlock } else hint2
  let hint4 := if consumerArg = "ARG_PTR_TO_TIMER" then
      { hint3 with ArgHints := hint3.ArgHints.set HintGenTimer } else hint3
  let hint5 := if consumerArg = "ARG_PTR_TO_CONST_STR" then
      { hint4 with ArgHints := hint4.ArgHints.set HintGenConstStr } else hint4
  let am ← (match consumer.ArgMap with
            | some m => do
              let bm ← derefMap m
              pure (some bm)
            | none => pure none : Gen (Option BpfMap))
  let hint6 ←
    (match am with
     | some bm =>
       match bm.Key with
       | some k =>
         if consumerArg = "ARG_PTR_TO_MAP_KEY" then do
           let v ← Gen.lift (roundUp k.Size 8)
           pure { hint5 with RetAccessSize := v }
         else pure hint5
       | none => pure hint5
     | none => pure hint5 : Gen BpfCallGenHint)
  let hint7 ←
    (match am with
     | some bm =>
       match bm.Val with
       | some v =>
         if consumerArg = "ARG_PTR_TO_MAP_VALUE" ∨ consumerArg = "ARG_PTR_TO_MAP_VALUE_OR_NULL" ∨
             consumerArg = "ARG_PTR_TO_UNINIT_MAP_VALUE" then do
           let sz ← Gen.lift (roundUp v.Size 8)
           pure { hint6 with RetAccessSize := sz }
         else pure hint6
       | none => pure hint6
     | none => pure hint6 : Gen BpfCallGenHint)
  if consumerArg = "ARG_PTR_TO_UNINIT_MAP_VALUE" ∨ consumerArg = "ARG_PTR_TO_UNINIT_MEM" then
    pure { hint7 with IsRetAccessRaw := true }
  else pure hint7

/-- The function `findMember` (on the struct list of the state). -/
def findMember (s : BpfProgState) (structType memberType : String) : Int :=
  match s.Structs.find? (fun sd => sd.Name = structType) with
  | some sd => sd.findMember memberType
  | none => -1

/-- The function `strings.Index` on ASCII strings, from offset `i`. -/
def strIndexFrom (sub : List Char) : List Char → Int → Int
  | [], i => if sub = [] then i else -1
  | c :: rest, i => if sub.isPrefixOf (c :: rest) then i else strIndexFrom sub rest (i + 1)

/-- The function `strings.Index`. -/
def strIndex (s sub : String) : Int := strIndexFrom sub.toList s.toList 0

/-- The loop of `genRandBpfHelperCall` that collects the helpers able to produce the
argument. -/
def compatHelpersFrom (compatRegTypes : List RegType) (btfId argType : String) :
    List BpfHelperFunc → List BpfHelperFunc
  | [] => []
  | helper :: rest =>
    (compatRegTypes.filter (fun regType =>
        helperCanReturn helper regType btfId &&
        !(argType = "ARG_CONST_ALLOC_SIZE_OR_ZERO" && regType.String = "SCALAR_VALUE"))).map
      (fun _ => helper) ++ compatHelpersFrom compatRegTypes btfId argType rest

/-- The loop of `genRandBpfHelperCall` over the members of the value struct: the indices of
the members that are no lock or timer and leave room for `retAccessSize` bytes. -/
def accessibleMembers (val : StructDef) (retAccessSize : Int) :
    (todo : Nat) → (mi : Nat) → Outcome (List Int)
  | 0, _ => .ok []
  | todo + 1, mi => do
    let mt ← Outcome.index val.FieldTypes mi
    let off ← val.offsetOfMember mi
    let more ← accessibleMembers val retAccessSize todo (mi + 1)
    if mt ≠ "struct bpf_spin_lock" ∧ mt ≠ "struct bpf_timer" ∧ val.Size - off ≥ retAccessSize then
      pure ((mi : Int) :: more)
    else pure more

/-- The part of `genRandBpfHelperCall` that names the argument after the producer call;
`none` where `ok` is set to `false`. -/
def nameFromProducer (a : BpfArg) (call prodCall : BpfCall) (argType : String) :
    Gen (Option BpfArg × BpfCall) := do
  let start := strIndex prodCall.RetType "struct_"
  let stop := strIndex prodCall.RetType "*"
  let retStruct ← (if start ≠ -1 ∧ stop ≠ -1 then Gen.lift (sliceStr prodCall.RetType start stop)
                   else pure "" : Gen String)
  let s ← Gen.getS
  if argType = "ARG_PTR_TO_SPIN_LOCK" then
    let mi := findMember s retStruct "struct bpf_spin_lock"
    pure (some { a with Name := "&" ++ prodCall.Ret ++ "->e" ++ toString mi }, call)
  else if argType = "ARG_PTR_TO_TIMER" then
    let mi := findMember s retStruct "struct bpf_timer"
    pure (some { a with Name := "&" ++ prodCall.Ret ++ "->e" ++ toString mi },
          { call with ArgMap := prodCall.ArgMap })
  else if argType = "ARG_PTR_TO_CONST_STR" then
    let mi := findMember s retStruct "char [8]"
    pure (some { a with Name := prodCall.Ret ++ "->e" ++ toString mi }, call)
  else if prodCall.Helper.Ret = "RET_PTR_TO_MAP_VALUE" ∨
      prodCall.Helper.Ret = "RET_PTR_TO_MAP_VALUE_OR_NULL" then
    match prodCall.ArgMap with
    | none => Gen.fault "invalid memory address or nil pointer dereference"
    | some m => do
      let bm ← derefMap m
      match bm.Val with
      | none => pure (some { a with Name := prodCall.Ret }, call)
      | some val =>
        if val.FieldTypes.length ≥ 2 then do
          let members ← Gen.lift
            (accessibleMembers val prodCall.Hint.RetAccessSize val.FieldTypes.length 0)
          if members.length = 0 then pure (none, call)
          else do
            let k ← Gen.Intn members.length
            let mi ← Gen.index members k
            pure (some { a with Name := "&" ++ prodCall.Ret ++ "->e" ++ toString mi,
                                CanBeNull := false }, call)
        else pure (some { a with Name := prodCall.Ret }, call)
  else pure (some { a with Name := prodCall.Ret }, call)

/-- The last part of `genRandBpfHelperCall`, run when `ok` is still true. -/
def settleProducer (a : BpfArg) (prodCall : BpfCall) (argType : String) : Gen BpfArg := do
  let a1 :=
    if (prodCall.Helper.Ret = "RET_INTEGER" ∨ prodCall.Helper.Ret = "RET_VOID" ∨
        prodCall.Helper.Ret = "RET_PTR_TO_MAP_VALUE" ∨
        prodCall.Helper.Ret = "RET_PTR_TO_MEM_OR_BTF_ID" ∨
        prodCall.Helper.Ret = "RET_PTR_TO_BTF_ID") ∧ a.CanBeNull = false
    then { a with IsNotNull := true } else a
  if prodCall.Helper.Ret = "RET_PTR_TO_MAP_VALUE" ∨
      prodCall.Helper.Ret = "RET_PTR_TO_MAP_VALUE_OR_NULL" then
    match prodCall.ArgMap with
    | none => Gen.fault "invalid memory address or nil pointer dereference"
    | some m => do
      if argType = "ARG_PTR_TO_UNINIT_MAP_VALUE" ∨ argType = "ARG_PTR_TO_UNINIT_MEM" then
        updateMap m (fun bm => bm.removeFlag "BPF_F_RDONLY_PROG")
      else updateMap m (fun bm => bm.removeFlag "BPF_F_WRONLY_PROG")
      pure a1
  else pure a1

/-- The idiom by which `genRandBpfHelperCall` and `FixRef` take a helper: a random element of
the helpers of the program type that `choose` selects, `none` if it selects none. -/
def pickAmong (choose : List BpfHelperFunc → List BpfHelperFunc) :
    Gen (Option BpfHelperFunc) := do
  let s ← Gen.getS
  let helpers := choose s.pt.Helpers
  if helpers.length = 0 then pure none
  else do
    let k ← Gen.Intn helpers.length
    let helper ← Gen.index helpers k
    pure (some helper)

/-- The type of `genBpfHelperCall` as the argument resolver calls it: helper, hint and
prepend flag to the new call, `none` for the result `nil, false`. -/
abbrev CallGen := BpfHelperFunc → BpfCallGenHint → Bool → Gen (Option BpfCall)

/-- The method `genRandBpfHelperCall`; `self` is `genBpfHelperCall`, and `none` stands for a
result with `ok = false`. -/
def genRandBpfHelperCall (self : CallGen) (call : BpfCall) (arg : Int) :
    Gen (Option BpfArg × BpfCall) := do
  let a ← Gen.lift (NewBpfArg call.Helper arg)
  let (compatRegTypes, btfId) ← genCompatibleRegTypes call arg
  let argType ← Gen.index call.Helper.Args arg
  match ← pickAmong (compatHelpersFrom compatRegTypes btfId argType) with
  | none => pure (none, call)
  | some helper => do
    let hint ← genHint helper call arg
    match ← self helper hint false with
    | none => pure (none, call)
    | some prodCall => do
      let (named, call1) ← nameFromProducer a call prodCall argType
      match named with
      | none => pure (none, call1)
      | some a1 => do
        let a2 ← settleProducer a1 prodCall argType
        pure (some a2, call1)

/-- The end of `genBpfHelperCallArg`: the statement `call.Args[arg] = a` and `return true`. -/
def storeArg (call : BpfCall) (arg : Int) (a : BpfArg) : Gen (Bool × BpfCall) := fun e =>
  match call.setArg arg a with
  | .ok call1 => .ok ((true, call1), e)
  | .fault msg => .fault msg
  | .spin => .spin

/-- The method `genBpfHelperCallArg`; it returns its verdict and the call as it leaves it. -/
def genBpfHelperCallArg (mapFuel : Nat) (self : CallGen) (call : BpfCall) (arg : Int) :
    Gen (Bool × BpfCall) := do
  let argType ← Gen.index call.Helper.Args arg
  let (r1, call1) ←
    (if call.Helper.Enum = "BPF_FUNC_get_local_storage" ∧ arg = 1 then do
       let a ← Gen.lift (NewBpfArg call.Helper arg)
       pure (some { a with Name := "0", IsNotNull := true }, call)
     else pure (none, call) : Gen (Option BpfArg × BpfCall))
  let (r2, call2) ←
    (match r1 with
     | some a => pure (some a, call1)
     | none => do
       let viaHelper ← Gen.nOutOf 1 3
       if viaHelper then genRandBpfHelperCall self call1 arg else pure (none, call1) :
     Gen (Option BpfArg × BpfCall))
  let (r3, call3) ←
    (match r2 with
     | some a => pure (some a, call2)
     | none => do
       let viaCtx ← Gen.nOutOf 1 2
       if viaCtx then genRandBpfCtxAccess call2 arg else pure (none, call2) :
     Gen (Option BpfArg × BpfCall))
  let (r4, call4) ←
    (match r3 with
     | some a => pure (some a, call3)
     | none => genRandDirectAccess mapFuel call3 arg : Gen (Option BpfArg × BpfCall))
  match r4 with
  | none => pure (false, call4)
  | some a =>
    let a1 := if argType = "ARG_CONST_SIZE" ∨ argType = "ARG_CONST_SIZE_OR_ZERO" then
      { a with Umax := call4.StackVarSize } else a
    if call4.isRefReleaseCall ≠ -1 ∧ arg ≠ 0 ∧ a1.IsNotNull = false ∧ a1.CanBeNull = false then
      pure (false, call4)
    else storeArg call4 arg a1

/-- The retries of one argument slot in `genBpfHelperCall`: `left` calls of
`genBpfHelperCallArg` may still be made (the Go loop gives up at the 51st failure). -/
def tryArg (genArg : BpfCall → Int → Gen (Bool × BpfCall)) (i : Int) :
    (left : Nat) → BpfCall → Gen (Option BpfCall)
  | 0, _ => pure none
  | left + 1, call => do
    let (ok, call1) ← genArg call i
    if ok then pure (some call1) else tryArg genArg i left call1

/-- The loop of `genBpfHelperCall` over the argument slots, `todo` slots from `i` on. -/
def argsFrom (genArg : BpfCall → Int → Gen (Bool × BpfCall)) :
    (todo : Nat) → (i : Int) → BpfCall → Gen (Option BpfCall)
  | 0, _, call => pure (some call)
  | todo + 1, i, call => do
    match ← tryArg genArg i 51 call with
    | none => pure none
    | some call1 => argsFrom genArg todo (i + 1) call1

/-- The body of `genBpfHelperCall` after the depth check. -/
def genBpfHelperCallBody (mapFuel : Nat) (self : CallGen) (helper : BpfHelperFunc)
    (hint : BpfCallGenHint) (prepend : Bool) : Gen (Option BpfCall) := do
  let call := NewBpfCall helper hint
  match ← argsFrom (genBpfHelperCallArg mapFuel self) helper.Args.length 0 call with
  | none => pure none
  | some call1 => do
    let s ← Gen.getS
    let acq ← call1.isRefAcquireCall
    if acq = 1 ∧ (s.getBpfHelpers ["BPF_FUNC_sk_release"]).length = 0 then pure none
    else do
      let typ ← bpfRetType call1
      let s ← Gen.getS
      let call2 := { call1 with RetType := if typ ≠ "" then typ else call1.RetType,
                                Ret := "v" ++ toString s.VarId }
      bumpVarId
      Gen.modifyS (fun s =>
        if prepend then { s with Calls := [call2] ++ s.Calls }
        else { s with Calls := s.Calls ++ [call2] })
      Gen.modifyE (fun e => { e with rd := e.rd - 1 })
      pure (some call2)

/-- The method `genBpfHelperCall`. `fuel` bounds the nesting of the calls it makes to itself
through `genRandBpfHelperCall`; `mapFuel` is passed to `NewMap`. -/
def genBpfHelperCall (mapFuel : Nat) : (fuel : Nat) → CallGen
  | 0, _, _, _ => do
    Gen.modifyE (fun e => { e with rd := e.rd + 1 })
    let e ← Gen.getE
    if e.rd > 100 then pure none else Gen.spin
  | fuel + 1, helper, hint, prepend => do
    Gen.modifyE (fun e => { e with rd := e.rd + 1 })
    let e ← Gen.getE
    if e.rd > 100 then pure none
    else genBpfHelperCallBody mapFuel (genBpfHelperCall mapFuel fuel) helper hint prepend

/-- The function `genRandReturnVal`. -/
def genRandReturnVal (progType : String) : Gen Int :=
  if progType = "BPF_PROG_TYPE_CGROUP_SOCK_ADDR" then pure 1
  else if progType = "BPF_PROG_TYPE_CGROUP_SKB" ∨ progType = "BPF_PROG_TYPE_CGROUP_SOCK" ∨
      progType = "BPF_PROG_TYPE_SOCK_OPS" ∨ progType = "BPF_PROG_TYPE_CGROUP_DEVICE" ∨
      progType = "BPF_PROG_TYPE_CGROUP_SYSCTL" ∨ progType = "BPF_PROG_TYPE_CGROUP_SOCKOPT" ∨
      progType = "BPF_PROG_TYPE_SK_LOOKUP" then Gen.Intn 2
  else if progType = "BPF_PROG_TYPE_RAW_TRACEPOINT" ∨ progType = "BPF_PROG_TYPE_TRACING" then
    pure 0
  else Gen.Intn (2 ^ 32)

/-- The function `NewBpfProgState` with a random source: the fresh state replaces the one in
the environment. -/
def NewBpfProgState (pt : BpfProgTypeDef) : Gen Unit := do
  let retVal ← genRandReturnVal pt.Enum
  let k ← Gen.Intn pt.SecDefs.length
  let sec ← Gen.index pt.SecDefs k
  let secStr ←
    (match sec.SecDefGen with
     | some g => fun e =>
       match g e.r with
       | .ok (name, r1) => .ok ("SEC(\"" ++ sec.Sec ++ name ++ "\")\n", { e with r := r1 })
       | .fault msg => .fault msg
       | .spin => .spin
     | none => pure ("SEC(\"" ++ sec.Sec ++ "\")\n") : Gen String)
  Gen.modifyS (fun _ => { pt := pt, RetVal := retVal, Sec := sec, SecStr := secStr })

/-- The method `GenBpfProg`; `progTypes` are the values of `brf.progTypeMap` in the order in
which the run ranges over the map. The generated state is left in the environment. -/
def GenBpfProg (mapFuel fuel : Nat) (progTypes : List BpfProgTypeDef) : Gen Bool := do
  let k ← Gen.Intn progTypes.length
  let pt ← Gen.index progTypes k
  let h ← Gen.Intn pt.Helpers.length
  let helper ← Gen.index pt.Helpers h
  NewBpfProgState pt
  Gen.modifyE (fun e => { e with rd := 0 })
  let hint := newBpfCallGenHint none
  match ← genBpfHelperCall mapFuel fuel helper hint false with
  | none => pure false
  | some _ => pure true

/-! ## The reference balancer -/

/-- The type `ObjRef`. The pointers in `calls` are the indices that the calls have in
`s.Calls` when `FixRef` starts. -/
structure ObjRef where
  vars : List String
  objMap : Option MapRef
  typ : Int
  count : Int
  calls : List Nat
  deriving DecidableEq, Repr

/-- The map `objRefMap` of `FixRef`: the `ObjRef` objects in the order of their creation, and
for every key the object it points to (several keys may share one object). -/
structure RefTable where
  refs : List ObjRef := []
  keys : List (String × Nat) := []
  deriving DecidableEq, Repr

/-- The entry of `v` in `objRefMap`, created with count 0 if it is missing. -/
def RefTable.entry (t : RefTable) (v : String) (call : BpfCall) (i : Nat) (refType : Int) :
    RefTable × Nat :=
  match t.keys.lookup v with
  | some idx => (t, idx)
  | none =>
    ({ refs := t.refs ++ [{ vars := [v], objMap := call.ArgMap, typ := refType, count := 0,
                            calls := [i] }],
       keys := t.keys ++ [(v, t.refs.length)] }, t.refs.length)

/-- A write through an `*ObjRef`. -/
def RefTable.update (t : RefTable) (idx : Nat) (f : ObjRef → ObjRef) : RefTable :=
  match t.refs[idx]? with
  | some r => { t with refs := t.refs.set idx (f r) }
  | none => t

/-- The assignment `objRefMap[k] = ref`. -/
def setKey (k : String) (idx : Nat) : List (String × Nat) → List (String × Nat)
  | [] => [(k, idx)]
  | (k1, i1) :: rest => if k1 = k then (k, idx) :: rest else (k1, i1) :: setKey k idx rest

/-- One pass through the body of the first loop of `FixRef`, for the call at index `i`. -/
def refScanStep (i : Nat) (call : BpfCall) (t : RefTable) : Gen RefTable := do
  let acq ← call.isRefAcquireCall
  let t1 :=
    if acq ≠ -1 then
      let (t0, idx) := t.entry call.Ret call i acq
      t0.update idx (fun r => { r with count := r.count + 1 })
    else t
  let rel := call.isRefReleaseCall
  let t2 ←
    (if rel ≠ -1 then do
       let v ← Gen.lift (call.argName 0)
       let (t0, idx) := t1.entry v call i rel
       pure (t0.update idx (fun r => { r with count := r.count - 1 }))
     else pure t1 : Gen RefTable)
  if call.isRefPropagateCall ≠ -1 then do
    let v ← Gen.lift (call.argName 0)
    match t2.keys.lookup v with
    | some idx =>
      let t3 := t2.update idx (fun r => { r with calls := r.calls ++ [i], vars := r.vars ++ [call.Ret] })
      pure { t3 with keys := setKey call.Ret idx t3.keys }
    | none => pure t2
  else pure t2

/-- The first loop of `FixRef`, over the calls from index `i` on. -/
def refScanFrom : List BpfCall → Nat → RefTable → Gen RefTable
  | [], _, t => pure t
  | call :: rest, i, t => do
    let t1 ← refScanStep i call t
    refScanFrom rest (i + 1) t1

/-- A write through a pointer to the call that is at index `j` of `s.Calls`. -/
def modifyCall (j : Nat) (f : BpfCall → Outcome BpfCall) : Gen Unit := do
  let s ← Gen.getS
  match s.Calls[j]? with
  | none => Gen.fault "invalid memory address or nil pointer dereference"
  | some c => do
    let c1 ← Gen.lift (f c)
    Gen.modifyS (fun s => { s with Calls := s.Calls.set j c1 })

/-- The repair of a reference that is released more often than acquired (`ref.count < 0`):
a call to one of the helpers `enums` is generated and prepended, and argument 0 of
`ref.calls[0]` is renamed to its result. `shift` counts the calls prepended so far, so that
the call which had index `i` when the scan ran is now at `i + shift`. -/
def addAcquire (self : CallGen) (ref : ObjRef) (enums : List String) (shift : Nat) : Gen Nat := do
  match ← pickAmong (helpersAmong enums) with
  | none => pure shift
  | some helper => do
    let hint := newBpfCallGenHint ref.objMap
    match ← self helper hint true with
    | some prodCall => do
      let c0 ← Gen.index ref.calls 0
      modifyCall (c0 + (shift + 1)) (fun c => c.setArgName 0 prodCall.Ret)
      pure (shift + 1)
    | none => pure shift

/-- The release call that `FixRef` builds for a leaking reference; `second` is whether
argument 1 is filled in as well (the ring-buffer helpers). -/
def newReleaseCall (ref : ObjRef) (helper : BpfHelperFunc) (second : Bool) : Gen BpfCall := do
  let hint := newBpfCallGenHint ref.objMap
  let call := NewBpfCall helper hint
  let a0 ← Gen.lift (NewBpfArg helper 0)
  let k ← Gen.Intn ref.vars.length
  let v ← Gen.index ref.vars k
  let call1 ← Gen.lift (call.setArg 0 { a0 with Name := v })
  if second then do
    let a1 ← Gen.lift (NewBpfArg helper 1)
    Gen.lift (call1.setArg 1 { a1 with Name := "0", IsNotNull := true })
  else pure call1

/-- The statement `c.PostCalls = append(c.PostCalls, call)`. -/
def BpfCall.addPostCall (call : BpfCall) (c : BpfCall) : Outcome BpfCall :=
  .ok { c with PostCalls := c.PostCalls ++ [call] }

/-- The repair of a leaking socket reference (`ref.count > 0`, `ref.typ == 1`): a release
call becomes a post-call of `ref.calls[0]`. The result is whether a helper was found. -/
def addPostRelease (ref : ObjRef) (shift : Nat) : Gen Bool := do
  match ← pickAmong (helpersAmong ["BPF_FUNC_sk_release"]) with
  | none => pure false
  | some helper => do
    let call ← newReleaseCall ref helper false
    let c0 ← Gen.index ref.calls 0
    modifyCall (c0 + shift) call.addPostCall
    pure true

/-- The repair of a leaking ring-buffer reference (`ref.count > 0`, `ref.typ == 2`): a release
call is appended to `s.Calls`. The result is whether a helper was found. -/
def addTailRelease (ref : ObjRef) : Gen Bool := do
  match ← pickAmong (helpersAmong ["BPF_FUNC_ringbuf_submit", "BPF_FUNC_ringbuf_discard"]) with
  | none => pure false
  | some helper => do
    let call ← newReleaseCall ref helper true
    Gen.modifyS (fun s => { s with Calls := s.Calls ++ [call] })
    pure true

/-- One pass through the body of the second loop of `FixRef`, for the object at `idx`. -/
def fixRefEntry (self : CallGen) (t : RefTable) (shift : Nat) (idx : Nat) :
    Gen (RefTable × Nat) := do
  match t.refs[idx]? with
  | none => Gen.fault "invalid memory address or nil pointer dereference"
  | some ref => do
    let shift1 ←
      (if ref.count < 0 then do
         let sh ← (if ref.typ = 1 then
                     addAcquire self ref ["BPF_FUNC_sk_lookup_tcp", "BPF_FUNC_sk_lookup_udp",
                       "BPF_FUNC_skc_lookup_tcp", "BPF_FUNC_map_lookup_elem"] shift
                   else pure shift : Gen Nat)
         if ref.typ = 2 then addAcquire self ref ["BPF_FUNC_ringbuf_reserve"] sh else pure sh
       else pure shift : Gen Nat)
    if ref.count > 0 then do
      let done1 ← (if ref.typ = 1 then addPostRelease ref shift1 else pure false : Gen Bool)
      let done2 ← (if ref.typ = 2 then addTailRelease ref else pure false : Gen Bool)
      if done1 || done2 then pure (t.update idx (fun r => { r with count := 0 }), shift1)
      else pure (t, shift1)
    else pure (t, shift1)

/-- The second loop of `FixRef`, over the entries of `objRefMap` in the order `visit`. -/
def fixRefLoop (self : CallGen) : List (String × Nat) → RefTable → Nat → Gen Unit
  | [], _, _ => pure ()
  | (_, idx) :: rest, t, shift => do
    let (t1, shift1) ← fixRefEntry self t shift idx
    fixRefLoop self rest t1 shift1

/-- The method `FixRef`. Go leaves the order in which `range` visits a map unspecified:
`visit` gives, for the entries of `objRefMap` in the order of their insertion, the order in
which this run visits them. -/
def FixRef (mapFuel fuel : Nat) (visit : List (String × Nat) → List (String × Nat)) :
    Gen Unit := do
  let s ← Gen.getS
  let t ← refScanFrom s.Calls 0 {}
  fixRefLoop (genBpfHelperCall mapFuel fuel) (visit t.keys) t 0

/-! ## The spin-lock balancer -/

/-- The variables of the loop of `FixSpinLock`. The calls are objects of `heap`, named by
their index; `cur` is `s.Calls`; `view` is the backing array that `range` reads once an
`append` has moved `s.Calls` to a new array (`none` while both share one array); `spare` is
the capacity of `s.Calls` beyond its length. -/
structure SpinState where
  heap : List BpfCall
  cur : List Nat
  view : Option (List Nat) := none
  spare : Nat
  lockHeld : String := ""

/-- The statement `s.Calls = append(s.Calls[:i+1], s.Calls[i:]...)` followed by the store of
the new call `c` at index `slot`. -/
def SpinState.insert (st : SpinState) (i slot : Nat) (c : BpfCall) : Outcome SpinState :=
  if i + 1 ≤ st.cur.length then
    let grown := st.cur.take (i + 1) ++ st.cur.drop i
    let id := st.heap.length
    let view1 := match st.view with
      | some v => some v
      | none => if st.spare = 0 then some st.cur else none
    if slot < grown.length then
      .ok { st with heap := st.heap ++ [c], cur := grown.set slot id, view := view1,
                    spare := st.spare - 1 }
    else .fault "index out of range"
  else .fault "slice bounds out of range"

/-- The call object with name `id`. -/
def SpinState.obj (st : SpinState) (id : Nat) : Outcome BpfCall :=
  match st.heap[id]? with
  | some c => .ok c
  | none => .fault "invalid memory address or nil pointer dereference"

/-- The read `s.Calls[j]`. -/
def SpinState.callAt (st : SpinState) (j : Nat) : Outcome BpfCall :=
  match st.cur[j]? with
  | some id => st.obj id
  | none => .fault "index out of range"

/-- The synthesized lock or unlock call of `FixSpinLock`, named after argument 0 of
`s.Calls[i]`. -/
def spinRepairCall (st : SpinState) (helper : BpfHelperFunc) (i : Nat) : Outcome BpfCall := do
  let call := NewBpfCall helper (newBpfCallGenHint none)
  let a0 ← NewBpfArg helper 0
  let at_i ← st.callAt i
  let name ← at_i.argName 0
  call.setArg 0 { a0 with Name := name }

/-- One pass through the body of the loop of `FixSpinLock` at index `i`; the flag returned
is `true` where the pass ends in `break`. -/
def spinStep (pt : BpfProgTypeDef) (i : Nat) (st : SpinState) : Outcome (SpinState × Bool) := do
  let id ← (match st.view with
            | some v => Outcome.index v i
            | none => Outcome.index st.cur i : Outcome Nat)
  let call ← st.obj id
  let (st1, stop1) ←
    (if call.Helper.Enum = "BPF_FUNC_spin_unlock" then
       if st.lockHeld = "" then
         match pt.getHelper "BPF_FUNC_spin_lock" with
         | some helper => do
           let c ← spinRepairCall st helper i
           let name ← c.argName 0
           let st0 ← st.insert i i c
           pure ({ st0 with lockHeld := name }, false)
         | none => pure (st, true)
       else do
         let name ← call.argName 0
         if st.lockHeld = name then pure ({ st with lockHeld := "" }, false)
         else do
           let call1 ← call.setArgName 0 st.lockHeld
           pure ({ st with heap := st.heap.set id call1 }, false)
     else pure (st, false) : Outcome (SpinState × Bool))
  if stop1 then pure (st1, true)
  else if call.Helper.Enum = "BPF_FUNC_spin_lock" then do
    let isLast := decide (i + 1 = st1.cur.length)
    let needs ← (if isLast then pure true
                 else do
                   let next ← st1.callAt (i + 1)
                   pure (next.Helper.Enum != "BPF_FUNC_spin_unlock") : Outcome Bool)
    if needs then
      match pt.getHelper "BPF_FUNC_spin_unlock" with
      | some helper => do
        let c ← spinRepairCall st1 helper i
        let name ← c.argName 0
        let st2 ← st1.insert i (i + 1) c
        pure ({ st2 with lockHeld := name }, false)
      | none => pure (st1, true)
    else do
      let obj ← st1.obj id
      let name ← obj.argName 0
      pure ({ st1 with lockHeld := name }, false)
  else pure (st1, false)

/-- The loop of `FixSpinLock`: `todo` iterations are left, `i` is the index. -/
def spinLoop (pt : BpfProgTypeDef) : (todo : Nat) → (i : Nat) → SpinState → Outcome SpinState
  | 0, _, st => .ok st
  | todo + 1, i, st => do
    let (st1, stop) ← spinStep pt i st
    if stop then pure st1 else spinLoop pt todo (i + 1) st1

/-- The call objects with the names `ids`. -/
def SpinState.objs (st : SpinState) : List Nat → Outcome (List BpfCall)
  | [] => .ok []
  | id :: rest => do
    let c ← st.obj id
    let more ← st.objs rest
    pure (c :: more)

/-- The sequence `s.Calls` at the end of `FixSpinLock`. -/
def SpinState.calls (st : SpinState) : Outcome (List BpfCall) :=
  st.objs st.cur

/-- The method `FixSpinLock`. `spare` is `cap(s.Calls) - len(s.Calls)` on entry: the first
`spare` insertions are made inside the backing array that `range` reads, the next one moves
`s.Calls` to a new array. -/
def FixSpinLock (spare : Nat) : Gen Unit := do
  let s ← Gen.getS
  let st ← Gen.lift (spinLoop s.pt s.Calls.length 0
    { heap := s.Calls, cur := List.range s.Calls.length, spare := spare })
  let calls ← Gen.lift st.calls
  Gen.modifyS (fun s => { s with Calls := calls })

/-! ## Properties named by the specification -/

/-- The calls of a program together with their post-calls. -/
def allCalls (s : BpfProgState) : List BpfCall :=
  s.Calls.flatMap (fun c => c :: c.PostCalls)

/-- The number of calls, post-calls included, that `isRefAcquireCall` classifies as acquiring
a reference of type `t`. -/
def acquireCount (e : Env) (t : Int) : Nat :=
  (allCalls e.s).countP (fun c => (c.isRefAcquireCall e).toOption.map Prod.fst == some t)

/-- The number of calls, post-calls included, that `isRefReleaseCall` classifies as releasing
a reference of type `t`. -/
def releaseCount (e : Env) (t : Int) : Nat :=
  (allCalls e.s).countP (fun c => c.isRefReleaseCall == t)

/-- The name of argument 0 of a call, if it has one. -/
def arg0Name (c : BpfCall) : Option String := (c.argName 0).toOption

/-- Whether every `spin_lock` call of the sequence is immediately followed by a `spin_unlock`
call with the same argument-0 name. -/
def everyLockFollowed : List BpfCall → Bool
  | [] => true
  | c :: rest =>
    (if c.Helper.Enum = "BPF_FUNC_spin_lock" then
       match rest with
       | u :: _ => u.Helper.Enum = "BPF_FUNC_spin_unlock" && arg0Name u == arg0Name c
       | [] => false
     else true) && everyLockFollowed rest

/-- Whether every `spin_unlock` call of the sequence releases a lock that an earlier
`spin_lock` call took on the same argument-0 name and that was not released in between;
`held` is the name locked on entry. -/
def everyUnlockHeld : List BpfCall → Option String → Bool
  | [], _ => true
  | c :: rest, held =>
    if c.Helper.Enum = "BPF_FUNC_spin_unlock" then
      held.isSome && arg0Name c == held && everyUnlockHeld rest none
    else if c.Helper.Enum = "BPF_FUNC_spin_lock" then everyUnlockHeld rest (arg0Name c)
    else everyUnlockHeld rest held

/-- The helper of a call and the helpers of its post-calls are among `hs`. -/
def okCall (hs : List BpfHelperFunc) (c : BpfCall) : Prop :=
  c.Helper ∈ hs ∧ ∀ p ∈ c.PostCalls, p.Helper ∈ hs

/-- Every call of the list, and every post-call of one, uses a helper among `hs`. -/
def allowedIn (hs : List BpfHelperFunc) (calls : List BpfCall) : Prop :=
  ∀ c ∈ calls, okCall hs c

/-- Whether every call and every post-call uses a helper of the program type. -/
def helpersAllowed (s : BpfProgState) : Prop :=
  ∀ c ∈ s.Calls, c.Helper ∈ s.pt.Helpers ∧ ∀ p ∈ c.PostCalls, p.Helper ∈ s.pt.Helpers

/-! ## Catalogue entries and inputs used in the examples -/

/-- A random source that yields the numbers of `l`, then zeros. -/
def stream (l : List Nat) : Nat → Nat := fun i => l.getD i 0

def hPrandom : BpfHelperFunc :=
  { Enum := "BPF_FUNC_get_prandom_u32", Args := [], Ret := "RET_INTEGER" }

def hSkLookupTcp : BpfHelperFunc :=
  { Enum := "BPF_FUNC_sk_lookup_tcp",
    Args := ["ARG_PTR_TO_CTX", "ARG_PTR_TO_MEM", "ARG_CONST_SIZE", "ARG_ANYTHING", "ARG_ANYTHING"],
    Ret := "RET_PTR_TO_SOCKET_OR_NULL", PktAccess := true }

def hSkRelease : BpfHelperFunc :=
  { Enum := "BPF_FUNC_sk_release", Args := ["ARG_PTR_TO_BTF_ID_SOCK_COMMON"],
    Ret := "RET_INTEGER" }

def hRingbufReserve : BpfHelperFunc :=
  { Enum := "BPF_FUNC_ringbuf_reserve",
    Args := ["ARG_CONST_MAP_PTR", "ARG_CONST_ALLOC_SIZE_OR_ZERO", "ARG_ANYTHING"],
    Ret := "RET_PTR_TO_ALLOC_MEM_OR_NULL" }

def hRingbufSubmit : BpfHelperFunc :=
  { Enum := "BPF_FUNC_ringbuf_submit", Args := ["ARG_PTR_TO_ALLOC_MEM", "ARG_ANYTHING"],
    Ret := "RET_VOID" }

def hSpinLock : BpfHelperFunc :=
  { Enum := "BPF_FUNC_spin_lock", Args := ["ARG_PTR_TO_SPIN_LOCK"], Ret := "RET_VOID" }

def hSpinUnlock : BpfHelperFunc :=
  { Enum := "BPF_FUNC_spin_unlock", Args := ["ARG_PTR_TO_SPIN_LOCK"], Ret := "RET_VOID" }

def hTailCall : BpfHelperFunc :=
  { Enum := "BPF_FUNC_tail_call", Args := ["ARG_PTR_TO_CTX", "ARG_CONST_MAP_PTR", "ARG_ANYTHING"],
    Ret := "RET_VOID" }

def hMapLookupElem : BpfHelperFunc :=
  { Enum := "BPF_FUNC_map_lookup_elem", Args := ["ARG_CONST_MAP_PTR", "ARG_PTR_TO_MAP_KEY"],
    Ret := "RET_PTR_TO_MAP_VALUE_OR_NULL" }

/-- A program type with the given helpers. -/
def ptWith (helpers : List BpfHelperFunc) : BpfProgTypeDef :=
  { Name := "sched_cls", Enum := "BPF_PROG_TYPE_SCHED_CLS", User := "struct __sk_buff",
    Helpers := helpers, ctxAccess := some {}, SecDefs := [{ Sec := "classifier" }] }

/-- An environment with the given program type, calls, maps and random numbers; the
register-type slices are as initialised. -/
def envWith (pt : BpfProgTypeDef) (calls : List BpfCall) (maps : List BpfMap) (l : List Nat) :
    Env :=
  { s := { pt := pt, Calls := calls, Maps := maps, VarId := 8 }, r := { src := stream l },
    regArrays := initialRegArrays }

/-- A call of `helper` whose only argument is named `v` and whose result is `ret`. -/
def callOn (helper : BpfHelperFunc) (v ret : String) : BpfCall :=
  { Helper := helper, Args := [some { Name := v, ArgType := helper.Args.headD "" }], Ret := ret,
    PostCalls := [] }

/-- A call of `get_prandom_u32`. -/
def callPrandom : BpfCall :=
  { Helper := hPrandom, Args := [], Ret := "v3", RetType := "uint64_t", PostCalls := [] }

/-- A hash map. -/
def mapHash : BpfMap :=
  { MapType := "BPF_MAP_TYPE_HASH", MapName := "map_0",
    Key := some { Name := "uint32_t", FieldTypes := ["uint32_t"], Size := 4 },
    Val := some { Name := "uint64_t", FieldTypes := ["uint64_t"], Size := 8 }, MaxEntries := 16 }

/-- A program type with the two spin-lock helpers. -/
def ptSpin : BpfProgTypeDef := ptWith [hSpinLock, hSpinUnlock, hPrandom]

/-- A program type with an acquire and a release helper for both reference types. -/
def ptRefs : BpfProgTypeDef :=
  ptWith [hPrandom, hSkLookupTcp, hSkRelease, hRingbufReserve, hRingbufSubmit]

/-- A program type that can look up a socket but has no helper to release it. -/
def ptNoRelease : BpfProgTypeDef := ptWith [hPrandom, hSkLookupTcp]

/-- The input of the struct-size examples: no structs yet, every draw is 0. -/
def envEmpty : Env := envWith (ptWith []) [] [] []

/-! ## Relations and predicates used in the proofs -/

/-- The parts of the environment that only the call generator itself writes, and the stream
of the random source. -/
def Env.same (e e1 : Env) : Prop :=
  e1.s.Calls = e.s.Calls ∧ e1.s.pt = e.s.pt ∧ e1.rd = e.rd ∧ e1.r.src = e.r.src

/-- A relation between the environment before and after a run holds whenever the run
returns. -/
structure Sat {α : Type} (R : Env → Env → Prop) (m : Gen α) : Prop where
  run : ∀ e a e1, m e = .ok (a, e1) → R e e1

/-- A run that leaves the call list, the program type, the depth counter and the stream of
the random source as they are. -/
class Frame {α : Type} (m : Gen α) : Prop where
  sat : Sat Env.same m

/-- A relation on environments that is reflexive, transitive and holds between environments
with the same call list, program type, depth counter and random stream. -/
structure Stable (R : Env → Env → Prop) : Prop where
  refl : ∀ e, R e e
  trans : ∀ e e1 e2, R e e1 → R e1 e2 → R e e2
  same : ∀ e e1, Env.same e e1 → R e e1

/-- The call list only grows at its end. -/
def Env.grows (e e1 : Env) : Prop := ∃ t, e1.s.Calls = e.s.Calls ++ t

/-- Two values of one call object between which neither `Helper` nor `PostCalls` was
written. -/
def BpfCall.kin (c c1 : BpfCall) : Prop := c1.Helper = c.Helper ∧ c1.PostCalls = c.PostCalls

/-- The call that a run returns is `c` up to the fields other than `Helper` and
`PostCalls`. -/
structure Keeps {α : Type} (c : BpfCall) (m : Gen (α × BpfCall)) : Prop where
  run : ∀ e r e1, m e = .ok (r, e1) → c.kin r.2

/-- If the program type is `pt`, it stays `pt`, and calls that all use helpers of `pt` are
followed by calls that all use helpers of `pt`. -/
def Env.allows (pt : BpfProgTypeDef) (e e1 : Env) : Prop :=
  e.s.pt = pt → e1.s.pt = pt ∧ (allowedIn pt.Helpers e.s.Calls → allowedIn pt.Helpers e1.s.Calls)

/-- A property of the value of a run that returned. -/
structure OSat {α : Type} (P : α → Prop) (o : Outcome α) : Prop where
  run : ∀ a, o = .ok a → P a

/-- Every call object of the loop state uses helpers of the program type. -/
def SpinState.heapOk (hs : List BpfHelperFunc) (st : SpinState) : Prop :=
  ∀ c ∈ st.heap, okCall hs c

/-- A property of the result and the final environment holds whenever the run returns. -/
structure Post {α : Type} (P : α → Env → Prop) (m : Gen α) : Prop where
  run : ∀ e a e1, m e = .ok (a, e1) → P a e1

/-! ## Inputs of the examples -/

/-- The input of the repair example: the draws choose `sk_lookup_tcp` and its arguments. -/
def c8Env : Env :=
  envWith (ptWith []) [] [] [0, 1, 0, 0, 1, 1, 0, 1, 1, 0, 16, 1, 1, 0, 5, 1, 1, 0, 3, 1, 1, 0, 7]

/-- Two releases of the socket `v0` that no call acquired. -/
def c5Env : Env :=
  envWith ptRefs [callOn hSkRelease "v0" "v1", callOn hSkRelease "v0" "v2"] []
    [0, 1, 1, 0, 1, 1, 0, 16, 1, 1, 0, 5, 1, 1, 0, 3, 1, 1, 0, 7]

/-- Two locks, on `a` and on `b`, that no call unlocks. -/
def c6Env : Env := envWith ptSpin [callOn hSpinLock "a" "", callOn hSpinLock "b" ""] [] []

/-- The sequence `[spin_lock a, X, spin_unlock a]` with `get_prandom_u32` for `X`. -/
def c7Env : Env :=
  envWith ptSpin [callOn hSpinLock "a" "", callPrandom, callOn hSpinUnlock "a" ""] [] []

/-- A state with one call, for a program type that cannot release a socket; the draws make
the fourth argument of `sk_lookup_tcp` from a call of `get_prandom_u32`. -/
def c10Env : Env :=
  envWith ptNoRelease [callPrandom] [] [1, 1, 0, 1, 1, 0, 16, 1, 1, 0, 5, 0, 0, 1, 1, 0, 7]

/-- The entry of `bpfMapTypes` for `BPF_MAP_TYPE_ARRAY_OF_MAPS`. -/
def arrayOfMaps : BpfMapType :=
  { Type_ := "BPF_MAP_TYPE_ARRAY_OF_MAPS", ManFlags := [],
    OptFlags := [["BPF_F_NUMA_NODE"], ["BPF_F_WRONLY", "BPF_F_RDONLY"]],
    KeySize := [4, 4], ValSize := [4, 4], MaxEntries := -1 }

/-- The struct that `generateStruct` makes for the size constraint `[4, 4]` without hints. -/
def wordStruct : StructDef :=
  { Name := "uint32_t", FieldTypes := ["uint32_t"], Size := 4, Hints := [], IsStruct := false }

/-- Every draw from the cursor on is 40. -/
def Env.tail40 (e : Env) : Prop := ∀ i, e.r.pos ≤ i → e.r.src i = 40

/-- The environment after one draw. -/
def Env.next (e : Env) : Env := { e with r := { e.r with pos := e.r.pos + 1 } }

/-- A random source whose first two draws are 1 and whose other draws are 40. -/
def src40 : Nat → Nat := fun i => if i < 2 then 1 else 40

/-- A fresh state for a program type whose only helper is `map_lookup_elem`, with the random
source `src40`. -/
def c9Env : Env :=
  { s := { pt := ptWith [hMapLookupElem], VarId := 8 }, r := { src := src40 },
    regArrays := initialRegArrays }

/-! ## Further inputs and relations; the field filling in the words of the specification -/

/-- A program type with the spin-lock helpers and `map_lookup_elem`. -/
def ptLock : BpfProgTypeDef := ptWith [hSpinLock, hSpinUnlock, hMapLookupElem]

/-- A fresh state over `ptLock`; the draws make `map_lookup_elem` produce the lock from a new
hash map whose value struct gets the least size the hint allows. -/
def c11Env : Env :=
  envWith ptLock [] [] [0, 1, 1, 0, 0, 0, 0, 0, 0, 0, 1, 1, 1, 1, 1, 1, 1, 0, 0]

/-- A fresh state of a program type that has `ringbuf_reserve` but neither `ringbuf_submit`
nor `ringbuf_discard`. -/
def c15Env : Env :=
  envWith (ptWith [hRingbufReserve]) [] [] [1, 1, 0, 0, 0, 1, 1, 1, 1, 1, 1, 0, 5, 1, 1, 0, 7]

/-- A call of `map_lookup_elem` before its arguments are made; slot 1 is
`ARG_PTR_TO_MAP_KEY`. -/
def callLookup : BpfCall := NewBpfCall hMapLookupElem (newBpfCallGenHint none)

/-- A fresh state of a program type in which `map_lookup_elem` has no packet access. -/
def c16Env : Env := envWith (ptWith [hMapLookupElem]) [] [] []

/-- The filling that the specification describes for a struct of `n` bytes without hints:
`n / 8` fields `uint64_t`, then one `uint32_t` if `n mod 8 >= 4`, one `uint16_t` if
`n mod 4 >= 2`, and one `uint8_t` if `n` is odd. -/
def greedyFields (n : Nat) : List String :=
  List.replicate (n / 8) "uint64_t" ++ (if n % 8 ≥ 4 then ["uint32_t"] else []) ++
    (if n % 4 ≥ 2 then ["uint16_t"] else []) ++ (if n % 2 = 1 then ["uint8_t"] else [])

/-- A run that leaves the program state `s` as it is (it may draw random numbers and write
the register-type arrays). -/
class StateFrame {α : Type} (m : Gen α) : Prop where
  sat : Sat (fun e e1 => e1.s = e.s) m

/-- Every context field that `e` binds is bound in `e1` to the same variable and has the
same type there. -/
def Env.keepsCtx (e e1 : Env) : Prop :=
  ∀ f v, e.s.CtxVars.lookup f = some v →
    e1.s.CtxVars.lookup f = some v ∧ e1.s.CtxTypes.lookup f = e.s.CtxTypes.lookup f

/-- From `e` to `e1` the counter `VarId` advanced by one for every context field that was
newly bound. -/
def Env.countsCtx (e e1 : Env) : Prop :=
  e1.s.VarId - e.s.VarId = (e1.s.CtxVars.length : Int) - (e.s.CtxVars.length : Int)

/-- A program type over `struct __sk_buff` whose context access table gives the packet
pointers the fields `data` and `data_meta`, every field being readable. -/
def ptPkt : BpfProgTypeDef :=
  { Name := "sched_cls", Enum := "BPF_PROG_TYPE_SCHED_CLS", User := "struct __sk_buff",
    Helpers := [hMapLookupElem],
    ctxAccess := some
      { regTypeMap := [("PTR_TO_PACKET", [["76", "80", "data"]]),
          ("PTR_TO_PACKET_META", [["140", "144", "data_meta"]])],
        accesses := List.replicate 64 { canRead := true } },
    SecDefs := [{ Sec := "classifier" }] }

/-- A state with the context field `data` bound to `v3`; the second draw chooses
`PTR_TO_PACKET_META` for the argument. -/
def c12Env : Env :=
  { s := { pt := ptPkt, VarId := 8, CtxVars := [("data", "v3")],
           CtxTypes := [("data", "void *")] },
    r := { src := stream [1] }, regArrays := initialRegArrays }

/-- What a successful context access leaves, from `e` to `e1` with the argument `a`: no
binding that `e` held changed, `VarId` advanced by one per newly bound field, and `a` is
named after the variable of a field, the one that `e` bound to it or else the fresh variable
`v<VarId>`. -/
def Env.ctxBound (e : Env) (a : BpfArg) (e1 : Env) : Prop :=
  Env.keepsCtx e e1 ∧ Env.countsCtx e e1 ∧
    ∃ field, e1.s.CtxVars.lookup field = some a.Name ∧
      (∀ v, e.s.CtxVars.lookup field = some v → a.Name = v) ∧
      (e.s.CtxVars.lookup field = none → a.Name = "v" ++ toString e.s.VarId)

/-! ## Map-type descriptors and inputs of the map examples -/

/-- The entry of `bpfMapTypes` for `BPF_MAP_TYPE_RINGBUF`. -/
def ringbufType : BpfMapType :=
  { Type_ := "BPF_MAP_TYPE_RINGBUF", ManFlags := [], OptFlags := [["BPF_F_NUMA_NODE"]],
    KeySize := [0, 0], ValSize := [0, 0], MaxEntries := 24 }

/-- The entry of `bpfMapTypes` for `BPF_MAP_TYPE_STACK_TRACE`; its second optional group names
`BPF_F_RDONLY` before `BPF_F_WRONLY`. -/
def stackTraceType : BpfMapType :=
  { Type_ := "BPF_MAP_TYPE_STACK_TRACE", ManFlags := [],
    OptFlags := [["BPF_F_NUMA_NODE"], ["BPF_F_RDONLY", "BPF_F_WRONLY"], ["BPF_F_STACK_BUILD_ID"]],
    KeySize := [4, 4], ValSize := [8, 4096, 8], MaxEntries := -1 }

/-- The entry of `bpfMapTypes` for `BPF_MAP_TYPE_SK_STORAGE`, which has a mandatory flag
group. -/
def skStorageType : BpfMapType :=
  { Type_ := "BPF_MAP_TYPE_SK_STORAGE", ManFlags := [["BPF_F_NO_PREALLOC"]],
    OptFlags := [["BPF_F_CLONE"]], KeySize := [4, 4], ValSize := [1, 65536], MaxEntries := 0 }

/-- The naming invariant of the map list: the map at index `i` is named `map_i`. -/
def mapsNamed (l : List BpfMap) : Prop :=
  ∀ (i : Nat) (bm : BpfMap), l[i]? = some bm → bm.MapName = "map_" ++ toString i

/-- From `e` to `e1` the map list stayed as it was. -/
def Env.sameMaps (e e1 : Env) : Prop := e1.s.Maps = e.s.Maps

/-- If the map list has the naming invariant in `e`, it has it in `e1`. -/
def Env.namesKept (e e1 : Env) : Prop := mapsNamed e.s.Maps → mapsNamed e1.s.Maps

/-- The helper `map_update_elem`. -/
def hMapUpdateElem : BpfHelperFunc :=
  { Enum := "BPF_FUNC_map_update_elem",
    Args := ["ARG_CONST_MAP_PTR", "ARG_PTR_TO_MAP_KEY", "ARG_PTR_TO_MAP_VALUE", "ARG_ANYTHING"],
    Ret := "RET_INTEGER" }

/-- The helper `get_local_storage`. -/
def hGetLocalStorage : BpfHelperFunc :=
  { Enum := "BPF_FUNC_get_local_storage", Args := ["ARG_CONST_MAP_PTR", "ARG_ANYTHING"],
    Ret := "RET_PTR_TO_MAP_VALUE" }

/-- A hash map whose value struct holds a spin lock. -/
def mapLock : BpfMap :=
  { MapType := "BPF_MAP_TYPE_HASH", MapName := "map_0",
    Key := some { Name := "uint32_t", FieldTypes := ["uint32_t"], Size := 4 },
    Val := some { Name := "struct_0", FieldTypes := ["struct bpf_spin_lock", "uint32_t"],
                  Size := 8, Hints := [HintGenSpinlock], IsStruct := true },
    MaxEntries := 16 }

/-- A map of type `BPF_MAP_TYPE_CGROUP_STORAGE`. -/
def mapCgroup : BpfMap :=
  { MapType := "BPF_MAP_TYPE_CGROUP_STORAGE", MapName := "map_0",
    Key := some { Name := "uint64_t", FieldTypes := ["uint64_t"], Size := 8 },
    Val := some { Name := "uint64_t", FieldTypes := ["uint64_t"], Size := 8 }, MaxEntries := 0 }

/-- A call of `map_lookup_elem` whose hint requests a spin lock. -/
def callLockLookup : BpfCall :=
  NewBpfCall hMapLookupElem { ArgHints := [HintGenSpinlock] }

/-- A call of `map_lookup_elem` whose result will be read with `n` bytes. -/
def callLookupSized (n : Int) : BpfCall := NewBpfCall hMapLookupElem { RetAccessSize := n }

/-- A fresh state; the draws choose a new `BPF_MAP_TYPE_DEVMAP` map (the tenth compatible
type for `map_lookup_elem`), the least size for its value and none of its optional flags. -/
def c25Env : Env := envWith (ptWith []) [] [] [9, 0, 0, 0, 0, 1, 1]

/-- A fresh state; the draws choose a new hash map and, of its optional flags, only
`BPF_F_RDONLY_PROG`. -/
def c22Env : Env := envWith (ptWith []) [] [] [0, 0, 0, 0, 0, 0, 1, 1, 1, 0, 1, 1]

/-! ## The argument guards of the emitted program; inputs and relations of the repair examples -/

/-- A program state over the program type `LWT_IN`, whose packet pointers are read-only. -/
def lwtInState : BpfProgState := { pt := { Enum := "BPF_PROG_TYPE_LWT_IN" } }

/-- A helper that accesses packet data. -/
def hSkbLoadBytes : BpfHelperFunc :=
  { Enum := "BPF_FUNC_skb_load_bytes", Name := "bpf_skb_load_bytes", PktAccess := true }

/-- A call of a helper named `skc_to_unix_sock`, which is not in the list of
`isRefPropagateCall`. -/
def callSkcToUnixSock : BpfCall :=
  { Helper := { Enum := "BPF_FUNC_skc_to_unix_sock", Name := "bpf_skc_to_unix_sock",
                Args := ["ARG_PTR_TO_BTF_ID_SOCK_COMMON"], Ret := "RET_PTR_TO_BTF_ID_OR_NULL" },
    Args := [some { Name := "v0" }], Ret := "v1", PostCalls := [] }

/-- A call of `map_lookup_elem` to which no map has been bound. -/
def callLookupUnbound : BpfCall :=
  { Helper := hMapLookupElem, Args := [none, none], Ret := "v1", PostCalls := [] }

/-- The call `sk_lookup_tcp` with its context and buffer arguments resolved: the buffer on
the stack has 16 bytes. -/
def callSized : BpfCall :=
  { Helper := hSkLookupTcp,
    Args := [some { Name := "ctx", ArgType := "ARG_PTR_TO_CTX", IsNotNull := true },
             some { Name := "v8", ArgType := "ARG_PTR_TO_MEM", IsNotNull := true,
                    Prepare := "\tchar v8[16] = \x7b\x7d;\n", Umin := -1, Umax := -1 },
             none, none, none],
    StackVarSize := 16, PostCalls := [] }

/-- The input of the size-slot example: the draws skip the helper and the context routes,
take the first register type and draw 5 for the scalar. -/
def c35Env : Env := envWith ptRefs [] [] [1, 1, 0, 5]

/-- The body of the loop of `getArgConstraints`: the constraints of one argument. -/
def argConstraints (s : BpfProgState) (arg : BpfArg) : Outcome (List String) :=
  if arg.IsPktMetaAccess then
    .ok [(s.CtxVars.lookup "data_meta").getD "" ++ " + " ++ toString arg.AccessSize ++ " < " ++
      (s.CtxVars.lookup "data").getD ""]
  else if arg.IsPktAccess then
    .ok [(s.CtxVars.lookup "data").getD "" ++ " + " ++ toString arg.AccessSize ++ " < " ++
      (s.CtxVars.lookup "data_end").getD ""]
  else if !arg.CanBeNull && !arg.IsNotNull then
    let varStart := strIndex arg.Name "&" + 1
    let idx := strIndex arg.Name "->"
    if idx ≠ -1 then do
      let v ← sliceStr arg.Name varStart idx
      pure [v]
    else do
      let v ← sliceStr arg.Name varStart arg.Name.length
      pure [v]
  else
    .ok ((if arg.Umin ≠ -1 then
            (if arg.Umin = 0 then
              ["(" ++ arg.Name ++ " != 0 && (" ++ arg.Name ++ " & 0x8000000000000000UL == 0))"]
             else [arg.Name ++ " > " ++ toString arg.Umin])
          else []) ++
         (if arg.Umax ≠ -1 then [arg.Name ++ " < " ++ toString arg.Umax] else []))

/-- The loop of `getArgConstraints` over `call.Args`. -/
def constraintsFrom (s : BpfProgState) : List (Option BpfArg) → Outcome (List String)
  | [] => .ok []
  | none :: _ => .fault "invalid memory address or nil pointer dereference"
  | some arg :: rest => do
    let c ← argConstraints s arg
    let more ← constraintsFrom s rest
    pure (c ++ more)

/-- The method `BpfCall.getArgConstraints`. -/
def BpfCall.getArgConstraints (call : BpfCall) (s : BpfProgState) : Outcome (List String) :=
  constraintsFrom s call.Args

/-- The sequence `[spin_lock a, X, spin_lock b]` where `X = get_prandom_u32` has no
arguments. -/
def c40Env : Env :=
  envWith ptSpin [callOn hSpinLock "a" "", callPrandom, callOn hSpinLock "b" ""] [] []

/-- In the words of the specification: one step of the alias set of a reference, which
gains the result of a propagate call applied to one of its members. -/
def aliasStep (vars : List String) (c : BpfCall) : List String :=
  match c.Args with
  | some a :: _ => if c.isRefPropagateCall ≠ -1 ∧ a.Name ∈ vars then vars ++ [c.Ret] else vars
  | _ => vars

/-- In the words of the specification: the alias set of a reference after the calls `cs`:
the return variable of the acquire and the return variables of the propagate calls applied
to it. -/
def aliasVars (vars : List String) (cs : List BpfCall) : List String :=
  cs.foldl aliasStep vars

/-- Two leaking references: a ring-buffer record reserved into `v1` and a socket looked up
into `v4`. -/
def c33TwoEnv : Env :=
  envWith ptRefs [callOn hRingbufReserve "map_0" "v1", callOn hSkLookupTcp "ctx" "v4"] [] []

/-! ## The call sites of the struct generator; relations of the size slot and of the
repair of a leaking reference -/

/-- The hint fields that the fill loop of `generateStruct` places first, in its order. -/
def hintFields (hints : HintSet) : List String :=
  (if hints.has HintGenSpinlock then ["struct bpf_spin_lock"] else []) ++
  (if hints.has HintGenTimer then ["struct bpf_timer"] else []) ++
  (if hints.has HintGenConstStr then ["char [8]"] else [])

/-- The hints that the fill loop of `generateStruct` records in the struct, added to `base`. -/
def placedHints (base hints : HintSet) : HintSet :=
  let a := if hints.has HintGenSpinlock then base.set HintGenSpinlock else base
  let b := if hints.has HintGenTimer then a.set HintGenTimer else a
  if hints.has HintGenConstStr then b.set HintGenConstStr else b

/-- The inputs that the call sites of `generateStruct` pass. `NewMap` calls it for the key
with the `KeySize` of its descriptor, `useHint = false` and `minSizeHint = 0`, and for the
value with the `ValSize`, the hint set of its hint, `useHint = true` and its `minValSize`.
`ConstPtrToMapRegType.Generate` calls `NewMap` with a descriptor that `pickNewMapType` took
from `getHelperCompatMapTypes`, the hint of the call, and for `minValSize` the
`RetAccessSize` of the hint if the helper returns a map value and -1 otherwise; `NewMap`
calls itself for an inner map with a descriptor of `bpfMapTypes`, an empty hint and
`minValSize = 0`. `RetAccessSize` is 0 at first and `genHint` sets it to the size of a struct
rounded up to a multiple of 8; the size of a struct is chosen by `generateStruct` alone and
is at most 128 for these inputs (`generateStruct_total_at_call_sites`). -/
def structCallSite (sizeConstraints : List Int) (hints : HintSet) (useHint : Bool)
    (minSizeHint : Int) : Prop :=
  (∃ mt ∈ bpfMapTypes, sizeConstraints = mt.KeySize ∧ useHint = false ∧ minSizeHint = 0) ∨
  (∃ (s : BpfProgState) (call : BpfCall) (e e1 : Env) (mt : BpfMapType),
    pickNewMapType call (getHelperCompatMapTypes s call) e = .ok (some mt, e1) ∧
    sizeConstraints = mt.ValSize ∧ hints = call.Hint.ArgHints ∧ useHint = true ∧
    minSizeHint = (if call.Helper.Ret = "RET_PTR_TO_MAP_VALUE" ∨
        call.Helper.Ret = "RET_PTR_TO_MAP_VALUE_OR_NULL" then call.Hint.RetAccessSize else -1) ∧
    0 ≤ call.Hint.RetAccessSize ∧ (8 : Int) ∣ call.Hint.RetAccessSize ∧
    call.Hint.RetAccessSize ≤ 128) ∨
  (∃ mt ∈ bpfMapTypes, sizeConstraints = mt.ValSize ∧ hints = [] ∧ useHint = true ∧
    minSizeHint = 0)

/-- The shape of a size constraint of the catalogue: a minimum from 0 to 128 that is at most
the maximum, and where there is a third entry it is 4 or 8 and divides the minimum. -/
def sizeShape (sizeConstraints : List Int) : Bool :=
  match sizeConstraints with
  | [min, max] => decide (0 ≤ min ∧ min ≤ 128 ∧ min ≤ max ∧ max ≤ 65536)
  | [min, max, align] =>
    decide (0 ≤ min ∧ min ≤ 128 ∧ min ≤ max ∧ max ≤ 65536 ∧ (align = 4 ∨ align = 8) ∧
      min % align = 0)
  | _ => false

/-- A call of `map_lookup_elem` whose hint asks for the member `h` in the value and for an
access of `n` bytes. -/
def callLookupHinted (h : ArgHint) (n : Int) : BpfCall :=
  NewBpfCall hMapLookupElem { ArgHints := [h], RetAccessSize := n }

/-- Where `call.StackVarSize` stands after a slot was resolved to `r`, if it was `size0`
before: it is `size0` still; or `r` is a buffer on the stack declared with that many bytes,
a number below 64 or the size of the key or value struct of the bound map rounded up to 8
(`PtrToStackRegType.Generate`); or `r` is a pointer into the packet with that access size, a
number below 128 (`genRandBpfCtxAccess`). -/
def sizeSource (size0 : Int) (r : Option BpfArg) (call1 : BpfCall) (e1 : Env) : Prop :=
  call1.StackVarSize = size0 ∨
  (∃ a, r = some a ∧
    a.Prepare = "\tchar " ++ a.Name ++ "[" ++ toString call1.StackVarSize ++ "] = \x7b\x7d;\n" ∧
    ((0 ≤ call1.StackVarSize ∧ call1.StackVarSize < 64) ∨
      ∃ m bm sd, call1.ArgMap = some m ∧ e1.s.Maps[m]? = some bm ∧
        (bm.Key = some sd ∨ bm.Val = some sd) ∧
        roundUp sd.Size 8 = .ok call1.StackVarSize)) ∨
  (∃ a, r = some a ∧ (a.IsPktAccess = true ∨ a.IsPktMetaAccess = true) ∧
    a.AccessSize = call1.StackVarSize ∧ 0 ≤ call1.StackVarSize ∧ call1.StackVarSize < 128)

/-- The helper `csum_diff`, which may read packet data; it takes two pairs of a memory
pointer and its size. -/
def hCsumDiff : BpfHelperFunc :=
  { Enum := "BPF_FUNC_csum_diff", Name := "bpf_csum_diff",
    Args := ["ARG_PTR_TO_MEM_OR_NULL", "ARG_CONST_SIZE_OR_ZERO", "ARG_PTR_TO_MEM_OR_NULL",
      "ARG_CONST_SIZE_OR_ZERO", "ARG_ANYTHING"],
    Ret := "RET_INTEGER", PktAccess := true }

/-- A fresh state over a program type with packet access. The draws resolve slot 0 of
`csum_diff` through the context to `PTR_TO_PACKET` with an access of 100 bytes, and then
slot 1 directly to a scalar. -/
def c35PktEnv : Env := envWith ptPkt [] [] [1, 0, 1, 100, 1, 1, 0, 5]

/-- What the first loop of `FixRef` keeps true of `objRefMap` once it has scanned the calls
before index `n`; `i`, `acq` and `typ` are the index, the call and the reference type of an
acquire call, and `al` are the calls scanned after it. Every object has a variable and a
first call, whose index is below `n`; no two objects have the same first call; every key
points to an object; and an object whose first call is `acq` has the type of `acq`, its
variables are in the alias set of `acq.Ret` over `al`, and every key that points to it is
one of its variables. -/
def ScanInv (i : Nat) (acq : BpfCall) (typ : Int) (n : Nat) (al : List BpfCall)
    (t : RefTable) : Prop :=
  (∀ (j : Nat) (r : ObjRef), t.refs[j]? = some r → r.vars ≠ [] ∧ ∃ k, r.calls.head? = some k ∧ k < n) ∧
  (∀ (j1 j2 : Nat) (r1 r2 : ObjRef), t.refs[j1]? = some r1 → t.refs[j2]? = some r2 →
    r1.calls.head? = r2.calls.head? → j1 = j2) ∧
  (∀ p ∈ t.keys, p.2 < t.refs.length) ∧
  (∀ (idx : Nat) (r : ObjRef), t.refs[idx]? = some r → r.calls.head? = some i →
    r.typ = typ ∧ (∀ v ∈ r.vars, v ∈ aliasVars [acq.Ret] al) ∧
    ∀ k, t.keys.lookup k = some idx → k ∈ r.vars)

/-- A release call as `FixRef` attaches it to the acquire of a leaking socket: a call of
`sk_release` without post-calls whose argument 0 is named by a member of `vars`. -/
def SockRel (rel : BpfCall) (vars : List String) : Prop :=
  rel.Helper.Enum = "BPF_FUNC_sk_release" ∧ rel.PostCalls = [] ∧
  ∃ a0, rel.Args[0]? = some (some a0) ∧ a0.Name ∈ vars

/-- A release call as `FixRef` appends it for a leaking ring-buffer record: a call of
`ringbuf_submit` or `ringbuf_discard` without post-calls whose argument 0 is named by a
member of `vars` and whose argument 1 is named `0`. -/
def RingRel (rel : BpfCall) (vars : List String) : Prop :=
  (rel.Helper.Enum = "BPF_FUNC_ringbuf_submit" ∨
    rel.Helper.Enum = "BPF_FUNC_ringbuf_discard") ∧ rel.PostCalls = [] ∧
  (∃ a0, rel.Args[0]? = some (some a0) ∧ a0.Name ∈ vars) ∧
  ∃ a1, rel.Args[1]? = some (some a1) ∧ a1.Name = "0"

/-- The calls `new` are the calls `old`, each with further post-calls at the end of its
`PostCalls`. -/
def CallsUpTo (old new : List BpfCall) : Prop :=
  new.length = old.length ∧
  ∀ (k : Nat) (c : BpfCall), old[k]? = some c → ∃ extra, new[k]? = some { c with PostCalls := c.PostCalls ++ extra }

/-- Whether an object of `objRefMap` is a ring-buffer record that leaks. -/
def ObjRef.leaksRecord (r : ObjRef) : Bool := decide (r.typ = 2 ∧ 0 < r.count)

/-- The second loop of `FixRef` on its way, when the scan left the table `t` and the state
`e.s`, and no object of `t` is released more often than acquired: the objects of the table
`t1` are those of `t`, some with the count 0; `s.Calls` is `L ++ T`, where `L` are the calls
of `e.s` up to further post-calls and `T` holds one ring-buffer release for every leaking
record whose count was set to 0. -/
def RepairBase (e : Env) (t t1 : RefTable) (e1 : Env) (L T : List BpfCall) : Prop :=
  e1.s.pt = e.s.pt ∧
  (∀ (j : Nat) (r : ObjRef), t.refs[j]? = some r →
    ∃ r1 : ObjRef, t1.refs[j]? = some r1 ∧ r1.vars = r.vars ∧ r1.typ = r.typ ∧
      r1.calls = r.calls ∧ (r1.count = r.count ∨ r1.count = 0)) ∧
  e1.s.Calls = L ++ T ∧ CallsUpTo e.s.Calls L ∧ (∀ x ∈ T, ∃ vars, RingRel x vars) ∧
  T.length + t1.refs.countP ObjRef.leaksRecord = t.refs.countP ObjRef.leaksRecord

/-- No object of the table but the one at `idx` has a count other than 0. -/
def othersBalanced (t : RefTable) (idx : Nat) : Prop :=
  ∀ (j : Nat) (r : ObjRef), t.refs[j]? = some r → j ≠ idx → r.count = 0

/-- The leaking object `ref` at `idx`, whose first call is the call `acq` at index `i`, has
not been visited yet. -/
def LeakOpen (e : Env) (t : RefTable) (idx : Nat) (ref : ObjRef) (i : Nat) (acq : BpfCall)
    (t1 : RefTable) (L T : List BpfCall) : Prop :=
  (∃ r1 : ObjRef, t1.refs[idx]? = some r1 ∧ r1.count = ref.count) ∧ L[i]? = some acq ∧
  (othersBalanced t idx → L = e.s.Calls ∧ T = [])

/-- The leaking object `ref` at `idx`, whose first call is the call `acq` at index `i`, has
been repaired with the release call `rel`. -/
def LeakClosed (e : Env) (t : RefTable) (idx : Nat) (ref : ObjRef) (i : Nat) (acq : BpfCall)
    (typ : Int) (rel : BpfCall) (t1 : RefTable) (L T : List BpfCall) : Prop :=
  (∃ r1 : ObjRef, t1.refs[idx]? = some r1 ∧ r1.count = 0) ∧
  (typ = 1 → SockRel rel ref.vars ∧
    L[i]? = some { acq with PostCalls := acq.PostCalls ++ [rel] } ∧
    (othersBalanced t idx →
      L = e.s.Calls.set i { acq with PostCalls := acq.PostCalls ++ [rel] } ∧ T = [])) ∧
  (typ = 2 → RingRel rel ref.vars ∧ rel ∈ T ∧
    (othersBalanced t idx → L = e.s.Calls ∧ T = [rel]))

/-- A socket looked up into `v1` and released, and a socket looked up into `v4` that no call
releases. -/
def c33BalEnv : Env :=
  envWith ptRefs [callOn hSkLookupTcp "ctx" "v1", callOn hSkRelease "v1" "",
    callOn hSkLookupTcp "ctx" "v4"] [] [0, 0]

/-! # Theorems -/

/-! ## Frame lemmas: what the parts of the generator leave untouched -/

theorem Env.same_refl (e : Env) : Env.same e e := ⟨rfl, rfl, rfl, rfl⟩

theorem Env.same_trans {e e1 e2 : Env} (h1 : Env.same e e1) (h2 : Env.same e1 e2) :
    Env.same e e2 :=
  ⟨h2.1.trans h1.1, h2.2.1.trans h1.2.1, h2.2.2.1.trans h1.2.2.1, h2.2.2.2.trans h1.2.2.2⟩

/-- Inversion of a sequencing that returned. -/
theorem Gen.bind_ok {α β : Type} {m : Gen α} {f : α → Gen β} {e e2 : Env} {b : β}
    (h : (m >>= f) e = .ok (b, e2)) : ∃ a e1, m e = .ok (a, e1) ∧ f a e1 = .ok (b, e2) := by
  change Gen.bind m f e = _ at h
  unfold Gen.bind at h
  split at h
  · next a e1 hme => exact ⟨a, e1, hme, h⟩
  · cases h
  · cases h

theorem Gen.pure_ok {α : Type} {a b : α} {e e1 : Env} (h : (pure a : Gen α) e = .ok (b, e1)) :
    b = a ∧ e1 = e := by
  cases h
  exact ⟨rfl, rfl⟩

theorem sat_pure {α : Type} {R : Env → Env → Prop} (hr : ∀ e, R e e) (a : α) :
    Sat R (pure a : Gen α) := by
  constructor
  intro e b e1 h
  cases h
  exact hr e

theorem sat_bind {α β : Type} (R : Env → Env → Prop)
    (ht : ∀ e e1 e2, R e e1 → R e1 e2 → R e e2) {m : Gen α} {f : α → Gen β}
    (hm : Sat R m) (hf : ∀ a, Sat R (f a)) : Sat R (m >>= f) := by
  constructor
  intro e b e2 h
  obtain ⟨a, e1, h1, h2⟩ := Gen.bind_ok h
  exact ht _ _ _ (hm.run _ _ _ h1) ((hf a).run _ _ _ h2)

theorem sat_ite {α : Type} {R : Env → Env → Prop} {c : Prop} [Decidable c] {t f : Gen α}
    (ht : Sat R t) (hf : Sat R f) : Sat R (if c then t else f) := by
  split <;> assumption

theorem sat_of_frame {α : Type} {R : Env → Env → Prop} (hs : ∀ e e1, Env.same e e1 → R e e1)
    (m : Gen α) [hm : Frame m] : Sat R m :=
  ⟨fun e a e1 h => hs e e1 (hm.sat.run e a e1 h)⟩

instance frame_pure {α : Type} (a : α) : Frame (pure a : Gen α) :=
  ⟨sat_pure Env.same_refl a⟩

instance frame_ret {α : Type} (a : α) : Frame (Gen.ret a) :=
  ⟨sat_pure Env.same_refl a⟩

theorem frame_bind {α β : Type} {m : Gen α} {f : α → Gen β} (hm : Frame m)
    (hf : ∀ a, Frame (f a)) : Frame (m >>= f) :=
  ⟨sat_bind Env.same (fun _ _ _ h1 h2 => Env.same_trans h1 h2) hm.sat (fun a => (hf a).sat)⟩

instance frame_bind_inst {α β : Type} {m : Gen α} {f : α → Gen β} [hm : Frame m]
    [hf : ∀ a, Frame (f a)] : Frame (m >>= f) :=
  frame_bind hm hf

theorem frame_ite {α : Type} {c : Prop} [Decidable c] {t f : Gen α} (ht : Frame t)
    (hf : Frame f) : Frame (if c then t else f) := by
  split <;> assumption

instance frame_ite_inst {α : Type} {c : Prop} [Decidable c] {t f : Gen α} [ht : Frame t]
    [hf : Frame f] : Frame (if c then t else f) :=
  frame_ite ht hf

instance frame_fault {α : Type} (msg : String) : Frame (Gen.fault msg : Gen α) := by
  constructor
  constructor
  intro e a e1 h
  cases h

instance frame_spin {α : Type} : Frame (Gen.spin : Gen α) := by
  constructor
  constructor
  intro e a e1 h
  cases h

instance frame_getS : Frame Gen.getS := by
  constructor
  constructor
  intro e a e1 h
  cases h
  exact Env.same_refl e

instance frame_getE : Frame Gen.getE := by
  constructor
  constructor
  intro e a e1 h
  cases h
  exact Env.same_refl e

instance frame_lift {α : Type} (o : Outcome α) : Frame (Gen.lift o) := by
  constructor
  constructor
  intro e a e1 h
  unfold Gen.lift at h
  split at h <;> cases h
  exact Env.same_refl e

instance frame_Intn (n : Int) : Frame (Gen.Intn n) := by
  constructor
  constructor
  intro e a e1 h
  unfold Gen.Intn randGen.Intn at h
  by_cases hn : n ≤ 0
  · simp [hn] at h
  · simp [hn] at h
    obtain ⟨_, rfl⟩ := h
    exact Env.same_refl e

instance frame_index {α : Type} (xs : List α) (i : Int) : Frame (Gen.index xs i) := by
  unfold Gen.index
  repeat' first | infer_instance | split

instance frame_nOutOf (n outOf : Int) : Frame (Gen.nOutOf n outOf) := by
  unfold Gen.nOutOf
  split
  · infer_instance
  · exact frame_bind (frame_Intn _) (fun _ => frame_pure _)

theorem frame_modifyS (f : BpfProgState → BpfProgState)
    (h : ∀ s, (f s).Calls = s.Calls ∧ (f s).pt = s.pt) : Frame (Gen.modifyS f) := by
  constructor
  constructor
  intro e a e1 he
  cases he
  exact ⟨(h _).1, (h _).2, rfl, rfl⟩

instance frame_derefMap (m : MapRef) : Frame (derefMap m) := by
  constructor
  constructor
  intro e a e1 h
  unfold derefMap at h
  split at h <;> cases h
  exact Env.same_refl e

instance frame_updateMap (m : MapRef) (f : BpfMap → BpfMap) : Frame (updateMap m f) := by
  constructor
  constructor
  intro e a e1 h
  unfold updateMap at h
  split at h <;> cases h
  exact ⟨rfl, rfl, rfl, rfl⟩

instance frame_bumpVarId : Frame bumpVarId :=
  frame_modifyS _ (fun _ => ⟨rfl, rfl⟩)

instance frame_chooseSize (min max align : Int) : Frame (chooseSize min max align) := by
  unfold chooseSize
  infer_instance

instance frame_generateStruct (sc : List Int) (hints : HintSet) (useHint : Bool) (msh : Int) :
    Frame (generateStruct sc hints useHint msh) := by
  unfold generateStruct
  repeat' first
    | infer_instance
    | exact frame_modifyS _ (fun _ => ⟨rfl, rfl⟩)
    | apply frame_bind
    | apply frame_ite
    | intro _
    | split

instance frame_newMapMaxEntries (t : BpfMapType) (hint : BpfCallGenHint) :
    Frame (newMapMaxEntries t hint) := by
  unfold newMapMaxEntries
  infer_instance

instance frame_pickFlag (fs : List String) : Frame (pickFlag fs) := by
  unfold pickFlag
  infer_instance

instance frame_manFlagsFrom (gs : List (List String)) : Frame (manFlagsFrom gs) := by
  induction gs with
  | nil => unfold manFlagsFrom; infer_instance
  | cons fs rest ih => unfold manFlagsFrom; infer_instance

instance frame_optFlagsFrom (v : Option StructDef) (gs : List (List String)) :
    Frame (optFlagsFrom v gs) := by
  induction gs with
  | nil => unfold optFlagsFrom; infer_instance
  | cons fs rest ih => unfold optFlagsFrom; infer_instance

instance frame_NewMap (fuel : Nat) (t : BpfMapType) (hint : BpfCallGenHint) (mv : Int) :
    Frame (NewMap fuel t hint mv) := by
  induction fuel generalizing t hint mv with
  | zero => unfold NewMap; infer_instance
  | succ n ih =>
    unfold NewMap
    repeat' first
      | infer_instance
      | exact frame_modifyS _ (fun _ => ⟨rfl, rfl⟩)
      | apply frame_bind
      | intro _
      | split

instance frame_Scalar_Generate (call : BpfCall) (arg : Int) :
    Frame (ScalarValRegType.Generate call arg) := by
  unfold ScalarValRegType.Generate
  infer_instance

instance frame_PtrToCtx_Generate (call : BpfCall) (arg : Int) :
    Frame (PtrToCtxRegType.Generate call arg) := by
  unfold PtrToCtxRegType.Generate
  infer_instance

instance frame_pickNewMapType (call : BpfCall) (ts : List BpfMapType) :
    Frame (pickNewMapType call ts) := by
  unfold pickNewMapType
  infer_instance

instance frame_bindMapArg (a : BpfArg) (call : BpfCall) (m : MapRef) :
    Frame (bindMapArg a call m) := by
  unfold bindMapArg
  infer_instance

instance frame_ConstPtrToMap_Generate (mapFuel : Nat) (call : BpfCall) (arg : Int) :
    Frame (ConstPtrToMapRegType.Generate mapFuel call arg) := by
  unfold ConstPtrToMapRegType.Generate
  repeat' first | infer_instance | apply frame_bind | apply frame_ite | intro _ | split

instance frame_PtrToStack_Generate (call : BpfCall) (arg : Int) :
    Frame (PtrToStackRegType.Generate call arg) := by
  unfold PtrToStackRegType.Generate
  repeat' first | infer_instance | apply frame_bind | apply frame_ite | intro _ | split

instance frame_Percpu_Generate (call : BpfCall) (arg : Int) :
    Frame (PtrToPercpuBtfIdRegType.Generate call arg) := by
  unfold PtrToPercpuBtfIdRegType.Generate
  repeat' first
    | infer_instance
    | exact frame_modifyS _ (fun _ => ⟨rfl, rfl⟩)
    | apply frame_bind
    | intro _

instance frame_RegType_Generate (t : RegType) (mapFuel : Nat) (call : BpfCall) (arg : Int) :
    Frame (t.Generate mapFuel call arg) := by
  unfold RegType.Generate
  split <;> infer_instance

theorem frame_modifyE (f : Env → Env) (h : ∀ e, Env.same e (f e)) : Frame (Gen.modifyE f) := by
  constructor
  constructor
  intro e a e1 he
  cases he
  exact h e

instance frame_genCompatibleRegTypes (call : BpfCall) (arg : Int) :
    Frame (genCompatibleRegTypes call arg) := by
  unfold genCompatibleRegTypes
  repeat' first
    | infer_instance
    | exact frame_modifyE _ (fun _ => ⟨rfl, rfl, rfl, rfl⟩)
    | apply frame_bind
    | apply frame_ite
    | intro _
    | split

instance frame_directAccessLoop (mapFuel : Nat) (ts : List RegType) (arg : Int) (left : Nat)
    (call : BpfCall) : Frame (directAccessLoop mapFuel ts arg left call) := by
  induction left generalizing call with
  | zero => unfold directAccessLoop; infer_instance
  | succ n ih =>
    unfold directAccessLoop
    repeat' first | infer_instance | apply frame_bind | intro _ | split

instance frame_genRandDirectAccess (mapFuel : Nat) (call : BpfCall) (arg : Int) :
    Frame (genRandDirectAccess mapFuel call arg) := by
  unfold genRandDirectAccess
  infer_instance

instance frame_pktAccessSize (call : BpfCall) (arg : Int) (a : BpfArg) :
    Frame (pktAccessSize call arg a) := by
  unfold pktAccessSize
  repeat' first | infer_instance | apply frame_bind | apply frame_ite | intro _ | split

instance frame_bindCtxVar (field typ : String) : Frame (bindCtxVar field typ) := by
  unfold bindCtxVar
  repeat' first
    | infer_instance
    | exact frame_modifyS _ (fun _ => ⟨rfl, rfl⟩)
    | apply frame_bind
    | intro _
    | split

instance frame_ctxAccessOnce (ts : List RegType) (call : BpfCall) (arg : Int) :
    Frame (ctxAccessOnce ts call arg) := by
  unfold ctxAccessOnce
  repeat' first | infer_instance | apply frame_bind | apply frame_ite | intro _ | split

instance frame_ctxAccessLoop (ts : List RegType) (arg : Int) (left : Nat) (call : BpfCall) :
    Frame (ctxAccessLoop ts arg left call) := by
  induction left generalizing call with
  | zero => unfold ctxAccessLoop; infer_instance
  | succ n ih =>
    unfold ctxAccessLoop
    repeat' first | infer_instance | apply frame_bind | intro _ | split

instance frame_genRandBpfCtxAccess (call : BpfCall) (arg : Int) :
    Frame (genRandBpfCtxAccess call arg) := by
  unfold genRandBpfCtxAccess
  infer_instance

instance frame_isRefAcquireCall (call : BpfCall) : Frame call.isRefAcquireCall := by
  unfold BpfCall.isRefAcquireCall
  repeat' first | infer_instance | apply frame_bind | apply frame_ite | intro _ | split

instance frame_bpfRetType (call : BpfCall) : Frame (bpfRetType call) := by
  unfold bpfRetType
  repeat' first | infer_instance | apply frame_bind | apply frame_ite | intro _ | split

instance frame_genHint (producer : BpfHelperFunc) (consumer : BpfCall) (arg : Int) :
    Frame (genHint producer consumer arg) := by
  unfold genHint
  repeat' first | infer_instance | apply frame_bind | apply frame_ite | intro _ | split

instance frame_nameFromProducer (a : BpfArg) (call prodCall : BpfCall) (argType : String) :
    Frame (nameFromProducer a call prodCall argType) := by
  unfold nameFromProducer
  repeat' first | infer_instance | apply frame_bind | apply frame_ite | intro _ | split

instance frame_settleProducer (a : BpfArg) (prodCall : BpfCall) (argType : String) :
    Frame (settleProducer a prodCall argType) := by
  unfold settleProducer
  repeat' first | infer_instance | apply frame_bind | apply frame_ite | intro _ | split

instance frame_storeArg (call : BpfCall) (arg : Int) (a : BpfArg) :
    Frame (storeArg call arg a) := by
  constructor
  constructor
  intro e r e1 h
  unfold storeArg at h
  split at h <;> cases h
  exact Env.same_refl e

instance frame_pickAmong (choose : List BpfHelperFunc → List BpfHelperFunc) :
    Frame (pickAmong choose) := by
  unfold pickAmong
  infer_instance

/-! ## Relations that the call generator maintains -/

theorem sat_genBpfHelperCallArg {R : Env → Env → Prop} (hR : Stable R) (mapFuel : Nat)
    (self : CallGen) (hrand : ∀ call arg, Sat R (genRandBpfHelperCall self call arg))
    (call : BpfCall) (arg : Int) : Sat R (genBpfHelperCallArg mapFuel self call arg) := by
  unfold genBpfHelperCallArg
  repeat' first
    | exact sat_of_frame hR.same _
    | exact hrand _ _
    | apply sat_bind R hR.trans
    | apply sat_ite
    | intro _
    | split

theorem sat_genRandBpfHelperCall {R : Env → Env → Prop} (hR : Stable R) (self : CallGen)
    (hself : ∀ h hint, Sat R (self h hint false)) (call : BpfCall) (arg : Int) :
    Sat R (genRandBpfHelperCall self call arg) := by
  unfold genRandBpfHelperCall
  repeat' first
    | exact sat_of_frame hR.same _
    | exact hself _ _
    | apply sat_bind R hR.trans
    | apply sat_ite
    | intro _
    | split

theorem sat_tryArg {R : Env → Env → Prop} (hR : Stable R)
    (genArg : BpfCall → Int → Gen (Bool × BpfCall)) (hg : ∀ c i, Sat R (genArg c i)) (i : Int)
    (left : Nat) (call : BpfCall) : Sat R (tryArg genArg i left call) := by
  induction left generalizing call with
  | zero => unfold tryArg; exact sat_of_frame hR.same _
  | succ n ih =>
    unfold tryArg
    repeat' first
      | exact sat_of_frame hR.same _
      | exact hg _ _
      | exact ih _
      | apply sat_bind R hR.trans
      | apply sat_ite
      | intro _

theorem sat_argsFrom {R : Env → Env → Prop} (hR : Stable R)
    (genArg : BpfCall → Int → Gen (Bool × BpfCall)) (hg : ∀ c i, Sat R (genArg c i)) (todo : Nat)
    (i : Int) (call : BpfCall) : Sat R (argsFrom genArg todo i call) := by
  induction todo generalizing i call with
  | zero => unfold argsFrom; exact sat_of_frame hR.same _
  | succ n ih =>
    unfold argsFrom
    repeat' first
      | exact sat_of_frame hR.same _
      | exact sat_tryArg hR genArg hg _ _ _
      | exact ih _ _
      | apply sat_bind R hR.trans
      | intro _
      | split

/-- What a returning run of the body of `genBpfHelperCall` did: the argument loop ran from
`e` to some `e1`; then either the call was given up and nothing else changed, or a finished
call `call2` was added at the front or the back of the call list and the depth counter was
decremented. -/
theorem genBpfHelperCallBody_ok {mapFuel : Nat} {self : CallGen} {helper : BpfHelperFunc}
    {hint : BpfCallGenHint} {prepend : Bool} {e e2 : Env} {r : Option BpfCall}
    (h : genBpfHelperCallBody mapFuel self helper hint prepend e = .ok (r, e2)) :
    ∃ x e1, argsFrom (genBpfHelperCallArg mapFuel self) helper.Args.length 0
        (NewBpfCall helper hint) e = .ok (x, e1) ∧
      ((r = none ∧ Env.same e1 e2) ∨
       (∃ call1 call2, x = some call1 ∧ r = some call2 ∧ call2.Helper = call1.Helper ∧
          call2.PostCalls = call1.PostCalls ∧
          e2.s.pt = e1.s.pt ∧ e2.r.src = e1.r.src ∧ e2.rd = e1.rd - 1 ∧
          e2.s.Calls = if prepend then [call2] ++ e1.s.Calls else e1.s.Calls ++ [call2])) := by
  unfold genBpfHelperCallBody at h
  obtain ⟨x, e1, hx, h⟩ := Gen.bind_ok h
  refine ⟨x, e1, hx, ?_⟩
  cases x with
  | none =>
    obtain ⟨rfl, rfl⟩ := Gen.pure_ok h
    exact Or.inl ⟨rfl, Env.same_refl _⟩
  | some call1 =>
    dsimp only at h
    obtain ⟨s, ea, hs, h⟩ := Gen.bind_ok h
    have hsa : Env.same e1 ea := frame_getS.sat.run _ _ _ hs
    obtain ⟨acq, eb, hacq, h⟩ := Gen.bind_ok h
    have hab : Env.same ea eb := (frame_isRefAcquireCall call1).sat.run _ _ _ hacq
    split at h
    · obtain ⟨rfl, rfl⟩ := Gen.pure_ok h
      exact Or.inl ⟨rfl, Env.same_trans hsa hab⟩
    · obtain ⟨typ, ec, htyp, h⟩ := Gen.bind_ok h
      have hbc : Env.same eb ec := (frame_bpfRetType call1).sat.run _ _ _ htyp
      obtain ⟨s2, ed, hs2, h⟩ := Gen.bind_ok h
      cases hs2
      obtain ⟨u, ee, hbump, h⟩ := Gen.bind_ok h
      cases hbump
      obtain ⟨u2, ef, hmod, h⟩ := Gen.bind_ok h
      cases hmod
      obtain ⟨u3, eg, hrd, h⟩ := Gen.bind_ok h
      cases hrd
      obtain ⟨rfl, rfl⟩ := Gen.pure_ok h
      have h1c : Env.same e1 ec := Env.same_trans (Env.same_trans hsa hab) hbc
      refine Or.inr ⟨call1, _, rfl, rfl, rfl, rfl, ?_, ?_, ?_, ?_⟩
      · cases prepend <;> exact h1c.2.1
      · exact h1c.2.2.2
      · show ec.rd - 1 = e1.rd - 1
        rw [h1c.2.2.1]
      · cases prepend
        · show ec.s.Calls ++ _ = _
          rw [h1c.1]; rfl
        · show [_] ++ ec.s.Calls = _
          rw [h1c.1]; rfl

theorem Env.grows_stable : Stable Env.grows where
  refl := fun e => ⟨[], by simp⟩
  trans := fun e e1 e2 h1 h2 => by
    obtain ⟨t1, h1⟩ := h1
    obtain ⟨t2, h2⟩ := h2
    exact ⟨t1 ++ t2, by rw [h2, h1, List.append_assoc]⟩
  same := fun e e1 h => ⟨[], by simp [h.1]⟩

/-- A run of `genBpfHelperCall` that returns without prepending leaves the calls that were
there in place and adds calls only behind them. -/
theorem genBpfHelperCall_grows (mapFuel fuel : Nat) (helper : BpfHelperFunc)
    (hint : BpfCallGenHint) (prepend : Bool) (e e1 : Env) (r : Option BpfCall)
    (h : genBpfHelperCall mapFuel fuel helper hint prepend e = .ok (r, e1))
    (hp : r = none ∨ prepend = false) : Env.grows e e1 := by
  induction fuel generalizing helper hint prepend e e1 r with
  | zero =>
    unfold genBpfHelperCall at h
    obtain ⟨u, ea, hrd, h⟩ := Gen.bind_ok h
    cases hrd
    obtain ⟨eb, ec, hge, h⟩ := Gen.bind_ok h
    cases hge
    split at h
    · obtain ⟨rfl, rfl⟩ := Gen.pure_ok h
      exact ⟨[], by simp⟩
    · cases h
  | succ n ih =>
    unfold genBpfHelperCall at h
    obtain ⟨u, ea, hrd, h⟩ := Gen.bind_ok h
    cases hrd
    obtain ⟨eb, ec, hge, h⟩ := Gen.bind_ok h
    cases hge
    split at h
    · obtain ⟨rfl, rfl⟩ := Gen.pure_ok h
      exact ⟨[], by simp⟩
    · obtain ⟨x, em, hx, hcase⟩ := genBpfHelperCallBody_ok h
      have hself : ∀ h1 hint1, Sat Env.grows (genBpfHelperCall mapFuel n h1 hint1 false) :=
        fun h1 hint1 => ⟨fun e0 a0 e01 h0 => ih h1 hint1 false e0 e01 a0 h0 (Or.inr rfl)⟩
      have hargs := (sat_argsFrom Env.grows_stable _
        (sat_genBpfHelperCallArg Env.grows_stable mapFuel _
          (sat_genRandBpfHelperCall Env.grows_stable _ hself)) _ _ _).run _ _ _ hx
      obtain ⟨t, ht⟩ := hargs
      rcases hcase with ⟨_, hsame⟩ | ⟨call1, call2, _, hr, _, _, _, _, _, hcalls⟩
      · exact ⟨t, by rw [hsame.1]; exact ht⟩
      · rcases hp with hp | hp
        · rw [hp] at hr; cases hr
        · subst hp
          exact ⟨t ++ [call2], by
            rw [hcalls]
            simp only [Bool.false_eq_true, if_false]
            rw [ht, List.append_assoc]⟩

/-! ## The argument resolver writes neither the helper nor the post-calls of a call -/

theorem keeps_pure {α : Type} {c : BpfCall} (x : α) (c1 : BpfCall) (h : c.kin c1) :
    Keeps c (pure (x, c1) : Gen (α × BpfCall)) := by
  constructor
  intro e r e1 hr
  cases hr
  exact h

theorem keeps_fault {α : Type} (c : BpfCall) (msg : String) :
    Keeps c (Gen.fault msg : Gen (α × BpfCall)) := by
  constructor
  intro e r e1 hr
  cases hr

theorem keeps_bind_any {α β : Type} {c : BpfCall} {m : Gen β} {f : β → Gen (α × BpfCall)}
    (hf : ∀ b, Keeps c (f b)) : Keeps c (m >>= f) := by
  constructor
  intro e r e2 h
  obtain ⟨b, e1, _, h2⟩ := Gen.bind_ok h
  exact (hf b).run _ _ _ h2

theorem keeps_bind_call {α β : Type} {c : BpfCall} {m : Gen (β × BpfCall)}
    {f : β × BpfCall → Gen (α × BpfCall)} (hm : Keeps c m)
    (hf : ∀ b c1, c.kin c1 → Keeps c (f (b, c1))) : Keeps c (m >>= f) := by
  constructor
  intro e r e2 h
  obtain ⟨⟨b, c1⟩, e1, h1, h2⟩ := Gen.bind_ok h
  exact (hf b c1 (hm.run _ _ _ h1)).run _ _ _ h2

theorem keeps_ite {α : Type} {c : BpfCall} {p : Prop} [Decidable p] {t f : Gen (α × BpfCall)}
    (ht : Keeps c t) (hf : Keeps c f) : Keeps c (if p then t else f) := by
  split <;> assumption

theorem keeps_storeArg (c call : BpfCall) (hk : c.kin call) (arg : Int) (a : BpfArg) :
    Keeps c (storeArg call arg a) := by
  constructor
  intro e r e1 h
  unfold storeArg BpfCall.setArg at h
  split at h
  · next call1 heq =>
      split at heq
      · cases heq
        cases h
        exact hk
      · cases heq
  · cases h
  · cases h

theorem keeps_Scalar_Generate (c call : BpfCall) (hk : c.kin call) (arg : Int) :
    Keeps c (ScalarValRegType.Generate call arg) := by
  unfold ScalarValRegType.Generate
  repeat' first
    | exact keeps_pure _ _ hk
    | apply keeps_bind_any
    | intro _

theorem keeps_PtrToCtx_Generate (c call : BpfCall) (hk : c.kin call) (arg : Int) :
    Keeps c (PtrToCtxRegType.Generate call arg) := by
  unfold PtrToCtxRegType.Generate
  repeat' first
    | exact keeps_pure _ _ hk
    | apply keeps_bind_any
    | intro _

theorem keeps_bindMapArg (c call : BpfCall) (hk : c.kin call) (a : BpfArg) (m : MapRef) :
    Keeps c (bindMapArg a call m) := by
  unfold bindMapArg
  repeat' first
    | exact keeps_pure _ _ hk
    | apply keeps_bind_any
    | intro _

theorem keeps_ConstPtrToMap_Generate (c call : BpfCall) (hk : c.kin call) (mapFuel : Nat)
    (arg : Int) : Keeps c (ConstPtrToMapRegType.Generate mapFuel call arg) := by
  unfold ConstPtrToMapRegType.Generate
  repeat' first
    | exact keeps_pure _ _ hk
    | exact keeps_bindMapArg _ _ hk _ _
    | apply keeps_bind_any
    | apply keeps_ite
    | intro _
    | split

theorem keeps_PtrToStack_Generate (c call : BpfCall) (hk : c.kin call) (arg : Int) :
    Keeps c (PtrToStackRegType.Generate call arg) := by
  unfold PtrToStackRegType.Generate
  repeat' first
    | exact keeps_pure _ _ hk
    | apply keeps_bind_any
    | intro _

theorem keeps_Percpu_Generate (c call : BpfCall) (hk : c.kin call) (arg : Int) :
    Keeps c (PtrToPercpuBtfIdRegType.Generate call arg) := by
  unfold PtrToPercpuBtfIdRegType.Generate
  repeat' first
    | exact keeps_pure _ _ hk
    | apply keeps_bind_any
    | intro _

theorem keeps_RegType_Generate (c call : BpfCall) (hk : c.kin call) (t : RegType)
    (mapFuel : Nat) (arg : Int) : Keeps c (t.Generate mapFuel call arg) := by
  unfold RegType.Generate
  split
  · exact keeps_Scalar_Generate _ _ hk _
  · exact keeps_PtrToCtx_Generate _ _ hk _
  · exact keeps_ConstPtrToMap_Generate _ _ hk _ _
  · exact keeps_PtrToStack_Generate _ _ hk _
  · exact keeps_Percpu_Generate _ _ hk _
  · exact keeps_pure _ _ hk

theorem keeps_directAccessLoop (c : BpfCall) (mapFuel : Nat) (ts : List RegType) (arg : Int)
    (left : Nat) (call : BpfCall) (hk : c.kin call) :
    Keeps c (directAccessLoop mapFuel ts arg left call) := by
  induction left generalizing call with
  | zero => unfold directAccessLoop; exact keeps_pure _ _ hk
  | succ n ih =>
    unfold directAccessLoop
    apply keeps_bind_any
    intro k
    apply keeps_bind_any
    intro rt
    apply keeps_bind_call (keeps_RegType_Generate _ _ hk _ _ _)
    intro a c1 hk1
    dsimp only
    split
    · exact keeps_pure _ _ hk1
    · exact ih _ hk1

theorem keeps_genRandDirectAccess (c call : BpfCall) (hk : c.kin call) (mapFuel : Nat)
    (arg : Int) : Keeps c (genRandDirectAccess mapFuel call arg) := by
  unfold genRandDirectAccess
  apply keeps_bind_any
  intro p
  split
  exact keeps_directAccessLoop _ _ _ _ _ _ hk

theorem keeps_pktAccessSize (c call : BpfCall) (hk : c.kin call) (arg : Int) (a : BpfArg) :
    Keeps c (pktAccessSize call arg a) := by
  unfold pktAccessSize
  apply keeps_bind_any; intro argType
  apply keeps_bind_any; intro am
  apply keeps_bind_any; intro a1
  apply keeps_bind_any; intro a2
  apply keeps_bind_call
  · split
    · apply keeps_bind_any; intro size
      exact keeps_pure _ _ hk
    · exact keeps_pure _ _ hk
  · intro a3 c1 hk1
    exact keeps_pure _ _ hk1

theorem keeps_ctxAccessOnce (c call : BpfCall) (hk : c.kin call) (ts : List RegType)
    (arg : Int) : Keeps c (ctxAccessOnce ts call arg) := by
  unfold ctxAccessOnce
  apply keeps_bind_any; intro a
  apply keeps_bind_any; intro k
  apply keeps_bind_any; intro rt0
  apply keeps_bind_any; intro s
  split
  · exact keeps_fault _ _
  · split
    · exact keeps_pure _ _ hk
    · apply keeps_bind_any; intro allowed
      split
      · exact keeps_pure _ _ hk
      · apply keeps_bind_any; intro r0
        apply keeps_bind_any; intro field
        apply keeps_bind_any; intro name
        apply keeps_bind_call
        · split
          · apply keeps_bind_any; intro _
            exact keeps_pktAccessSize _ _ hk _ _
          · exact keeps_pure _ _ hk
        · intro a2 c1 hk1
          dsimp only
          apply keeps_bind_call
          · split
            · apply keeps_bind_any; intro _
              exact keeps_pktAccessSize _ _ hk1 _ _
            · exact keeps_pure _ _ hk1
          · intro a3 c2 hk2
            exact keeps_pure _ _ hk2

theorem keeps_ctxAccessLoop (c : BpfCall) (ts : List RegType) (arg : Int) (left : Nat)
    (call : BpfCall) (hk : c.kin call) : Keeps c (ctxAccessLoop ts arg left call) := by
  induction left generalizing call with
  | zero => unfold ctxAccessLoop; exact keeps_pure _ _ hk
  | succ n ih =>
    unfold ctxAccessLoop
    apply keeps_bind_call (keeps_ctxAccessOnce _ _ hk _ _)
    intro a c1 hk1
    dsimp only
    split
    · exact keeps_pure _ _ hk1
    · exact ih _ hk1

theorem keeps_genRandBpfCtxAccess (c call : BpfCall) (hk : c.kin call) (arg : Int) :
    Keeps c (genRandBpfCtxAccess call arg) := by
  unfold genRandBpfCtxAccess
  apply keeps_bind_any
  intro p
  split
  exact keeps_ctxAccessLoop _ _ _ _ _ hk

theorem keeps_nameFromProducer (c call : BpfCall) (hk : c.kin call) (a : BpfArg)
    (prodCall : BpfCall) (argType : String) :
    Keeps c (nameFromProducer a call prodCall argType) := by
  unfold nameFromProducer
  repeat' first
    | exact keeps_pure _ _ hk
    | exact keeps_fault _ _
    | apply keeps_bind_any
    | apply keeps_ite
    | intro _
    | split

theorem keeps_genRandBpfHelperCall (c call : BpfCall) (hk : c.kin call) (self : CallGen)
    (arg : Int) : Keeps c (genRandBpfHelperCall self call arg) := by
  unfold genRandBpfHelperCall
  apply keeps_bind_any; intro a
  apply keeps_bind_any; intro p
  split
  apply keeps_bind_any; intro argType
  apply keeps_bind_any; intro picked
  split
  · exact keeps_pure _ _ hk
  · apply keeps_bind_any; intro hint
    apply keeps_bind_any; intro res
    split
    · exact keeps_pure _ _ hk
    · apply keeps_bind_call (keeps_nameFromProducer _ _ hk _ _ _)
      intro named c1 hk1
      dsimp only
      split
      · exact keeps_pure _ _ hk1
      · apply keeps_bind_any; intro a2
        exact keeps_pure _ _ hk1

theorem keeps_genBpfHelperCallArg (c call : BpfCall) (hk : c.kin call) (mapFuel : Nat)
    (self : CallGen) (arg : Int) : Keeps c (genBpfHelperCallArg mapFuel self call arg) := by
  unfold genBpfHelperCallArg
  apply keeps_bind_any; intro argType
  apply keeps_bind_call
  · split
    · apply keeps_bind_any; intro a
      exact keeps_pure _ _ hk
    · exact keeps_pure _ _ hk
  · intro r1 c1 hk1
    dsimp only
    apply keeps_bind_call
    · split
      · exact keeps_pure _ _ hk1
      · apply keeps_bind_any; intro v
        split
        · exact keeps_genRandBpfHelperCall _ _ hk1 _ _
        · exact keeps_pure _ _ hk1
    · intro r2 c2 hk2
      dsimp only
      apply keeps_bind_call
      · split
        · exact keeps_pure _ _ hk2
        · apply keeps_bind_any; intro v
          split
          · exact keeps_genRandBpfCtxAccess _ _ hk2 _
          · exact keeps_pure _ _ hk2
      · intro r3 c3 hk3
        dsimp only
        apply keeps_bind_call
        · split
          · exact keeps_pure _ _ hk3
          · exact keeps_genRandDirectAccess _ _ hk3 _ _
        · intro r4 c4 hk4
          dsimp only
          split
          · exact keeps_pure _ _ hk4
          · repeat' split
            all_goals first
              | exact keeps_pure _ _ hk4
              | exact keeps_storeArg _ _ hk4 _ _

theorem tryArg_kin (c : BpfCall) (genArg : BpfCall → Int → Gen (Bool × BpfCall))
    (hg : ∀ call, c.kin call → ∀ i, Keeps c (genArg call i)) (i : Int) (left : Nat)
    (call : BpfCall) (hk : c.kin call) (e e1 : Env) (c1 : BpfCall)
    (h : tryArg genArg i left call e = .ok (some c1, e1)) : c.kin c1 := by
  induction left generalizing call e with
  | zero =>
    unfold tryArg at h
    cases h
  | succ n ih =>
    unfold tryArg at h
    obtain ⟨⟨ok, call1⟩, ea, hga, h⟩ := Gen.bind_ok h
    have hk1 : c.kin call1 := (hg call hk i).run _ _ _ hga
    dsimp only at h
    split at h
    · obtain ⟨hc, _⟩ := Gen.pure_ok h
      cases hc
      exact hk1
    · exact ih call1 hk1 ea h

theorem argsFrom_kin (c : BpfCall) (genArg : BpfCall → Int → Gen (Bool × BpfCall))
    (hg : ∀ call, c.kin call → ∀ i, Keeps c (genArg call i)) (todo : Nat) (i : Int)
    (call : BpfCall) (hk : c.kin call) (e e1 : Env) (c1 : BpfCall)
    (h : argsFrom genArg todo i call e = .ok (some c1, e1)) : c.kin c1 := by
  induction todo generalizing i call e with
  | zero =>
    unfold argsFrom at h
    obtain ⟨hc, _⟩ := Gen.pure_ok h
    cases hc
    exact hk
  | succ n ih =>
    unfold argsFrom at h
    obtain ⟨x, ea, hx, h⟩ := Gen.bind_ok h
    cases x with
    | none =>
      obtain ⟨hc, _⟩ := Gen.pure_ok h
      cases hc
    | some call1 =>
      exact ih _ call1 (tryArg_kin c genArg hg i 51 call hk e ea call1 hx) ea h

/-! ## Every call uses a helper of the program type -/

theorem Env.allows_stable (pt : BpfProgTypeDef) : Stable (Env.allows pt) where
  refl := fun _ hpt => ⟨hpt, id⟩
  trans := fun _ _ _ h1 h2 hpt => ⟨(h2 (h1 hpt).1).1, fun ha => (h2 (h1 hpt).1).2 ((h1 hpt).2 ha)⟩
  same := fun _ _ h hpt => ⟨h.2.1.trans hpt, fun ha => by rw [h.1]; exact ha⟩

theorem Gen.index_ok {α : Type} {xs : List α} {i : Int} {e e1 : Env} {x : α}
    (h : Gen.index xs i e = .ok (x, e1)) : x ∈ xs ∧ e1 = e := by
  unfold Gen.index at h
  by_cases hi : i < 0
  · simp [hi, Gen.fault] at h
  · cases hx : xs[i.toNat]? with
    | none => simp [hi, hx, Gen.fault] at h
    | some y =>
      simp [hi, hx, Gen.ret] at h
      obtain ⟨rfl, rfl⟩ := h
      exact ⟨List.getElem?_mem hx, rfl⟩

theorem Gen.modifyS_ok {f : BpfProgState → BpfProgState} {e e1 : Env} {u : Unit}
    (h : Gen.modifyS f e = .ok (u, e1)) : e1 = { e with s := f e.s } := by
  cases h
  rfl

theorem Gen.lift_ok {α : Type} {o : Outcome α} {e e1 : Env} {a : α}
    (h : Gen.lift o e = .ok (a, e1)) : o = .ok a ∧ e1 = e := by
  unfold Gen.lift at h
  split at h <;> cases h
  exact ⟨rfl, rfl⟩

theorem helpersAmong_subset (enums : List String) (l : List BpfHelperFunc) (h : BpfHelperFunc)
    (hm : h ∈ helpersAmong enums l) : h ∈ l := by
  induction l with
  | nil => cases hm
  | cons x rest ih =>
    unfold helpersAmong at hm
    rcases List.mem_append.mp hm with hm | hm
    · obtain ⟨_, _, rfl⟩ := List.mem_map.mp hm
      exact List.mem_cons_self _ _
    · exact List.mem_cons_of_mem _ (ih hm)

theorem compatHelpersFrom_subset (ts : List RegType) (btfId argType : String)
    (l : List BpfHelperFunc) (h : BpfHelperFunc)
    (hm : h ∈ compatHelpersFrom ts btfId argType l) : h ∈ l := by
  induction l with
  | nil => cases hm
  | cons x rest ih =>
    unfold compatHelpersFrom at hm
    rcases List.mem_append.mp hm with hm | hm
    · obtain ⟨_, _, rfl⟩ := List.mem_map.mp hm
      exact List.mem_cons_self _ _
    · exact List.mem_cons_of_mem _ (ih hm)

theorem pickAmong_ok {choose : List BpfHelperFunc → List BpfHelperFunc}
    (hsub : ∀ l h, h ∈ choose l → h ∈ l) {e e1 : Env} {o : Option BpfHelperFunc}
    (h : pickAmong choose e = .ok (o, e1)) :
    Env.same e e1 ∧ ∀ x, o = some x → x ∈ e.s.pt.Helpers := by
  refine ⟨(frame_pickAmong choose).sat.run _ _ _ h, ?_⟩
  unfold pickAmong at h
  obtain ⟨s, ea, hs, h⟩ := Gen.bind_ok h
  cases hs
  dsimp only at h
  split at h
  · obtain ⟨rfl, _⟩ := Gen.pure_ok h
    intro x hx
    cases hx
  · obtain ⟨k, eb, _, h⟩ := Gen.bind_ok h
    obtain ⟨x, ec, hx, h⟩ := Gen.bind_ok h
    obtain ⟨rfl, _⟩ := Gen.pure_ok h
    intro y hy
    cases hy
    exact hsub _ _ (Gen.index_ok hx).1

theorem allows_bind_pickAmong {β : Type} (pt : BpfProgTypeDef)
    (choose : List BpfHelperFunc → List BpfHelperFunc) (hsub : ∀ l h, h ∈ choose l → h ∈ l)
    (f : Option BpfHelperFunc → Gen β) (hnone : Sat (Env.allows pt) (f none))
    (hsome : ∀ h, h ∈ pt.Helpers → Sat (Env.allows pt) (f (some h))) :
    Sat (Env.allows pt) (pickAmong choose >>= f) := by
  constructor
  intro e b e2 h hpt
  obtain ⟨o, e1, h1, h2⟩ := Gen.bind_ok h
  obtain ⟨hsame, hmem⟩ := pickAmong_ok hsub h1
  have hpt1 : e1.s.pt = pt := hsame.2.1.trans hpt
  have hstep : Env.allows pt e1 e2 := by
    cases o with
    | none => exact hnone.run _ _ _ h2
    | some x => exact (hsome x (by rw [← hpt]; exact hmem x rfl)).run _ _ _ h2
  exact ⟨(hstep hpt1).1, fun ha => (hstep hpt1).2 (by rw [hsame.1]; exact ha)⟩

theorem allows_genRandBpfHelperCall (pt : BpfProgTypeDef) (self : CallGen)
    (hself : ∀ h, h ∈ pt.Helpers → ∀ hint, Sat (Env.allows pt) (self h hint false))
    (call : BpfCall) (arg : Int) : Sat (Env.allows pt) (genRandBpfHelperCall self call arg) := by
  have hR := Env.allows_stable pt
  unfold genRandBpfHelperCall
  apply sat_bind _ hR.trans (sat_of_frame hR.same _)
  intro a
  apply sat_bind _ hR.trans (sat_of_frame hR.same _)
  intro p
  split
  apply sat_bind _ hR.trans (sat_of_frame hR.same _)
  intro argType
  apply allows_bind_pickAmong pt _ (compatHelpersFrom_subset _ _ _)
  · exact sat_pure hR.refl _
  · intro h hh
    dsimp only
    repeat' first
      | exact sat_of_frame hR.same _
      | exact hself _ hh _
      | apply sat_bind _ hR.trans
      | intro _
      | split

theorem allowedIn_cons {hs : List BpfHelperFunc} {c : BpfCall} {l : List BpfCall}
    (hc : okCall hs c) (hl : allowedIn hs l) : allowedIn hs ([c] ++ l) := by
  intro x hx
  rcases List.mem_append.mp hx with hx | hx
  · rw [List.mem_singleton.mp hx]
    exact hc
  · exact hl x hx

theorem allowedIn_concat {hs : List BpfHelperFunc} {c : BpfCall} {l : List BpfCall}
    (hc : okCall hs c) (hl : allowedIn hs l) : allowedIn hs (l ++ [c]) := by
  intro x hx
  rcases List.mem_append.mp hx with hx | hx
  · exact hl x hx
  · rw [List.mem_singleton.mp hx]
    exact hc

/-- The call generator adds only calls of helpers of the program type. -/
theorem genBpfHelperCall_allows (pt : BpfProgTypeDef) (mapFuel fuel : Nat)
    (helper : BpfHelperFunc) (hh : helper ∈ pt.Helpers) (hint : BpfCallGenHint)
    (prepend : Bool) : Sat (Env.allows pt) (genBpfHelperCall mapFuel fuel helper hint prepend) := by
  induction fuel generalizing helper hint prepend with
  | zero =>
    constructor
    intro e r e1 h hpt
    unfold genBpfHelperCall at h
    obtain ⟨u, ea, hrd, h⟩ := Gen.bind_ok h
    cases hrd
    obtain ⟨eb, ec, hge, h⟩ := Gen.bind_ok h
    cases hge
    split at h
    · obtain ⟨rfl, rfl⟩ := Gen.pure_ok h
      exact ⟨hpt, id⟩
    · cases h
  | succ n ih =>
    constructor
    intro e r e1 h hpt
    unfold genBpfHelperCall at h
    obtain ⟨u, ea, hrd, h⟩ := Gen.bind_ok h
    cases hrd
    obtain ⟨eb, ec, hge, h⟩ := Gen.bind_ok h
    cases hge
    split at h
    · obtain ⟨rfl, rfl⟩ := Gen.pure_ok h
      exact ⟨hpt, id⟩
    · obtain ⟨x, em, hx, hcase⟩ := genBpfHelperCallBody_ok h
      have hR := Env.allows_stable pt
      have hargs := (sat_argsFrom hR _ (sat_genBpfHelperCallArg hR mapFuel _
        (allows_genRandBpfHelperCall pt _ (fun h1 hh1 hint1 => ih h1 hh1 hint1 false)))
        _ _ _).run _ _ _ hx hpt
      rcases hcase with ⟨_, hsame⟩ | ⟨call1, call2, hx1, _, hH, hP, hpt2, _, _, hcalls⟩
      · exact ⟨hsame.2.1.trans hargs.1, fun ha => by rw [hsame.1]; exact hargs.2 ha⟩
      · subst hx1
        have hkin := argsFrom_kin (NewBpfCall helper hint) _
          (fun call hk i => keeps_genBpfHelperCallArg _ _ hk mapFuel _ i) _ _ _ ⟨rfl, rfl⟩ _ _
          call1 hx
        have hok : okCall pt.Helpers call2 := by
          refine ⟨?_, ?_⟩
          · rw [hH, hkin.1]
            exact hh
          · rw [hP, hkin.2]
            intro p hp
            cases hp
        refine ⟨hpt2.trans hargs.1, fun ha => ?_⟩
        rw [hcalls]
        cases prepend
        · exact allowedIn_concat hok (hargs.2 ha)
        · exact allowedIn_cons hok (hargs.2 ha)

theorem BpfCall.setArg_kin {call c1 : BpfCall} {i : Int} {a : BpfArg}
    (h : call.setArg i a = .ok c1) : call.kin c1 := by
  unfold BpfCall.setArg at h
  split at h
  · cases h
    exact ⟨rfl, rfl⟩
  · cases h

theorem Outcome.bind_returns {α β : Type} {o : Outcome α} {f : α → Outcome β} {b : β}
    (h : (o >>= f) = .ok b) : ∃ a, o = .ok a ∧ f a = .ok b := by
  change Outcome.bind o f = _ at h
  unfold Outcome.bind at h
  split at h
  · next a => exact ⟨a, rfl, h⟩
  · cases h
  · cases h

theorem BpfCall.setArgName_kin {call c1 : BpfCall} {i : Int} {v : String}
    (h : call.setArgName i v = .ok c1) : call.kin c1 := by
  unfold BpfCall.setArgName at h
  obtain ⟨x, _, h⟩ := Outcome.bind_returns h
  split at h
  · cases h
    exact ⟨rfl, rfl⟩
  · cases h

theorem okCall_of_kin {hs : List BpfHelperFunc} {c c1 : BpfCall} (hk : c.kin c1)
    (hc : okCall hs c) : okCall hs c1 := by
  refine ⟨?_, ?_⟩
  · rw [hk.1]
    exact hc.1
  · rw [hk.2]
    exact hc.2

theorem allows_modifyCall (pt : BpfProgTypeDef) (j : Nat) (f : BpfCall → Outcome BpfCall)
    (hf : ∀ c c1, f c = .ok c1 → okCall pt.Helpers c → okCall pt.Helpers c1) :
    Sat (Env.allows pt) (modifyCall j f) := by
  constructor
  intro e u e1 h hpt
  unfold modifyCall at h
  obtain ⟨s, ea, hs, h⟩ := Gen.bind_ok h
  cases hs
  cases hc : e.s.Calls[j]? with
  | none =>
    simp only [hc] at h
    cases h
  | some c =>
    simp only [hc] at h
    obtain ⟨c1, eb, hl, h2⟩ := Gen.bind_ok h
    obtain ⟨hfc, heb⟩ := Gen.lift_ok hl
    subst heb
    obtain rfl := Gen.modifyS_ok h2
    refine ⟨hpt, fun ha x hx => ?_⟩
    rcases List.mem_or_eq_of_mem_set hx with hx | hx
    · exact ha x hx
    · rw [hx]
      exact hf c c1 hfc (ha c (List.getElem?_mem hc))

instance frame_newReleaseCall (ref : ObjRef) (helper : BpfHelperFunc) (second : Bool) :
    Frame (newReleaseCall ref helper second) := by
  unfold newReleaseCall
  infer_instance

theorem newReleaseCall_ok {ref : ObjRef} {helper : BpfHelperFunc} {second : Bool} {e e1 : Env}
    {call : BpfCall} (h : newReleaseCall ref helper second e = .ok (call, e1)) :
    call.Helper = helper ∧ call.PostCalls = [] := by
  unfold newReleaseCall at h
  obtain ⟨a0, ea, _, h⟩ := Gen.bind_ok h
  obtain ⟨k, eb, _, h⟩ := Gen.bind_ok h
  obtain ⟨v, ec, _, h⟩ := Gen.bind_ok h
  obtain ⟨call1, ed, hc1, h⟩ := Gen.bind_ok h
  have hk1 := BpfCall.setArg_kin (Gen.lift_ok hc1).1
  split at h
  · obtain ⟨a1, ee, _, h⟩ := Gen.bind_ok h
    have hk2 := BpfCall.setArg_kin (Gen.lift_ok h).1
    exact ⟨hk2.1.trans hk1.1, hk2.2.trans hk1.2⟩
  · obtain ⟨rfl, _⟩ := Gen.pure_ok h
    exact hk1

theorem allows_bind_newReleaseCall {β : Type} (pt : BpfProgTypeDef) (ref : ObjRef)
    (helper : BpfHelperFunc) (second : Bool) (f : BpfCall → Gen β)
    (hf : ∀ call, call.Helper = helper → call.PostCalls = [] → Sat (Env.allows pt) (f call)) :
    Sat (Env.allows pt) (newReleaseCall ref helper second >>= f) := by
  constructor
  intro e b e2 h
  obtain ⟨call, e1, h1, h2⟩ := Gen.bind_ok h
  obtain ⟨hH, hP⟩ := newReleaseCall_ok h1
  exact (Env.allows_stable pt).trans _ _ _
    ((Env.allows_stable pt).same _ _ ((frame_newReleaseCall ref helper second).sat.run _ _ _ h1))
    ((hf call hH hP).run _ _ _ h2)

theorem allows_addAcquire (pt : BpfProgTypeDef) (self : CallGen)
    (hself : ∀ h, h ∈ pt.Helpers → ∀ hint p, Sat (Env.allows pt) (self h hint p))
    (ref : ObjRef) (enums : List String) (shift : Nat) :
    Sat (Env.allows pt) (addAcquire self ref enums shift) := by
  have hR := Env.allows_stable pt
  unfold addAcquire
  apply allows_bind_pickAmong pt _ (helpersAmong_subset _)
  · exact sat_pure hR.refl _
  · intro h hh
    dsimp only
    repeat' first
      | exact sat_of_frame hR.same _
      | exact hself _ hh _ _
      | exact allows_modifyCall pt _ _
          (fun c c1 hc hok => okCall_of_kin (BpfCall.setArgName_kin hc) hok)
      | apply sat_bind _ hR.trans
      | intro _
      | split

theorem allows_addPostRelease (pt : BpfProgTypeDef) (ref : ObjRef) (shift : Nat) :
    Sat (Env.allows pt) (addPostRelease ref shift) := by
  have hR := Env.allows_stable pt
  unfold addPostRelease
  apply allows_bind_pickAmong pt _ (helpersAmong_subset _)
  · exact sat_pure hR.refl _
  · intro h hh
    dsimp only
    apply allows_bind_newReleaseCall
    intro call hH hP
    apply sat_bind _ hR.trans (sat_of_frame hR.same _)
    intro c0
    apply sat_bind _ hR.trans
    · apply allows_modifyCall
      intro c c1 hc hok
      unfold BpfCall.addPostCall at hc
      cases hc
      refine ⟨hok.1, fun p hp => ?_⟩
      rcases List.mem_append.mp hp with hp | hp
      · exact hok.2 p hp
      · rw [List.mem_singleton.mp hp, hH]
        exact hh
    · intro _
      exact sat_pure hR.refl _

theorem allows_addTailRelease (pt : BpfProgTypeDef) (ref : ObjRef) :
    Sat (Env.allows pt) (addTailRelease ref) := by
  have hR := Env.allows_stable pt
  unfold addTailRelease
  apply allows_bind_pickAmong pt _ (helpersAmong_subset _)
  · exact sat_pure hR.refl _
  · intro h hh
    dsimp only
    apply allows_bind_newReleaseCall
    intro call hH hP
    apply sat_bind _ hR.trans
    · constructor
      intro e u e1 he hpt
      cases he
      refine ⟨hpt, fun ha => allowedIn_concat ⟨?_, ?_⟩ ha⟩
      · rw [hH]
        exact hh
      · rw [hP]
        intro p hp
        cases hp
    · intro _
      exact sat_pure hR.refl _

theorem allows_fixRefEntry (pt : BpfProgTypeDef) (self : CallGen)
    (hself : ∀ h, h ∈ pt.Helpers → ∀ hint p, Sat (Env.allows pt) (self h hint p))
    (t : RefTable) (shift idx : Nat) : Sat (Env.allows pt) (fixRefEntry self t shift idx) := by
  have hR := Env.allows_stable pt
  unfold fixRefEntry
  repeat' first
    | exact sat_of_frame hR.same _
    | exact allows_addAcquire pt self hself _ _ _
    | exact allows_addPostRelease pt _ _
    | exact allows_addTailRelease pt _
    | apply sat_bind _ hR.trans
    | apply sat_ite
    | intro _
    | split

theorem allows_fixRefLoop (pt : BpfProgTypeDef) (self : CallGen)
    (hself : ∀ h, h ∈ pt.Helpers → ∀ hint p, Sat (Env.allows pt) (self h hint p))
    (visit : List (String × Nat)) (t : RefTable) (shift : Nat) :
    Sat (Env.allows pt) (fixRefLoop self visit t shift) := by
  have hR := Env.allows_stable pt
  induction visit generalizing t shift with
  | nil => unfold fixRefLoop; exact sat_pure hR.refl _
  | cons p rest ih =>
    obtain ⟨k, idx⟩ := p
    unfold fixRefLoop
    apply sat_bind _ hR.trans (allows_fixRefEntry pt self hself _ _ _)
    intro q
    split
    exact ih _ _

instance frame_refScanStep (i : Nat) (call : BpfCall) (t : RefTable) :
    Frame (refScanStep i call t) := by
  unfold refScanStep
  repeat' first | infer_instance | apply frame_bind | apply frame_ite | intro _ | split

instance frame_refScanFrom (calls : List BpfCall) (i : Nat) (t : RefTable) :
    Frame (refScanFrom calls i t) := by
  induction calls generalizing i t with
  | nil => unfold refScanFrom; infer_instance
  | cons c rest ih => unfold refScanFrom; infer_instance

/-- The reference balancer adds only calls of helpers of the program type. -/
theorem FixRef_allows (pt : BpfProgTypeDef) (mapFuel fuel : Nat)
    (visit : List (String × Nat) → List (String × Nat)) :
    Sat (Env.allows pt) (FixRef mapFuel fuel visit) := by
  have hR := Env.allows_stable pt
  unfold FixRef
  apply sat_bind _ hR.trans (sat_of_frame hR.same _)
  intro s
  apply sat_bind _ hR.trans (sat_of_frame hR.same _)
  intro t
  exact allows_fixRefLoop pt _
    (fun h hh hint p => genBpfHelperCall_allows pt mapFuel fuel h hh hint p) _ _ _

/-! ## The spin-lock balancer adds only calls of helpers of the program type -/

theorem osat_pure {α : Type} {P : α → Prop} {a : α} (h : P a) : OSat P (pure a : Outcome α) := by
  constructor
  intro b hb
  cases hb
  exact h

theorem osat_bind {α β : Type} {P : β → Prop} {o : Outcome α} {f : α → Outcome β}
    (Q : α → Prop) (ho : OSat Q o) (hf : ∀ a, Q a → OSat P (f a)) : OSat P (o >>= f) := by
  constructor
  intro b hb
  obtain ⟨a, ha, hfa⟩ := Outcome.bind_returns hb
  exact (hf a (ho.run a ha)).run b hfa

theorem osat_bind_any {α β : Type} {P : β → Prop} {o : Outcome α} {f : α → Outcome β}
    (hf : ∀ a, OSat P (f a)) : OSat P (o >>= f) :=
  osat_bind (fun _ => True) ⟨fun _ _ => trivial⟩ (fun a _ => hf a)

theorem SpinState.obj_ok {hs : List BpfHelperFunc} {st : SpinState} (hst : st.heapOk hs)
    (id : Nat) : OSat (okCall hs) (st.obj id) := by
  constructor
  intro c hc
  unfold SpinState.obj at hc
  split at hc
  · next c1 h1 =>
    cases hc
    exact hst _ (List.getElem?_mem h1)
  · cases hc

theorem SpinState.insert_ok {hs : List BpfHelperFunc} {st : SpinState} (hst : st.heapOk hs)
    (i slot : Nat) {c : BpfCall} (hc : okCall hs c) :
    OSat (SpinState.heapOk hs) (st.insert i slot c) := by
  constructor
  intro st1 h
  unfold SpinState.insert at h
  split at h
  · dsimp only at h
    split at h
    · cases h
      intro x hx
      rcases List.mem_append.mp hx with hx | hx
      · exact hst x hx
      · rw [List.mem_singleton.mp hx]
        exact hc
    · cases h
  · cases h

theorem spinRepairCall_ok (st : SpinState) (helper : BpfHelperFunc) (i : Nat) :
    OSat (fun c => c.Helper = helper ∧ c.PostCalls = []) (spinRepairCall st helper i) := by
  unfold spinRepairCall
  apply osat_bind_any; intro a0
  apply osat_bind_any; intro at_i
  apply osat_bind_any; intro name
  constructor
  intro c hc
  exact BpfCall.setArg_kin hc

theorem getHelper_mem {pt : BpfProgTypeDef} {en : String} {h : BpfHelperFunc}
    (hg : pt.getHelper en = some h) : h ∈ pt.Helpers :=
  List.mem_of_find?_eq_some hg

theorem spinStep_heap (pt : BpfProgTypeDef) (i : Nat) (st : SpinState)
    (hst : st.heapOk pt.Helpers) :
    OSat (fun p => p.1.heapOk pt.Helpers) (spinStep pt i st) := by
  unfold spinStep
  apply osat_bind_any; intro id
  apply osat_bind _ (SpinState.obj_ok hst id); intro call hcall
  apply osat_bind (fun p => p.1.heapOk pt.Helpers)
  · split
    · split
      · split
        · next helper hg =>
          apply osat_bind _ (spinRepairCall_ok st helper i); intro c hc
          apply osat_bind_any; intro name
          have hokc : okCall pt.Helpers c := by
            refine ⟨?_, ?_⟩
            · rw [hc.1]
              exact getHelper_mem hg
            · rw [hc.2]
              intro p hp
              cases hp
          apply osat_bind _ (SpinState.insert_ok hst i i hokc); intro st0 h0
          exact osat_pure h0
        · exact osat_pure hst
      · apply osat_bind_any; intro name
        split
        · exact osat_pure hst
        · apply osat_bind (fun c1 => okCall pt.Helpers c1)
          · constructor
            intro c1 hc1
            exact okCall_of_kin (BpfCall.setArgName_kin hc1) hcall
          · intro call1 hcall1
            apply osat_pure
            intro x hx
            rcases List.mem_or_eq_of_mem_set hx with hx | hx
            · exact hst x hx
            · rw [hx]
              exact hcall1
    · exact osat_pure hst
  · intro p hp
    obtain ⟨st1, stop1⟩ := p
    dsimp only
    split
    · exact osat_pure hp
    · split
      · apply osat_bind_any; intro needs
        split
        · split
          · next helper hg =>
            apply osat_bind _ (spinRepairCall_ok st1 helper i); intro c hc
            apply osat_bind_any; intro name
            have hokc : okCall pt.Helpers c := by
              refine ⟨?_, ?_⟩
              · rw [hc.1]
                exact getHelper_mem hg
              · rw [hc.2]
                intro q hq
                cases hq
            apply osat_bind _ (SpinState.insert_ok hp i (i + 1) hokc); intro st2 h2
            exact osat_pure h2
          · exact osat_pure hp
        · apply osat_bind_any; intro obj
          apply osat_bind_any; intro name
          exact osat_pure hp
      · exact osat_pure hp

theorem spinLoop_heap (pt : BpfProgTypeDef) (todo i : Nat) (st : SpinState)
    (hst : st.heapOk pt.Helpers) : OSat (SpinState.heapOk pt.Helpers) (spinLoop pt todo i st) := by
  induction todo generalizing i st with
  | zero =>
    unfold spinLoop
    exact ⟨fun a ha => by cases ha; exact hst⟩
  | succ n ih =>
    unfold spinLoop
    apply osat_bind _ (spinStep_heap pt i st hst)
    intro p hp
    obtain ⟨st1, stop⟩ := p
    dsimp only
    split
    · exact osat_pure hp
    · exact ih _ _ hp

theorem SpinState.objs_mem (st : SpinState) (ids : List Nat) :
    OSat (fun calls => ∀ c ∈ calls, c ∈ st.heap) (st.objs ids) := by
  induction ids with
  | nil =>
    unfold SpinState.objs
    exact ⟨fun a ha => by cases ha; intro c hc; cases hc⟩
  | cons id rest ih =>
    unfold SpinState.objs
    apply osat_bind (fun c => c ∈ st.heap)
    · constructor
      intro c hc
      unfold SpinState.obj at hc
      split at hc
      · next c1 h1 =>
        cases hc
        exact List.getElem?_mem h1
      · cases hc
    · intro c hc
      apply osat_bind _ ih
      intro more hmore
      apply osat_pure
      intro x hx
      rcases List.mem_cons.mp hx with hx | hx
      · rw [hx]
        exact hc
      · exact hmore x hx

/-- The spin-lock balancer adds only calls of helpers of the program type. -/
theorem FixSpinLock_allows (pt : BpfProgTypeDef) (spare : Nat) :
    Sat (Env.allows pt) (FixSpinLock spare) := by
  constructor
  intro e u e1 h hpt
  unfold FixSpinLock at h
  obtain ⟨s, ea, hs, h1⟩ := Gen.bind_ok h
  cases hs
  obtain ⟨st, eb, hst, h2⟩ := Gen.bind_ok h1
  obtain ⟨hloop, rfl⟩ := Gen.lift_ok hst
  obtain ⟨calls, ec, hcalls, h3⟩ := Gen.bind_ok h2
  obtain ⟨hobjs, rfl⟩ := Gen.lift_ok hcalls
  obtain rfl := Gen.modifyS_ok h3
  refine ⟨hpt, fun ha => ?_⟩
  have hheap : st.heapOk pt.Helpers := by
    refine (spinLoop_heap pt _ _ _ ?_).run _ (by rw [← hpt]; exact hloop)
    exact ha
  intro c hc
  exact hheap c ((SpinState.objs_mem st st.cur).run _ hobjs c hc)

/-! ## The driver -/

theorem NewBpfProgState_ok {pt : BpfProgTypeDef} {e e1 : Env} {u : Unit}
    (h : NewBpfProgState pt e = .ok (u, e1)) : e1.s.pt = pt ∧ e1.s.Calls = [] := by
  unfold NewBpfProgState at h
  obtain ⟨retVal, ea, _, h1⟩ := Gen.bind_ok h
  obtain ⟨k, eb, _, h2⟩ := Gen.bind_ok h1
  obtain ⟨sec, ec, _, h3⟩ := Gen.bind_ok h2
  obtain ⟨secStr, ed, _, h4⟩ := Gen.bind_ok h3
  obtain rfl := Gen.modifyS_ok h4
  exact ⟨rfl, rfl⟩

/-- Every call of a state that `GenBpfProg` leaves uses a helper of its program type. -/
theorem GenBpfProg_allowed {mapFuel fuel : Nat} {progTypes : List BpfProgTypeDef} {e e1 : Env}
    {ok : Bool} (h : GenBpfProg mapFuel fuel progTypes e = .ok (ok, e1)) :
    allowedIn e1.s.pt.Helpers e1.s.Calls := by
  unfold GenBpfProg at h
  obtain ⟨k, ea, _, h1⟩ := Gen.bind_ok h
  obtain ⟨pt, eb, _, h2⟩ := Gen.bind_ok h1
  obtain ⟨hk, ec, _, h3⟩ := Gen.bind_ok h2
  obtain ⟨helper, ed, hhelper, h4⟩ := Gen.bind_ok h3
  obtain ⟨u, ee, hnew, h5⟩ := Gen.bind_ok h4
  obtain ⟨u1, ef, hrd, h6⟩ := Gen.bind_ok h5
  obtain ⟨res, eg, hgen, h7⟩ := Gen.bind_ok h6
  have hmem : helper ∈ pt.Helpers := (Gen.index_ok hhelper).1
  obtain ⟨hpt, hcalls⟩ := NewBpfProgState_ok hnew
  cases hrd
  have hstep := (genBpfHelperCall_allows pt mapFuel fuel helper hmem _ false).run _ _ _ hgen hpt
  have hend : e1 = eg := by
    split at h7
    · exact (Gen.pure_ok h7).2
    · exact (Gen.pure_ok h7).2
  rw [hend, hstep.1]
  refine hstep.2 ?_
  intro c hc
  rw [show ({ ee with rd := 0 } : Env).s.Calls = ee.s.Calls from rfl, hcalls] at hc
  cases hc

theorem Outcome.ok_of_toOption_map {α β : Type} {o : Outcome α} {f : α → β} {b : β}
    (h : o.toOption.map f = some b) : ∃ a, o = .ok a ∧ f a = b := by
  cases o with
  | ok a => exact ⟨a, rfl, by simpa [Outcome.toOption] using h⟩
  | fault m => simp [Outcome.toOption] at h
  | spin => simp [Outcome.toOption] at h

/-- C8: in every state that `GenBpfProg` produced and `FixRef` and `FixSpinLock` then
repaired, the helper of every call of `s.Calls` and of every post-call attached to one is an
element of the `Helpers` list of the program type of the state. -/
theorem helpers_allowed_after_repair (mapFuel fuel fuel2 spare : Nat) (visit : List (String × Nat) → List (String × Nat))
    (progTypes : List BpfProgTypeDef) (e e1 e2 e3 : Env) (ok : Bool)
    (hgen : GenBpfProg mapFuel fuel progTypes e = .ok (ok, e1))
    (href : FixRef mapFuel fuel2 visit e1 = .ok ((), e2))
    (hspin : FixSpinLock spare e2 = .ok ((), e3)) : helpersAllowed e3.s := by
  have h1 := GenBpfProg_allowed hgen
  have h2 := (FixRef_allows e1.s.pt mapFuel fuel2 visit).run _ _ _ href rfl
  have h3 := (FixSpinLock_allows e1.s.pt spare).run _ _ _ hspin h2.1
  have h4 := h3.2 (h2.2 h1)
  intro c hc
  rw [h3.1]
  exact h4 c hc

/-- A run of the generator and the two repair passes that yields `sk_lookup_tcp` with the
post-call `sk_release`: both helpers are in the helper list of the program type. -/
theorem helpers_allowed_after_repair_witness :
    ∃ e3 : Env,
      (GenBpfProg 1 2 [ptRefs] >>= fun _ => FixRef 1 2 id >>= fun _ => FixSpinLock 0) c8Env
        = .ok ((), e3) ∧
      e3.s.Calls.map (fun c => (c.Helper.Enum, c.PostCalls.map (fun p => p.Helper.Enum)))
        = [("BPF_FUNC_sk_lookup_tcp", ["BPF_FUNC_sk_release"])] ∧
      helpersAllowed e3.s := by
  have h : ((GenBpfProg 1 2 [ptRefs] >>= fun _ => FixRef 1 2 id >>= fun _ => FixSpinLock 0)
      c8Env).toOption.map
        (fun r => r.2.s.Calls.map (fun c => (c.Helper.Enum, c.PostCalls.map (fun p => p.Helper.Enum))))
      = some [("BPF_FUNC_sk_lookup_tcp", ["BPF_FUNC_sk_release"])] := by decide!
  obtain ⟨⟨u, e3⟩, hrun, hcalls⟩ := Outcome.ok_of_toOption_map h
  refine ⟨e3, hrun, hcalls, ?_⟩
  obtain ⟨ok, e1, hgen, hrest⟩ := Gen.bind_ok hrun
  obtain ⟨u2, e2, href, hspin⟩ := Gen.bind_ok hrest
  exact helpers_allowed_after_repair 1 2 2 0 id [ptRefs] c8Env e1 e2 e3 ok hgen href hspin

/-! ## The map argument -/

theorem post_pure {α : Type} {P : α → Env → Prop} {a : α} (h : ∀ e, P a e) :
    Post P (pure a : Gen α) := by
  constructor
  intro e b e1 hb
  obtain ⟨rfl, rfl⟩ := Gen.pure_ok hb
  exact h _

theorem post_bind_any {α β : Type} {P : β → Env → Prop} {m : Gen α} {f : α → Gen β}
    (hf : ∀ a, Post P (f a)) : Post P (m >>= f) := by
  constructor
  intro e b e2 h
  obtain ⟨a, e1, _, h2⟩ := Gen.bind_ok h
  exact (hf a).run _ _ _ h2

theorem Gen.Intn_ok {n k : Int} {e e1 : Env} (h : Gen.Intn n e = .ok (k, e1)) : e1.s = e.s := by
  unfold Gen.Intn at h
  cases hx : e.r.Intn n with
  | ok p =>
    simp only [hx] at h
    cases h
    rfl
  | fault m => simp [hx] at h
  | spin => simp [hx] at h

theorem Gen.nOutOf_ok {n o : Int} {b : Bool} {e e1 : Env} (h : Gen.nOutOf n o e = .ok (b, e1)) :
    e1.s = e.s := by
  unfold Gen.nOutOf at h
  split at h
  · cases h
  · change (Gen.Intn o >>= fun v => pure (decide (v < n))) e = _ at h
    obtain ⟨v, ea, hv, h2⟩ := Gen.bind_ok h
    obtain ⟨_, rfl⟩ := Gen.pure_ok h2
    exact Gen.Intn_ok hv

theorem derefMap_ok {m : MapRef} {e e1 : Env} {bm : BpfMap} (h : derefMap m e = .ok (bm, e1)) :
    e1 = e ∧ e.s.Maps[m]? = some bm := by
  unfold derefMap at h
  cases hx : e.s.Maps[m]? with
  | none => simp [hx] at h
  | some b =>
    simp only [hx] at h
    cases h
    exact ⟨rfl, rfl⟩

theorem bindMapArg_ok {a : BpfArg} {call : BpfCall} {m : MapRef} {e e1 : Env}
    {r : Option BpfArg × BpfCall} (h : bindMapArg a call m e = .ok (r, e1)) :
    e1 = e ∧ ∃ bm, e.s.Maps[m]? = some bm ∧
      r = (some { a with Name := "&" ++ bm.MapName }, { call with ArgMap := some m }) := by
  unfold bindMapArg at h
  obtain ⟨bm, ea, hbm, h2⟩ := Gen.bind_ok h
  obtain ⟨rfl, hm⟩ := derefMap_ok hbm
  obtain ⟨rfl, rfl⟩ := Gen.pure_ok h2
  exact ⟨rfl, bm, hm, rfl⟩

theorem compatMapsFrom_mem (s : BpfProgState) (call : BpfCall) (l : List BpfMap) (i m : Nat)
    (h : m ∈ compatMapsFrom s call l i) :
    ∃ bm, i ≤ m ∧ l[m - i]? = some bm ∧ helperCompatMap s call bm = true := by
  induction l generalizing i with
  | nil =>
    unfold compatMapsFrom at h
    cases h
  | cons x rest ih =>
    unfold compatMapsFrom at h
    have hrest : m ∈ compatMapsFrom s call rest (i + 1) →
        ∃ bm, i ≤ m ∧ (x :: rest)[m - i]? = some bm ∧ helperCompatMap s call bm = true := by
      intro hm
      obtain ⟨bm, hle, hget, hc⟩ := ih (i + 1) hm
      refine ⟨bm, by omega, ?_, hc⟩
      have : m - i = (m - (i + 1)) + 1 := by omega
      rw [this, List.getElem?_cons_succ]
      exact hget
    split at h
    · next hx =>
      rcases List.mem_cons.mp h with h | h
      · subst h
        exact ⟨x, le_refl _, by simp, hx⟩
      · exact hrest h
    · exact hrest h

theorem helperCompatMap_compatible {s : BpfProgState} {call : BpfCall} {m : BpfMap}
    (h : helperCompatMap s call m = true) :
    isMapFuncCompatible m.MapType call.Helper.Enum = true := by
  cases hv : isMapFuncCompatible m.MapType call.Helper.Enum with
  | true => rfl
  | false =>
    unfold helperCompatMap at h
    rw [hv, if_pos (show (!false) = true from rfl)] at h
    cases h

theorem helperCompatMapType_compatible {s : BpfProgState} {call : BpfCall} {mt : BpfMapType}
    (h : helperCompatMapType s call mt = true) :
    isMapFuncCompatible mt.Type_ call.Helper.Enum = true := by
  cases hv : isMapFuncCompatible mt.Type_ call.Helper.Enum with
  | true => rfl
  | false =>
    unfold helperCompatMapType at h
    rw [hv, if_pos (show (!false) = true from rfl)] at h
    cases h

theorem pickNewMapType_ok {call : BpfCall} {l : List BpfMapType} {e e1 : Env} {mt : BpfMapType}
    (h : pickNewMapType call l e = .ok (some mt, e1)) : mt ∈ l ∧ e1.s = e.s := by
  unfold pickNewMapType at h
  split at h
  · cases h
  · split at h
    · obtain ⟨hmt, rfl⟩ := Gen.pure_ok h
      exact ⟨List.mem_of_find?_eq_some hmt.symm, rfl⟩
    · obtain ⟨k, ea, hk, h2⟩ := Gen.bind_ok h
      obtain ⟨x, eb, hx, h3⟩ := Gen.bind_ok h2
      obtain ⟨hmem, rfl⟩ := Gen.index_ok hx
      obtain ⟨hsome, rfl⟩ := Gen.pure_ok h3
      cases hsome
      exact ⟨hmem, Gen.Intn_ok hk⟩

/-- The map that `NewMap` returns is in `s.Maps` and has the requested type. -/
theorem NewMap_type (fuel : Nat) (mt : BpfMapType) (hint : BpfCallGenHint) (mvs : Int) :
    Post (fun a e1 => ∀ m, a.1 = some m → ∃ bm, e1.s.Maps[m]? = some bm ∧ bm.MapType = mt.Type_)
      (NewMap fuel mt hint mvs) := by
  cases fuel with
  | zero =>
    unfold NewMap
    exact ⟨fun e a e1 h => by cases h⟩
  | succ n =>
    unfold NewMap
    dsimp only
    apply post_bind_any; intro maxEntries
    apply post_bind_any; intro s
    apply post_bind_any; intro cks
    apply post_bind_any; intro pickKey
    apply post_bind_any; intro x
    obtain ⟨keyRes, hints1⟩ := x
    dsimp only
    split
    · exact post_pure (fun _ m hm => by cases hm)
    · apply post_bind_any; intro s1
      apply post_bind_any; intro cvs
      apply post_bind_any; intro pickVal
      apply post_bind_any; intro y
      obtain ⟨valRes, hints2⟩ := y
      dsimp only
      split
      · exact post_pure (fun _ m hm => by cases hm)
      · apply post_bind_any; intro innerMap
        apply post_bind_any; intro manFlags
        apply post_bind_any; intro optFlags
        constructor
        intro e a e1 h
        obtain ⟨s2, ea, hs, h1⟩ := Gen.bind_ok h
        cases hs
        obtain ⟨u, eb, hm, h2⟩ := Gen.bind_ok h1
        obtain rfl := Gen.modifyS_ok hm
        obtain ⟨rfl, rfl⟩ := Gen.pure_ok h2
        intro m hm
        cases hm
        exact ⟨_, List.getElem?_concat_length _ _, rfl⟩

theorem BpfMap.removeFlag_MapType (m : BpfMap) (f : String) :
    (m.removeFlag f).MapType = m.MapType := by
  unfold BpfMap.removeFlag
  dsimp only
  split <;> rfl

theorem trimNewMapFlags_MapType (s : BpfProgState) (call : BpfCall) (mt : BpfMapType)
    (m : BpfMap) : (trimNewMapFlags s call mt m).MapType = m.MapType := by
  unfold trimNewMapFlags
  dsimp only
  repeat' split
  all_goals simp only [BpfMap.removeFlag_MapType]

theorem updateMap_ok {m : MapRef} {f : BpfMap → BpfMap} {e e1 : Env} {u : Unit}
    (h : updateMap m f e = .ok (u, e1)) :
    ∃ bm, e.s.Maps[m]? = some bm ∧ e1.s.Maps[m]? = some (f bm) := by
  unfold updateMap at h
  cases hx : e.s.Maps[m]? with
  | none => simp [hx] at h
  | some b =>
    simp only [hx] at h
    cases h
    refine ⟨b, rfl, ?_⟩
    obtain ⟨hlt, _⟩ := List.getElem?_eq_some.mp hx
    simp [List.getElem?_set, hlt]

/-- What a successful `ConstPtrToMapRegType.Generate` leaves: the call is bound to a map of
`s.Maps`, the argument is named after it, and on the two paths that choose the map (no
preferred map, no map bound before) the map is compatible with the helper. -/
theorem ConstPtrToMapRegType.Generate_ok {mapFuel : Nat} {call call1 : BpfCall} {arg : Int}
    {e e1 : Env} {a : BpfArg}
    (h : ConstPtrToMapRegType.Generate mapFuel call arg e = .ok ((some a, call1), e1)) :
    ∃ m bm, call1.ArgMap = some m ∧ e1.s.Maps[m]? = some bm ∧ a.Name = "&" ++ bm.MapName ∧
      call1.Helper = call.Helper ∧
      (call.Hint.PreferredMap = none → call.ArgMap = none →
        isMapFuncCompatible bm.MapType call.Helper.Enum = true) := by
  unfold ConstPtrToMapRegType.Generate at h
  obtain ⟨a0, ea, ha0, h1⟩ := Gen.bind_ok h
  obtain ⟨_, rfl⟩ := Gen.lift_ok ha0
  cases hpm : call.Hint.PreferredMap with
  | some pm =>
    simp only [hpm] at h1
    obtain ⟨rfl, bm, hbm, hr⟩ := bindMapArg_ok h1
    cases hr
    exact ⟨pm, bm, rfl, hbm, rfl, rfl, fun hn => by cases hn⟩
  | none =>
    simp only [hpm] at h1
    cases ham : call.ArgMap with
    | some am =>
      simp only [ham] at h1
      obtain ⟨rfl, bm, hbm, hr⟩ := bindMapArg_ok h1
      cases hr
      exact ⟨am, bm, rfl, hbm, rfl, rfl, fun _ hn => by cases hn⟩
    | none =>
      simp only [ham] at h1
      obtain ⟨s, eb, hs, h2⟩ := Gen.bind_ok h1
      cases hs
      obtain ⟨useOld, ec, hu, h3⟩ := Gen.bind_ok h2
      have hsu : ec.s = ea.s := by
        split at hu
        · exact Gen.nOutOf_ok hu
        · rw [(Gen.pure_ok hu).2]
      cases useOld with
      | true =>
        simp only [if_true] at h3
        obtain ⟨k, ed, hk, h4⟩ := Gen.bind_ok h3
        obtain ⟨m, ee, hm, h5⟩ := Gen.bind_ok h4
        obtain ⟨hmem, rfl⟩ := Gen.index_ok hm
        obtain ⟨rfl, bm, hbm, hr⟩ := bindMapArg_ok h5
        cases hr
        obtain ⟨bm1, _, hget, hc⟩ := compatMapsFrom_mem _ _ _ _ _ hmem
        have hs2 : e1.s = ea.s := (Gen.Intn_ok hk).trans hsu
        rw [hs2] at hbm
        rw [Nat.sub_zero, hbm] at hget
        cases hget
        exact ⟨m, bm, rfl, by rw [hs2]; exact hbm, rfl, rfl,
          fun _ _ => helperCompatMap_compatible hc⟩
      | false =>
        simp only [Bool.false_eq_true, if_false] at h3
        obtain ⟨pick, ed, hp, h4⟩ := Gen.bind_ok h3
        cases pick with
        | none =>
          obtain ⟨hr, _⟩ := Gen.pure_ok h4
          cases hr
        | some newMapType =>
          obtain ⟨hmem, _⟩ := pickNewMapType_ok hp
          have hcompat := helperCompatMapType_compatible (List.mem_filter.mp hmem).2
          dsimp only at h4
          obtain ⟨x, ef, hnew, h5⟩ := Gen.bind_ok h4
          obtain ⟨res, hint1⟩ := x
          cases res with
          | none =>
            obtain ⟨hr, _⟩ := Gen.pure_ok h5
            cases hr
          | some m =>
            dsimp only at h5
            obtain ⟨s1, eg, hs1, h6⟩ := Gen.bind_ok h5
            cases hs1
            obtain ⟨u, eh, hupd, h7⟩ := Gen.bind_ok h6
            obtain ⟨rfl, bm, hbm, hr⟩ := bindMapArg_ok h7
            cases hr
            obtain ⟨bm0, hget0, hty⟩ := (NewMap_type _ _ _ _).run _ _ _ hnew m rfl
            obtain ⟨bm1, hget1, hget2⟩ := updateMap_ok hupd
            rw [hget0] at hget1
            cases hget1
            rw [hbm] at hget2
            cases hget2
            refine ⟨m, _, rfl, hbm, rfl, rfl, fun _ _ => ?_⟩
            rw [trimNewMapFlags_MapType, hty]
            exact hcompat

/-- C4: whenever `ConstPtrToMapRegType.Generate` succeeds (for an `ARG_CONST_MAP_PTR` slot as
for any other), `call.ArgMap` is non-null afterwards and the name of the returned argument is
"&" followed by the `MapName` of that map. -/
theorem constPtrToMap_names_bound_map (mapFuel : Nat) (call call1 : BpfCall) (arg : Int)
    (e e1 : Env) (a : BpfArg)
    (h : ConstPtrToMapRegType.Generate mapFuel call arg e = .ok ((some a, call1), e1)) :
    ∃ m bm, call1.ArgMap = some m ∧ e1.s.Maps[m]? = some bm ∧ a.Name = "&" ++ bm.MapName := by
  obtain ⟨m, bm, h1, h2, h3, _⟩ := ConstPtrToMapRegType.Generate_ok h
  exact ⟨m, bm, h1, h2, h3⟩

/-- A run for `ringbuf_reserve` that makes a new ring-buffer map `map_1` and names the
argument "&map_1". -/
theorem constPtrToMap_names_bound_map_witness :
    ∃ (a : BpfArg) (call1 : BpfCall) (e1 : Env),
      ConstPtrToMapRegType.Generate 2 (NewBpfCall hRingbufReserve (newBpfCallGenHint none)) 0
        (envWith (ptWith [hRingbufReserve]) [] [mapHash] [2, 1, 3]) = .ok ((some a, call1), e1) ∧
      a.Name = "&map_1" ∧
      ∃ m bm, call1.ArgMap = some m ∧ e1.s.Maps[m]? = some bm ∧ a.Name = "&" ++ bm.MapName := by
  have h : (ConstPtrToMapRegType.Generate 2 (NewBpfCall hRingbufReserve (newBpfCallGenHint none)) 0
      (envWith (ptWith [hRingbufReserve]) [] [mapHash] [2, 1, 3])).toOption.map
        (fun r => r.1.1.map (fun x => x.Name)) = some (some "&map_1") := by decide!
  obtain ⟨⟨⟨oa, call1⟩, e1⟩, hrun, hname⟩ := Outcome.ok_of_toOption_map h
  cases oa with
  | none => cases hname
  | some a =>
    exact ⟨a, call1, e1, hrun, Option.some.inj hname,
      constPtrToMap_names_bound_map 2 _ call1 0 _ e1 a hrun⟩

/-- C3 (as amended): when the hint carries no preferred map and the call is not yet bound to
a map, a successful `ConstPtrToMapRegType.Generate` binds a map whose type is compatible with
the helper of the call. -/
theorem constPtrToMap_compatible_when_chosen (mapFuel : Nat) (call call1 : BpfCall) (arg : Int)
    (e e1 : Env) (a : BpfArg) (hpm : call.Hint.PreferredMap = none) (ham : call.ArgMap = none)
    (h : ConstPtrToMapRegType.Generate mapFuel call arg e = .ok ((some a, call1), e1)) :
    ∃ m bm, call1.ArgMap = some m ∧ e1.s.Maps[m]? = some bm ∧
      isMapFuncCompatible bm.MapType call1.Helper.Enum = true := by
  obtain ⟨m, bm, h1, h2, _, h4, h5⟩ := ConstPtrToMapRegType.Generate_ok h
  exact ⟨m, bm, h1, h2, by rw [h4]; exact h5 hpm ham⟩

/-- A run for `map_lookup_elem` without a preferred map: the third draw decides to make a new
map, an array, which is compatible with the helper. -/
theorem constPtrToMap_compatible_when_chosen_witness :
    ∃ (a : BpfArg) (call1 : BpfCall) (e1 : Env),
      ConstPtrToMapRegType.Generate 1 (NewBpfCall hMapLookupElem (newBpfCallGenHint none)) 0
        (envWith (ptWith [hMapLookupElem]) [] [mapHash] [2, 1, 3]) = .ok ((some a, call1), e1) ∧
      ∃ m bm, call1.ArgMap = some m ∧ e1.s.Maps[m]? = some bm ∧
        isMapFuncCompatible bm.MapType call1.Helper.Enum = true := by
  have h : (ConstPtrToMapRegType.Generate 1 (NewBpfCall hMapLookupElem (newBpfCallGenHint none)) 0
      (envWith (ptWith [hMapLookupElem]) [] [mapHash] [2, 1, 3])).toOption.map
        (fun r => r.1.1.isSome) = some true := by decide!
  obtain ⟨⟨⟨oa, call1⟩, e1⟩, hrun, hsome⟩ := Outcome.ok_of_toOption_map h
  cases oa with
  | none => cases hsome
  | some a =>
    exact ⟨a, call1, e1, hrun,
      constPtrToMap_compatible_when_chosen 1 _ call1 0 _ e1 a rfl rfl hrun⟩

/-- C3 (counterexample): for `tail_call` with a hint whose preferred map is the hash map
`map_0`, `ConstPtrToMapRegType.Generate` succeeds and binds that map, although
`funcCompMaps` allows `tail_call` only on a program array. -/
theorem constPtrToMap_preferred_map_unchecked :
    (ConstPtrToMapRegType.Generate 1 (NewBpfCall hTailCall (newBpfCallGenHint (some 0))) 1
      (envWith (ptWith [hTailCall]) [] [mapHash] [])).toOption.map
        (fun r => (r.1.1.isSome, r.1.2.ArgMap.bind (fun m => r.2.s.Maps[m]?.map
          (fun bm => (bm.MapType, isMapFuncCompatible bm.MapType r.1.2.Helper.Enum)))))
      = some (true, some ("BPF_MAP_TYPE_HASH", false)) := by
  decide!

/-! ## A run of the call generator that does not end -/

theorem Gen.bind_step {α β : Type} {m : Gen α} {f : α → Gen β} {e e1 : Env} {a : α}
    {r : Outcome (β × Env)} (h1 : m e = .ok (a, e1)) (h2 : f a e1 = r) : (m >>= f) e = r := by
  change Gen.bind m f e = r
  unfold Gen.bind
  rw [h1]
  exact h2

theorem Gen.bind_spin {α β : Type} {m : Gen α} {f : α → Gen β} {e : Env} (h : m e = .spin) :
    (m >>= f) e = .spin := by
  change Gen.bind m f e = .spin
  unfold Gen.bind
  rw [h]

theorem Env.tail40_next {e : Env} (ht : e.tail40) : e.next.tail40 :=
  fun i hi => ht i (Nat.le_of_succ_le hi)

theorem Gen.Intn_tail40 {e : Env} (ht : e.tail40) (n : Int) (hn : 0 < n) :
    Gen.Intn n e = .ok (40 % n, e.next) := by
  unfold Gen.Intn randGen.Intn
  rw [if_neg (not_le.mpr hn), ht e.r.pos (le_refl _)]
  rfl

theorem compatKeyStructsFrom_arrayOfMaps (l : List StructDef) :
    ∃ r, compatKeyStructsFrom arrayOfMaps l = .ok r := by
  induction l with
  | nil => exact ⟨[], rfl⟩
  | cons sd rest ih =>
    obtain ⟨r, hr⟩ := ih
    unfold compatKeyStructsFrom
    show ∃ r, (if sd.Size < 4 then _ else if sd.Size > 4 then _ else _) = Outcome.ok r
    split
    · exact ⟨r, hr⟩
    · split
      · exact ⟨r, hr⟩
      · rw [hr]
        exact ⟨_, rfl⟩

theorem compatValStructsFrom_arrayOfMaps (l : List StructDef) :
    ∃ r, compatValStructsFrom {} 0 arrayOfMaps l = .ok r := by
  induction l with
  | nil => exact ⟨[], rfl⟩
  | cons sd rest ih =>
    obtain ⟨r, hr⟩ := ih
    unfold compatValStructsFrom
    show ∃ r, (if (0 : Int) ≠ -1 ∧ sd.Size < 0 then compatValStructsFrom {} 0 arrayOfMaps rest
      else if sd.Size < 4 then compatValStructsFrom {} 0 arrayOfMaps rest
      else if sd.Size > 4 then compatValStructsFrom {} 0 arrayOfMaps rest
      else (compatValStructsFrom {} 0 arrayOfMaps rest >>= fun more => pure (sd :: more)))
        = Outcome.ok r
    by_cases h1 : (0 : Int) ≠ -1 ∧ sd.Size < 0
    · rw [if_pos h1]
      exact ⟨r, hr⟩
    · rw [if_neg h1]
      by_cases h2 : sd.Size < 4
      · rw [if_pos h2]
        exact ⟨r, hr⟩
      · rw [if_neg h2]
        by_cases h3 : sd.Size > 4
        · rw [if_pos h3]
          exact ⟨r, hr⟩
        · rw [if_neg h3, hr]
          exact ⟨_, rfl⟩

theorem Gen.lift_step {α : Type} {o : Outcome α} {a : α} (h : o = .ok a) (e : Env) :
    Gen.lift o e = .ok (a, e) := by
  rw [h]
  rfl

theorem Gen.index_step {α : Type} {xs : List α} {i : Int} {x : α}
    (h : xs[i.toNat]? = some x) (hi : ¬ i < 0) (e : Env) : Gen.index xs i e = .ok (x, e) := by
  unfold Gen.index
  rw [if_neg hi, h]
  rfl

theorem generateStruct_word (useHint : Bool) (e : Env) :
    generateStruct [4, 4] [] useHint 0 e
      = .ok (((some wordStruct, true), []),
          { e with s := { e.s with Structs := e.s.Structs ++ [wordStruct] } }) := by
  cases useHint <;> rfl

theorem NewMap_arrayOfMaps_spin (n : Nat) :
    ∀ e : Env, e.tail40 → NewMap n arrayOfMaps {} 0 e = .spin := by
  induction n with
  | zero => intro e _; rfl
  | succ n ih =>
    intro e ht
    unfold NewMap
    dsimp only
    have ht1 := Env.tail40_next ht
    have ht2 := Env.tail40_next ht1
    have ht3 := Env.tail40_next ht2
    have hmax : newMapMaxEntries arrayOfMaps {} e = .ok (40, e.next) := by
      unfold newMapMaxEntries
      exact Gen.bind_step (Gen.Intn_tail40 ht _ (by decide)) rfl
    refine Gen.bind_step hmax ?_
    refine Gen.bind_step (rfl : Gen.getS e.next = .ok (e.next.s, e.next)) ?_
    obtain ⟨cks, hcks⟩ := compatKeyStructsFrom_arrayOfMaps e.next.s.Structs
    have hk : Gen.lift (getCompatKeyStructDefs e.next.s arrayOfMaps) e.next = .ok (cks, e.next) := by
      unfold getCompatKeyStructDefs
      rw [hcks]
      rfl
    refine Gen.bind_step hk ?_
    refine Gen.bind_step (Gen.Intn_tail40 ht1 2 (by decide)) ?_
    have hkey : ∀ cond : Prop, [Decidable cond] → ∀ (alt : Gen ((Option StructDef × Bool) × HintSet))
        (useHint : Bool) (e0 : Env),
        (if (40 : Int) % 2 = 1 ∧ cond then alt else generateStruct [4, 4] [] useHint 0) e0
          = .ok (((some wordStruct, true), []),
              { e0 with s := { e0.s with Structs := e0.s.Structs ++ [wordStruct] } }) := by
      intro cond _ alt useHint e0
      rw [if_neg (fun h => absurd h.1 (by decide))]
      exact generateStruct_word useHint e0
    refine Gen.bind_step (hkey _ _ false _) ?_
    dsimp only
    rw [if_neg (by decide)]
    refine Gen.bind_step rfl ?_
    obtain ⟨cvs, hcvs⟩ := compatValStructsFrom_arrayOfMaps (e.next.next.s.Structs ++ [wordStruct])
    refine Gen.bind_step (Gen.lift_step hcvs _) ?_
    refine Gen.bind_step (Gen.Intn_tail40 ?_ 2 (by decide)) ?_
    · exact ht2
    refine Gen.bind_step (hkey _ _ true _) ?_
    dsimp only
    rw [if_neg (by decide)]
    refine Gen.bind_spin ?_
    rw [if_pos (show arrayOfMaps.Type_ = "BPF_MAP_TYPE_ARRAY_OF_MAPS" ∨
      arrayOfMaps.Type_ = "BPF_MAP_TYPE_HASH_OF_MAPS" from Or.inl rfl)]
    refine Gen.bind_step (Gen.Intn_tail40 ?_ _ (by decide)) ?_
    · exact ht3
    refine Gen.bind_step (Gen.index_step (show bpfMapTypes[((40 : Int) %
      (bpfMapTypes.length : Int)).toNat]? = some arrayOfMaps from by decide!) (by decide!) _) ?_
    refine Gen.bind_spin (ih _ ?_)
    exact Env.tail40_next ht3

/-- With the random source `src40` a call of `genBpfHelperCall` for `map_lookup_elem` reaches
`NewMap` for an array of maps, whose inner maps never end. -/
theorem genBpfHelperCall_c9Env_spin (n f : Nat) :
    genBpfHelperCall n (f + 1) hMapLookupElem (newBpfCallGenHint none) false c9Env = .spin := by
  unfold genBpfHelperCall
  refine Gen.bind_step rfl ?_
  refine Gen.bind_step rfl ?_
  rw [if_neg (by decide)]
  unfold genBpfHelperCallBody
  refine Gen.bind_spin ?_
  show (tryArg _ 0 51 _ >>= _) _ = Outcome.spin
  refine Gen.bind_spin ?_
  show (genBpfHelperCallArg n _ _ 0 >>= _) _ = Outcome.spin
  refine Gen.bind_spin ?_
  unfold genBpfHelperCallArg
  refine Gen.bind_step rfl ?_
  refine Gen.bind_step rfl ?_
  dsimp only
  refine Gen.bind_step rfl ?_
  dsimp only
  refine Gen.bind_step rfl ?_
  dsimp only
  refine Gen.bind_spin ?_
  unfold genRandDirectAccess
  refine Gen.bind_step rfl ?_
  show (Gen.Intn _ >>= _) _ = Outcome.spin
  refine Gen.bind_step rfl ?_
  refine Gen.bind_step rfl ?_
  refine Gen.bind_spin ?_
  show ConstPtrToMapRegType.Generate n _ 0 _ = Outcome.spin
  unfold ConstPtrToMapRegType.Generate
  refine Gen.bind_step rfl ?_
  show (Gen.getS >>= _) _ = Outcome.spin
  refine Gen.bind_step rfl ?_
  refine Gen.bind_step rfl ?_
  show (pickNewMapType _ _ >>= _) _ = Outcome.spin
  refine Gen.bind_step rfl ?_
  show (NewMap n _ _ _ >>= _) _ = Outcome.spin
  refine Gen.bind_spin ?_
  refine NewMap_arrayOfMaps_spin n _ ?_
  intro i hi
  have h4 : 4 ≤ i := hi
  show src40 i = 40
  unfold src40
  rw [if_neg (by omega)]

/-! ## The struct generator -/

theorem fillStep_offset (size : Int) (useHint : Bool) (st : FillState) :
    st.offset + 1 ≤ (fillStep size useHint st).offset := by
  unfold fillStep
  dsimp only
  repeat' split
  all_goals dsimp only
  all_goals omega

/-- The fill loop of `generateStruct` reaches its `break` within the passes the model gives
it: the offset is at least `size` at the end. -/
theorem fillLoop_exit (size : Int) (useHint : Bool) (fuel : Nat) (st : FillState)
    (h : size - st.offset ≤ fuel) : size ≤ (fillLoop size useHint fuel st).offset := by
  induction fuel generalizing st with
  | zero =>
    unfold fillLoop
    simp only [Nat.cast_zero] at h
    omega
  | succ n ih =>
    unfold fillLoop
    split
    · omega
    · apply ih
      have := fillStep_offset size useHint st
      push_cast at h
      omega

/-! ## The repair passes -/

/-- C5 (failing input): for two `sk_release` calls on the same variable, over a program type
with `sk_lookup_tcp` and `sk_release`, `FixRef` adds one `sk_lookup_tcp` and renames the
argument of the first release; the state then holds one acquire and two releases of a
socket. -/
theorem FixRef_leaves_orphan_release :
    (FixRef 1 1 id c5Env).toOption.map
      (fun res => (res.2.s.Calls.map (fun c => (c.Helper.Enum, arg0Name c)),
        acquireCount res.2 1, releaseCount res.2 1))
      = some ([("BPF_FUNC_sk_lookup_tcp", some "ctx"), ("BPF_FUNC_sk_release", some "v12"),
          ("BPF_FUNC_sk_release", some "v0")], 1, 2) := by
  decide!

/-- C6 (failing input): for `[spin_lock a, spin_lock b]`, whatever the spare capacity of
`s.Calls`, `FixSpinLock` leaves a `spin_lock` that no `spin_unlock` follows. -/
theorem FixSpinLock_leaves_lock_open (spare : Nat) :
    (FixSpinLock spare c6Env).toOption.map (fun res => everyLockFollowed res.2.s.Calls)
      = some false := by
  cases spare with
  | zero => decide!
  | succ n => rfl

/-- C7 (failing input): for `[spin_lock a, X, spin_unlock a]`, whatever the spare capacity
of `s.Calls`, `FixSpinLock` yields `[spin_lock a, spin_unlock a, X, spin_unlock a]`, whose
last call unlocks a lock that is not held. -/
theorem FixSpinLock_leaves_unlock_unheld (spare : Nat) :
    (FixSpinLock spare c7Env).toOption.map
      (fun res => (res.2.s.Calls.map (fun c => (c.Helper.Enum, arg0Name c)),
        everyUnlockHeld res.2.s.Calls none))
      = some ([("BPF_FUNC_spin_lock", some "a"), ("BPF_FUNC_spin_unlock", some "a"),
          ("BPF_FUNC_get_prandom_u32", none), ("BPF_FUNC_spin_unlock", some "a")], false) := by
  cases spare with
  | zero => decide!
  | succ n => rfl

/-! ## The call generator -/

/-- At a depth counter of 100 or more `genBpfHelperCall` fails at once: it raises the counter
and makes no call. -/
theorem genBpfHelperCall_at_depth_limit (mapFuel fuel : Nat) (helper : BpfHelperFunc)
    (hint : BpfCallGenHint) (prepend : Bool) (e : Env) (h : 100 ≤ e.rd) :
    genBpfHelperCall mapFuel fuel helper hint prepend e
      = .ok (none, { e with rd := e.rd + 1 }) := by
  cases fuel with
  | zero =>
    unfold genBpfHelperCall
    refine Gen.bind_step rfl ?_
    refine Gen.bind_step rfl ?_
    rw [if_pos (show e.rd + 1 > 100 by omega)]
    rfl
  | succ n =>
    unfold genBpfHelperCall
    refine Gen.bind_step rfl ?_
    refine Gen.bind_step rfl ?_
    rw [if_pos (show e.rd + 1 > 100 by omega)]
    rfl

/-- C9 (failing input): for `map_lookup_elem`, a fresh state and the random source `src40`,
`genBpfHelperCall` returns neither success nor failure, however large the budgets of the
model: the map it needs is an array of maps, and every inner map that `NewMap` makes is an
array of maps again. -/
theorem genBpfHelperCall_never_returns (mapFuel fuel : Nat) :
    genBpfHelperCall mapFuel fuel hMapLookupElem (newBpfCallGenHint none) false c9Env
      = .spin := by
  cases fuel with
  | zero => rfl
  | succ f => exact genBpfHelperCall_c9Env_spin mapFuel f

/-- C10 (as amended): if `genBpfHelperCall` returns failure, `s.Calls` is what it was before
the invocation followed by zero or more calls (the nested producer calls made while its
arguments were resolved). -/
theorem failed_call_keeps_prefix (mapFuel fuel : Nat) (helper : BpfHelperFunc)
    (hint : BpfCallGenHint) (prepend : Bool) (e e1 : Env)
    (h : genBpfHelperCall mapFuel fuel helper hint prepend e = .ok (none, e1)) :
    ∃ added, e1.s.Calls = e.s.Calls ++ added :=
  genBpfHelperCall_grows mapFuel fuel helper hint prepend e e1 none h (Or.inl rfl)

/-- A failed call for `sk_lookup_tcp`: the call that was in `s.Calls` is still first. -/
theorem failed_call_keeps_prefix_witness :
    ∃ e1 : Env,
      genBpfHelperCall 1 2 hSkLookupTcp (newBpfCallGenHint none) false c10Env = .ok (none, e1) ∧
      ∃ added, e1.s.Calls = c10Env.s.Calls ++ added := by
  have h : (genBpfHelperCall 1 2 hSkLookupTcp (newBpfCallGenHint none) false
      c10Env).toOption.map (fun r => r.1.isNone) = some true := by decide!
  obtain ⟨⟨r, e1⟩, hrun, hnone⟩ := Outcome.ok_of_toOption_map h
  cases r with
  | some c => cases hnone
  | none =>
    exact ⟨e1, hrun, failed_call_keeps_prefix 1 2 hSkLookupTcp _ false c10Env e1 hrun⟩

/-- C10 (counterexample): over a program type without `sk_release`, `genBpfHelperCall` for
`sk_lookup_tcp` returns failure, and `s.Calls`, which held one call before, holds a second
one afterwards: the `get_prandom_u32` call made for the fourth argument. -/
theorem failed_call_leaves_producer_call :
    (c10Env.s.Calls.map (fun c => (c.Helper.Enum, c.Ret)) = [("BPF_FUNC_get_prandom_u32", "v3")]) ∧
    (genBpfHelperCall 1 2 hSkLookupTcp (newBpfCallGenHint none) false c10Env).toOption.map
      (fun r => (r.1.isSome, r.2.s.Calls.map (fun c => (c.Helper.Enum, c.Ret))))
      = some (false, [("BPF_FUNC_get_prandom_u32", "v3"), ("BPF_FUNC_get_prandom_u32", "v10")]) := by
  decide!

/-! ## Context variables -/

theorem lookup_assocSet_self (k v : String) (l : List (String × String)) :
    (assocSet k v l).lookup k = some v := by
  induction l with
  | nil => simp [assocSet, List.lookup]
  | cons p rest ih =>
    obtain ⟨k1, v1⟩ := p
    unfold assocSet
    by_cases hk : k1 = k
    · rw [if_pos hk]
      simp [List.lookup]
    · rw [if_neg hk]
      have hne : (k == k1) = false := by simpa using fun h => hk h.symm
      simp only [List.lookup, hne]
      exact ih

theorem lookup_assocSet_ne (k v f : String) (l : List (String × String)) (hf : f ≠ k) :
    (assocSet k v l).lookup f = l.lookup f := by
  induction l with
  | nil =>
    have hne : (f == k) = false := by simpa using hf
    simp [assocSet, List.lookup, hne]
  | cons p rest ih =>
    obtain ⟨k1, v1⟩ := p
    unfold assocSet
    by_cases hk : k1 = k
    · rw [if_pos hk]
      subst hk
      have hne : (f == k1) = false := by simpa using hf
      simp [List.lookup, hne]
    · rw [if_neg hk]
      by_cases hfk : f = k1
      · subst hfk
        simp [List.lookup]
      · have hne : (f == k1) = false := by simpa using hfk
        simp only [List.lookup, hne]
        exact ih

theorem length_assocSet_of_lookup_none (k v : String) (l : List (String × String))
    (h : l.lookup k = none) : (assocSet k v l).length = l.length + 1 := by
  induction l with
  | nil => rfl
  | cons p rest ih =>
    obtain ⟨k1, v1⟩ := p
    unfold assocSet
    by_cases hk : k1 = k
    · subst hk
      simp [List.lookup] at h
    · rw [if_neg hk]
      have hne : (k == k1) = false := by simpa using fun h => hk h.symm
      simp only [List.lookup, hne] at h
      simp [ih h]

theorem Env.keepsCtx_refl (e : Env) : Env.keepsCtx e e := fun _ _ h => ⟨h, rfl⟩

theorem Env.keepsCtx_trans {e e1 e2 : Env} (h1 : Env.keepsCtx e e1) (h2 : Env.keepsCtx e1 e2) :
    Env.keepsCtx e e2 := by
  intro f v hf
  obtain ⟨ha, hb⟩ := h1 f v hf
  obtain ⟨hc, hd⟩ := h2 f v ha
  exact ⟨hc, hd.trans hb⟩

theorem Env.keepsCtx_of_eq {e e1 : Env} (h : e1.s = e.s) : Env.keepsCtx e e1 := by
  intro f v hf
  rw [h]
  exact ⟨hf, rfl⟩

theorem Env.countsCtx_of_eq {e e1 : Env} (h : e1.s = e.s) : Env.countsCtx e e1 := by
  unfold Env.countsCtx
  rw [h]
  simp

theorem Env.countsCtx_trans {e e1 e2 : Env} (h1 : Env.countsCtx e e1)
    (h2 : Env.countsCtx e1 e2) : Env.countsCtx e e2 := by
  unfold Env.countsCtx at *
  omega

/-- What `bindCtxVar` does: a bound field yields its variable and changes nothing; an unbound
field is bound to the fresh variable `v<VarId>`, and no other binding is touched. -/
theorem bindCtxVar_ok {field typ name : String} {e e1 : Env}
    (h : bindCtxVar field typ e = .ok (name, e1)) :
    e1.s.CtxVars.lookup field = some name ∧
      (∀ v, e.s.CtxVars.lookup field = some v → name = v ∧ e1 = e) ∧
      (e.s.CtxVars.lookup field = none →
        name = "v" ++ toString e.s.VarId ∧ e1.s.VarId = e.s.VarId + 1) ∧
      Env.keepsCtx e e1 ∧ Env.countsCtx e e1 := by
  unfold bindCtxVar at h
  obtain ⟨s, ea, hs, h⟩ := Gen.bind_ok h
  cases hs
  cases hl : e.s.CtxVars.lookup field with
  | some v =>
    rw [hl] at h
    obtain ⟨rfl, rfl⟩ := Gen.pure_ok h
    refine ⟨hl, ?_, ?_, Env.keepsCtx_refl _, Env.countsCtx_of_eq rfl⟩
    · intro v1 hv1
      exact ⟨Option.some.inj hv1, rfl⟩
    · intro hn
      cases hn
  | none =>
    rw [hl] at h
    obtain ⟨u, eb, hm, h⟩ := Gen.bind_ok h
    obtain rfl := Gen.modifyS_ok hm
    obtain ⟨rfl, rfl⟩ := Gen.pure_ok h
    refine ⟨lookup_assocSet_self _ _ _, ?_, ?_, ?_, ?_⟩
    · intro v hv
      cases hv
    · intro _
      exact ⟨rfl, rfl⟩
    · intro f v hf
      have hne : f ≠ field := by
        intro heq
        rw [heq, hl] at hf
        cases hf
      exact ⟨(lookup_assocSet_ne _ _ _ _ hne).trans hf, lookup_assocSet_ne _ _ _ _ hne⟩
    · unfold Env.countsCtx
      show e.s.VarId + 1 - e.s.VarId
        = ((assocSet field ("v" ++ toString e.s.VarId) e.s.CtxVars).length : Int)
          - (e.s.CtxVars.length : Int)
      rw [length_assocSet_of_lookup_none _ _ _ hl]
      push_cast
      omega

/-! ## What leaves the program state untouched -/

instance stateFrame_pure {α : Type} (a : α) : StateFrame (pure a : Gen α) := by
  constructor
  constructor
  intro e b e1 h
  rw [(Gen.pure_ok h).2]

instance stateFrame_ret {α : Type} (a : α) : StateFrame (Gen.ret a) :=
  stateFrame_pure a

theorem stateFrame_bind {α β : Type} {m : Gen α} {f : α → Gen β} (hm : StateFrame m)
    (hf : ∀ a, StateFrame (f a)) : StateFrame (m >>= f) :=
  ⟨sat_bind (fun e e1 => e1.s = e.s) (fun _ _ _ h1 h2 => h2.trans h1) hm.sat
    (fun a => (hf a).sat)⟩

instance stateFrame_bind_inst {α β : Type} {m : Gen α} {f : α → Gen β} [hm : StateFrame m]
    [hf : ∀ a, StateFrame (f a)] : StateFrame (m >>= f) :=
  stateFrame_bind hm hf

theorem stateFrame_ite {α : Type} {c : Prop} [Decidable c] {t f : Gen α} (ht : StateFrame t)
    (hf : StateFrame f) : StateFrame (if c then t else f) := by
  split <;> assumption

instance stateFrame_ite_inst {α : Type} {c : Prop} [Decidable c] {t f : Gen α}
    [ht : StateFrame t] [hf : StateFrame f] : StateFrame (if c then t else f) :=
  stateFrame_ite ht hf

instance stateFrame_fault {α : Type} (msg : String) : StateFrame (Gen.fault msg : Gen α) := by
  constructor
  constructor
  intro e a e1 h
  cases h

instance stateFrame_getE : StateFrame Gen.getE := by
  constructor
  constructor
  intro e a e1 h
  cases h
  rfl

instance stateFrame_lift {α : Type} (o : Outcome α) : StateFrame (Gen.lift o) := by
  constructor
  constructor
  intro e a e1 h
  rw [(Gen.lift_ok h).2]

instance stateFrame_Intn (n : Int) : StateFrame (Gen.Intn n) :=
  ⟨⟨fun _ _ _ h => Gen.Intn_ok h⟩⟩

instance stateFrame_index {α : Type} (xs : List α) (i : Int) : StateFrame (Gen.index xs i) := by
  constructor
  constructor
  intro e a e1 h
  rw [(Gen.index_ok h).2]

instance stateFrame_derefMap (m : MapRef) : StateFrame (derefMap m) := by
  constructor
  constructor
  intro e a e1 h
  rw [(derefMap_ok h).1]

theorem stateFrame_modifyE (f : Env → Env) (h : ∀ e, (f e).s = e.s) :
    StateFrame (Gen.modifyE f) := by
  constructor
  constructor
  intro e a e1 he
  cases he
  exact h e

instance stateFrame_genCompatibleRegTypes (call : BpfCall) (arg : Int) :
    StateFrame (genCompatibleRegTypes call arg) := by
  unfold genCompatibleRegTypes
  repeat' first
    | infer_instance
    | exact stateFrame_modifyE _ (fun _ => rfl)
    | apply stateFrame_bind
    | apply stateFrame_ite
    | intro _
    | split

/-- The access-size step of `genRandBpfCtxAccess` keeps the name of the argument and the
program state. -/
theorem pktAccessSize_ok {call call1 : BpfCall} {arg : Int} {a a1 : BpfArg} {e e1 : Env}
    (h : pktAccessSize call arg a e = .ok ((a1, call1), e1)) :
    a1.Name = a.Name ∧ e1.s = e.s := by
  unfold pktAccessSize at h
  obtain ⟨argType, ea, h0, h⟩ := Gen.bind_ok h
  obtain ⟨am, eb, h1, h⟩ := Gen.bind_ok h
  obtain ⟨x1, ec, h2, h⟩ := Gen.bind_ok h
  obtain ⟨x2, ed, h3, h⟩ := Gen.bind_ok h
  obtain ⟨x3, ee, h4, h⟩ := Gen.bind_ok h
  obtain ⟨x3a, x3c⟩ := x3
  obtain ⟨hr, he⟩ := Gen.pure_ok h
  have s0 : ea.s = e.s := by rw [(Gen.index_ok h0).2]
  have s1 : eb.s = ea.s := by
    cases hc : call.ArgMap with
    | none =>
      rw [hc] at h1
      rw [(Gen.pure_ok h1).2]
    | some m =>
      rw [hc] at h1
      obtain ⟨bm, eb1, hd, hp⟩ := Gen.bind_ok h1
      rw [(Gen.pure_ok hp).2, (derefMap_ok hd).1]
  have n1 : x1.Name = a.Name ∧ ec.s = eb.s := by
    cases am with
    | none =>
      obtain ⟨rfl, rfl⟩ := Gen.pure_ok h2
      exact ⟨rfl, rfl⟩
    | some bm =>
      dsimp only at h2
      cases hk : bm.Key with
      | none =>
        rw [hk] at h2
        obtain ⟨rfl, rfl⟩ := Gen.pure_ok h2
        exact ⟨rfl, rfl⟩
      | some k =>
        rw [hk] at h2
        dsimp only at h2
        by_cases hc : argType = "ARG_PTR_TO_MAP_KEY"
        · rw [if_pos hc] at h2
          obtain ⟨v, ec1, hl, hp⟩ := Gen.bind_ok h2
          obtain ⟨rfl, rfl⟩ := Gen.pure_ok hp
          exact ⟨rfl, by rw [(Gen.lift_ok hl).2]⟩
        · rw [if_neg hc] at h2
          obtain ⟨rfl, rfl⟩ := Gen.pure_ok h2
          exact ⟨rfl, rfl⟩
  have n2 : x2.Name = x1.Name ∧ ed.s = ec.s := by
    cases am with
    | none =>
      obtain ⟨rfl, rfl⟩ := Gen.pure_ok h3
      exact ⟨rfl, rfl⟩
    | some bm =>
      dsimp only at h3
      cases hk : bm.Val with
      | none =>
        rw [hk] at h3
        obtain ⟨rfl, rfl⟩ := Gen.pure_ok h3
        exact ⟨rfl, rfl⟩
      | some k =>
        rw [hk] at h3
        dsimp only at h3
        by_cases hc : argType = "ARG_PTR_TO_MAP_VALUE" ∨ argType = "ARG_PTR_TO_MAP_VALUE_OR_NULL" ∨
            argType = "ARG_PTR_TO_UNINIT_MAP_VALUE"
        · rw [if_pos hc] at h3
          obtain ⟨v, ec1, hl, hp⟩ := Gen.bind_ok h3
          obtain ⟨rfl, rfl⟩ := Gen.pure_ok hp
          exact ⟨rfl, by rw [(Gen.lift_ok hl).2]⟩
        · rw [if_neg hc] at h3
          obtain ⟨rfl, rfl⟩ := Gen.pure_ok h3
          exact ⟨rfl, rfl⟩
  have n3 : x3a.Name = x2.Name ∧ ee.s = ed.s := by
    by_cases hc : argType = "ARG_PTR_TO_MEM" ∨ argType = "ARG_PTR_TO_MEM_OR_NULL" ∨
        argType = "ARG_PTR_TO_UNINIT_MEM"
    · rw [if_pos hc] at h4
      obtain ⟨size, ee1, hi, hp⟩ := Gen.bind_ok h4
      obtain ⟨hv, rfl⟩ := Gen.pure_ok hp
      cases hv
      exact ⟨rfl, Gen.Intn_ok hi⟩
    · rw [if_neg hc] at h4
      obtain ⟨hv, rfl⟩ := Gen.pure_ok h4
      cases hv
      exact ⟨rfl, rfl⟩
  have hname : a1.Name = x3a.Name := by
    cases hr
    split <;> split <;> rfl
  exact ⟨by rw [hname, n3.1, n2.1, n1.1], by rw [he, n3.2, n2.2, n1.2, s1, s0]⟩

/-! ## The context access -/

/-- An optional binding of a packet anchor (`data`, `data_end`) followed by the access-size
step, as in the two packet branches of `genRandBpfCtxAccess`. -/
theorem anchorStep_ok {c : Prop} [Decidable c] {anchor typ : String} {call call1 : BpfCall}
    {arg : Int} {a a0 a1 : BpfArg} {e e1 : Env} (ha0 : a0.Name = a.Name)
    (h : (if c then do
            let _ ← bindCtxVar anchor typ
            pktAccessSize call arg a0
          else pure (a, call) : Gen (BpfArg × BpfCall)) e = .ok ((a1, call1), e1)) :
    a1.Name = a.Name ∧ Env.keepsCtx e e1 ∧ Env.countsCtx e e1 := by
  by_cases hc : c
  · rw [if_pos hc] at h
    obtain ⟨nm, ea, hb, h⟩ := Gen.bind_ok h
    obtain ⟨_, _, _, hk, hn⟩ := bindCtxVar_ok hb
    obtain ⟨hname, hs⟩ := pktAccessSize_ok h
    exact ⟨hname.trans ha0, Env.keepsCtx_trans hk (Env.keepsCtx_of_eq hs),
      Env.countsCtx_trans hn (Env.countsCtx_of_eq hs)⟩
  · rw [if_neg hc] at h
    obtain ⟨hv, rfl⟩ := Gen.pure_ok h
    cases hv
    exact ⟨rfl, Env.keepsCtx_refl _, Env.countsCtx_of_eq rfl⟩

theorem ctxAccessOnce_ok {crt : List RegType} {call call1 : BpfCall} {arg : Int}
    {r : Option BpfArg} {e e1 : Env}
    (h : ctxAccessOnce crt call arg e = .ok ((r, call1), e1)) :
    (r = none → e1.s = e.s) ∧ (∀ a, r = some a → Env.ctxBound e a e1) := by
  unfold ctxAccessOnce at h
  have hh := Gen.bind_ok h
  clear h
  obtain ⟨a, ea, h0, h⟩ := hh
  have hh := Gen.bind_ok h
  clear h
  obtain ⟨k, eb, h1, h⟩ := hh
  have hh := Gen.bind_ok h
  clear h
  obtain ⟨rt0, ec, h2, h⟩ := hh
  have hh := Gen.bind_ok h
  clear h
  obtain ⟨s, ed, h3, h⟩ := hh
  cases h3
  have hs : ec.s = e.s := by
    rw [(Gen.index_ok h2).2, Gen.Intn_ok h1, (Gen.lift_ok h0).2]
  cases hca : ec.s.pt.ctxAccess with
  | none =>
    rw [hca] at h
    cases h
  | some ca =>
    rw [hca] at h
    dsimp only at h
    cases hlr : lookupRanges ca rt0.String with
    | none =>
      rw [hlr] at h
      obtain ⟨hv, rfl⟩ := Gen.pure_ok h
      cases hv
      exact ⟨fun _ => hs, fun a ha => by cases ha⟩
    | some ranges =>
      rw [hlr] at h
      have hh := Gen.bind_ok h
      clear h
      obtain ⟨allowed, ee, h4, h⟩ := hh
      obtain ⟨_, rfl⟩ := Gen.lift_ok h4
      by_cases hal : (!allowed) = true
      · rw [if_pos hal] at h
        obtain ⟨hv, rfl⟩ := Gen.pure_ok h
        cases hv
        exact ⟨fun _ => hs, fun a ha => by cases ha⟩
      · rw [if_neg hal] at h
        have hh := Gen.bind_ok h
        clear h
        obtain ⟨r0, ef, h5, h⟩ := hh
        obtain ⟨_, rfl⟩ := Gen.index_ok h5
        have hh := Gen.bind_ok h
        clear h
        obtain ⟨field, eg, h6, h⟩ := hh
        obtain ⟨_, rfl⟩ := Gen.index_ok h6
        have hh := Gen.bind_ok h
        clear h
        obtain ⟨name, eh, h7, h⟩ := hh
        obtain ⟨hbound, hold, hnew, hk1, hn1⟩ := bindCtxVar_ok h7
        have hh := Gen.bind_ok h
        clear h
        obtain ⟨x2, ei, h8, h⟩ := hh
        obtain ⟨a2, c2⟩ := x2
        have hh := Gen.bind_ok h
        clear h
        obtain ⟨x3, ej, h9, h⟩ := hh
        obtain ⟨a3, c3⟩ := x3
        obtain ⟨hv, rfl⟩ := Gen.pure_ok h
        cases hv
        obtain ⟨hname2, hk2, hn2⟩ := anchorStep_ok (by rfl) h8
        obtain ⟨hname3, hk3, hn3⟩ := anchorStep_ok (by rfl) h9
        refine ⟨fun hn => (by cases hn), fun a4 ha4 => ?_⟩
        cases ha4
        have hk := Env.keepsCtx_trans (Env.keepsCtx_trans hk1 hk2) hk3
        have hn := Env.countsCtx_trans (Env.countsCtx_trans hn1 hn2) hn3
        have hnm : a3.Name = name := by rw [hname3, hname2]
        refine ⟨Env.keepsCtx_trans (Env.keepsCtx_of_eq hs) hk,
          Env.countsCtx_trans (Env.countsCtx_of_eq hs) hn, field, ?_, ?_, ?_⟩
        · rw [hnm]
          exact (hk3 _ _ (hk2 _ _ hbound).1).1
        · intro v hv
          rw [← hs] at hv
          rw [hnm]
          exact (hold v hv).1
        · intro hv
          rw [← hs] at hv
          rw [hnm, ← hs]
          exact (hnew hv).1

theorem ctxAccessLoop_ok {crt : List RegType} {arg : Int} (left : Nat) {call call1 : BpfCall}
    {r : Option BpfArg} {e e1 : Env}
    (h : ctxAccessLoop crt arg left call e = .ok ((r, call1), e1)) :
    (r = none → e1.s = e.s) ∧ (∀ a, r = some a → Env.ctxBound e a e1) := by
  induction left generalizing call e with
  | zero =>
    unfold ctxAccessLoop at h
    obtain ⟨hv, rfl⟩ := Gen.pure_ok h
    cases hv
    exact ⟨fun _ => rfl, fun a ha => by cases ha⟩
  | succ n ih =>
    unfold ctxAccessLoop at h
    obtain ⟨x, ea, h1, h⟩ := Gen.bind_ok h
    obtain ⟨a, c1⟩ := x
    obtain ⟨hnone, hsome⟩ := ctxAccessOnce_ok h1
    cases a with
    | some a1 =>
      obtain ⟨hv, rfl⟩ := Gen.pure_ok h
      cases hv
      refine ⟨fun hn => (by cases hn), fun a ha => ?_⟩
      cases ha
      exact hsome a1 rfl
    | none =>
      have hs := hnone rfl
      obtain ⟨h2none, h2some⟩ := ih h
      refine ⟨fun hn => (h2none hn).trans hs, fun a ha => ?_⟩
      obtain ⟨hk, hc, field, hb, ho, hw⟩ := h2some a ha
      refine ⟨Env.keepsCtx_trans (Env.keepsCtx_of_eq hs) hk,
        Env.countsCtx_trans (Env.countsCtx_of_eq hs) hc, field, hb, ?_, ?_⟩
      · intro v hv
        rw [← hs] at hv
        exact ho v hv
      · intro hv
        rw [← hs] at hv
        rw [← hs]
        exact hw hv

/-- C12: `genRandBpfCtxAccess` changes no binding of a context field that was bound (neither
its variable in `CtxVars` nor its type in `CtxTypes`), and advances `VarId` by one per field
it newly binds; on success the argument is named after the variable of a context field: the
variable the field was bound to before, if it was bound, else the fresh variable
`v<VarId>`, which the field is then bound to. -/
theorem genRandBpfCtxAccess_bindings (call call1 : BpfCall) (arg : Int) (r : Option BpfArg)
    (e e1 : Env) (h : genRandBpfCtxAccess call arg e = .ok ((r, call1), e1)) :
    Env.keepsCtx e e1 ∧ Env.countsCtx e e1 ∧ (∀ a, r = some a → Env.ctxBound e a e1) := by
  unfold genRandBpfCtxAccess at h
  obtain ⟨x, ea, h1, h⟩ := Gen.bind_ok h
  obtain ⟨crt, btf⟩ := x
  have hs : ea.s = e.s := (stateFrame_genCompatibleRegTypes call arg).sat.run _ _ _ h1
  obtain ⟨hnone, hsome⟩ := ctxAccessLoop_ok 5 h
  have hall : ∀ a, r = some a → Env.ctxBound e a e1 := by
    intro a ha
    obtain ⟨hk, hc, field, hb, ho, hw⟩ := hsome a ha
    refine ⟨Env.keepsCtx_trans (Env.keepsCtx_of_eq hs) hk,
      Env.countsCtx_trans (Env.countsCtx_of_eq hs) hc, field, hb, ?_, ?_⟩
    · intro v hv
      rw [← hs] at hv
      exact ho v hv
    · intro hv
      rw [← hs] at hv
      rw [← hs]
      exact hw hv
  cases r with
  | none =>
    have hs1 : e1.s = e.s := (hnone rfl).trans hs
    exact ⟨Env.keepsCtx_of_eq hs1, Env.countsCtx_of_eq hs1, hall⟩
  | some a => exact ⟨(hall a rfl).1, (hall a rfl).2.1, hall⟩

/-- A run on a state that binds `data` to `v3`: the access through `PTR_TO_PACKET_META`
binds `data_meta` to the fresh variable `v8`, leaves `data` alone and advances `VarId`
by one. -/
theorem genRandBpfCtxAccess_bindings_witness :
    ∃ (a : BpfArg) (call1 : BpfCall) (e1 : Env),
      genRandBpfCtxAccess callLookup 1 c12Env = .ok ((some a, call1), e1) ∧
      a.Name = "v8" ∧ e1.s.CtxVars = [("data", "v3"), ("data_meta", "v8")] ∧ e1.s.VarId = 9 ∧
      Env.keepsCtx c12Env e1 ∧ Env.countsCtx c12Env e1 ∧ Env.ctxBound c12Env a e1 := by
  have h : (genRandBpfCtxAccess callLookup 1 c12Env).toOption.map
      (fun r => (r.1.1.map (fun a => a.Name), r.2.s.CtxVars, r.2.s.VarId))
      = some (some "v8", [("data", "v3"), ("data_meta", "v8")], 9) := by decide!
  obtain ⟨⟨⟨oa, call1⟩, e1⟩, hrun, hval⟩ := Outcome.ok_of_toOption_map h
  cases oa with
  | none => simp at hval
  | some a =>
    simp only [Option.map_some', Prod.mk.injEq, Option.some.injEq] at hval
    obtain ⟨hname, hvars, hid⟩ := hval
    obtain ⟨hk, hc, hb⟩ := genRandBpfCtxAccess_bindings callLookup call1 1 (some a) c12Env e1 hrun
    exact ⟨a, call1, e1, hrun, hname, hvars, hid, hk, hc, hb a rfl⟩

/-! ## Names taken from a producer call -/

/-- C11 (failing input): for the `ARG_PTR_TO_SPIN_LOCK` slot of `spin_lock`,
`genRandBpfHelperCall` succeeds with a `map_lookup_elem` producer whose map value is the
single-field struct `struct bpf_spin_lock`; the emitted name is `&v9->e-1`, member index -1. -/
theorem genRandBpfHelperCall_member_index_negative :
    ((genRandBpfHelperCall (genBpfHelperCall 1 1) (NewBpfCall hSpinLock (newBpfCallGenHint none))
      0 c11Env).toOption.map (fun r => r.1.1.map (fun a => a.Name))
      = some (some "&v9->e-1")) ∧
    ((genRandBpfHelperCall (genBpfHelperCall 1 1) (NewBpfCall hSpinLock (newBpfCallGenHint none))
      0 c11Env).toOption.map
        (fun r => r.2.s.Maps.map (fun m => m.Val.map (fun v => v.FieldTypes)))
      = some [some ["struct bpf_spin_lock"]]) ∧
    ((genRandBpfHelperCall (genBpfHelperCall 1 1) (NewBpfCall hSpinLock (newBpfCallGenHint none))
      0 c11Env).toOption.map
        (fun r => r.2.s.Calls.map (fun c => (c.Helper.Enum, c.Ret, c.RetType)))
      = some [("BPF_FUNC_map_lookup_elem", "v9", "struct bpf_spin_lock*")]) := by
  decide!

/-! ## The compatibility tables -/

/-- C13: the tables `funcCompMaps` and `mapCompFuncs` agree. Every map type listed for a
helper in `funcCompMaps` has an entry in `mapCompFuncs` that lists the helper; every helper
listed for a map type in `mapCompFuncs` that has an entry in `funcCompMaps` has the map type
listed there; `isMapFuncCompatible` is true for every pair listed in either table; and no
key occurs twice in a table. -/
theorem compat_tables_agree :
    funcCompMaps.all (fun p => p.2.all (fun m =>
      (mapCompFuncs.lookup m).any (fun fs => fs.contains p.1))) = true ∧
    mapCompFuncs.all (fun q => q.2.all (fun f =>
      match funcCompMaps.lookup f with
      | some ms => ms.contains q.1
      | none => true)) = true ∧
    funcCompMaps.all (fun p => p.2.all (fun m => isMapFuncCompatible m p.1)) = true ∧
    mapCompFuncs.all (fun q => q.2.all (fun f => isMapFuncCompatible q.1 f)) = true ∧
    (funcCompMaps.map Prod.fst).Nodup ∧ (mapCompFuncs.map Prod.fst).Nodup := by
  decide!

/-! ## Reference acquisition without a release helper -/

/-- C15 (failing input): over a program type whose only helper is `ringbuf_reserve`, so that
no helper can release a ring-buffer reference, `genBpfHelperCall` for `ringbuf_reserve`
succeeds and appends the call, which acquires a reference of type 2. -/
theorem genBpfHelperCall_ringbuf_without_release :
    ((c15Env.s.getBpfHelpers ["BPF_FUNC_ringbuf_submit", "BPF_FUNC_ringbuf_discard"]).length = 0) ∧
    (genBpfHelperCall 1 1 hRingbufReserve (newBpfCallGenHint none) false c15Env).toOption.map
      (fun r => (r.1.map (fun c => c.Helper.Enum),
        r.2.s.Calls.map (fun c => (c.Helper.Enum, (c.isRefAcquireCall r.2).toOption.map Prod.fst))))
      = some (some "BPF_FUNC_ringbuf_reserve", [("BPF_FUNC_ringbuf_reserve", some 2)]) := by
  decide!

/-! ## The register-type catalogue -/

/-- C16 (failing input): for the `ARG_PTR_TO_MAP_KEY` slot of `map_lookup_elem` in a program
type without packet access, `genCompatibleRegTypes` overwrites the array of
`map_key_value_types`, which the catalogue holds under four argument tags, and a second call
with the same call and slot returns another list than the first. -/
theorem genCompatibleRegTypes_rewrites_catalogue :
    (c16Env.regArrays.lookup "map_key_value_types"
      = some [.PtrToStackRegType, .PtrToPacketRegType, .PtrToPacketMetaRegType,
          .PtrToMapKeyRegType, .PtrToMapValueRegType]) ∧
    ((genCompatibleRegTypes callLookup 1 >>= fun r1 =>
        genCompatibleRegTypes callLookup 1 >>= fun r2 =>
        Gen.getE >>= fun e1 =>
        pure (r1.1, r2.1, e1.regArrays.lookup "map_key_value_types")) c16Env).toOption.map
          Prod.fst
      = some ([.PtrToStackRegType, .PtrToPacketMetaRegType, .PtrToMapKeyRegType,
            .PtrToMapValueRegType],
          [.PtrToStackRegType, .PtrToMapKeyRegType, .PtrToMapValueRegType,
            .PtrToMapValueRegType],
          some [.PtrToStackRegType, .PtrToMapKeyRegType, .PtrToMapValueRegType,
            .PtrToMapValueRegType, .PtrToMapValueRegType]) := by
  decide!

/-- C17 (failing input): for the `ARG_PTR_TO_MAP_KEY` slot of `map_lookup_elem` in a state
where `checkPktAccess(s, helper, false)` is false, the list that `genCompatibleRegTypes`
returns still holds `PTR_TO_PACKET_META`. -/
theorem genCompatibleRegTypes_keeps_packet_meta :
    (checkPktAccess c16Env.s callLookup.Helper false = false) ∧
    (genCompatibleRegTypes callLookup 1 c16Env).toOption.map
      (fun r => r.1.1.map RegType.String)
      = some ["PTR_TO_STACK", "PTR_TO_PACKET_META", "PTR_TO_MAP_KEY", "PTR_TO_MAP_VALUE"] := by
  decide!

/-! ## The struct generator: hints that do not fit, and the fields without hints -/

/-- C14: with `useHint`, a hint set whose `occupiedSize` exceeds the maximum of the size
constraint makes `generateStruct` fail: it returns no struct and `false`, leaves the state
(so `s.Structs`) as it was, and removes no hint from the input set. -/
theorem generateStruct_fails_when_hints_exceed_max (min max : Int) (rest : List Int)
    (hints : HintSet) (minSizeHint : Int) (e : Env) (h : occupiedSize hints > max) :
    generateStruct (min :: max :: rest) hints true minSizeHint e
      = .ok (((none, false), hints), e) := by
  have hmin : hintedMin min max hints minSizeHint = none := by
    unfold hintedMin
    dsimp only
    rw [if_pos h]
  unfold generateStruct
  refine Gen.bind_step (Gen.index_step (show (min :: max :: rest)[(0 : Int).toNat]? = some min
    from rfl) (by decide) e) ?_
  refine Gen.bind_step (Gen.index_step (show (min :: max :: rest)[(1 : Int).toNat]? = some max
    from by simp) (by decide) e) ?_
  dsimp only
  split
  · next hl =>
    obtain ⟨a, ha⟩ : ∃ a, (min :: max :: rest)[(2 : Int).toNat]? = some a := by
      cases rest with
      | nil => simp at hl
      | cons a rest1 => exact ⟨a, by simp⟩
    refine Gen.bind_step (Gen.index_step ha (by decide) e) ?_
    simp only [if_true, hmin]
    rfl
  · refine Gen.bind_step rfl ?_
    simp only [if_true, hmin]
    rfl

/-- The constraint `[8, 8, 8]` with the hints spin lock and constant string, which occupy 12
bytes: `generateStruct` fails and changes nothing. -/
theorem generateStruct_fails_when_hints_exceed_max_witness :
    occupiedSize [HintGenSpinlock, HintGenConstStr] > 8 ∧
    generateStruct [8, 8, 8] [HintGenSpinlock, HintGenConstStr] true 0 envEmpty
      = .ok (((none, false), [HintGenSpinlock, HintGenConstStr]), envEmpty) :=
  ⟨by decide, generateStruct_fails_when_hints_exceed_max 8 8 [8]
    [HintGenSpinlock, HintGenConstStr] 0 envEmpty (by decide)⟩

theorem greedyFields_ge_eight (r : Nat) (h : 8 ≤ r) :
    greedyFields r = "uint64_t" :: greedyFields (r - 8) := by
  obtain ⟨k, rfl⟩ : ∃ k, r = k + 8 := ⟨r - 8, by omega⟩
  unfold greedyFields
  have h1 : (k + 8) / 8 = k / 8 + 1 := by omega
  have h2 : (k + 8) % 8 = k % 8 := by omega
  have h3 : (k + 8) % 4 = k % 4 := by omega
  have h4 : (k + 8) % 2 = k % 2 := by omega
  rw [Nat.add_sub_cancel, h1, h2, h3, h4, List.replicate_succ]
  rfl

/-- Without hints the fill loop of `generateStruct` appends the fields that the
specification describes for the bytes that are left, and leaves the hint set alone. -/
theorem fillLoop_greedy (size : Int) (fuel : Nat) (st : FillState)
    (h : (size - st.offset).toNat ≤ fuel) :
    (fillLoop size false fuel st).fieldTypes
        = st.fieldTypes ++ greedyFields (size - st.offset).toNat ∧
      (fillLoop size false fuel st).hints = st.hints := by
  induction fuel generalizing st with
  | zero =>
    unfold fillLoop
    have h0 : (size - st.offset).toNat = 0 := by omega
    rw [h0]
    exact ⟨by simp [greedyFields], rfl⟩
  | succ n ih =>
    unfold fillLoop
    split
    · next hge =>
      have h0 : (size - st.offset).toNat = 0 := by omega
      rw [h0]
      exact ⟨by simp [greedyFields], rfl⟩
    · next hlt =>
      have hstep : ∃ (k : Nat) (t : String), 1 ≤ k ∧ (k : Int) ≤ size - st.offset ∧
          fillStep size false st
            = { st with offset := st.offset + k, fieldTypes := st.fieldTypes ++ [t] } ∧
          greedyFields (size - st.offset).toNat
            = t :: greedyFields ((size - st.offset).toNat - k) := by
        obtain ⟨r, hr⟩ : ∃ r : Nat, size - st.offset = r := ⟨(size - st.offset).toNat, by omega⟩
        have hr1 : 1 ≤ r := by omega
        rw [hr, Int.toNat_ofNat]
        unfold fillStep
        simp only [Bool.false_and, Bool.false_eq_true, if_false, hr]
        by_cases h8 : (r : Int) ≥ 8
        · rw [if_pos h8]
          exact ⟨8, "uint64_t", by decide, by omega, rfl, greedyFields_ge_eight r (by omega)⟩
        · rw [if_neg h8]
          by_cases h4 : (r : Int) ≥ 4
          · rw [if_pos h4]
            refine ⟨4, "uint32_t", by decide, by omega, rfl, ?_⟩
            have hr8 : r < 8 := by omega
            interval_cases r <;> first | omega | rfl
          · rw [if_neg h4]
            by_cases h2 : (r : Int) ≥ 2
            · rw [if_pos h2]
              refine ⟨2, "uint16_t", by decide, by omega, rfl, ?_⟩
              have hr4 : r < 4 := by omega
              interval_cases r <;> first | omega | rfl
            · rw [if_neg h2]
              refine ⟨1, "uint8_t", by decide, by omega, rfl, ?_⟩
              have hr2 : r = 1 := by omega
              subst hr2
              rfl
      obtain ⟨k, t, hk1, hk2, hfs, hg⟩ := hstep
      rw [hfs]
      have hle : (size - (st.offset + k)).toNat ≤ n := by omega
      have := ih { st with offset := st.offset + k, fieldTypes := st.fieldTypes ++ [t] } hle
      dsimp only at this
      have hsub : (size - (st.offset + (k : Int))).toNat = (size - st.offset).toNat - k := by omega
      rw [hsub] at this
      refine ⟨?_, this.2⟩
      rw [this.1, hg, List.append_assoc]
      rfl

/-- A struct that `generateStruct` returns holds the fields that the fill loop made for its
size, and the hint set comes back as the fill loop left it. -/
theorem generateStruct_some {sc : List Int} {hints hints1 : HintSet} {useHint b : Bool}
    {msh : Int} {e e1 : Env} {sd : StructDef}
    (h : generateStruct sc hints useHint msh e = .ok (((some sd, b), hints1), e1)) :
    sd.FieldTypes = (fillLoop sd.Size useHint sd.Size.toNat { hints := hints }).fieldTypes ∧
      hints1 = (fillLoop sd.Size useHint sd.Size.toNat { hints := hints }).hints := by
  unfold generateStruct at h
  obtain ⟨min0, ea, _, h⟩ := Gen.bind_ok h
  obtain ⟨max, eb, _, h⟩ := Gen.bind_ok h
  have key : ∀ (align : Int) (ec : Env),
      (match (if useHint = true then hintedMin min0 max hints msh else some min0) with
        | none => (pure ((none, false), hints) : Gen ((Option StructDef × Bool) × HintSet))
        | some min => do
          let r ← chooseSize min max align
          match r with
          | none => pure ((none, false), hints)
          | some size =>
            if size = 0 then pure ((none, true), hints)
            else do
              let st := fillLoop size useHint size.toNat { hints := hints }
              let s ← Gen.getS
              let sd : StructDef :=
                { Name := if st.fieldTypes.length = 1 then st.fieldTypes.headD ""
                          else "struct_" ++ toString s.Structs.length
                  FieldTypes := st.fieldTypes
                  Size := size
                  Hints := st.sdHints
                  IsStruct := st.fieldTypes.length != 1 }
              Gen.modifyS (fun s => { s with Structs := s.Structs ++ [sd] })
              pure ((some sd, true), st.hints)) ec = .ok (((some sd, b), hints1), e1) →
      sd.FieldTypes = (fillLoop sd.Size useHint sd.Size.toNat { hints := hints }).fieldTypes ∧
        hints1 = (fillLoop sd.Size useHint sd.Size.toNat { hints := hints }).hints := by
    intro align ec hk
    cases hm : (if useHint = true then hintedMin min0 max hints msh else some min0) with
    | none =>
      rw [hm] at hk
      obtain ⟨hr, _⟩ := Gen.pure_ok hk
      cases hr
    | some min =>
      rw [hm] at hk
      obtain ⟨r, ed, _, hk⟩ := Gen.bind_ok hk
      cases r with
      | none =>
        obtain ⟨hr, _⟩ := Gen.pure_ok hk
        cases hr
      | some size =>
        dsimp only at hk
        by_cases hz : size = 0
        · rw [if_pos hz] at hk
          obtain ⟨hr, _⟩ := Gen.pure_ok hk
          cases hr
        · rw [if_neg hz] at hk
          obtain ⟨s, ee, hs, hk⟩ := Gen.bind_ok hk
          obtain ⟨u, ef, _, hk⟩ := Gen.bind_ok hk
          obtain ⟨hr, _⟩ := Gen.pure_ok hk
          cases hr
          exact ⟨rfl, rfl⟩
  dsimp only at h
  by_cases hl : sc.length = 3
  · rw [if_pos hl] at h
    obtain ⟨align, ec, _, h⟩ := Gen.bind_ok h
    exact key align ec h
  · rw [if_neg hl] at h
    obtain ⟨align, ec, _, h⟩ := Gen.bind_ok h
    exact key align ec h

/-- C20: without hints (`useHint = false`) the `FieldTypes` of a struct that `generateStruct`
returns are, for its size `n`, `n / 8` copies of `uint64_t`, then one `uint32_t` iff
`n mod 8 >= 4`, one `uint16_t` iff `n mod 4 >= 2` and one `uint8_t` iff `n` is odd; the input
hint set is returned as it was. -/
theorem generateStruct_fields_without_hints (sc : List Int) (hints hints1 : HintSet) (b : Bool)
    (msh : Int) (e e1 : Env) (sd : StructDef)
    (h : generateStruct sc hints false msh e = .ok (((some sd, b), hints1), e1)) :
    sd.FieldTypes = greedyFields sd.Size.toNat ∧ hints1 = hints := by
  obtain ⟨h1, h2⟩ := generateStruct_some h
  have hg := fillLoop_greedy sd.Size sd.Size.toNat { hints := hints } (by
    show (sd.Size - 0).toNat ≤ sd.Size.toNat
    rw [sub_zero])
  rw [h1, h2, hg.1, hg.2]
  refine ⟨?_, rfl⟩
  show [] ++ greedyFields (sd.Size - 0).toNat = _
  rw [sub_zero, List.nil_append]

/-- A struct of 15 bytes: one `uint64_t`, one `uint32_t`, one `uint16_t`, one `uint8_t`. -/
theorem generateStruct_fields_without_hints_witness :
    ∃ (sd : StructDef) (e1 : Env),
      generateStruct [1, 4096] [HintGenSpinlock] false 0 (envWith (ptWith []) [] [] [14])
        = .ok (((some sd, true), [HintGenSpinlock]), e1) ∧
      sd.Size = 15 ∧
      sd.FieldTypes = ["uint64_t", "uint32_t", "uint16_t", "uint8_t"] := by
  have h : (generateStruct [1, 4096] [HintGenSpinlock] false 0
      (envWith (ptWith []) [] [] [14])).toOption.map
        (fun r => (r.1.1.1.map (fun sd => sd.Size), r.1.1.2, r.1.2))
      = some (some 15, true, [HintGenSpinlock]) := by decide!
  obtain ⟨⟨⟨⟨osd, b⟩, hints1⟩, e1⟩, hrun, hval⟩ := Outcome.ok_of_toOption_map h
  cases osd with
  | none => simp at hval
  | some sd =>
    simp only [Option.map_some', Option.some.injEq, Prod.mk.injEq] at hval
    obtain ⟨hsize, hb, hh⟩ := hval
    subst hb hh
    refine ⟨sd, e1, hrun, hsize, ?_⟩
    have hf := (generateStruct_fields_without_hints _ _ _ _ _ _ _ sd hrun).1
    rw [hf, hsize]
    decide

/-! ## The size without hints -/

theorem Gen.Intn_range {n k : Int} {e e1 : Env} (h : Gen.Intn n e = .ok (k, e1)) :
    0 ≤ k ∧ k < n := by
  unfold Gen.Intn randGen.Intn at h
  by_cases hn : n ≤ 0
  · rw [if_pos hn] at h
    cases h
  · rw [if_neg hn] at h
    cases h
    exact ⟨Int.emod_nonneg _ (by omega), Int.emod_lt_of_pos _ (by omega)⟩

/-- Go's rounding `size - size % align` of a size that is not negative: a multiple of `align`
that is at most `size`, lies less than `|align|` below it, and is not below a multiple of
`align` that `size` is not below. -/
theorem round_down_bounds {size align : Int} (hs : 0 ≤ size) (ha : align ≠ 0) :
    align ∣ size - size.tmod align ∧ size - size.tmod align ≤ size ∧
      size - |align| < size - size.tmod align ∧
      (∀ m, align ∣ m → m ≤ size → m ≤ size - size.tmod align) := by
  have hdiv : align ∣ size - size.tmod align :=
    ⟨size.tdiv align, by have := Int.tmod_add_tdiv size align; omega⟩
  have h0 : 0 ≤ size.tmod align := Int.tmod_nonneg _ hs
  have hlt : size.tmod align < |align| := by
    rcases lt_or_gt_of_ne ha with hneg | hpos
    · rw [abs_of_neg hneg, ← Int.tmod_neg]
      exact Int.tmod_lt_of_pos _ (by omega)
    · rw [abs_of_pos hpos]
      exact Int.tmod_lt_of_pos _ hpos
  refine ⟨hdiv, by omega, by omega, ?_⟩
  intro m hm hle
  by_contra hcon
  have hd2 : align ∣ m - (size - size.tmod align) := Int.dvd_sub hm hdiv
  have hpos : 0 < m - (size - size.tmod align) := by omega
  have hsmall : m - (size - size.tmod align) < |align| := by omega
  have habs : |align| ∣ m - (size - size.tmod align) := (abs_dvd _ _).mpr hd2
  have := Int.le_of_dvd hpos habs
  omega

/-- The size that `chooseSize` returns for a minimum that is not negative. -/
theorem chooseSize_ok {min max align size : Int} {e e1 : Env} (hmin : 0 ≤ min)
    (h : chooseSize min max align e = .ok (some size, e1)) :
    size ≤ max ∧ (min = max → size = min) ∧
      (min < max → size ≤ (if max > 128 then 128 else max) ∧ align ∣ size ∧
        min - |align| < size ∧ (align ∣ min → min ≤ size)) := by
  unfold chooseSize at h
  by_cases he : min = max
  · rw [if_pos he] at h
    obtain ⟨hv, _⟩ := Gen.pure_ok h
    cases hv
    exact ⟨by omega, fun _ => rfl, fun hlt => by omega⟩
  · rw [if_neg he] at h
    by_cases hgt : max > min
    · rw [if_pos hgt] at h
      obtain ⟨v, ea, hv, h⟩ := Gen.bind_ok h
      obtain ⟨hv0, hv1⟩ := Gen.Intn_range hv
      have hcap : (if max > 128 then 128 else max) ≤ max := by split <;> omega
      by_cases ha1 : align ≠ 1
      · rw [if_pos ha1] at h
        by_cases ha0 : align = 0
        · rw [if_pos ha0] at h
          cases h
        · rw [if_neg ha0] at h
          obtain ⟨hr, _⟩ := Gen.pure_ok h
          cases hr
          obtain ⟨hd, hle, hlo, hmul⟩ := round_down_bounds (show 0 ≤ v + min by omega) ha0
          refine ⟨by omega, fun hh => absurd hh he, fun _ => ⟨by omega, hd, by omega, ?_⟩⟩
          intro hdm
          exact hmul min hdm (by omega)
      · rw [if_neg ha1] at h
        obtain ⟨hr, _⟩ := Gen.pure_ok h
        cases hr
        have h1 : align = 1 := by omega
        subst h1
        refine ⟨by omega, fun hh => absurd hh he, fun _ => ⟨by omega, one_dvd _, ?_, fun _ => by omega⟩⟩
        have : |(1 : Int)| = 1 := abs_one
        omega
    · rw [if_neg hgt] at h
      obtain ⟨hv, _⟩ := Gen.pure_ok h
      cases hv

/-- A struct that `generateStruct` returns without hints has the size that `chooseSize` made
from the first two entries of the constraint and its third entry, or 1 if it has none. -/
theorem generateStruct_size {min max : Int} {rest : List Int} {hints hints1 : HintSet}
    {b : Bool} {msh : Int} {e e1 : Env} {sd : StructDef}
    (h : generateStruct (min :: max :: rest) hints false msh e
      = .ok (((some sd, b), hints1), e1)) :
    ∃ ea eb, chooseSize min max (if rest.length = 1 then rest.headD 1 else 1) ea
      = .ok (some sd.Size, eb) := by
  unfold generateStruct at h
  have hh := Gen.bind_ok h
  clear h
  obtain ⟨min0, ea, h0, h⟩ := hh
  have hh := Gen.bind_ok h
  clear h
  obtain ⟨max0, eb, h1, h⟩ := hh
  have e0 : min0 = min := by
    unfold Gen.index at h0
    simp [Gen.ret] at h0
    exact h0.1.symm
  have e1 : max0 = max := by
    unfold Gen.index at h1
    simp [Gen.ret] at h1
    exact h1.1.symm
  subst e0 e1
  have key : ∀ (align : Int) (ec : Env),
      (match (if false = true then hintedMin min0 max0 hints msh else some min0) with
        | none => (pure ((none, false), hints) : Gen ((Option StructDef × Bool) × HintSet))
        | some min => do
          let r ← chooseSize min max0 align
          match r with
          | none => pure ((none, false), hints)
          | some size =>
            if size = 0 then pure ((none, true), hints)
            else do
              let st := fillLoop size false size.toNat { hints := hints }
              let s ← Gen.getS
              let sd : StructDef :=
                { Name := if st.fieldTypes.length = 1 then st.fieldTypes.headD ""
                          else "struct_" ++ toString s.Structs.length
                  FieldTypes := st.fieldTypes
                  Size := size
                  Hints := st.sdHints
                  IsStruct := st.fieldTypes.length != 1 }
              Gen.modifyS (fun s => { s with Structs := s.Structs ++ [sd] })
              pure ((some sd, true), st.hints)) ec = .ok (((some sd, b), hints1), e1) →
      ∃ ea eb, chooseSize min0 max0 align ea = .ok (some sd.Size, eb) := by
    intro align ec hk
    rw [if_neg (by decide)] at hk
    dsimp only at hk
    obtain ⟨r, ed, hc, hk⟩ := Gen.bind_ok hk
    cases r with
    | none =>
      obtain ⟨hr, _⟩ := Gen.pure_ok hk
      cases hr
    | some size =>
      dsimp only at hk
      by_cases hz : size = 0
      · rw [if_pos hz] at hk
        obtain ⟨hr, _⟩ := Gen.pure_ok hk
        cases hr
      · rw [if_neg hz] at hk
        obtain ⟨s, ee, hs, hk⟩ := Gen.bind_ok hk
        obtain ⟨u, ef, _, hk⟩ := Gen.bind_ok hk
        obtain ⟨hr, _⟩ := Gen.pure_ok hk
        cases hr
        exact ⟨ec, ed, hc⟩
  dsimp only at h
  by_cases hl : (min0 :: max0 :: rest).length = 3
  · rw [if_pos hl] at h
    obtain ⟨align, ec, h2, h⟩ := Gen.bind_ok h
    have hr1 : rest.length = 1 := by simpa using hl
    have e2 : align = rest.headD 1 := by
      cases rest with
      | nil => simp at hr1
      | cons a t =>
        unfold Gen.index at h2
        simp [Gen.ret] at h2
        simp [h2.1]
    rw [if_pos hr1, ← e2]
    exact key align ec h
  · rw [if_neg hl] at h
    obtain ⟨align, ec, h2, h⟩ := Gen.bind_ok h
    obtain ⟨hv, _⟩ := Gen.pure_ok h2
    have hr1 : ¬ rest.length = 1 := by simpa using hl
    subst hv
    rw [if_neg hr1]
    exact key _ ec h

/-- C19 (as the code has it): for a constraint `[min, max]` (then `align` is 1) or
`[min, max, align]` with `0 <= min` and without hints, the `Size` of a struct that
`generateStruct` returns is at most `max`, is `min` when `min = max`, and when `min < max` it
is at most `min(max, 128)`, a multiple of `align` and more than `min - |align|`; it is at
least `min` when `align` divides `min`. -/
theorem generateStruct_size_without_hints (sc : List Int) (min max align : Int)
    (hints hints1 : HintSet) (b : Bool) (msh : Int) (e e1 : Env) (sd : StructDef)
    (hsc : (sc = [min, max] ∧ align = 1) ∨ sc = [min, max, align]) (hmin : 0 ≤ min)
    (h : generateStruct sc hints false msh e = .ok (((some sd, b), hints1), e1)) :
    sd.Size ≤ max ∧ (min = max → sd.Size = min) ∧
      (min < max → sd.Size ≤ (if max > 128 then 128 else max) ∧ align ∣ sd.Size ∧
        min - |align| < sd.Size ∧ (align ∣ min → min ≤ sd.Size)) := by
  rcases hsc with ⟨rfl, rfl⟩ | rfl
  · obtain ⟨ea, eb, hc⟩ := generateStruct_size h
    exact chooseSize_ok hmin hc
  · obtain ⟨ea, eb, hc⟩ := generateStruct_size h
    exact chooseSize_ok hmin hc

/-- The constraint `[8, 16, 4]` with a first draw of 7: the size 15 is rounded down to 12. -/
theorem generateStruct_size_without_hints_witness :
    ∃ (sd : StructDef) (e1 : Env),
      generateStruct [8, 16, 4] [] false 0 (envWith (ptWith []) [] [] [7])
        = .ok (((some sd, true), []), e1) ∧
      sd.Size = 12 ∧ sd.Size ≤ 16 ∧ (4 : Int) ∣ sd.Size ∧ 8 ≤ sd.Size := by
  have h : (generateStruct [8, 16, 4] [] false 0
      (envWith (ptWith []) [] [] [7])).toOption.map
        (fun r => (r.1.1.1.map (fun sd => sd.Size), r.1.1.2, r.1.2))
      = some (some 12, true, []) := by decide!
  obtain ⟨⟨⟨⟨osd, b⟩, hints1⟩, e1⟩, hrun, hval⟩ := Outcome.ok_of_toOption_map h
  cases osd with
  | none => simp at hval
  | some sd =>
    simp only [Option.map_some', Option.some.injEq, Prod.mk.injEq] at hval
    obtain ⟨hsize, hb, hh⟩ := hval
    subst hb hh
    obtain ⟨h1, _, h3⟩ := generateStruct_size_without_hints [8, 16, 4] 8 16 4 [] [] true 0 _ e1 sd
      (Or.inr rfl) (by decide) hrun
    obtain ⟨_, h4, _, h5⟩ := h3 (by decide)
    exact ⟨sd, e1, hrun, hsize, h1, h4, h5 (by decide)⟩

/-- C19 (counterexample): without hints, for the size constraint `[5, 16, 4]` and a first draw
of 0, `generateStruct` returns a struct of `Size` 4, below the minimum 5. -/
theorem generateStruct_size_below_min :
    (generateStruct [5, 16, 4] [] false 0 envEmpty).toOption.map
      (fun res => res.1.1.1.map (fun sd => (sd.Size, sd.FieldTypes))) = some (some (4, ["uint32_t"])) := by
  decide!

/-! ## More runs that leave the program state untouched -/

instance stateFrame_getS : StateFrame Gen.getS := by
  constructor
  constructor
  intro e a e1 h
  cases h
  rfl

instance stateFrame_chooseSize (min max align : Int) : StateFrame (chooseSize min max align) := by
  unfold chooseSize
  infer_instance

instance stateFrame_newMapMaxEntries (mt : BpfMapType) (hint : BpfCallGenHint) :
    StateFrame (newMapMaxEntries mt hint) := by
  unfold newMapMaxEntries
  infer_instance

instance stateFrame_pickFlag (fs : List String) : StateFrame (pickFlag fs) := by
  unfold pickFlag
  infer_instance

instance stateFrame_manFlagsFrom (l : List (List String)) : StateFrame (manFlagsFrom l) := by
  induction l with
  | nil =>
    unfold manFlagsFrom
    infer_instance
  | cons fs rest ih =>
    unfold manFlagsFrom
    exact stateFrame_bind inferInstance (fun _ => stateFrame_bind ih (fun _ => inferInstance))

instance stateFrame_optFlagsFrom (mapVal : Option StructDef) (l : List (List String)) :
    StateFrame (optFlagsFrom mapVal l) := by
  induction l with
  | nil =>
    unfold optFlagsFrom
    infer_instance
  | cons fs rest ih =>
    unfold optFlagsFrom
    apply stateFrame_ite
    · exact stateFrame_bind inferInstance (fun _ => stateFrame_bind ih (fun _ => inferInstance))
    · apply stateFrame_bind inferInstance
      intro skip
      apply stateFrame_ite ih
      exact stateFrame_bind inferInstance (fun _ => stateFrame_bind ih (fun _ => inferInstance))

/-! ## Searches in lists of flags and fields -/

theorem ite_false_eq_true {c : Prop} [Decidable c] {x : Bool}
    (h : (if c then false else x) = true) : ¬ c ∧ x = true := by
  by_cases hc : c
  · rw [if_pos hc] at h
    cases h
  · rw [if_neg hc] at h
    exact ⟨hc, h⟩

theorem indexFrom_ge (v : String) (l : List String) (i : Int) :
    indexFrom v l i = -1 ∨ i ≤ indexFrom v l i := by
  induction l generalizing i with
  | nil => exact Or.inl rfl
  | cons x rest ih =>
    unfold indexFrom
    split
    · exact Or.inr (le_refl _)
    · rcases ih (i + 1) with h | h
      · exact Or.inl h
      · exact Or.inr (by omega)

theorem indexFrom_eq_neg_one (v : String) (l : List String) (i : Int) (hi : 0 ≤ i) :
    indexFrom v l i = -1 ↔ v ∉ l := by
  induction l generalizing i with
  | nil => simp [indexFrom]
  | cons x rest ih =>
    unfold indexFrom
    by_cases hx : x = v
    · rw [if_pos hx]
      constructor
      · intro h
        omega
      · intro h
        exact absurd (List.mem_cons.mpr (Or.inl hx.symm)) h
    · rw [if_neg hx, ih (i + 1) (by omega)]
      constructor
      · intro h hm
        rcases List.mem_cons.mp hm with h1 | h1
        · exact hx h1.symm
        · exact h h1
      · intro h hm
        exact h (List.mem_cons_of_mem _ hm)

theorem findMemberFrom_eq_indexFrom (v : String) (l : List String) (i : Int) :
    findMemberFrom v l i = indexFrom v l i := by
  induction l generalizing i with
  | nil => rfl
  | cons x rest ih =>
    unfold findMemberFrom indexFrom
    rw [ih]

/-- The method `findMember` finds a member exactly where the field types hold it. -/
theorem StructDef.findMember_found (sd : StructDef) (t : String) :
    (sd.findMember t != -1) = true ↔ t ∈ sd.FieldTypes := by
  unfold StructDef.findMember
  rw [findMemberFrom_eq_indexFrom, bne_iff_ne, ne_eq, indexFrom_eq_neg_one _ _ _ (le_refl _)]
  exact not_not

/-- The method `getFlag` finds a flag exactly where the flag list holds it. -/
theorem BpfMap.getFlag_found (m : BpfMap) (f : String) :
    (m.getFlag f != -1) = true ↔ f ∈ m.MapFlags := by
  unfold BpfMap.getFlag
  rw [bne_iff_ne, ne_eq, indexFrom_eq_neg_one _ _ _ (le_refl _)]
  exact not_not

/-! ## The filter of the existing maps -/

theorem hint_filter {gs gt gc a b c rd : Bool}
    (h : ¬ (gs && (!a || rd) || gt && (!b || rd) || gc && !c) = true) :
    (gs = true → a = true ∧ rd = false) ∧ (gt = true → b = true ∧ rd = false) ∧
      (gc = true → c = true) := by
  revert h
  cases gs <;> cases gt <;> cases gc <;> cases a <;> cases b <;> cases c <;> cases rd <;> decide

/-- What `getHelperCompatMaps` has tested of a map that it selects. -/
theorem helperCompatMap_ok {s : BpfProgState} {call : BpfCall} {m : BpfMap}
    (h : helperCompatMap s call m = true) :
    (isMapWriteHelper call.Helper.Enum = true → "BPF_F_RDONLY_PROG" ∉ m.MapFlags) ∧
    (call.Hint.ArgHints.has HintGenSpinlock = true →
      (∃ v, m.Val = some v ∧ "struct bpf_spin_lock" ∈ v.FieldTypes) ∧
        "BPF_F_RDONLY_PROG" ∉ m.MapFlags) ∧
    (call.Hint.ArgHints.has HintGenTimer = true →
      (∃ v, m.Val = some v ∧ "struct bpf_timer" ∈ v.FieldTypes) ∧
        "BPF_F_RDONLY_PROG" ∉ m.MapFlags) ∧
    (call.Hint.ArgHints.has HintGenConstStr = true →
      ∃ v, m.Val = some v ∧ "char [8]" ∈ v.FieldTypes) ∧
    (m.MapType = "BPF_MAP_TYPE_CGROUP_STORAGE" →
      hasMapOfType s "BPF_MAP_TYPE_CGROUP_STORAGE" = false) ∧
    (m.MapType = "BPF_MAP_TYPE_PERCPU_CGROUP_STORAGE" →
      hasMapOfType s "BPF_MAP_TYPE_PERCPU_CGROUP_STORAGE" = false) ∧
    ((call.Helper.Ret = "RET_PTR_TO_MAP_VALUE" ∨
        call.Helper.Ret = "RET_PTR_TO_MAP_VALUE_OR_NULL") → call.Hint.RetAccessSize ≠ 0 →
      ∃ v, m.Val = some v ∧ call.Hint.RetAccessSize ≤ v.Size) := by
  unfold helperCompatMap at h
  have hh := ite_false_eq_true h
  clear h
  obtain ⟨_, h⟩ := hh
  dsimp only at h
  have hh := ite_false_eq_true h
  clear h
  obtain ⟨h2, h⟩ := hh
  have hh := ite_false_eq_true h
  clear h
  obtain ⟨h3, h⟩ := hh
  have hh := ite_false_eq_true h
  clear h
  obtain ⟨_, h⟩ := hh
  have hh := ite_false_eq_true h
  clear h
  obtain ⟨_, h⟩ := hh
  have hh := ite_false_eq_true h
  clear h
  obtain ⟨_, h⟩ := hh
  have hh := ite_false_eq_true h
  clear h
  obtain ⟨h7, h⟩ := hh
  have hh := ite_false_eq_true h
  clear h
  obtain ⟨h8, h⟩ := hh
  have hh := ite_false_eq_true h
  clear h
  obtain ⟨_, h⟩ := hh
  have hh := ite_false_eq_true h
  clear h
  obtain ⟨h10, _⟩ := hh
  have hrd : (m.getFlag "BPF_F_RDONLY_PROG" != -1) = false → "BPF_F_RDONLY_PROG" ∉ m.MapFlags := by
    intro hg hm
    rw [(BpfMap.getFlag_found m _).mpr hm] at hg
    cases hg
  have hcg : ∀ {t : String} {b : Bool}, ¬ (decide (m.MapType = t) && b) = true →
      m.MapType = t → b = false := by
    intro t b hn ht
    rw [decide_eq_true ht] at hn
    cases b with
    | false => rfl
    | true => exact absurd rfl hn
  have hwr : isMapWriteHelper call.Helper.Enum = true → "BPF_F_RDONLY_PROG" ∉ m.MapFlags := by
    intro hw
    rw [hw] at h2
    exact hrd (by
      cases hr : (m.getFlag "BPF_F_RDONLY_PROG" != -1) with
      | false => rfl
      | true =>
        rw [hr] at h2
        exact absurd rfl h2)
  have hras : (call.Helper.Ret = "RET_PTR_TO_MAP_VALUE" ∨
      call.Helper.Ret = "RET_PTR_TO_MAP_VALUE_OR_NULL") → call.Hint.RetAccessSize ≠ 0 →
      ((decide (call.Helper.Ret = "RET_PTR_TO_MAP_VALUE") ||
        decide (call.Helper.Ret = "RET_PTR_TO_MAP_VALUE_OR_NULL")) &&
          call.Hint.RetAccessSize != 0) = true := by
    intro hret hne
    have h1 : (decide (call.Helper.Ret = "RET_PTR_TO_MAP_VALUE") ||
        decide (call.Helper.Ret = "RET_PTR_TO_MAP_VALUE_OR_NULL")) = true := by
      rcases hret with hr | hr
      · rw [decide_eq_true hr]
        rfl
      · rw [decide_eq_true hr, Bool.or_true]
    rw [h1, bne_iff_ne.mpr hne]
    rfl
  cases hv : m.Val with
  | none =>
    rw [hv] at h3 h10
    dsimp only at h3 h10
    obtain ⟨f1, f2, f3⟩ := hint_filter h3
    refine ⟨hwr, ?_, ?_, ?_, hcg h7, hcg h8, ?_⟩
    · intro hg
      exact absurd (f1 hg).1 (by decide)
    · intro hg
      exact absurd (f2 hg).1 (by decide)
    · intro hg
      exact absurd (f3 hg) (by decide)
    · intro hret hne
      rw [hras hret hne] at h10
      exact absurd rfl h10
  | some v =>
    rw [hv] at h3 h10
    dsimp only at h3 h10
    obtain ⟨f1, f2, f3⟩ := hint_filter h3
    refine ⟨hwr, ?_, ?_, ?_, hcg h7, hcg h8, ?_⟩
    · intro hg
      exact ⟨⟨v, rfl, (StructDef.findMember_found v _).mp (f1 hg).1⟩, hrd (f1 hg).2⟩
    · intro hg
      exact ⟨⟨v, rfl, (StructDef.findMember_found v _).mp (f2 hg).1⟩, hrd (f2 hg).2⟩
    · intro hg
      exact ⟨v, rfl, (StructDef.findMember_found v _).mp (f3 hg)⟩
    · intro hret hne
      rw [hras hret hne] at h10
      refine ⟨v, rfl, ?_⟩
      by_contra hlt
      rw [decide_eq_true (show v.Size < call.Hint.RetAccessSize by omega)] at h10
      exact absurd rfl h10

/-- Every map that `getHelperCompatMaps` returns is a map of `s.Maps` that passed the
filter. -/
theorem getHelperCompatMaps_mem {s : BpfProgState} {call : BpfCall} {m : MapRef}
    (h : m ∈ getHelperCompatMaps s call) :
    ∃ bm, s.Maps[m]? = some bm ∧ helperCompatMap s call bm = true := by
  obtain ⟨bm, _, hget, hc⟩ := compatMapsFrom_mem _ _ _ _ _ h
  rw [Nat.sub_zero] at hget
  exact ⟨bm, hget, hc⟩

/-- C23: every map that `getHelperCompatMaps` returns is a map of `s.Maps` such that: if the
hint of the call requests a spin lock, the value struct of the map has a field
`struct bpf_spin_lock` and the map has no flag `BPF_F_RDONLY_PROG`; if it requests a timer,
the value struct has a field `struct bpf_timer` and the map has no flag `BPF_F_RDONLY_PROG`;
if it requests a constant string, the value struct has a field `char [8]`. -/
theorem getHelperCompatMaps_respects_hints (s : BpfProgState) (call : BpfCall) (m : MapRef)
    (h : m ∈ getHelperCompatMaps s call) :
    ∃ bm, s.Maps[m]? = some bm ∧
      (call.Hint.ArgHints.has HintGenSpinlock = true →
        (∃ v, bm.Val = some v ∧ "struct bpf_spin_lock" ∈ v.FieldTypes) ∧
          "BPF_F_RDONLY_PROG" ∉ bm.MapFlags) ∧
      (call.Hint.ArgHints.has HintGenTimer = true →
        (∃ v, bm.Val = some v ∧ "struct bpf_timer" ∈ v.FieldTypes) ∧
          "BPF_F_RDONLY_PROG" ∉ bm.MapFlags) ∧
      (call.Hint.ArgHints.has HintGenConstStr = true →
        ∃ v, bm.Val = some v ∧ "char [8]" ∈ v.FieldTypes) := by
  obtain ⟨bm, hget, hc⟩ := getHelperCompatMaps_mem h
  obtain ⟨_, h1, h2, h3, _⟩ := helperCompatMap_ok hc
  exact ⟨bm, hget, h1, h2, h3⟩

/-- C24: `getHelperCompatMaps` returns no map of type `BPF_MAP_TYPE_CGROUP_STORAGE` or
`BPF_MAP_TYPE_PERCPU_CGROUP_STORAGE`: the check for a map of the type in `s.Maps` finds the
candidate itself. -/
theorem getHelperCompatMaps_no_cgroup_storage (s : BpfProgState) (call : BpfCall) (m : MapRef)
    (h : m ∈ getHelperCompatMaps s call) :
    ∃ bm, s.Maps[m]? = some bm ∧ bm.MapType ≠ "BPF_MAP_TYPE_CGROUP_STORAGE" ∧
      bm.MapType ≠ "BPF_MAP_TYPE_PERCPU_CGROUP_STORAGE" := by
  obtain ⟨bm, hget, hc⟩ := getHelperCompatMaps_mem h
  obtain ⟨_, _, _, _, h5, h6, _⟩ := helperCompatMap_ok hc
  have hmem : bm ∈ s.Maps := List.getElem?_mem hget
  have hany : ∀ t, bm.MapType = t → hasMapOfType s t = true := by
    intro t ht
    unfold hasMapOfType
    exact List.any_eq_true.mpr ⟨bm, hmem, decide_eq_true ht⟩
  refine ⟨bm, hget, ?_, ?_⟩
  · intro ht
    have := h5 ht
    rw [hany _ ht] at this
    cases this
  · intro ht
    have := h6 ht
    rw [hany _ ht] at this
    cases this

/-! ## The access table of the register types -/

/-- C30 (as amended): `CheckAccess` of the socket classes (`PTR_TO_SOCKET`,
`PTR_TO_SOCK_COMMON`, `PTR_TO_TCP_SOCK`, `PTR_TO_XDP_SOCK`), of `PTR_TO_RDONLY_BUF` and of
`PTR_TO_MAP_KEY` allows reads and denies writes; of `PTR_TO_PACKET_END`, `PTR_TO_FUNC` and
`PTR_TO_PERCPU_BTF_ID` it denies both; of `PTR_TO_PACKET` and `PTR_TO_PACKET_META` it is
`checkPktAccess`; of every other class it allows both. -/
theorem CheckAccess_table (t : RegType) (s : BpfProgState) (h : BpfHelperFunc) (isWrite : Bool) :
    t.CheckAccess s h isWrite =
      if t.String ∈ ["PTR_TO_SOCKET", "PTR_TO_SOCK_COMMON", "PTR_TO_TCP_SOCK", "PTR_TO_XDP_SOCK",
          "PTR_TO_RDONLY_BUF", "PTR_TO_MAP_KEY"] then !isWrite
      else if t.String ∈ ["PTR_TO_PACKET_END", "PTR_TO_FUNC", "PTR_TO_PERCPU_BTF_ID"] then false
      else if t.String ∈ ["PTR_TO_PACKET", "PTR_TO_PACKET_META"] then checkPktAccess s h isWrite
      else true := by
  cases t <;> rfl

/-- C30 (counterexample): for a fresh state and the helper `map_lookup_elem`, `CheckAccess`
of `PTR_TO_MAP_KEY` and of `PTR_TO_RDONLY_BUF` allows a read and denies a write. -/
theorem CheckAccess_denies_write_to_map_key :
    RegType.PtrToMapKeyRegType.String = "PTR_TO_MAP_KEY" ∧
    RegType.PtrToMapKeyRegType.CheckAccess envEmpty.s hMapLookupElem false = true ∧
    RegType.PtrToMapKeyRegType.CheckAccess envEmpty.s hMapLookupElem true = false ∧
    RegType.PtrToRdOnlyBufRegType.String = "PTR_TO_RDONLY_BUF" ∧
    RegType.PtrToRdOnlyBufRegType.CheckAccess envEmpty.s hMapLookupElem false = true ∧
    RegType.PtrToRdOnlyBufRegType.CheckAccess envEmpty.s hMapLookupElem true = false :=
  ⟨rfl, rfl, rfl, rfl, rfl, rfl⟩

/-! ## The struct that the struct generator appends -/

/-- C21: a struct `sd` that `generateStruct` returns has been appended to `s.Structs` as its
last element; if it has exactly one field, `IsStruct` is false and `Name` is the type of that
field; otherwise `IsStruct` is true and `Name` is `struct_N`, where `N` is the length that
`s.Structs` had before. -/
theorem generateStruct_appends_named (sc : List Int) (hints hints1 : HintSet) (useHint b : Bool)
    (msh : Int) (e e1 : Env) (sd : StructDef)
    (h : generateStruct sc hints useHint msh e = .ok (((some sd, b), hints1), e1)) :
    e1.s.Structs = e.s.Structs ++ [sd] ∧
      e1.s.Structs[e.s.Structs.length]? = some sd ∧
      (∀ t, sd.FieldTypes = [t] → sd.IsStruct = false ∧ sd.Name = t) ∧
      (sd.FieldTypes.length ≠ 1 →
        sd.IsStruct = true ∧ sd.Name = "struct_" ++ toString e.s.Structs.length) := by
  unfold generateStruct at h
  have hh := Gen.bind_ok h
  clear h
  obtain ⟨min0, ea, h0, h⟩ := hh
  have hh := Gen.bind_ok h
  clear h
  obtain ⟨max, eb, h1, h⟩ := hh
  have hsb : eb.s = e.s := by rw [(Gen.index_ok h1).2, (Gen.index_ok h0).2]
  have key : ∀ (align : Int) (ec : Env), ec.s = e.s →
      (match (if useHint = true then hintedMin min0 max hints msh else some min0) with
        | none => (pure ((none, false), hints) : Gen ((Option StructDef × Bool) × HintSet))
        | some min => do
          let r ← chooseSize min max align
          match r with
          | none => pure ((none, false), hints)
          | some size =>
            if size = 0 then pure ((none, true), hints)
            else do
              let st := fillLoop size useHint size.toNat { hints := hints }
              let s ← Gen.getS
              let sd : StructDef :=
                { Name := if st.fieldTypes.length = 1 then st.fieldTypes.headD ""
                          else "struct_" ++ toString s.Structs.length
                  FieldTypes := st.fieldTypes
                  Size := size
                  Hints := st.sdHints
                  IsStruct := st.fieldTypes.length != 1 }
              Gen.modifyS (fun s => { s with Structs := s.Structs ++ [sd] })
              pure ((some sd, true), st.hints)) ec = .ok (((some sd, b), hints1), e1) →
      e1.s.Structs = e.s.Structs ++ [sd] ∧
        (∀ t, sd.FieldTypes = [t] → sd.IsStruct = false ∧ sd.Name = t) ∧
        (sd.FieldTypes.length ≠ 1 →
          sd.IsStruct = true ∧ sd.Name = "struct_" ++ toString e.s.Structs.length) := by
    intro align ec hsc hk
    cases hm : (if useHint = true then hintedMin min0 max hints msh else some min0) with
    | none =>
      rw [hm] at hk
      obtain ⟨hr, _⟩ := Gen.pure_ok hk
      cases hr
    | some min =>
      rw [hm] at hk
      have hh := Gen.bind_ok hk
      clear hk
      obtain ⟨r, ed, hch, hk⟩ := hh
      have hsd : ed.s = e.s :=
        ((inferInstance : StateFrame (chooseSize min max align)).sat.run _ _ _ hch).trans hsc
      cases r with
      | none =>
        obtain ⟨hr, _⟩ := Gen.pure_ok hk
        cases hr
      | some size =>
        dsimp only at hk
        by_cases hz : size = 0
        · rw [if_pos hz] at hk
          obtain ⟨hr, _⟩ := Gen.pure_ok hk
          cases hr
        · rw [if_neg hz] at hk
          have hh := Gen.bind_ok hk
          clear hk
          obtain ⟨s, ee, hs, hk⟩ := hh
          cases hs
          have hh := Gen.bind_ok hk
          clear hk
          obtain ⟨u, ef, hmod, hk⟩ := hh
          obtain ⟨hr, hef⟩ := Gen.pure_ok hk
          cases hr
          have hmod1 := Gen.modifyS_ok hmod
          subst hef
          rw [hmod1]
          refine ⟨by rw [← hsd], ?_, ?_⟩
          · intro t ht
            dsimp only at ht ⊢
            rw [ht]
            exact ⟨rfl, rfl⟩
          · intro hne
            dsimp only at hne ⊢
            rw [if_neg hne, ← hsd]
            exact ⟨by simpa using hne, rfl⟩
  have fin : e1.s.Structs = e.s.Structs ++ [sd] →
      e1.s.Structs[e.s.Structs.length]? = some sd := by
    intro hq
    rw [hq]
    exact List.getElem?_concat_length _ _
  dsimp only at h
  by_cases hl : sc.length = 3
  · rw [if_pos hl] at h
    obtain ⟨align, ec, h2, h⟩ := Gen.bind_ok h
    obtain ⟨k1, k2, k3⟩ := key align ec (by rw [(Gen.index_ok h2).2]; exact hsb) h
    exact ⟨k1, fin k1, k2, k3⟩
  · rw [if_neg hl] at h
    obtain ⟨align, ec, h2, h⟩ := Gen.bind_ok h
    obtain ⟨k1, k2, k3⟩ := key align ec (by rw [(Gen.pure_ok h2).2]; exact hsb) h
    exact ⟨k1, fin k1, k2, k3⟩

/-! ## The map that `NewMap` makes -/

theorem pickFlag_ok {fs : List String} {e e1 : Env} {f : String}
    (h : pickFlag fs e = .ok (f, e1)) : f ∈ fs := by
  unfold pickFlag at h
  by_cases hl : fs.length = 1
  · rw [if_pos hl] at h
    exact (Gen.index_ok h).1
  · rw [if_neg hl] at h
    obtain ⟨k, ea, _, h2⟩ := Gen.bind_ok h
    exact (Gen.index_ok h2).1

/-- The loop over the mandatory groups takes one flag of every group, in their order. -/
theorem manFlagsFrom_ok {l : List (List String)} {e e1 : Env} {fl : List String}
    (h : manFlagsFrom l e = .ok (fl, e1)) : List.Forall₂ (fun f g => f ∈ g) fl l := by
  induction l generalizing e e1 fl with
  | nil =>
    unfold manFlagsFrom at h
    obtain ⟨hr, _⟩ := Gen.pure_ok h
    subst hr
    exact List.Forall₂.nil
  | cons fs rest ih =>
    unfold manFlagsFrom at h
    obtain ⟨f, ea, hf, h1⟩ := Gen.bind_ok h
    obtain ⟨more, eb, hm, h2⟩ := Gen.bind_ok h1
    obtain ⟨hr, _⟩ := Gen.pure_ok h2
    subst hr
    exact List.Forall₂.cons (pickFlag_ok hf) (ih hm)

/-- The loop over the optional groups takes one flag of each group of a sublist of the
groups, in their order. -/
theorem optFlagsFrom_ok {v : Option StructDef} {l : List (List String)} {e e1 : Env}
    {fl : List String} (h : optFlagsFrom v l e = .ok (fl, e1)) :
    ∃ sub, List.Sublist sub l ∧ List.Forall₂ (fun f g => f ∈ g) fl sub := by
  induction l generalizing e e1 fl with
  | nil =>
    unfold optFlagsFrom at h
    obtain ⟨hr, _⟩ := Gen.pure_ok h
    subst hr
    exact ⟨[], List.Sublist.slnil, List.Forall₂.nil⟩
  | cons fs rest ih =>
    unfold optFlagsFrom at h
    have taken : ∀ {ea : Env} {f : String}, f ∈ fs →
        (optFlagsFrom v rest >>= fun more => pure (f :: more)) ea = .ok (fl, e1) →
        ∃ sub, List.Sublist sub (fs :: rest) ∧ List.Forall₂ (fun f g => f ∈ g) fl sub := by
      intro ea f hf h1
      obtain ⟨more, eb, hm, h2⟩ := Gen.bind_ok h1
      obtain ⟨hr, _⟩ := Gen.pure_ok h2
      subst hr
      obtain ⟨sub, hs, hfa⟩ := ih hm
      exact ⟨fs :: sub, hs.cons₂ fs, List.Forall₂.cons hf hfa⟩
    split at h
    · obtain ⟨f, ea, hf, h1⟩ := Gen.bind_ok h
      exact taken (Gen.index_ok hf).1 h1
    · obtain ⟨skip, ea, _, h1⟩ := Gen.bind_ok h
      by_cases hs : skip = 1
      · rw [if_pos hs] at h1
        obtain ⟨sub, hsub, hfa⟩ := ih h1
        exact ⟨sub, hsub.cons fs, hfa⟩
      · rw [if_neg hs] at h1
        obtain ⟨f, eb, hf, h2⟩ := Gen.bind_ok h1
        exact taken (pickFlag_ok hf) h2

theorem forall₂_mem_count {x : String} {fl : List String} {l : List (List String)}
    (h : List.Forall₂ (fun f g => f ∈ g) fl l) :
    fl.count x ≤ l.countP (fun g => decide (x ∈ g)) := by
  induction h with
  | nil => exact le_refl _
  | @cons f g fl1 l1 hfg _ ih =>
    rw [List.count_cons, List.countP_cons]
    by_cases hx : f = x
    · subst hx
      simp only [beq_self_eq_true, if_true, decide_eq_true hfg]
      omega
    · have : (f == x) = false := beq_eq_false_iff_ne.mpr hx
      rw [this]
      simp only [Bool.false_eq_true, if_false]
      omega

theorem forall₂_mem_right {fl : List String} {l : List (List String)}
    (h : List.Forall₂ (fun f g => f ∈ g) fl l) : ∀ f ∈ fl, ∃ g ∈ l, f ∈ g := by
  induction h with
  | nil =>
    intro f hf
    cases hf
  | @cons f0 g fl1 l1 hfg _ ih =>
    intro f hf
    rcases List.mem_cons.mp hf with h1 | h1
    · subst h1
      exact ⟨g, List.mem_cons_self _ _, hfg⟩
    · obtain ⟨g1, hg1, hm⟩ := ih f h1
      exact ⟨g1, List.mem_cons_of_mem _ hg1, hm⟩

theorem forall₂_mem_left {fl : List String} {l : List (List String)}
    (h : List.Forall₂ (fun f g => f ∈ g) fl l) : ∀ g ∈ l, ∃ f ∈ g, f ∈ fl := by
  induction h with
  | nil =>
    intro g hg
    cases hg
  | @cons f0 g0 fl1 l1 hfg _ ih =>
    intro g hg
    rcases List.mem_cons.mp hg with h1 | h1
    · subst h1
      exact ⟨f0, hfg, List.mem_cons_self _ _⟩
    · obtain ⟨f1, hf1, hm⟩ := ih g h1
      exact ⟨f1, hf1, List.mem_cons_of_mem _ hm⟩

/-- What a successful `NewMap` has done: it chose `MaxEntries`, took the value struct from
the compatible structs or from `generateStruct`, took the flags from the mandatory and the
optional groups, and appended the new map, named after its index, to `s.Maps`. -/
theorem NewMap_made {fuel : Nat} {mt : BpfMapType} {hint hint2 : BpfCallGenHint} {mvs : Int}
    {e e1 : Env} {m : MapRef}
    (h : NewMap fuel mt hint mvs e = .ok ((some m, hint2), e1)) :
    ∃ (ea eg eh ei ej ek : Env) (maxEntries : Int) (mapKey mapVal : Option StructDef)
      (hints1 hints2 : HintSet) (cvs : List StructDef) (inner : Option MapRef)
      (manFlags optFlags : List String),
      newMapMaxEntries mt hint e = .ok (maxEntries, ea) ∧
      ((∃ sd, mapVal = some sd ∧ sd ∈ cvs ∧
          ∃ s, getCompatValStructDefs s { hint with ArgHints := hints1 } mvs mt = .ok cvs) ∨
        generateStruct mt.ValSize hints1 true mvs eg = .ok (((mapVal, true), hints2), eh)) ∧
      manFlagsFrom mt.ManFlags ei = .ok (manFlags, ej) ∧
      optFlagsFrom mapVal mt.OptFlags ej = .ok (optFlags, ek) ∧
      m = ek.s.Maps.length ∧
      e1.s.Maps = ek.s.Maps ++
        [{ MapType := mt.Type_, MapFlags := manFlags ++ optFlags,
           MapName := "map_" ++ toString ek.s.Maps.length, Key := mapKey, Val := mapVal,
           MaxEntries := maxEntries, InnerMap := inner }] := by
  cases fuel with
  | zero =>
    unfold NewMap at h
    cases h
  | succ fuel =>
  unfold NewMap at h
  dsimp only at h
  have hh := Gen.bind_ok h
  clear h
  obtain ⟨maxEntries, ea, hmax, h⟩ := hh
  have hh := Gen.bind_ok h
  clear h
  obtain ⟨s, eb, hs, h⟩ := hh
  cases hs
  have hh := Gen.bind_ok h
  clear h
  obtain ⟨cks, eb, hcks, h⟩ := hh
  have hh := Gen.bind_ok h
  clear h
  obtain ⟨pickKey, ec, hpk, h⟩ := hh
  have hh := Gen.bind_ok h
  clear h
  obtain ⟨x, ed, hkey, h⟩ := hh
  obtain ⟨keyRes, hints1⟩ := x
  dsimp only at h
  cases hk2 : keyRes.2 with
  | false =>
    rw [hk2] at h
    obtain ⟨hr, _⟩ := Gen.pure_ok h
    cases hr
  | true =>
    rw [hk2] at h
    rw [if_neg (show ¬ (!true) = true by decide)] at h
    have hh := Gen.bind_ok h
    clear h
    obtain ⟨s1, ee, hs1, h⟩ := hh
    cases hs1
    have hh := Gen.bind_ok h
    clear h
    obtain ⟨cvs, ef, hcvs, h⟩ := hh
    have hh := Gen.bind_ok h
    clear h
    obtain ⟨pickVal, eg, hpv, h⟩ := hh
    have hh := Gen.bind_ok h
    clear h
    obtain ⟨y, eh, hval, h⟩ := hh
    obtain ⟨valRes, hints2⟩ := y
    dsimp only at h
    cases hv2 : valRes.2 with
    | false =>
      rw [hv2] at h
      obtain ⟨hr, _⟩ := Gen.pure_ok h
      cases hr
    | true =>
      rw [hv2] at h
      rw [if_neg (show ¬ (!true) = true by decide)] at h
      have hh := Gen.bind_ok h
      clear h
      obtain ⟨inner, ei, hinner, h⟩ := hh
      have hh := Gen.bind_ok h
      clear h
      obtain ⟨manFlags, ej, hman, h⟩ := hh
      have hh := Gen.bind_ok h
      clear h
      obtain ⟨optFlags, ek, hopt, h⟩ := hh
      have hh := Gen.bind_ok h
      clear h
      obtain ⟨s2, el, hs2, h⟩ := hh
      cases hs2
      have hh := Gen.bind_ok h
      clear h
      obtain ⟨u, em, hmod, h⟩ := hh
      obtain ⟨hr, hee⟩ := Gen.pure_ok h
      have hmod1 := Gen.modifyS_ok hmod
      cases hr
      subst hee
      refine ⟨ea, eg, eh, ei, ej, ek, maxEntries, keyRes.1, valRes.1, hints1, hints2, cvs, inner,
        manFlags, optFlags, hmax, ?_, hman, hopt, rfl, by rw [hmod1]⟩
      by_cases hp : pickVal = 1 ∧ cvs.length > 0
      · rw [if_pos hp] at hval
        obtain ⟨k, en, _, h1⟩ := Gen.bind_ok hval
        obtain ⟨sd, eo, hsd, h2⟩ := Gen.bind_ok h1
        obtain ⟨hr, _⟩ := Gen.pure_ok h2
        cases hr
        exact Or.inl ⟨sd, rfl, (Gen.index_ok hsd).1, _, (Gen.lift_ok hcvs).1⟩
      · rw [if_neg hp] at hval
        refine Or.inr ?_
        rw [hval]
        obtain ⟨v1, v2⟩ := valRes
        cases hv2
        rfl

theorem NewMap_made_at {e1 : Env} {m : MapRef} {l : List BpfMap} {bm : BpfMap}
    (hm : m = l.length) (hmaps : e1.s.Maps = l ++ [bm]) : e1.s.Maps[m]? = some bm := by
  rw [hm, hmaps]
  exact List.getElem?_concat_length _ _

theorem wrapInt64_small {x : Int} (h0 : 0 ≤ x) (h1 : x < 2 ^ 63) : wrapInt64 x = x := by
  unfold wrapInt64
  norm_num at h1 ⊢
  omega

theorem ringbuf_in_catalogue :
    ∀ mt ∈ bpfMapTypes, mt.Type_ = "BPF_MAP_TYPE_RINGBUF" → mt.MaxEntries = 24 := by
  decide!

/-- C26: for the descriptor of `BPF_MAP_TYPE_RINGBUF` in `bpfMapTypes` and a hint without
the constant-string hint, the map that `NewMap` makes has `MaxEntries = 2^k * 4096` for some
`k` with `0 <= k < 24`. -/
theorem NewMap_ringbuf_max_entries (fuel : Nat) (mt : BpfMapType) (hint hint2 : BpfCallGenHint)
    (mvs : Int) (e e1 : Env) (m : MapRef) (hmt : mt ∈ bpfMapTypes)
    (hty : mt.Type_ = "BPF_MAP_TYPE_RINGBUF") (hcs : hint.ArgHints.has HintGenConstStr = false)
    (h : NewMap fuel mt hint mvs e = .ok ((some m, hint2), e1)) :
    ∃ (bm : BpfMap) (k : Nat), e1.s.Maps[m]? = some bm ∧ k < 24 ∧
      bm.MaxEntries = 2 ^ k * 4096 := by
  obtain ⟨ea, eg, eh, ei, ej, ek, maxEntries, mapKey, mapVal, hints1, hints2, cvs, inner,
    manFlags, optFlags, hmax, _, _, _, hm, hmaps⟩ := NewMap_made h
  have h24 := ringbuf_in_catalogue mt hmt hty
  unfold newMapMaxEntries at hmax
  rw [h24, hty, hcs] at hmax
  rw [if_neg (by decide), if_neg (by decide), if_pos rfl] at hmax
  obtain ⟨k, eb, hk, h2⟩ := Gen.bind_ok hmax
  obtain ⟨y, ec, hy, h3⟩ := Gen.bind_ok h2
  obtain ⟨hr2, _⟩ := Gen.pure_ok hy
  dsimp only at h3
  rw [if_neg (by decide)] at h3
  obtain ⟨hr, _⟩ := Gen.pure_ok h3
  obtain ⟨hk0, hk1⟩ := Gen.Intn_range hk
  refine ⟨_, k.toNat, NewMap_made_at hm hmaps, by omega, ?_⟩
  show maxEntries = _
  rw [hr, hr2]
  have hlt : k.toNat < 24 := by omega
  generalize k.toNat = n at hlt ⊢
  interval_cases n <;> rfl

/-- A run for the ring-buffer descriptor whose first draw is 3: `MaxEntries` is
`2^3 * 4096`. -/
theorem NewMap_ringbuf_max_entries_witness :
    ∃ (m : MapRef) (hint2 : BpfCallGenHint) (e1 : Env),
      NewMap 1 ringbufType {} 0 (envWith (ptWith []) [] [] [3]) = .ok ((some m, hint2), e1) ∧
      e1.s.Maps.map (fun bm => bm.MaxEntries) = [32768] ∧
      ∃ (bm : BpfMap) (k : Nat), e1.s.Maps[m]? = some bm ∧ k < 24 ∧
        bm.MaxEntries = 2 ^ k * 4096 := by
  have h : (NewMap 1 ringbufType {} 0 (envWith (ptWith []) [] [] [3])).toOption.map
      (fun r => (r.1.1.isSome, r.2.s.Maps.map (fun bm => bm.MaxEntries)))
      = some (true, [32768]) := by decide!
  obtain ⟨⟨⟨om, hint2⟩, e1⟩, hrun, hval⟩ := Outcome.ok_of_toOption_map h
  cases om with
  | none => simp at hval
  | some m =>
    simp only [Option.isSome_some, Prod.mk.injEq, true_and] at hval
    exact ⟨m, hint2, e1, hrun, hval,
      NewMap_ringbuf_max_entries 1 ringbufType {} hint2 0 _ e1 m (by decide!) rfl rfl hrun⟩

theorem catalogue_man_flags_single :
    ∀ mt ∈ bpfMapTypes, ∀ g ∈ mt.ManFlags, g.length = 1 := by
  decide!

/-- The `MapFlags` of the map that `NewMap` makes hold a flag of every mandatory group of
the descriptor, so the whole group where it has one member, as every mandatory group of a
descriptor of `bpfMapTypes` has; and every flag of `MapFlags` is in a mandatory or an
optional group of the descriptor. -/
theorem NewMap_flags_in_groups (fuel : Nat) (mt : BpfMapType) (hint hint2 : BpfCallGenHint)
    (mvs : Int) (e e1 : Env) (m : MapRef)
    (h : NewMap fuel mt hint mvs e = .ok ((some m, hint2), e1)) :
    ∃ bm, e1.s.Maps[m]? = some bm ∧
      (∀ g ∈ mt.ManFlags, ∃ f ∈ g, f ∈ bm.MapFlags) ∧
      (∀ g ∈ mt.ManFlags, g.length = 1 → ∀ f ∈ g, f ∈ bm.MapFlags) ∧
      (mt ∈ bpfMapTypes → ∀ g ∈ mt.ManFlags, ∀ f ∈ g, f ∈ bm.MapFlags) ∧
      (∀ f ∈ bm.MapFlags, ∃ g ∈ mt.ManFlags ++ mt.OptFlags, f ∈ g) := by
  obtain ⟨ea, eg, eh, ei, ej, ek, maxEntries, mapKey, mapVal, hints1, hints2, cvs, inner,
    manFlags, optFlags, _, _, hman, hopt, hm, hmaps⟩ := NewMap_made h
  have h1 := manFlagsFrom_ok hman
  obtain ⟨sub, hsub, h2⟩ := optFlagsFrom_ok hopt
  have one : ∀ g ∈ mt.ManFlags, ∃ f ∈ g, f ∈ manFlags ++ optFlags := by
    intro g hg
    obtain ⟨f, hf, hfm⟩ := forall₂_mem_left h1 g hg
    exact ⟨f, hf, List.mem_append_left _ hfm⟩
  have single : ∀ g ∈ mt.ManFlags, g.length = 1 → ∀ f ∈ g, f ∈ manFlags ++ optFlags := by
    intro g hg hl f hf
    obtain ⟨f1, hf1, hfm⟩ := one g hg
    obtain ⟨x, rfl⟩ := List.length_eq_one.mp hl
    rw [List.mem_singleton] at hf hf1
    rw [hf, ← hf1]
    exact hfm
  refine ⟨_, NewMap_made_at hm hmaps, one, single, ?_, ?_⟩
  · intro hmt g hg
    exact single g hg (catalogue_man_flags_single mt hmt g hg)
  · intro f hf
    rcases List.mem_append.mp hf with hf | hf
    · obtain ⟨g, hg, hfg⟩ := forall₂_mem_right h1 f hf
      exact ⟨g, List.mem_append_left _ hg, hfg⟩
    · obtain ⟨g, hg, hfg⟩ := forall₂_mem_right h2 f hf
      exact ⟨g, List.mem_append_right _ (hsub.subset hg), hfg⟩

/-- C27: for every map-type descriptor that is passed to `NewMap`, which is an entry of
`bpfMapTypes` (`ConstPtrToMapRegType.Generate` takes it from `getHelperCompatMapTypes`, see
`pickNewMapType_val`, and `NewMap` takes the descriptor of an inner map from `bpfMapTypes`),
and every random source: the `MapFlags` of the map that `NewMap` makes contains every flag
of every mandatory group of the descriptor, and every flag of `MapFlags` is in a mandatory
or an optional group of the descriptor. -/
theorem NewMap_flags_cover_groups (fuel : Nat) (mt : BpfMapType) (hint hint2 : BpfCallGenHint)
    (mvs : Int) (e e1 : Env) (m : MapRef) (hcat : mt ∈ bpfMapTypes)
    (h : NewMap fuel mt hint mvs e = .ok ((some m, hint2), e1)) :
    ∃ bm, e1.s.Maps[m]? = some bm ∧
      (∀ g ∈ mt.ManFlags, ∀ f ∈ g, f ∈ bm.MapFlags) ∧
      (∀ f ∈ bm.MapFlags, ∃ g ∈ mt.ManFlags ++ mt.OptFlags, f ∈ g) := by
  obtain ⟨bm, hbm, -, -, hall, hfrom⟩ := NewMap_flags_in_groups fuel mt hint hint2 mvs e e1 m h
  exact ⟨bm, hbm, hall hcat, hfrom⟩

/-- A run for the descriptor of `BPF_MAP_TYPE_SK_STORAGE` with the draws all zero: the map
gets the mandatory flag `BPF_F_NO_PREALLOC` and the optional flag `BPF_F_CLONE`. -/
theorem NewMap_flags_cover_groups_witness :
    skStorageType ∈ bpfMapTypes ∧
    ∃ (m : MapRef) (hint2 : BpfCallGenHint) (e1 : Env),
      NewMap 1 skStorageType {} 0 envEmpty = .ok ((some m, hint2), e1) ∧
      e1.s.Maps.map (fun bm => bm.MapFlags) = [["BPF_F_NO_PREALLOC", "BPF_F_CLONE"]] ∧
      ∃ bm, e1.s.Maps[m]? = some bm ∧
        (∀ g ∈ skStorageType.ManFlags, ∀ f ∈ g, f ∈ bm.MapFlags) ∧
        (∀ f ∈ bm.MapFlags, ∃ g ∈ skStorageType.ManFlags ++ skStorageType.OptFlags, f ∈ g) := by
  have hcat : skStorageType ∈ bpfMapTypes := by decide!
  have h : (NewMap 1 skStorageType {} 0 envEmpty).toOption.map
      (fun r => (r.1.1.isSome, r.2.s.Maps.map (fun bm => bm.MapFlags)))
      = some (true, [["BPF_F_NO_PREALLOC", "BPF_F_CLONE"]]) := by decide!
  obtain ⟨⟨⟨om, hint2⟩, e1⟩, hrun, hval⟩ := Outcome.ok_of_toOption_map h
  cases om with
  | none => simp at hval
  | some m =>
    simp only [Option.isSome_some, Prod.mk.injEq, true_and] at hval
    exact ⟨hcat, m, hint2, e1, hrun, hval,
      NewMap_flags_cover_groups 1 skStorageType {} hint2 0 _ e1 m hcat hrun⟩

/-- C28 (failing input): for the descriptor of `BPF_MAP_TYPE_STACK_TRACE`, whose optional
group is `[BPF_F_RDONLY, BPF_F_WRONLY]`, and a hint that requests a constant string, `NewMap`
makes a map whose value struct carries the constant-string hint and whose `MapFlags` is
`[BPF_F_WRONLY]`. -/
theorem NewMap_const_str_map_write_only :
    stackTraceType ∈ bpfMapTypes ∧
    ((NewMap 1 stackTraceType { ArgHints := [HintGenConstStr] } 0
      (envWith (ptWith []) [] [] [0, 0, 0, 0, 1, 0, 1, 1])).toOption.map
      (fun r => (r.1.1, r.2.s.Maps.map (fun bm => bm.MapFlags)))
      = some (some 0, [["BPF_F_WRONLY"]])) ∧
    ((NewMap 1 stackTraceType { ArgHints := [HintGenConstStr] } 0
      (envWith (ptWith []) [] [] [0, 0, 0, 0, 1, 0, 1, 1])).toOption.map
      (fun r => r.2.s.Maps.map (fun bm => bm.Val.map (fun v => v.Hints)))
      = some [some [HintGenConstStr]]) ∧
    ((NewMap 1 stackTraceType { ArgHints := [HintGenConstStr] } 0
      (envWith (ptWith []) [] [] [0, 0, 0, 0, 1, 0, 1, 1])).toOption.map
      (fun r => r.2.s.Maps.map (fun bm => bm.Val.map (fun v => v.FieldTypes)))
      = some [some ["char [8]"]]) := by
  decide!

/-! ## The names of the maps -/

theorem sameMaps_of_stateFrame {α : Type} (m : Gen α) [hm : StateFrame m] : Sat Env.sameMaps m :=
  ⟨fun e a e1 h => by
    unfold Env.sameMaps
    rw [hm.sat.run e a e1 h]⟩

theorem Env.sameMaps_trans (e e1 e2 : Env) (h1 : Env.sameMaps e e1) (h2 : Env.sameMaps e1 e2) :
    Env.sameMaps e e2 := by
  unfold Env.sameMaps at *
  rw [h2, h1]

/-- The struct generator does not touch the map list. -/
theorem generateStruct_sameMaps (sc : List Int) (hints : HintSet) (useHint : Bool) (msh : Int) :
    Sat Env.sameMaps (generateStruct sc hints useHint msh) := by
  unfold generateStruct
  apply sat_bind _ Env.sameMaps_trans (sameMaps_of_stateFrame _)
  intro min0
  apply sat_bind _ Env.sameMaps_trans (sameMaps_of_stateFrame _)
  intro max
  dsimp only
  have key : ∀ align : Int, Sat Env.sameMaps
      (match (if useHint = true then hintedMin min0 max hints msh else some min0) with
        | none => (pure ((none, false), hints) : Gen ((Option StructDef × Bool) × HintSet))
        | some min => do
          let r ← chooseSize min max align
          match r with
          | none => pure ((none, false), hints)
          | some size =>
            if size = 0 then pure ((none, true), hints)
            else do
              let st := fillLoop size useHint size.toNat { hints := hints }
              let s ← Gen.getS
              let sd : StructDef :=
                { Name := if st.fieldTypes.length = 1 then st.fieldTypes.headD ""
                          else "struct_" ++ toString s.Structs.length
                  FieldTypes := st.fieldTypes
                  Size := size
                  Hints := st.sdHints
                  IsStruct := st.fieldTypes.length != 1 }
              Gen.modifyS (fun s => { s with Structs := s.Structs ++ [sd] })
              pure ((some sd, true), st.hints)) := by
    intro align
    split
    · exact sameMaps_of_stateFrame _
    · apply sat_bind _ Env.sameMaps_trans (sameMaps_of_stateFrame _)
      intro r
      split
      · exact sameMaps_of_stateFrame _
      · split
        · exact sameMaps_of_stateFrame _
        · apply sat_bind _ Env.sameMaps_trans (sameMaps_of_stateFrame _)
          intro s
          apply sat_bind _ Env.sameMaps_trans
          · constructor
            intro e a e1 h
            rw [Gen.modifyS_ok h]
            rfl
          · intro u
            exact sameMaps_of_stateFrame _
  split
  · exact sat_bind _ Env.sameMaps_trans (sameMaps_of_stateFrame _) key
  · exact sat_bind _ Env.sameMaps_trans (sameMaps_of_stateFrame _) key

theorem Env.namesKept_trans (e e1 e2 : Env) (h1 : Env.namesKept e e1) (h2 : Env.namesKept e1 e2) :
    Env.namesKept e e2 := fun h => h2 (h1 h)

theorem namesKept_of_sameMaps {α : Type} {m : Gen α} (h : Sat Env.sameMaps m) :
    Sat Env.namesKept m :=
  ⟨fun e a e1 hr hn => by
    have := h.run e a e1 hr
    unfold Env.sameMaps at this
    rw [this]
    exact hn⟩

theorem namesKept_of_stateFrame {α : Type} (m : Gen α) [StateFrame m] : Sat Env.namesKept m :=
  namesKept_of_sameMaps (sameMaps_of_stateFrame m)

theorem mapsNamed_concat {l : List BpfMap} {bm : BpfMap} (h : mapsNamed l)
    (hn : bm.MapName = "map_" ++ toString l.length) : mapsNamed (l ++ [bm]) := by
  unfold mapsNamed at *
  intro i b hb
  by_cases hi : i < l.length
  · rw [List.getElem?_append_left hi] at hb
    exact h i b hb
  · by_cases hi2 : i = l.length
    · subst hi2
      rw [List.getElem?_concat_length] at hb
      cases hb
      exact hn
    · have : (l ++ [bm])[i]? = none := by
        apply List.getElem?_eq_none
        rw [List.length_append, List.length_singleton]
        omega
      rw [this] at hb
      cases hb

/-- Whatever `NewMap` returns, it keeps the naming invariant of the map list. -/
theorem NewMap_namesKept (fuel : Nat) :
    ∀ (mt : BpfMapType) (hint : BpfCallGenHint) (mvs : Int),
      Sat Env.namesKept (NewMap fuel mt hint mvs) := by
  induction fuel with
  | zero =>
    intro mt hint mvs
    unfold NewMap
    exact ⟨fun e a e1 h => by cases h⟩
  | succ n ih =>
    intro mt hint mvs
    unfold NewMap
    dsimp only
    apply sat_bind _ Env.namesKept_trans (namesKept_of_stateFrame _)
    intro maxEntries
    apply sat_bind _ Env.namesKept_trans (namesKept_of_stateFrame _)
    intro s
    apply sat_bind _ Env.namesKept_trans (namesKept_of_stateFrame _)
    intro cks
    apply sat_bind _ Env.namesKept_trans (namesKept_of_stateFrame _)
    intro pickKey
    apply sat_bind _ Env.namesKept_trans
    · apply sat_ite
      · exact namesKept_of_stateFrame _
      · exact namesKept_of_sameMaps (generateStruct_sameMaps _ _ _ _)
    intro x
    obtain ⟨keyRes, hints1⟩ := x
    dsimp only
    split
    · exact sat_pure (fun _ h => h) _
    · apply sat_bind _ Env.namesKept_trans (namesKept_of_stateFrame _)
      intro s1
      apply sat_bind _ Env.namesKept_trans (namesKept_of_stateFrame _)
      intro cvs
      apply sat_bind _ Env.namesKept_trans (namesKept_of_stateFrame _)
      intro pickVal
      apply sat_bind _ Env.namesKept_trans
      · apply sat_ite
        · exact namesKept_of_stateFrame _
        · exact namesKept_of_sameMaps (generateStruct_sameMaps _ _ _ _)
      intro y
      obtain ⟨valRes, hints2⟩ := y
      dsimp only
      split
      · exact sat_pure (fun _ h => h) _
      · apply sat_bind _ Env.namesKept_trans
        · apply sat_ite
          · apply sat_bind _ Env.namesKept_trans (namesKept_of_stateFrame _)
            intro k
            apply sat_bind _ Env.namesKept_trans (namesKept_of_stateFrame _)
            intro innerMapType
            apply sat_bind _ Env.namesKept_trans (ih _ _ _)
            intro z
            exact sat_pure (fun _ h => h) _
          · exact sat_pure (fun _ h => h) _
        intro innerMap
        apply sat_bind _ Env.namesKept_trans (namesKept_of_stateFrame _)
        intro manFlags
        apply sat_bind _ Env.namesKept_trans (namesKept_of_stateFrame _)
        intro optFlags
        constructor
        intro e a e1 h
        obtain ⟨s2, ea, hs, h1⟩ := Gen.bind_ok h
        cases hs
        obtain ⟨u, eb, hm, h2⟩ := Gen.bind_ok h1
        obtain rfl := Gen.modifyS_ok hm
        obtain ⟨_, rfl⟩ := Gen.pure_ok h2
        intro hn
        exact mapsNamed_concat hn rfl

theorem digitChar_val (d : Nat) (h : d < 10) : (Nat.digitChar d).toNat - 48 = d := by
  interval_cases d <;> rfl

/-- Reading the decimal digits that `Nat.toDigitsCore` puts before `ds` gives `n`. -/
theorem toDigitsCore_val (fuel n : Nat) (ds : List Char) (h : n < fuel) :
    (Nat.toDigitsCore 10 fuel n ds).foldl (fun a c => a * 10 + (c.toNat - 48)) 0
      = ds.foldl (fun a c => a * 10 + (c.toNat - 48)) n := by
  induction fuel generalizing n ds with
  | zero => omega
  | succ f ih =>
    rw [Nat.toDigitsCore]
    have hd := digitChar_val (n % 10) (Nat.mod_lt _ (by decide))
    split
    · next h0 =>
      rw [List.foldl_cons, hd]
      congr 1
      omega
    · next h0 =>
      rw [ih (n / 10) _ (by omega), List.foldl_cons, hd]
      congr 1
      omega

theorem toString_nat_injective {i j : Nat} (h : toString i = toString j) : i = j := by
  have h1 : Nat.toDigits 10 i = Nat.toDigits 10 j := congrArg String.data h
  have h2 := congrArg (fun l => List.foldl (fun a c => a * 10 + (c.toNat - 48)) 0 l) h1
  dsimp only [Nat.toDigits] at h2
  rw [toDigitsCore_val _ _ _ (Nat.lt_succ_self i), toDigitsCore_val _ _ _ (Nat.lt_succ_self j)]
    at h2
  exact h2

theorem map_name_injective {i j : Nat} (h : "map_" ++ toString i = "map_" ++ toString j) :
    i = j := by
  apply toString_nat_injective
  have h1 := congrArg String.data h
  rw [String.data_append, String.data_append] at h1
  exact String.ext (List.append_cancel_left h1)

/-- Under the naming invariant the names of the maps are pairwise distinct. -/
theorem mapsNamed_nodup {l : List BpfMap} (h : mapsNamed l) :
    (l.map (fun bm => bm.MapName)).Nodup := by
  have heq : l.map (fun bm => bm.MapName)
      = (List.range l.length).map (fun i => "map_" ++ toString i) := by
    apply List.ext_getElem?
    intro i
    rw [List.getElem?_map, List.getElem?_map]
    by_cases hi : i < l.length
    · rw [List.getElem?_range hi, List.getElem?_eq_getElem hi]
      simp only [Option.map_some']
      rw [h i _ (List.getElem?_eq_getElem hi)]
    · rw [List.getElem?_eq_none (by omega), List.getElem?_eq_none (by simpa using hi)]
      rfl
  rw [heq]
  exact List.Nodup.map (fun i j hij => map_name_injective hij) (List.nodup_range _)

/-- C29: if every map at index `i` of `s.Maps` is named `map_i` before a call of `NewMap`,
then so is every map of `s.Maps` after the call, the inner map and the new map included; the
names of the maps are then pairwise distinct. -/
theorem NewMap_keeps_map_names (fuel : Nat) (mt : BpfMapType) (hint : BpfCallGenHint) (mvs : Int)
    (e e1 : Env) (r : Option MapRef × BpfCallGenHint)
    (hinv : ∀ (i : Nat) (bm : BpfMap), e.s.Maps[i]? = some bm →
      bm.MapName = "map_" ++ toString i)
    (h : NewMap fuel mt hint mvs e = .ok (r, e1)) :
    (∀ (i : Nat) (bm : BpfMap), e1.s.Maps[i]? = some bm → bm.MapName = "map_" ++ toString i) ∧
      (e1.s.Maps.map (fun bm => bm.MapName)).Nodup :=
  ⟨(NewMap_namesKept fuel mt hint mvs).run e r e1 h hinv,
    mapsNamed_nodup ((NewMap_namesKept fuel mt hint mvs).run e r e1 h hinv)⟩

/-- A run for `BPF_MAP_TYPE_ARRAY_OF_MAPS` in a state that holds `map_0`: the inner map
becomes `map_1` and the new map `map_2`. -/
theorem NewMap_keeps_map_names_witness :
    ∃ (r : Option MapRef × BpfCallGenHint) (e1 : Env),
      NewMap 2 arrayOfMaps {} 0 (envWith (ptWith []) [] [mapHash] []) = .ok (r, e1) ∧
      e1.s.Maps.map (fun bm => bm.MapName) = ["map_0", "map_1", "map_2"] ∧
      (∀ (i : Nat) (bm : BpfMap), e1.s.Maps[i]? = some bm →
        bm.MapName = "map_" ++ toString i) ∧
      (e1.s.Maps.map (fun bm => bm.MapName)).Nodup := by
  have h : (NewMap 2 arrayOfMaps {} 0 (envWith (ptWith []) [] [mapHash] [])).toOption.map
      (fun r => r.2.s.Maps.map (fun bm => bm.MapName)) = some ["map_0", "map_1", "map_2"] := by
    decide!
  obtain ⟨⟨r, e1⟩, hrun, hval⟩ := Outcome.ok_of_toOption_map h
  have hinv : ∀ (i : Nat) (bm : BpfMap),
      (envWith (ptWith []) [] [mapHash] []).s.Maps[i]? = some bm →
      bm.MapName = "map_" ++ toString i := by
    intro i bm hb
    cases i with
    | zero =>
      cases hb
      rfl
    | succ n => cases hb
  obtain ⟨h1, h2⟩ := NewMap_keeps_map_names 2 arrayOfMaps {} 0 _ e1 r hinv hrun
  exact ⟨r, e1, hrun, hval, h1, h2⟩

/-! ## Flags that `ConstPtrToMapRegType.Generate` removes -/

theorem indexFrom_erase (v : String) (l : List String) (i : Int) :
    (indexFrom v l i = -1 ∧ v ∉ l) ∨
      ∃ k : Nat, indexFrom v l i = i + k ∧ l.take k ++ l.drop (k + 1) = l.erase v := by
  induction l generalizing i with
  | nil => exact Or.inl ⟨rfl, List.not_mem_nil _⟩
  | cons x rest ih =>
    unfold indexFrom
    by_cases hx : x = v
    · rw [if_pos hx]
      refine Or.inr ⟨0, by simp, ?_⟩
      subst hx
      simp
    · rw [if_neg hx]
      rcases ih (i + 1) with ⟨h1, h2⟩ | ⟨k, h1, h2⟩
      · refine Or.inl ⟨h1, ?_⟩
        intro hm
        rcases List.mem_cons.mp hm with h | h
        · exact hx h.symm
        · exact h2 h
      · refine Or.inr ⟨k + 1, by rw [h1]; push_cast; omega, ?_⟩
        rw [List.take_succ_cons, List.drop_succ_cons, List.cons_append, h2,
          List.erase_cons_tail (by simpa using hx)]

/-- The method `removeFlag` erases the first occurrence of the flag. -/
theorem BpfMap.removeFlag_flags (m : BpfMap) (f : String) :
    (m.removeFlag f).MapFlags = m.MapFlags.erase f := by
  unfold BpfMap.removeFlag BpfMap.getFlag
  dsimp only
  rcases indexFrom_erase f m.MapFlags 0 with ⟨h1, h2⟩ | ⟨k, h1, h2⟩
  · rw [h1, if_neg (by decide), List.erase_of_not_mem h2]
  · rw [h1]
    have hne : ((0 : Int) + k ≠ -1) := by omega
    rw [if_pos hne]
    show List.take ((0 : Int) + k).toNat m.MapFlags ++ List.drop (((0 : Int) + k).toNat + 1) m.MapFlags = _
    rw [show ((0 : Int) + k).toNat = k by omega]
    exact h2

theorem BpfMap.removeFlag_Val (m : BpfMap) (f : String) : (m.removeFlag f).Val = m.Val := by
  unfold BpfMap.removeFlag
  dsimp only
  split <;> rfl

theorem not_mem_removeFlag {x : String} {c : Prop} [Decidable c] {m : BpfMap} (y : String)
    (h : x ∉ m.MapFlags) : x ∉ (if c then m.removeFlag y else m).MapFlags := by
  split
  · rw [BpfMap.removeFlag_flags]
    exact fun hm => h (List.mem_of_mem_erase hm)
  · exact h

theorem trimNewMapFlags_Val (s : BpfProgState) (call : BpfCall) (mt : BpfMapType)
    (m : BpfMap) : (trimNewMapFlags s call mt m).Val = m.Val := by
  unfold trimNewMapFlags
  dsimp only
  repeat' split
  all_goals simp only [BpfMap.removeFlag_Val]

/-- For a helper that writes to the map, `trimNewMapFlags` leaves no `BPF_F_RDONLY_PROG` in
a flag list that held it at most once. -/
theorem trimNewMapFlags_no_rdonly (s : BpfProgState) (call : BpfCall) (mt : BpfMapType)
    (m : BpfMap) (hw : isMapWriteHelper call.Helper.Enum = true)
    (hc : m.MapFlags.count "BPF_F_RDONLY_PROG" ≤ 1) :
    "BPF_F_RDONLY_PROG" ∉ (trimNewMapFlags s call mt m).MapFlags := by
  have h1 : "BPF_F_RDONLY_PROG" ∉ (m.removeFlag "BPF_F_RDONLY_PROG").MapFlags := by
    rw [BpfMap.removeFlag_flags]
    intro hm
    have := List.count_pos_iff.mpr hm
    rw [List.count_erase_self] at this
    omega
  unfold trimNewMapFlags
  dsimp only
  rw [if_pos hw]
  exact not_mem_removeFlag _ (not_mem_removeFlag _ (not_mem_removeFlag _ h1))

theorem catalogue_rdonly_prog_once :
    ∀ mt ∈ bpfMapTypes,
      (mt.ManFlags ++ mt.OptFlags).countP (fun g => decide ("BPF_F_RDONLY_PROG" ∈ g)) ≤ 1 := by
  decide!

/-- The flags of a new map hold a flag at most as often as the groups of the descriptor
hold it. -/
theorem new_flags_count {x : String} {mt : BpfMapType} {v : Option StructDef} {e1 e2 e3 : Env}
    {manFlags optFlags : List String}
    (hman : manFlagsFrom mt.ManFlags e1 = .ok (manFlags, e2))
    (hopt : optFlagsFrom v mt.OptFlags e2 = .ok (optFlags, e3)) :
    (manFlags ++ optFlags).count x
      ≤ (mt.ManFlags ++ mt.OptFlags).countP (fun g => decide (x ∈ g)) := by
  obtain ⟨sub, hsub, h2⟩ := optFlagsFrom_ok hopt
  rw [List.count_append, List.countP_append]
  have a := forall₂_mem_count (x := x) (manFlagsFrom_ok hman)
  have b := forall₂_mem_count (x := x) h2
  have c := hsub.countP_le (fun g => decide (x ∈ g))
  omega

/-! ## The size of the value struct of a new map -/

theorem ite_cases {α : Type} {c : Prop} [Decidable c] {a b r : α}
    (h : (if c then a else b) = r) : (c ∧ a = r) ∨ (¬ c ∧ b = r) := by
  by_cases hc : c
  · rw [if_pos hc] at h
    exact Or.inl ⟨hc, h⟩
  · rw [if_neg hc] at h
    exact Or.inr ⟨hc, h⟩

/-- Every struct that `getCompatValStructDefs` lists has at least the size `minValSize`,
unless that is -1. -/
theorem compatValStructsFrom_size {hint : BpfCallGenHint} {mvs : Int} {mt : BpfMapType}
    {l cvs : List StructDef} (h : compatValStructsFrom hint mvs mt l = .ok cvs) :
    ∀ sd ∈ cvs, mvs ≠ -1 → mvs ≤ sd.Size := by
  induction l generalizing cvs with
  | nil =>
    unfold compatValStructsFrom at h
    cases h
    intro sd hsd
    cases hsd
  | cons x rest ih =>
    unfold compatValStructsFrom at h
    by_cases h1 : mvs ≠ -1 ∧ x.Size < mvs
    · rw [if_pos h1] at h
      exact ih h
    · rw [if_neg h1] at h
      have taken : ∀ {cvs1 : List StructDef},
          (compatValStructsFrom hint mvs mt rest >>= fun more => pure (x :: more)) = .ok cvs1 →
          ∀ sd ∈ cvs1, mvs ≠ -1 → mvs ≤ sd.Size := by
        intro cvs1 hc sd hsd hne
        obtain ⟨more, hm, hp⟩ := Outcome.bind_returns hc
        cases hp
        rcases List.mem_cons.mp hsd with hx | hx
        · subst hx
          by_contra hlt
          exact h1 ⟨hne, by omega⟩
        · exact ih hm sd hx hne
      rcases ite_cases h with ⟨_, h⟩ | ⟨_, h⟩
      · exact ih h
      rcases ite_cases h with ⟨_, h⟩ | ⟨_, h⟩
      · exact ih h
      rcases ite_cases h with ⟨_, h⟩ | ⟨_, h⟩
      · exact ih h
      rcases ite_cases h with ⟨_, h⟩ | ⟨_, h⟩
      · exact ih h
      rcases ite_cases h with ⟨_, h⟩ | ⟨_, h⟩
      · exact ih h
      obtain ⟨lo, _, h⟩ := Outcome.bind_returns h
      rcases ite_cases h with ⟨_, h⟩ | ⟨_, h⟩
      · exact ih h
      obtain ⟨hi, _, h⟩ := Outcome.bind_returns h
      rcases ite_cases h with ⟨_, h⟩ | ⟨_, h⟩
      · exact ih h
      rcases ite_cases h with ⟨_, h⟩ | ⟨_, h⟩
      · obtain ⟨al, _, h⟩ := Outcome.bind_returns h
        rcases ite_cases h with ⟨_, h⟩ | ⟨_, h⟩
        · cases h
        rcases ite_cases h with ⟨_, h⟩ | ⟨_, h⟩
        · exact ih h
        · exact taken h
      · exact taken h

theorem hintedMin_ge {min0 max msh min : Int} {hints : HintSet}
    (h : hintedMin min0 max hints msh = some min) : msh ≤ min ∧ min0 ≤ min := by
  unfold hintedMin at h
  dsimp only at h
  rcases ite_cases h with ⟨_, h⟩ | ⟨_, h⟩
  · cases h
  rcases ite_cases h with ⟨_, h⟩ | ⟨hle, h⟩
  · cases h
  by_cases ho : occupiedSize hints > min0
  · rw [if_pos ho] at h
    rcases ite_cases h with ⟨hc, h⟩ | ⟨hc, h⟩
    · cases h
      omega
    · cases h
      refine ⟨?_, by omega⟩
      by_contra hlt
      exact hc ⟨by omega, by omega⟩
  · rw [if_neg ho] at h
    rcases ite_cases h with ⟨hc, h⟩ | ⟨hc, h⟩
    · cases h
      omega
    · cases h
      refine ⟨?_, le_refl _⟩
      by_contra hlt
      exact hc ⟨by omega, by omega⟩

/-- The size that `chooseSize` returns is not below a multiple of `align` that the minimum
is not below. -/
theorem chooseSize_lower {min max align size : Int} {e e1 : Env} (hmin : 0 ≤ min)
    (h : chooseSize min max align e = .ok (some size, e1)) :
    ∀ m, m ≤ min → align ∣ m → m ≤ size := by
  intro m hm hd
  unfold chooseSize at h
  by_cases he : min = max
  · rw [if_pos he] at h
    obtain ⟨hv, _⟩ := Gen.pure_ok h
    cases hv
    exact hm
  · rw [if_neg he] at h
    by_cases hgt : max > min
    · rw [if_pos hgt] at h
      obtain ⟨v, ea, hv, h⟩ := Gen.bind_ok h
      obtain ⟨hv0, hv1⟩ := Gen.Intn_range hv
      by_cases ha1 : align ≠ 1
      · rw [if_pos ha1] at h
        by_cases ha0 : align = 0
        · rw [if_pos ha0] at h
          cases h
        · rw [if_neg ha0] at h
          obtain ⟨hr, _⟩ := Gen.pure_ok h
          cases hr
          exact (round_down_bounds (show 0 ≤ v + min by omega) ha0).2.2.2 m hd (by omega)
      · rw [if_neg ha1] at h
        obtain ⟨hr, _⟩ := Gen.pure_ok h
        cases hr
        omega
    · rw [if_neg hgt] at h
      obtain ⟨hv, _⟩ := Gen.pure_ok h
      cases hv

/-- A run of `generateStruct` that returns `true`: the size came from `chooseSize` for the
minimum that the hints raised, and the result is `nil` exactly for the size 0. -/
theorem generateStruct_chosen {min0 max : Int} {rest : List Int} {hints hints1 : HintSet}
    {useHint : Bool} {msh : Int} {e e1 : Env} {r : Option StructDef}
    (h : generateStruct (min0 :: max :: rest) hints useHint msh e
      = .ok (((r, true), hints1), e1)) :
    ∃ (min size : Int) (ea eb : Env),
      (if useHint = true then hintedMin min0 max hints msh else some min0) = some min ∧
      chooseSize min max (if rest.length = 1 then rest.headD 1 else 1) ea = .ok (some size, eb) ∧
      ((size = 0 ∧ r = none) ∨ (size ≠ 0 ∧ ∃ sd, r = some sd ∧ sd.Size = size)) := by
  unfold generateStruct at h
  have hh := Gen.bind_ok h
  clear h
  obtain ⟨m0, ea, h0, h⟩ := hh
  have hh := Gen.bind_ok h
  clear h
  obtain ⟨mx, eb, h1, h⟩ := hh
  have e0 : m0 = min0 := by
    unfold Gen.index at h0
    simp [Gen.ret] at h0
    exact h0.1.symm
  have e1 : mx = max := by
    unfold Gen.index at h1
    simp [Gen.ret] at h1
    exact h1.1.symm
  subst e0 e1
  have key : ∀ (align : Int) (ec : Env),
      (match (if useHint = true then hintedMin m0 mx hints msh else some m0) with
        | none => (pure ((none, false), hints) : Gen ((Option StructDef × Bool) × HintSet))
        | some min => do
          let r ← chooseSize min mx align
          match r with
          | none => pure ((none, false), hints)
          | some size =>
            if size = 0 then pure ((none, true), hints)
            else do
              let st := fillLoop size useHint size.toNat { hints := hints }
              let s ← Gen.getS
              let sd : StructDef :=
                { Name := if st.fieldTypes.length = 1 then st.fieldTypes.headD ""
                          else "struct_" ++ toString s.Structs.length
                  FieldTypes := st.fieldTypes
                  Size := size
                  Hints := st.sdHints
                  IsStruct := st.fieldTypes.length != 1 }
              Gen.modifyS (fun s => { s with Structs := s.Structs ++ [sd] })
              pure ((some sd, true), st.hints)) ec = .ok (((r, true), hints1), e1) →
      ∃ (min size : Int) (ea eb : Env),
        (if useHint = true then hintedMin m0 mx hints msh else some m0) = some min ∧
        chooseSize min mx align ea = .ok (some size, eb) ∧
        ((size = 0 ∧ r = none) ∨ (size ≠ 0 ∧ ∃ sd, r = some sd ∧ sd.Size = size)) := by
    intro align ec hk
    cases hm : (if useHint = true then hintedMin m0 mx hints msh else some m0) with
    | none =>
      rw [hm] at hk
      obtain ⟨hr, _⟩ := Gen.pure_ok hk
      cases hr
    | some min =>
      rw [hm] at hk
      dsimp only at hk
      obtain ⟨r0, ed, hc, hk⟩ := Gen.bind_ok hk
      cases r0 with
      | none =>
        obtain ⟨hr, _⟩ := Gen.pure_ok hk
        cases hr
      | some size =>
        dsimp only at hk
        refine ⟨min, size, ec, ed, rfl, hc, ?_⟩
        by_cases hz : size = 0
        · rw [if_pos hz] at hk
          obtain ⟨hr, _⟩ := Gen.pure_ok hk
          cases hr
          exact Or.inl ⟨hz, rfl⟩
        · rw [if_neg hz] at hk
          obtain ⟨s, ee, hs, hk⟩ := Gen.bind_ok hk
          obtain ⟨u, ef, _, hk⟩ := Gen.bind_ok hk
          obtain ⟨hr, _⟩ := Gen.pure_ok hk
          cases hr
          exact Or.inr ⟨hz, _, rfl, rfl⟩
  dsimp only at h
  by_cases hl : (m0 :: mx :: rest).length = 3
  · rw [if_pos hl] at h
    obtain ⟨align, ec, h2, h⟩ := Gen.bind_ok h
    have hr1 : rest.length = 1 := by simpa using hl
    have e2 : align = rest.headD 1 := by
      cases rest with
      | nil => simp at hr1
      | cons a t =>
        unfold Gen.index at h2
        simp [Gen.ret] at h2
        simp [h2.1]
    rw [if_pos hr1, ← e2]
    exact key align ec h
  · rw [if_neg hl] at h
    obtain ⟨align, ec, h2, h⟩ := Gen.bind_ok h
    obtain ⟨hv, _⟩ := Gen.pure_ok h2
    have hr1 : ¬ rest.length = 1 := by simpa using hl
    subst hv
    rw [if_neg hr1]
    exact key _ ec h

theorem catalogue_val_align :
    ∀ mt ∈ bpfMapTypes, 2 ≤ mt.ValSize.length ∧
      (if (mt.ValSize.drop 2).length = 1 then (mt.ValSize.drop 2).headD 1 else 1) ∣ (8 : Int) := by
  decide!

/-- With hints, for a size constraint of the catalogue and a positive multiple of 8 as
`minSizeHint`, a run of `generateStruct` that returns `true` returns a struct of at least
that size. -/
theorem generateStruct_hinted_size {mt : BpfMapType} {hints hints1 : HintSet} {msh : Int}
    {e e1 : Env} {r : Option StructDef} (hmt : mt ∈ bpfMapTypes) (hpos : 0 < msh)
    (h8 : (8 : Int) ∣ msh)
    (h : generateStruct mt.ValSize hints true msh e = .ok (((r, true), hints1), e1)) :
    ∃ sd, r = some sd ∧ msh ≤ sd.Size := by
  obtain ⟨hlen, hal⟩ := catalogue_val_align mt hmt
  cases hvs : mt.ValSize with
  | nil =>
    rw [hvs] at hlen
    simp at hlen
  | cons min0 t =>
    cases t with
    | nil =>
      rw [hvs] at hlen
      simp at hlen
    | cons max rest =>
      rw [hvs] at hal h
      rw [show List.drop 2 (min0 :: max :: rest) = rest from rfl] at hal
      obtain ⟨min, size, ea, eb, hm, hc, hres⟩ := generateStruct_chosen h
      rw [if_pos rfl] at hm
      obtain ⟨hge, _⟩ := hintedMin_ge hm
      have hsz := chooseSize_lower (by omega) hc msh hge (Dvd.dvd.trans hal h8)
      rcases hres with ⟨hz, _⟩ | ⟨_, sd, hr, hs⟩
      · omega
      · exact ⟨sd, hr, by omega⟩

/-! ## The map that `ConstPtrToMapRegType.Generate` chooses -/

/-- A successful `ConstPtrToMapRegType.Generate` without a preferred map, for a call that is
not yet bound to a map, binds either a map of `s.Maps` that passed the filter of
`getHelperCompatMaps`, or the map that `NewMap` made for a compatible descriptor of
`bpfMapTypes`, with the flags trimmed. -/
theorem ConstPtrToMapRegType.Generate_chosen {mapFuel : Nat} {call call1 : BpfCall} {arg : Int}
    {e e1 : Env} {a : BpfArg} (hpm : call.Hint.PreferredMap = none) (ham : call.ArgMap = none)
    (h : ConstPtrToMapRegType.Generate mapFuel call arg e = .ok ((some a, call1), e1)) :
    ∃ m bm, call1.ArgMap = some m ∧ e1.s.Maps[m]? = some bm ∧
      (helperCompatMap e.s call bm = true ∨
        ∃ (mt : BpfMapType) (hint1 : BpfCallGenHint) (ea eb : Env) (bm0 : BpfMap),
          mt ∈ bpfMapTypes ∧
          NewMap mapFuel mt call.Hint
            (if call.Helper.Ret = "RET_PTR_TO_MAP_VALUE" ∨
                call.Helper.Ret = "RET_PTR_TO_MAP_VALUE_OR_NULL" then call.Hint.RetAccessSize
              else -1) ea = .ok ((some m, hint1), eb) ∧
          eb.s.Maps[m]? = some bm0 ∧
          bm = trimNewMapFlags eb.s { call with Hint := hint1 } mt bm0) := by
  unfold ConstPtrToMapRegType.Generate at h
  obtain ⟨a0, ea, ha0, h1⟩ := Gen.bind_ok h
  obtain ⟨_, rfl⟩ := Gen.lift_ok ha0
  simp only [hpm, ham] at h1
  obtain ⟨s, eb, hs, h2⟩ := Gen.bind_ok h1
  cases hs
  obtain ⟨useOld, ec, hu, h3⟩ := Gen.bind_ok h2
  have hsu : ec.s = ea.s := by
    split at hu
    · exact Gen.nOutOf_ok hu
    · rw [(Gen.pure_ok hu).2]
  cases useOld with
  | true =>
    simp only [if_true] at h3
    obtain ⟨k, ed, hk, h4⟩ := Gen.bind_ok h3
    obtain ⟨m, ee, hm, h5⟩ := Gen.bind_ok h4
    obtain ⟨hmem, rfl⟩ := Gen.index_ok hm
    obtain ⟨rfl, bm, hbm, hr⟩ := bindMapArg_ok h5
    cases hr
    obtain ⟨bm1, hget, hc⟩ := getHelperCompatMaps_mem hmem
    have hs2 : e1.s = ea.s := (Gen.Intn_ok hk).trans hsu
    rw [hs2] at hbm
    rw [hbm] at hget
    cases hget
    exact ⟨m, bm, rfl, by rw [hs2]; exact hbm, Or.inl hc⟩
  | false =>
    simp only [Bool.false_eq_true, if_false] at h3
    obtain ⟨pick, ed, hp, h4⟩ := Gen.bind_ok h3
    cases pick with
    | none =>
      obtain ⟨hr, _⟩ := Gen.pure_ok h4
      cases hr
    | some newMapType =>
      obtain ⟨hmem, _⟩ := pickNewMapType_ok hp
      have hcat : newMapType ∈ bpfMapTypes := (List.mem_filter.mp hmem).1
      dsimp only at h4
      obtain ⟨x, ef, hnew, h5⟩ := Gen.bind_ok h4
      obtain ⟨res, hint1⟩ := x
      cases res with
      | none =>
        obtain ⟨hr, _⟩ := Gen.pure_ok h5
        cases hr
      | some m =>
        dsimp only at h5
        obtain ⟨s1, eg, hs1, h6⟩ := Gen.bind_ok h5
        cases hs1
        obtain ⟨u, eh, hupd, h7⟩ := Gen.bind_ok h6
        obtain ⟨rfl, bm, hbm, hr⟩ := bindMapArg_ok h7
        cases hr
        obtain ⟨bm1, hget1, hget2⟩ := updateMap_ok hupd
        rw [hbm] at hget2
        cases hget2
        exact ⟨m, _, rfl, hbm, Or.inr ⟨newMapType, hint1, ed, ef, bm1, hcat, hnew, hget1, rfl⟩⟩

/-- C22: for the helpers `map_delete_elem`, `map_update_elem`, `map_push_elem` and
`map_pop_elem`, without a preferred map in the hint and without a map bound to the call, the
map that a successful `ConstPtrToMapRegType.Generate` binds has no flag `BPF_F_RDONLY_PROG`,
whether it is a map that existed or a new map. -/
theorem constPtrToMap_write_helper_map_not_rdonly (mapFuel : Nat) (call call1 : BpfCall)
    (arg : Int) (e e1 : Env) (a : BpfArg)
    (hw : call.Helper.Enum ∈ ["BPF_FUNC_map_delete_elem", "BPF_FUNC_map_update_elem",
      "BPF_FUNC_map_push_elem", "BPF_FUNC_map_pop_elem"])
    (hpm : call.Hint.PreferredMap = none) (ham : call.ArgMap = none)
    (h : ConstPtrToMapRegType.Generate mapFuel call arg e = .ok ((some a, call1), e1)) :
    ∃ m bm, call1.ArgMap = some m ∧ e1.s.Maps[m]? = some bm ∧
      "BPF_F_RDONLY_PROG" ∉ bm.MapFlags := by
  have hwr : isMapWriteHelper call.Helper.Enum = true := by
    unfold isMapWriteHelper
    simp only [List.mem_cons, List.mem_singleton, List.not_mem_nil, or_false] at hw
    rcases hw with h1 | h1 | h1 | h1 <;> rw [h1] <;> rfl
  obtain ⟨m, bm, hm, hbm, hcase⟩ := ConstPtrToMapRegType.Generate_chosen hpm ham h
  refine ⟨m, bm, hm, hbm, ?_⟩
  rcases hcase with hc | ⟨mt, hint1, ea, eb, bm0, hcat, hnew, hget, hbmeq⟩
  · exact (helperCompatMap_ok hc).1 hwr
  · obtain ⟨e2, eg, eh, ei, ej, ek, maxEntries, mapKey, mapVal, hints1, hints2, cvs, inner,
      manFlags, optFlags, _, _, hman, hopt, hmx, hmaps⟩ := NewMap_made hnew
    rw [NewMap_made_at hmx hmaps] at hget
    cases hget
    rw [hbmeq]
    apply trimNewMapFlags_no_rdonly _ _ _ _ hwr
    exact le_trans (new_flags_count hman hopt) (catalogue_rdonly_prog_once mt hcat)

/-- C25: for a helper that returns `RET_PTR_TO_MAP_VALUE` or `RET_PTR_TO_MAP_VALUE_OR_NULL`
and a hint whose `RetAccessSize` is not 0, so a positive multiple of 8 (`genHint`, the one
writer of `RetAccessSize`, sets it to the size of a struct rounded up to 8:
`genHint_access_size`), without a preferred map and without a map bound to the call, the map
that a successful `ConstPtrToMapRegType.Generate` binds has a value struct of at least the
size `RetAccessSize`, whether it is a map that existed or a new map. -/
theorem constPtrToMap_value_covers_access (mapFuel : Nat) (call call1 : BpfCall)
    (arg : Int) (e e1 : Env) (a : BpfArg)
    (hret : call.Helper.Ret = "RET_PTR_TO_MAP_VALUE" ∨
      call.Helper.Ret = "RET_PTR_TO_MAP_VALUE_OR_NULL")
    (hpos : 0 < call.Hint.RetAccessSize) (h8 : (8 : Int) ∣ call.Hint.RetAccessSize)
    (hpm : call.Hint.PreferredMap = none) (ham : call.ArgMap = none)
    (h : ConstPtrToMapRegType.Generate mapFuel call arg e = .ok ((some a, call1), e1)) :
    ∃ m bm v, call1.ArgMap = some m ∧ e1.s.Maps[m]? = some bm ∧ bm.Val = some v ∧
      call.Hint.RetAccessSize ≤ v.Size := by
  obtain ⟨m, bm, hm, hbm, hcase⟩ := ConstPtrToMapRegType.Generate_chosen hpm ham h
  rcases hcase with hc | ⟨mt, hint1, ea, eb, bm0, hcat, hnew, hget, hbmeq⟩
  · obtain ⟨v, hv, hsz⟩ := (helperCompatMap_ok hc).2.2.2.2.2.2 hret (by omega)
    exact ⟨m, bm, v, hm, hbm, hv, hsz⟩
  · rw [if_pos hret] at hnew
    obtain ⟨e2, eg, eh, ei, ej, ek, maxEntries, mapKey, mapVal, hints1, hints2, cvs, inner,
      manFlags, optFlags, _, hval, _, _, hmx, hmaps⟩ := NewMap_made hnew
    rw [NewMap_made_at hmx hmaps] at hget
    cases hget
    have hv : ∃ sd, mapVal = some sd ∧ call.Hint.RetAccessSize ≤ sd.Size := by
      rcases hval with ⟨sd, hsd, hmem, s, hcvs⟩ | hgen
      · exact ⟨sd, hsd, compatValStructsFrom_size hcvs sd hmem (by omega)⟩
      · exact generateStruct_hinted_size hcat hpos h8 hgen
    obtain ⟨sd, hsd, hsz⟩ := hv
    refine ⟨m, bm, sd, hm, hbm, ?_, hsz⟩
    rw [hbmeq, trimNewMapFlags_Val]
    exact hsd

/-! ## Runs of the map functions -/

/-- A state whose one map has a value struct with a spin lock and no flags: the filter
selects it for a call whose hint requests a spin lock. -/
theorem getHelperCompatMaps_respects_hints_witness :
    0 ∈ getHelperCompatMaps (envWith (ptWith []) [] [mapLock] []).s callLockLookup ∧
    ∃ bm, (envWith (ptWith []) [] [mapLock] []).s.Maps[0]? = some bm ∧
      (callLockLookup.Hint.ArgHints.has HintGenSpinlock = true →
        (∃ v, bm.Val = some v ∧ "struct bpf_spin_lock" ∈ v.FieldTypes) ∧
          "BPF_F_RDONLY_PROG" ∉ bm.MapFlags) ∧
      (callLockLookup.Hint.ArgHints.has HintGenTimer = true →
        (∃ v, bm.Val = some v ∧ "struct bpf_timer" ∈ v.FieldTypes) ∧
          "BPF_F_RDONLY_PROG" ∉ bm.MapFlags) ∧
      (callLockLookup.Hint.ArgHints.has HintGenConstStr = true →
        ∃ v, bm.Val = some v ∧ "char [8]" ∈ v.FieldTypes) :=
  ⟨by decide!, getHelperCompatMaps_respects_hints _ callLockLookup 0 (by decide!)⟩

/-- For `get_local_storage` and a state whose one map is a cgroup storage, the filter
selects nothing; for `map_lookup_elem` and the maps `[cgroup storage, hash]` it selects the
hash map. -/
theorem getHelperCompatMaps_no_cgroup_storage_witness :
    getHelperCompatMaps (envWith (ptWith []) [] [mapCgroup] []).s
      (NewBpfCall hGetLocalStorage (newBpfCallGenHint none)) = [] ∧
    1 ∈ getHelperCompatMaps (envWith (ptWith []) [] [mapCgroup, mapHash] []).s callLookup ∧
    ∃ bm, (envWith (ptWith []) [] [mapCgroup, mapHash] []).s.Maps[1]? = some bm ∧
      bm.MapType ≠ "BPF_MAP_TYPE_CGROUP_STORAGE" ∧
      bm.MapType ≠ "BPF_MAP_TYPE_PERCPU_CGROUP_STORAGE" :=
  ⟨by decide!, by decide!, getHelperCompatMaps_no_cgroup_storage _ callLookup 1 (by decide!)⟩

/-- A struct of 15 bytes made in a state without structs: it has four fields, is appended at
index 0 and is named `struct_0`. -/
theorem generateStruct_appends_named_witness :
    ∃ (sd : StructDef) (e1 : Env),
      generateStruct [1, 4096] [] false 0 (envWith (ptWith []) [] [] [14])
        = .ok (((some sd, true), []), e1) ∧
      sd.Name = "struct_0" ∧ sd.FieldTypes.length = 4 ∧
      e1.s.Structs = (envWith (ptWith []) [] [] [14]).s.Structs ++ [sd] ∧
      e1.s.Structs[(envWith (ptWith []) [] [] [14]).s.Structs.length]? = some sd ∧
      (∀ t, sd.FieldTypes = [t] → sd.IsStruct = false ∧ sd.Name = t) ∧
      (sd.FieldTypes.length ≠ 1 → sd.IsStruct = true ∧
        sd.Name = "struct_" ++ toString (envWith (ptWith []) [] [] [14]).s.Structs.length) := by
  have h : (generateStruct [1, 4096] [] false 0 (envWith (ptWith []) [] [] [14])).toOption.map
      (fun r => (r.1.1.1.map (fun sd => (sd.Name, sd.FieldTypes.length)), r.1.1.2, r.1.2))
      = some (some ("struct_0", 4), true, []) := by decide!
  obtain ⟨⟨⟨⟨osd, b⟩, hints1⟩, e1⟩, hrun, hval⟩ := Outcome.ok_of_toOption_map h
  cases osd with
  | none => simp at hval
  | some sd =>
    simp only [Option.map_some', Option.some.injEq, Prod.mk.injEq] at hval
    obtain ⟨⟨hname, hlen⟩, hb, hh⟩ := hval
    subst hb hh
    exact ⟨sd, e1, hrun, hname, hlen,
      generateStruct_appends_named _ _ _ _ _ _ _ e1 sd hrun⟩

/-- A run for `map_update_elem` that makes a new hash map: of the optional flags the draws
take only `BPF_F_RDONLY_PROG`, which is removed again, so the map has no flag. -/
theorem constPtrToMap_write_helper_map_not_rdonly_witness :
    ∃ (a : BpfArg) (call1 : BpfCall) (e1 : Env),
      ConstPtrToMapRegType.Generate 1 (NewBpfCall hMapUpdateElem (newBpfCallGenHint none)) 0 c22Env
        = .ok ((some a, call1), e1) ∧
      e1.s.Maps.map (fun bm => (bm.MapType, bm.MapFlags)) = [("BPF_MAP_TYPE_HASH", [])] ∧
      ∃ m bm, call1.ArgMap = some m ∧ e1.s.Maps[m]? = some bm ∧
        "BPF_F_RDONLY_PROG" ∉ bm.MapFlags := by
  have h : (ConstPtrToMapRegType.Generate 1 (NewBpfCall hMapUpdateElem (newBpfCallGenHint none)) 0
      c22Env).toOption.map
        (fun r => (r.1.1.isSome, r.2.s.Maps.map (fun bm => (bm.MapType, bm.MapFlags))))
      = some (true, [("BPF_MAP_TYPE_HASH", [])]) := by decide!
  obtain ⟨⟨⟨oa, call1⟩, e1⟩, hrun, hval⟩ := Outcome.ok_of_toOption_map h
  cases oa with
  | none => simp at hval
  | some a =>
    simp only [Option.isSome_some, Prod.mk.injEq, true_and] at hval
    exact ⟨a, call1, e1, hrun, hval,
      constPtrToMap_write_helper_map_not_rdonly 1 _ call1 0 _ e1 a (by decide!) rfl rfl hrun⟩

/-- A run for `map_lookup_elem` with `RetAccessSize = 8` that makes a new
`BPF_MAP_TYPE_DEVMAP` map: its value struct has 8 bytes. -/
theorem constPtrToMap_value_covers_access_witness :
    ∃ (a : BpfArg) (call1 : BpfCall) (e1 : Env),
      ConstPtrToMapRegType.Generate 1 (callLookupSized 8) 0 c25Env
        = .ok ((some a, call1), e1) ∧
      e1.s.Maps.map (fun bm => (bm.MapType, bm.Val.map (fun v => v.Size)))
        = [("BPF_MAP_TYPE_DEVMAP", some 8)] ∧
      ∃ m bm v, call1.ArgMap = some m ∧ e1.s.Maps[m]? = some bm ∧ bm.Val = some v ∧
        (callLookupSized 8).Hint.RetAccessSize ≤ v.Size := by
  have h : (ConstPtrToMapRegType.Generate 1 (callLookupSized 8) 0 c25Env).toOption.map
        (fun r => (r.1.1.isSome,
          r.2.s.Maps.map (fun bm => (bm.MapType, bm.Val.map (fun v => v.Size)))))
      = some (true, [("BPF_MAP_TYPE_DEVMAP", some 8)]) := by decide!
  obtain ⟨⟨⟨oa, call1⟩, e1⟩, hrun, hval⟩ := Outcome.ok_of_toOption_map h
  cases oa with
  | none => simp at hval
  | some a =>
    simp only [Option.isSome_some, Prod.mk.injEq, true_and] at hval
    exact ⟨a, call1, e1, hrun, hval,
      constPtrToMap_value_covers_access 1 _ call1 0 _ e1 a (Or.inr rfl) (by decide) (by decide)
        rfl rfl hrun⟩

/-! ## Packet access -/

/-- C31: `checkPktAccess` follows the decision table: for a program type in `PktPtrReadOnly`
it is false for a write and `helper.PktAccess` for a read; in `PktPtrReadWrite` it is
`helper.PktAccess` for both; in `PktPtrReadWriteNoCheck` it is true; in none of the three
sets it is false. Hence for a read-only program type and a helper with `PktAccess`,
`PTR_TO_PACKET` passes `CheckAccess` for a read slot and fails it for a write slot. -/
theorem checkPktAccess_decision_table (s : BpfProgState) (h : BpfHelperFunc) (isWrite : Bool) :
    (s.pt.Enum ∈ PktPtrReadOnly →
      checkPktAccess s h true = false ∧ checkPktAccess s h false = h.PktAccess) ∧
    (s.pt.Enum ∈ PktPtrReadWrite → checkPktAccess s h isWrite = h.PktAccess) ∧
    (s.pt.Enum ∈ PktPtrReadWriteNoCheck → checkPktAccess s h isWrite = true) ∧
    (s.pt.Enum ∉ PktPtrReadOnly → s.pt.Enum ∉ PktPtrReadWrite →
      s.pt.Enum ∉ PktPtrReadWriteNoCheck → checkPktAccess s h isWrite = false) ∧
    (s.pt.Enum ∈ PktPtrReadOnly → h.PktAccess = true →
      RegType.PtrToPacketRegType.CheckAccess s h false = true ∧
      RegType.PtrToPacketRegType.CheckAccess s h true = false) := by
  have hd1 : ∀ x : String, x ∈ PktPtrReadWrite → x ∉ PktPtrReadOnly := by
    intro x hx; simp only [PktPtrReadWrite, List.mem_cons, List.mem_singleton, List.mem_nil_iff,
      or_false] at hx
    rcases hx with rfl | rfl | rfl | rfl | rfl | rfl <;> decide
  have hd2 : ∀ x : String, x ∈ PktPtrReadWriteNoCheck → x ∉ PktPtrReadOnly ∧ x ∉ PktPtrReadWrite := by
    intro x hx; simp only [PktPtrReadWriteNoCheck, List.mem_singleton] at hx
    subst hx; decide
  refine ⟨?_, ?_, ?_, ?_, ?_⟩
  · intro hro
    simp [checkPktAccess, hro]
  · intro hrw
    simp [checkPktAccess, hrw, hd1 _ hrw]
  · intro hnc
    simp [checkPktAccess, hnc, (hd2 _ hnc).1, (hd2 _ hnc).2]
  · intro h1 h2 h3
    simp [checkPktAccess, h1, h2, h3]
  · intro hro hp
    simp [RegType.CheckAccess, checkPktAccess, hro, hp]

/-- C31 (example): under `LWT_IN` with a packet-accessing helper, `PTR_TO_PACKET` passes
`CheckAccess` for a read and fails it for a write. -/
theorem checkPktAccess_decision_table_witness :
    lwtInState.pt.Enum ∈ PktPtrReadOnly ∧ hSkbLoadBytes.PktAccess = true ∧
    RegType.PtrToPacketRegType.CheckAccess lwtInState hSkbLoadBytes false = true ∧
    RegType.PtrToPacketRegType.CheckAccess lwtInState hSkbLoadBytes true = false :=
  ⟨by decide, rfl,
    (checkPktAccess_decision_table lwtInState hSkbLoadBytes false).2.2.2.2 (by decide) rfl⟩

/-! ## The classification of calls by reference behaviour -/

/-- C32 (as amended): `isRefReleaseCall` is 1 exactly for `sk_release`, 2 exactly for
`ringbuf_submit` and `ringbuf_discard`, and -1 otherwise; `isRefPropagateCall` is 1 exactly
for `tcp_sock`, `sk_fullsock` and the five listed `skc_to_*` helpers, and -1 otherwise;
`isRefAcquireCall` leaves the state alone and, for a helper other than `map_lookup_elem`, is
1 exactly for `sk_lookup_tcp`, `sk_lookup_udp`, `skc_lookup_tcp`, 2 exactly for
`ringbuf_reserve`, -1 otherwise; for `map_lookup_elem` with a bound map it is 1 exactly if
the map is a sockmap or sockhash and -1 otherwise, and without a bound map it panics; no
call is put into more than one of the three classes. -/
theorem ref_classification_table (call : BpfCall) (e : Env) :
    (call.isRefReleaseCall =
      if call.Helper.Enum = "BPF_FUNC_sk_release" then 1
      else if call.Helper.Enum ∈ ["BPF_FUNC_ringbuf_submit", "BPF_FUNC_ringbuf_discard"] then 2
      else -1) ∧
    (call.isRefPropagateCall =
      if call.Helper.Enum ∈ ["BPF_FUNC_tcp_sock", "BPF_FUNC_sk_fullsock",
        "BPF_FUNC_skc_to_tcp_sock", "BPF_FUNC_skc_to_tcp6_sock", "BPF_FUNC_skc_to_udp6_sock",
        "BPF_FUNC_skc_to_tcp_timewait_sock", "BPF_FUNC_skc_to_tcp_request_sock"] then 1
      else -1) ∧
    (call.Helper.Enum ≠ "BPF_FUNC_map_lookup_elem" →
      call.isRefAcquireCall e = .ok
        ((if call.Helper.Enum ∈ ["BPF_FUNC_sk_lookup_tcp", "BPF_FUNC_sk_lookup_udp",
            "BPF_FUNC_skc_lookup_tcp"] then 1
          else if call.Helper.Enum = "BPF_FUNC_ringbuf_reserve" then 2 else -1), e)) ∧
    (∀ (m : MapRef) (bm : BpfMap), call.Helper.Enum = "BPF_FUNC_map_lookup_elem" →
      call.ArgMap = some m → e.s.Maps[m]? = some bm →
      call.isRefAcquireCall e = .ok
        ((if bm.MapType ∈ ["BPF_MAP_TYPE_SOCKMAP", "BPF_MAP_TYPE_SOCKHASH"] then 1 else -1), e)) ∧
    (call.Helper.Enum = "BPF_FUNC_map_lookup_elem" → call.ArgMap = none →
      call.isRefAcquireCall e = .fault "invalid memory address or nil pointer dereference") ∧
    (∀ (v : Int) (e1 : Env), call.isRefAcquireCall e = .ok (v, e1) → v ≠ -1 →
      call.isRefReleaseCall = -1 ∧ call.isRefPropagateCall = -1) ∧
    (call.isRefReleaseCall ≠ -1 → call.isRefPropagateCall = -1) := by
  have hrel : call.isRefReleaseCall =
      if call.Helper.Enum = "BPF_FUNC_sk_release" then 1
      else if call.Helper.Enum ∈ ["BPF_FUNC_ringbuf_submit", "BPF_FUNC_ringbuf_discard"] then 2
      else -1 := by
    unfold BpfCall.isRefReleaseCall
    by_cases h1 : call.Helper.Enum = "BPF_FUNC_sk_release"
    · simp [h1]
    · by_cases h2 : call.Helper.Enum = "BPF_FUNC_ringbuf_submit"
      · simp [h2]
      · by_cases h3 : call.Helper.Enum = "BPF_FUNC_ringbuf_discard"
        · simp [h3]
        · simp [h1, h2, h3]
  have hprop : call.isRefPropagateCall =
      if call.Helper.Enum ∈ ["BPF_FUNC_tcp_sock", "BPF_FUNC_sk_fullsock",
        "BPF_FUNC_skc_to_tcp_sock", "BPF_FUNC_skc_to_tcp6_sock", "BPF_FUNC_skc_to_udp6_sock",
        "BPF_FUNC_skc_to_tcp_timewait_sock", "BPF_FUNC_skc_to_tcp_request_sock"] then 1
      else -1 := by
    unfold BpfCall.isRefPropagateCall
    simp only [List.mem_cons, List.mem_singleton, List.mem_nil_iff, or_false]
  have hacq : call.Helper.Enum ≠ "BPF_FUNC_map_lookup_elem" →
      call.isRefAcquireCall e = .ok
        ((if call.Helper.Enum ∈ ["BPF_FUNC_sk_lookup_tcp", "BPF_FUNC_sk_lookup_udp",
            "BPF_FUNC_skc_lookup_tcp"] then 1
          else if call.Helper.Enum = "BPF_FUNC_ringbuf_reserve" then 2 else -1), e) := by
    intro hn
    unfold BpfCall.isRefAcquireCall
    by_cases h1 : call.Helper.Enum = "BPF_FUNC_sk_lookup_tcp" ∨
        call.Helper.Enum = "BPF_FUNC_sk_lookup_udp" ∨ call.Helper.Enum = "BPF_FUNC_skc_lookup_tcp"
    · have hr : call.Helper.Enum ≠ "BPF_FUNC_ringbuf_reserve" := by
        rcases h1 with h1 | h1 | h1 <;> rw [h1] <;> decide
      have hm : call.Helper.Enum ∈ ["BPF_FUNC_sk_lookup_tcp", "BPF_FUNC_sk_lookup_udp",
            "BPF_FUNC_skc_lookup_tcp"] := by
        simpa only [List.mem_cons, List.mem_singleton, List.mem_nil_iff, or_false] using h1
      rw [if_pos h1, if_pos hm]
      refine Gen.bind_step rfl ?_
      rw [if_neg hr]; rfl
    · have hm : call.Helper.Enum ∉ ["BPF_FUNC_sk_lookup_tcp", "BPF_FUNC_sk_lookup_udp",
            "BPF_FUNC_skc_lookup_tcp"] := by
        simpa only [List.mem_cons, List.mem_singleton, List.mem_nil_iff, or_false] using h1
      rw [if_neg h1, if_neg hn, if_neg hm]
      refine Gen.bind_step rfl ?_
      by_cases hr : call.Helper.Enum = "BPF_FUNC_ringbuf_reserve"
      · rw [if_pos hr, if_pos hr]; rfl
      · rw [if_neg hr, if_neg hr]; rfl
  have hmap : ∀ (m : MapRef) (bm : BpfMap), call.Helper.Enum = "BPF_FUNC_map_lookup_elem" →
      call.ArgMap = some m → e.s.Maps[m]? = some bm →
      call.isRefAcquireCall e = .ok
        ((if bm.MapType ∈ ["BPF_MAP_TYPE_SOCKMAP", "BPF_MAP_TYPE_SOCKHASH"] then 1 else -1), e) := by
    intro m bm hE hA hM
    unfold BpfCall.isRefAcquireCall
    have h1 : ¬ (call.Helper.Enum = "BPF_FUNC_sk_lookup_tcp" ∨
        call.Helper.Enum = "BPF_FUNC_sk_lookup_udp" ∨
        call.Helper.Enum = "BPF_FUNC_skc_lookup_tcp") := by rw [hE]; decide
    have hr : call.Helper.Enum ≠ "BPF_FUNC_ringbuf_reserve" := by rw [hE]; decide
    rw [if_neg h1, if_pos hE, hA]
    have hd : derefMap m e = .ok (bm, e) := by unfold derefMap; rw [hM]
    refine Gen.bind_step (Gen.bind_step hd rfl) ?_
    rw [if_neg hr]
    by_cases hs : bm.MapType = "BPF_MAP_TYPE_SOCKMAP"
    · simp [hs]; rfl
    · by_cases hh : bm.MapType = "BPF_MAP_TYPE_SOCKHASH"
      · simp [hh]; rfl
      · simp [hs, hh]; rfl
  have hnil : call.Helper.Enum = "BPF_FUNC_map_lookup_elem" → call.ArgMap = none →
      call.isRefAcquireCall e = .fault "invalid memory address or nil pointer dereference" := by
    intro hE hA
    unfold BpfCall.isRefAcquireCall
    have h1 : ¬ (call.Helper.Enum = "BPF_FUNC_sk_lookup_tcp" ∨
        call.Helper.Enum = "BPF_FUNC_sk_lookup_udp" ∨
        call.Helper.Enum = "BPF_FUNC_skc_lookup_tcp") := by rw [hE]; decide
    rw [if_neg h1, if_pos hE, hA]
    rfl
  refine ⟨hrel, hprop, hacq, hmap, hnil, ?_, ?_⟩
  · intro v e1 hok hv
    by_cases hE : call.Helper.Enum = "BPF_FUNC_map_lookup_elem"
    · rw [hrel, hprop, hE]; decide
    · rw [hacq hE] at hok
      injection hok with hok
      injection hok with hv1 _
      rw [hrel, hprop]
      by_cases h1 : call.Helper.Enum ∈ ["BPF_FUNC_sk_lookup_tcp", "BPF_FUNC_sk_lookup_udp",
            "BPF_FUNC_skc_lookup_tcp"]
      · simp only [List.mem_cons, List.mem_singleton, List.mem_nil_iff, or_false] at h1
        rcases h1 with h1 | h1 | h1 <;> rw [h1] <;> decide
      · rw [if_neg h1] at hv1
        by_cases hr : call.Helper.Enum = "BPF_FUNC_ringbuf_reserve"
        · rw [hr]; decide
        · rw [if_neg hr] at hv1
          exact absurd hv1.symm hv
  · intro hr
    rw [hrel] at hr
    rw [hprop]
    by_cases h1 : call.Helper.Enum = "BPF_FUNC_sk_release"
    · rw [h1]; decide
    · rw [if_neg h1] at hr
      by_cases h2 : call.Helper.Enum ∈ ["BPF_FUNC_ringbuf_submit", "BPF_FUNC_ringbuf_discard"]
      · simp only [List.mem_cons, List.mem_singleton, List.mem_nil_iff, or_false] at h2
        rcases h2 with h2 | h2 <;> rw [h2] <;> decide
      · rw [if_neg h2] at hr
        exact absurd rfl hr

/-- C32 (example): `sk_lookup_tcp` is an acquire of type 1, and neither a release nor a
propagate call. -/
theorem ref_classification_table_witness :
    (callOn hSkLookupTcp "v0" "v1").isRefAcquireCall envEmpty = .ok (1, envEmpty) ∧
    (callOn hSkLookupTcp "v0" "v1").isRefReleaseCall = -1 ∧
    (callOn hSkLookupTcp "v0" "v1").isRefPropagateCall = -1 := by
  have h := ref_classification_table (callOn hSkLookupTcp "v0" "v1") envEmpty
  have h3 := h.2.2.1 (by decide)
  exact ⟨h3, h.2.2.2.2.2.1 1 envEmpty h3 (by decide)⟩

/-- C32 (counterexample): the enum `BPF_FUNC_skc_to_unix_sock` starts with
`BPF_FUNC_skc_to_`, yet `isRefPropagateCall` returns -1 for it; and `isRefAcquireCall`
panics on a `map_lookup_elem` call without a bound map. -/
theorem isRefPropagateCall_misses_skc_to_unix_sock :
    "BPF_FUNC_skc_to_".toList.isPrefixOf callSkcToUnixSock.Helper.Enum.toList = true ∧
    callSkcToUnixSock.isRefPropagateCall = -1 ∧
    callLookupUnbound.isRefAcquireCall envEmpty =
      .fault "invalid memory address or nil pointer dereference" :=
  ⟨by decide!, by decide!, by rfl⟩

/-! ## Map types for `map_update_elem` -/

/-- C34 (evaluation): for `map_update_elem`, whatever the state and the hint, the list of
`getHelperCompatMapTypes` holds neither `BPF_MAP_TYPE_SOCKMAP` nor `BPF_MAP_TYPE_SOCKHASH`,
because `mapCompFuncs` does not list the helper for them; so also under
`BPF_PROG_TYPE_SCHED_CLS`, a member of `mayUpdateSockmapProgs`, with an empty hint and a
section that is not sleepable, where the list is the seven hash and array types. -/
theorem getHelperCompatMapTypes_update_elem_without_sockmap (s : BpfProgState)
    (hint : BpfCallGenHint) :
    ((getHelperCompatMapTypes s (NewBpfCall hMapUpdateElem hint)).map
        (fun mt => mt.Type_)).contains "BPF_MAP_TYPE_SOCKMAP" = false ∧
    ((getHelperCompatMapTypes s (NewBpfCall hMapUpdateElem hint)).map
        (fun mt => mt.Type_)).contains "BPF_MAP_TYPE_SOCKHASH" = false ∧
    isMapFuncCompatible "BPF_MAP_TYPE_SOCKMAP" "BPF_FUNC_map_update_elem" = false ∧
    isMapFuncCompatible "BPF_MAP_TYPE_SOCKHASH" "BPF_FUNC_map_update_elem" = false ∧
    envEmpty.s.pt.Enum ∈ mayUpdateSockmapProgs ∧ envEmpty.s.Sec.Sleepable = false ∧
    (getHelperCompatMapTypes envEmpty.s (NewBpfCall hMapUpdateElem (newBpfCallGenHint none))).map
        (fun mt => mt.Type_) =
      ["BPF_MAP_TYPE_HASH", "BPF_MAP_TYPE_ARRAY", "BPF_MAP_TYPE_PERCPU_HASH",
        "BPF_MAP_TYPE_PERCPU_ARRAY", "BPF_MAP_TYPE_LRU_HASH", "BPF_MAP_TYPE_LRU_PERCPU_HASH",
        "BPF_MAP_TYPE_LPM_TRIE"] := by
  have key : ∀ t : String, isMapFuncCompatible t "BPF_FUNC_map_update_elem" = false →
      ((getHelperCompatMapTypes s (NewBpfCall hMapUpdateElem hint)).map
        (fun mt => mt.Type_)).contains t = false := by
    intro t ht
    rw [← Bool.not_eq_true]
    intro hc
    rw [List.contains_iff_exists_mem_beq] at hc
    obtain ⟨x, hx, hxe⟩ := hc
    have hxe1 : t = x := by simpa using hxe
    subst hxe1
    rw [List.mem_map] at hx
    have hc := hx
    obtain ⟨mt, hmt, rfl⟩ := hc
    unfold getHelperCompatMapTypes at hmt
    have hf := (List.mem_filter.mp hmt).2
    unfold helperCompatMapType at hf
    have hE : (NewBpfCall hMapUpdateElem hint).Helper.Enum = "BPF_FUNC_map_update_elem" := rfl
    rw [hE, ht] at hf
    simp at hf
  refine ⟨key _ (by decide!), key _ (by decide!), by decide!, by decide!, by decide!, rfl,
    by decide!⟩

/-! ## The size slot -/

theorem Gen.index_get {α : Type} {xs : List α} {i : Int} {e e1 : Env} {x : α}
    (h : Gen.index xs i e = .ok (x, e1)) : 0 ≤ i ∧ xs[i.toNat]? = some x ∧ e1 = e := by
  unfold Gen.index at h
  by_cases hi : i < 0
  · simp [hi, Gen.fault] at h
  · cases hx : xs[i.toNat]? with
    | none => simp [hi, hx, Gen.fault] at h
    | some y =>
      simp [hi, hx, Gen.ret] at h
      obtain ⟨rfl, rfl⟩ := h
      exact ⟨by omega, rfl, rfl⟩

theorem storeArg_ok {call call1 : BpfCall} {arg : Int} {a : BpfArg} {b : Bool} {e e1 : Env}
    (h : storeArg call arg a e = .ok ((b, call1), e1)) :
    b = true ∧ 0 ≤ arg ∧ arg < call.Args.length ∧
      call1 = { call with Args := call.Args.set arg.toNat (some a) } ∧ e1 = e := by
  unfold storeArg BpfCall.setArg at h
  by_cases hi : 0 ≤ arg ∧ arg < call.Args.length
  · rw [if_pos hi] at h
    cases h
    exact ⟨rfl, hi.1, hi.2, rfl, rfl⟩
  · rw [if_neg hi] at h
    cases h

/-- Where the stack buffer size comes from: `PtrToStackRegType.Generate` sets
`call.StackVarSize` to a drawn number below 64, or to the key size or the value size of the
bound map rounded up to a multiple of 8. -/
theorem PtrToStackRegType.Generate_size {call call1 : BpfCall} {arg : Int} {e e1 : Env}
    {r : Option BpfArg} (h : PtrToStackRegType.Generate call arg e = .ok ((r, call1), e1)) :
    (0 ≤ call1.StackVarSize ∧ call1.StackVarSize < 64) ∨
    (∃ m bm k, call.ArgMap = some m ∧ e.s.Maps[m]? = some bm ∧ bm.Key = some k ∧
      roundUp k.Size 8 = .ok call1.StackVarSize) ∨
    (∃ m bm v, call.ArgMap = some m ∧ e.s.Maps[m]? = some bm ∧ bm.Val = some v ∧
      roundUp v.Size 8 = .ok call1.StackVarSize) := by
  unfold PtrToStackRegType.Generate at h
  have hh := Gen.bind_ok h; clear h; obtain ⟨a, ea, ha, h⟩ := hh
  obtain ⟨-, rfl⟩ := Gen.lift_ok ha
  have hh := Gen.bind_ok h; clear h; obtain ⟨v0, eb, hv0, h⟩ := hh
  have hr := Gen.Intn_range hv0
  have hs := Gen.Intn_ok hv0
  have hh := Gen.bind_ok h; clear h; obtain ⟨vs, ec, hvs, h⟩ := hh
  have hh := Gen.bind_ok h; clear h; obtain ⟨s, ed, -, h⟩ := hh
  have hh := Gen.bind_ok h; clear h; obtain ⟨u, ee, -, h⟩ := hh
  obtain ⟨hp, -⟩ := Gen.pure_ok h
  have hc : call1.StackVarSize = vs := by
    have := congrArg (fun p => p.2.StackVarSize) hp
    exact this
  rw [hc]
  clear h hp hc
  cases hm : call.ArgMap with
  | none =>
    rw [hm] at hvs
    obtain ⟨rfl, -⟩ := Gen.pure_ok hvs
    exact Or.inl hr
  | some am =>
    rw [hm] at hvs
    dsimp only at hvs
    have hh := Gen.bind_ok hvs; clear hvs; obtain ⟨bm, e3, hbm, h⟩ := hh
    obtain ⟨rfl, hget⟩ := derefMap_ok hbm
    rw [hs] at hget
    have hh := Gen.bind_ok h; clear h; obtain ⟨argType, e4, hat, h⟩ := hh
    obtain ⟨-, rfl⟩ := Gen.index_ok hat
    have hh := Gen.bind_ok h; clear h; obtain ⟨v1, e5, hv1, h⟩ := hh
    have h1 : (0 ≤ v1 ∧ v1 < 64) ∨ ∃ k, bm.Key = some k ∧ roundUp k.Size 8 = .ok v1 := by
      cases hk : bm.Key with
      | none =>
        rw [hk] at hv1
        obtain ⟨rfl, -⟩ := Gen.pure_ok hv1
        exact Or.inl hr
      | some k =>
        rw [hk] at hv1
        dsimp only at hv1
        by_cases hatk : argType = "ARG_PTR_TO_MAP_KEY"
        · rw [if_pos hatk] at hv1
          exact Or.inr ⟨k, rfl, (Gen.lift_ok hv1).1⟩
        · rw [if_neg hatk] at hv1
          obtain ⟨rfl, -⟩ := Gen.pure_ok hv1
          exact Or.inl hr
    have hkeep : vs = v1 → ((0 ≤ vs ∧ vs < 64) ∨
        (∃ m bm k, some am = some m ∧ ea.s.Maps[m]? = some bm ∧ bm.Key = some k ∧
          roundUp k.Size 8 = .ok vs) ∨
        (∃ m bm v, some am = some m ∧ ea.s.Maps[m]? = some bm ∧ bm.Val = some v ∧
          roundUp v.Size 8 = .ok vs)) := by
      intro hv
      subst hv
      rcases h1 with h1 | ⟨k, hk, hk1⟩
      · exact Or.inl h1
      · exact Or.inr (Or.inl ⟨am, bm, k, rfl, hget, hk, hk1⟩)
    cases hv : bm.Val with
    | none =>
      rw [hv] at h
      exact hkeep (Gen.pure_ok h).1
    | some v =>
      rw [hv] at h
      dsimp only at h
      by_cases hatv : argType = "ARG_PTR_TO_MAP_VALUE" ∨ argType = "ARG_PTR_TO_MAP_VALUE_OR_NULL" ∨
          argType = "ARG_PTR_TO_UNINIT_MAP_VALUE"
      · rw [if_pos hatv] at h
        exact Or.inr (Or.inr ⟨am, bm, v, rfl, hget, hv, (Gen.lift_ok h).1⟩)
      · rw [if_neg hatv] at h
        exact hkeep (Gen.pure_ok h).1

/-! ## The size scalar and its guard -/

/-- C36 (failing input): the generator run that yields `sk_lookup_tcp` with a 16-byte stack
buffer: the size argument is the scalar `v1`, declared with the value 16, its `Umax` is 16,
and the guard that `getArgConstraints` emits for the call contains `v1 < 16`. -/
theorem size_scalar_fails_its_guard :
    (GenBpfProg 1 2 [ptRefs] c8Env).toOption.map
      (fun r => r.2.s.Calls.map (fun c => (c.Helper.Enum, c.StackVarSize)))
      = some [("BPF_FUNC_sk_lookup_tcp", 16)] ∧
    (GenBpfProg 1 2 [ptRefs] c8Env).toOption.map
      (fun r => r.2.s.Calls.map (fun c => (c.Args.drop 2).head?.join.map (fun b => b.ArgType)))
      = some [some "ARG_CONST_SIZE"] ∧
    (GenBpfProg 1 2 [ptRefs] c8Env).toOption.map
      (fun r => r.2.s.Calls.map (fun c => (c.Args.drop 2).head?.join.map (fun b => b.Name)))
      = some [some "v1"] ∧
    (GenBpfProg 1 2 [ptRefs] c8Env).toOption.map
      (fun r => r.2.s.Calls.map (fun c => (c.Args.drop 2).head?.join.map (fun b => b.Prepare)))
      = some [some "\tint64_t v1 = 16;\n"] ∧
    (GenBpfProg 1 2 [ptRefs] c8Env).toOption.map
      (fun r => r.2.s.Calls.map (fun c => (c.Args.drop 2).head?.join.map (fun b => b.Umin)))
      = some [some 0] ∧
    (GenBpfProg 1 2 [ptRefs] c8Env).toOption.map
      (fun r => r.2.s.Calls.map (fun c => (c.Args.drop 2).head?.join.map (fun b => b.Umax)))
      = some [some 16] ∧
    (GenBpfProg 1 2 [ptRefs] c8Env).toOption.map
      (fun r => r.2.s.Calls.map (fun c => (c.getArgConstraints r.2.s).toOption))
      = some [some ["(v1 != 0 && (v1 & 0x8000000000000000UL == 0))", "v1 < 16"]] := by
  refine ⟨by decide!, by decide!, by decide!, by decide!, by decide!, by decide!, by decide!⟩

/-! ## Repeated repair, the depth counter, and the lock repair on a full slice -/

/-- C37 (failing input): the generator run that yields one `sk_lookup_tcp` call: after one
`FixRef` the call has one `sk_release` post-call on its result `v4`; after a second `FixRef`
on that state it has two. -/
theorem FixRef_twice_adds_second_release :
    ((GenBpfProg 1 2 [ptRefs] >>= fun _ => FixRef 1 2 id) c8Env).toOption.map
      (fun r => r.2.s.Calls.map
        (fun c => (c.Helper.Enum, c.PostCalls.map (fun p => p.Helper.Enum))))
      = some [("BPF_FUNC_sk_lookup_tcp", ["BPF_FUNC_sk_release"])] ∧
    ((GenBpfProg 1 2 [ptRefs] >>= fun _ => FixRef 1 2 id >>= fun _ => FixRef 1 2 id)
        c8Env).toOption.map
      (fun r => r.2.s.Calls.map
        (fun c => (c.Helper.Enum, c.PostCalls.map (fun p => p.Helper.Enum))))
      = some [("BPF_FUNC_sk_lookup_tcp", ["BPF_FUNC_sk_release", "BPF_FUNC_sk_release"])] ∧
    ((GenBpfProg 1 2 [ptRefs] >>= fun _ => FixRef 1 2 id >>= fun _ => FixRef 1 2 id)
        c8Env).toOption.map
      (fun r => r.2.s.Calls.map
        (fun c => (c.Ret, c.PostCalls.map (fun p => p.Args.map (fun a => a.map (fun b => b.Name))))))
      = some [("v4", [[some "v4"], [some "v4"]])] := by
  refine ⟨by decide!, by decide!, by decide!⟩

/-- C38 (failing input): over a program type without `sk_release`, `genBpfHelperCall` for
`sk_lookup_tcp` is entered with `rd = 0` and returns failure with `rd = 1`. -/
theorem genBpfHelperCall_failure_keeps_depth :
    c10Env.rd = 0 ∧
    (genBpfHelperCall 1 2 hSkLookupTcp (newBpfCallGenHint none) false c10Env).toOption.map
      (fun r => r.1.isSome) = some false ∧
    (genBpfHelperCall 1 2 hSkLookupTcp (newBpfCallGenHint none) false c10Env).toOption.map
      (fun r => r.2.rd) = some 1 := by
  refine ⟨rfl, by decide!, by decide!⟩

/-- C40 (failing input): on `[spin_lock a, X, spin_lock b]` with a full backing array
(`cap = len`), `FixSpinLock` panics with an index out of range: it reads `Args[0]` of `X`,
which has no arguments. With one spare slot it completes and the result is
`[spin_lock a, spin_unlock a, X, spin_lock b]`. -/
theorem FixSpinLock_panics_on_full_slice :
    c40Env.s.Calls.map (fun c => (c.Helper.Enum, c.Args.map (fun a => a.map (fun b => b.Name))))
      = [("BPF_FUNC_spin_lock", [some "a"]), ("BPF_FUNC_get_prandom_u32", []),
         ("BPF_FUNC_spin_lock", [some "b"])] ∧
    FixSpinLock 0 c40Env = .fault "index out of range" ∧
    (FixSpinLock 1 c40Env).toOption.map
      (fun r => r.2.s.Calls.map
        (fun c => (c.Helper.Enum, c.Args.map (fun a => a.map (fun b => b.Name)))))
      = some [("BPF_FUNC_spin_lock", [some "a"]), ("BPF_FUNC_spin_unlock", [some "a"]),
              ("BPF_FUNC_get_prandom_u32", []), ("BPF_FUNC_spin_lock", [some "b"])] := by
  refine ⟨by decide!, by rfl, by decide!⟩

/-! ## Totality of the struct generator -/

theorem Gen.Intn_returns (n : Int) (hn : 0 < n) (e : Env) :
    ∃ v e1, Gen.Intn n e = .ok (v, e1) := by
  unfold Gen.Intn randGen.Intn
  rw [if_neg (by omega)]
  exact ⟨_, _, rfl⟩

theorem Gen.bind_total {α β : Type} {m : Gen α} {f : α → Gen β} {e e1 : Env} {a : α}
    (h1 : m e = .ok (a, e1)) (h2 : ∃ b e2, f a e1 = .ok (b, e2)) :
    ∃ b e2, (m >>= f) e = .ok (b, e2) := by
  obtain ⟨b, e2, hb⟩ := h2
  exact ⟨b, e2, Gen.bind_step h1 hb⟩

theorem occupiedSize_le (hints : HintSet) : occupiedSize hints ≤ 28 := by
  unfold occupiedSize
  split <;> split <;> split <;> omega

theorem hintedMin_le {min max msh m : Int} {hints : HintSet} (hmin : min ≤ 128)
    (hmsh : msh ≤ 128) (h : hintedMin min max hints msh = some m) : m ≤ 128 := by
  have ho := occupiedSize_le hints
  unfold hintedMin at h
  dsimp only at h
  by_cases h1 : occupiedSize hints > max
  · rw [if_pos h1] at h; cases h
  · rw [if_neg h1] at h
    by_cases h2 : msh > max
    · rw [if_pos h2] at h; cases h
    · rw [if_neg h2] at h
      by_cases h3 : (if occupiedSize hints > min then occupiedSize hints else min) ≠ max ∧
          msh > (if occupiedSize hints > min then occupiedSize hints else min)
      · rw [if_pos h3] at h; cases h; exact hmsh
      · rw [if_neg h3] at h
        cases h
        split <;> omega

theorem chooseSize_returns (m max align : Int) (hal : align ≠ 0) (hm : m ≤ 128 ∨ max ≤ m)
    (e : Env) : ∃ r e1, chooseSize m max align e = .ok (r, e1) := by
  unfold chooseSize
  by_cases h1 : m = max
  · rw [if_pos h1]; exact ⟨_, _, rfl⟩
  · rw [if_neg h1]
    by_cases h2 : max > m
    · rw [if_pos h2]
      have hb : 0 < (if max > 128 then 128 else max) - m + 1 := by
        split <;> omega
      obtain ⟨v, e1, hv⟩ := Gen.Intn_returns _ hb e
      refine Gen.bind_total hv ?_
      by_cases h3 : align ≠ 1
      · rw [if_pos h3, if_neg hal]; exact ⟨_, _, rfl⟩
      · rw [if_neg h3]; exact ⟨_, _, rfl⟩
    · rw [if_neg h2]; exact ⟨_, _, rfl⟩

theorem generateStruct_tail_returns (min max align : Int) (hints : HintSet) (useHint : Bool)
    (msh : Int) (hal : align ≠ 0) (hmin : min ≤ 128) (hmsh : msh ≤ 128) (e : Env) :
    ∃ r e1,
      (match (if useHint then hintedMin min max hints msh else some min) with
       | none => (pure ((none, false), hints) : Gen ((Option StructDef × Bool) × HintSet))
       | some m => do
         match ← chooseSize m max align with
         | none => pure ((none, false), hints)
         | some size =>
           if size = 0 then pure ((none, true), hints)
           else do
             let st := fillLoop size useHint size.toNat { hints := hints }
             let s ← Gen.getS
             let sd : StructDef :=
               { Name := if st.fieldTypes.length = 1 then st.fieldTypes.headD ""
                         else "struct_" ++ toString s.Structs.length
                 FieldTypes := st.fieldTypes
                 Size := size
                 Hints := st.sdHints
                 IsStruct := st.fieldTypes.length != 1 }
             Gen.modifyS (fun s => { s with Structs := s.Structs ++ [sd] })
             pure ((some sd, true), st.hints)) e = .ok (r, e1) := by
  cases hm : (if useHint then hintedMin min max hints msh else some min) with
  | none => exact ⟨_, _, rfl⟩
  | some m =>
    have hm128 : m ≤ 128 := by
      cases useHint with
      | true => exact hintedMin_le hmin hmsh hm
      | false => cases hm; exact hmin
    dsimp only
    obtain ⟨r, e1, hr⟩ := chooseSize_returns m max align hal (Or.inl hm128) e
    refine Gen.bind_total hr ?_
    cases r with
    | none => exact ⟨_, _, rfl⟩
    | some size =>
      dsimp only
      by_cases hs : size = 0
      · rw [if_pos hs]; exact ⟨_, _, rfl⟩
      · rw [if_neg hs]; exact ⟨_, _, rfl⟩

/-! ## The repair of a leaking reference -/

theorem lookup_cons_eq (k : String) (v : Nat) (l : List (String × Nat)) :
    List.lookup k ((k, v) :: l) = some v := by
  simp [List.lookup]

theorem lookup_cons_ne {k k1 : String} (h : k1 ≠ k) (v : Nat) (l : List (String × Nat)) :
    List.lookup k1 ((k, v) :: l) = List.lookup k1 l := by
  have hb : (k1 == k) = false := by simpa using h
  simp only [List.lookup, hb]

theorem lookup_setKey (k k1 : String) (idx : Nat) (l : List (String × Nat)) :
    (setKey k idx l).lookup k1 = if k1 = k then some idx else l.lookup k1 := by
  induction l with
  | nil =>
    unfold setKey
    by_cases h : k1 = k
    · rw [if_pos h, h]; exact lookup_cons_eq _ _ _
    · rw [if_neg h, lookup_cons_ne h]
  | cons p rest ih =>
    obtain ⟨k2, i2⟩ := p
    unfold setKey
    by_cases h2 : k2 = k
    · rw [if_pos h2]
      by_cases h : k1 = k
      · rw [if_pos h, h]; exact lookup_cons_eq _ _ _
      · rw [if_neg h, lookup_cons_ne h, lookup_cons_ne (by rw [h2]; exact h)]
    · rw [if_neg h2]
      by_cases h3 : k1 = k2
      · have h : ¬ k1 = k := by rw [h3]; exact h2
        rw [if_neg h, h3, lookup_cons_eq, lookup_cons_eq]
      · rw [lookup_cons_ne h3, lookup_cons_ne h3]
        exact ih

theorem aliasStep_of_args {c : BpfCall} {a : BpfArg} {rest : List (Option BpfArg)}
    (h : c.Args = some a :: rest) (vars : List String) :
    aliasStep vars c =
      if c.isRefPropagateCall ≠ -1 ∧ a.Name ∈ vars then vars ++ [c.Ret] else vars := by
  unfold aliasStep
  rw [h]

theorem refScanFrom_cons (c : BpfCall) (l : List BpfCall) (i : Nat) (t : RefTable) (e : Env) :
    refScanFrom (c :: l) i t e = (refScanStep i c t >>= fun t1 => refScanFrom l (i + 1) t1) e :=
  rfl

theorem isRefAcquireCall_enum {c : BpfCall} {e e1 : Env} {v : Int}
    (h : c.isRefAcquireCall e = .ok (v, e1)) (hv : v ≠ -1) :
    c.Helper.Enum ∈ ["BPF_FUNC_sk_lookup_tcp", "BPF_FUNC_sk_lookup_udp",
      "BPF_FUNC_skc_lookup_tcp", "BPF_FUNC_map_lookup_elem", "BPF_FUNC_ringbuf_reserve"] := by
  by_cases h1 : c.Helper.Enum = "BPF_FUNC_sk_lookup_tcp" ∨
      c.Helper.Enum = "BPF_FUNC_sk_lookup_udp" ∨ c.Helper.Enum = "BPF_FUNC_skc_lookup_tcp"
  · rcases h1 with h1 | h1 | h1 <;> rw [h1] <;> decide
  · by_cases h2 : c.Helper.Enum = "BPF_FUNC_map_lookup_elem"
    · rw [h2]; decide
    · by_cases h3 : c.Helper.Enum = "BPF_FUNC_ringbuf_reserve"
      · rw [h3]; decide
      · exfalso
        unfold BpfCall.isRefAcquireCall at h
        rw [if_neg h1, if_neg h2] at h
        have hh := Gen.bind_ok h; clear h; obtain ⟨b, ea, hb, h⟩ := hh
        obtain ⟨rfl, -⟩ := Gen.pure_ok hb
        rw [if_neg h3] at h
        exact hv (Gen.pure_ok h).1

theorem acquire_not_release {c : BpfCall} {e e1 : Env} {v : Int}
    (h : c.isRefAcquireCall e = .ok (v, e1)) (hv : v ≠ -1) :
    c.isRefReleaseCall = -1 ∧ c.isRefPropagateCall = -1 := by
  have hm := isRefAcquireCall_enum h hv
  simp only [List.mem_cons, List.mem_singleton, List.mem_nil_iff, or_false] at hm
  unfold BpfCall.isRefReleaseCall BpfCall.isRefPropagateCall
  rcases hm with hm | hm | hm | hm | hm <;> rw [hm] <;> decide

theorem helpersAmong_enum (enums : List String) (l : List BpfHelperFunc) (h : BpfHelperFunc)
    (hm : h ∈ helpersAmong enums l) : h.Enum ∈ enums := by
  induction l with
  | nil => cases hm
  | cons x rest ih =>
    unfold helpersAmong at hm
    rcases List.mem_append.mp hm with hm | hm
    · obtain ⟨en, hen, hx⟩ := List.mem_map.mp hm
      rw [← hx]
      have := List.mem_filter.mp hen
      have he : x.Enum = en := by simpa using this.2
      rw [he]
      exact this.1
    · exact ih hm

theorem helpersAmong_ne_nil (enums : List String) (l : List BpfHelperFunc) (h : BpfHelperFunc)
    (hl : h ∈ l) (he : h.Enum ∈ enums) : helpersAmong enums l ≠ [] := by
  induction l with
  | nil => cases hl
  | cons x rest ih =>
    unfold helpersAmong
    rcases List.mem_cons.mp hl with rfl | hl
    · intro hnil
      have h1 := (List.append_eq_nil.mp hnil).1
      have h2 : h.Enum ∈ enums.filter (fun en => h.Enum = en) :=
        List.mem_filter.mpr ⟨he, by simp⟩
      rw [List.map_eq_nil_iff] at h1
      rw [h1] at h2
      cases h2
    · intro hnil
      exact ih hl (List.append_eq_nil.mp hnil).2

theorem pickAmong_returns (choose : List BpfHelperFunc → List BpfHelperFunc) (e : Env)
    (hne : choose e.s.pt.Helpers ≠ []) :
    ∃ h e1, pickAmong choose e = .ok (some h, e1) ∧ h ∈ choose e.s.pt.Helpers ∧ e1.s = e.s := by
  have hlen : 0 < ((choose e.s.pt.Helpers).length : Int) := by
    have := List.length_pos.mpr hne
    omega
  obtain ⟨k, e1, hk⟩ := Gen.Intn_returns _ hlen e
  have hr := Gen.Intn_range hk
  have hs := Gen.Intn_ok hk
  have hkl : k.toNat < (choose e.s.pt.Helpers).length := by omega
  refine ⟨(choose e.s.pt.Helpers)[k.toNat], e1, ?_, List.getElem_mem _, hs⟩
  unfold pickAmong
  refine Gen.bind_step (show Gen.getS e = .ok (e.s, e) from rfl) ?_
  dsimp only
  rw [if_neg (by intro h0; rw [h0] at hlen; exact absurd hlen (by decide))]
  refine Gen.bind_step hk ?_
  refine Gen.bind_step (Gen.index_step (List.getElem?_eq_getElem hkl) (by omega) e1) ?_
  rfl

theorem NewBpfArg_index {helper : BpfHelperFunc} {i : Int} {a : BpfArg}
    (h : NewBpfArg helper i = .ok a) : 0 ≤ i ∧ i < helper.Args.length := by
  unfold NewBpfArg at h
  obtain ⟨t, ht, -⟩ := Outcome.bind_returns h
  unfold Outcome.index at ht
  by_cases hi : i < 0
  · rw [if_pos hi] at ht; cases ht
  · rw [if_neg hi] at ht
    cases hx : helper.Args[i.toNat]? with
    | none => rw [hx] at ht; cases ht
    | some x =>
      have := (List.getElem?_eq_some_iff.mp hx).1
      omega

theorem setArg_returns (call : BpfCall) (i : Int) (a : BpfArg) (h0 : 0 ≤ i)
    (h1 : i < call.Args.length) :
    call.setArg i a = .ok { call with Args := call.Args.set i.toNat (some a) } := by
  unfold BpfCall.setArg
  rw [if_pos ⟨h0, h1⟩]

/-- The release call that `FixRef` builds, when the helper has the arguments it fills in:
argument 0 is named by a member of `ref.vars`, and argument 1, if it is filled in, is `0`. -/
theorem newReleaseCall_returns (ref : ObjRef) (helper : BpfHelperFunc) (second : Bool)
    (e : Env) (a0 : BpfArg) (h0 : NewBpfArg helper 0 = .ok a0) (hv : ref.vars ≠ [])
    (h1 : second = true → ∃ a1, NewBpfArg helper 1 = .ok a1) :
    ∃ rel e1 v, newReleaseCall ref helper second e = .ok (rel, e1) ∧ e1.s = e.s ∧
      v ∈ ref.vars ∧ rel.Helper = helper ∧ rel.PostCalls = [] ∧
      rel.Args[0]? = some (some { a0 with Name := v }) ∧
      (second = true → ∃ a1, rel.Args[1]? = some (some a1) ∧ a1.Name = "0") := by
  have hlen : 0 < (ref.vars.length : Int) := by
    have := List.length_pos.mpr hv
    omega
  obtain ⟨k, e1, hk⟩ := Gen.Intn_returns _ hlen e
  have hr := Gen.Intn_range hk
  have hs := Gen.Intn_ok hk
  have hkl : k.toNat < ref.vars.length := by omega
  have hi0 := NewBpfArg_index h0
  have hargs : (NewBpfCall helper (newBpfCallGenHint ref.objMap)).Args.length
      = helper.Args.length := by
    unfold NewBpfCall
    exact List.length_replicate _ _
  have hset0 := setArg_returns (NewBpfCall helper (newBpfCallGenHint ref.objMap)) 0
    { a0 with Name := ref.vars[k.toNat] } (le_refl 0) (by rw [hargs]; exact hi0.2)
  cases second with
  | false =>
    refine ⟨{ NewBpfCall helper (newBpfCallGenHint ref.objMap) with
        Args := (NewBpfCall helper (newBpfCallGenHint ref.objMap)).Args.set (0 : Int).toNat
          (some { a0 with Name := ref.vars[k.toNat] }) },
      e1, ref.vars[k.toNat], ?_, hs, List.getElem_mem _, rfl, rfl, ?_, ?_⟩
    · unfold newReleaseCall
      refine Gen.bind_step (Gen.lift_step h0 e) ?_
      refine Gen.bind_step hk ?_
      refine Gen.bind_step (Gen.index_step (List.getElem?_eq_getElem hkl) (by omega) e1) ?_
      refine Gen.bind_step (Gen.lift_step hset0 e1) ?_
      rfl
    · dsimp only
      rw [show (0 : Int).toNat = 0 from rfl, List.getElem?_set_self]
      rw [hargs]; omega
    · intro hf; cases hf
  | true =>
    obtain ⟨a1, ha1⟩ := h1 rfl
    have hi1 := NewBpfArg_index ha1
    have hset1 := setArg_returns
      { NewBpfCall helper (newBpfCallGenHint ref.objMap) with
        Args := (NewBpfCall helper (newBpfCallGenHint ref.objMap)).Args.set (0 : Int).toNat
          (some { a0 with Name := ref.vars[k.toNat] }) } 1
      { a1 with Name := "0", IsNotNull := true } (by decide)
      (by dsimp only; rw [List.length_set, hargs]; exact hi1.2)
    refine ⟨{ NewBpfCall helper (newBpfCallGenHint ref.objMap) with
        Args := ((NewBpfCall helper (newBpfCallGenHint ref.objMap)).Args.set (0 : Int).toNat
          (some { a0 with Name := ref.vars[k.toNat] })).set (1 : Int).toNat
          (some { a1 with Name := "0", IsNotNull := true }) },
      e1, ref.vars[k.toNat], ?_, hs, List.getElem_mem _, rfl, rfl, ?_, ?_⟩
    · unfold newReleaseCall
      refine Gen.bind_step (Gen.lift_step h0 e) ?_
      refine Gen.bind_step hk ?_
      refine Gen.bind_step (Gen.index_step (List.getElem?_eq_getElem hkl) (by omega) e1) ?_
      refine Gen.bind_step (Gen.lift_step hset0 e1) ?_
      rw [if_pos rfl]
      refine Gen.bind_step (Gen.lift_step ha1 e1) ?_
      exact Gen.lift_step hset1 e1
    · dsimp only
      rw [show (0 : Int).toNat = 0 from rfl, show (1 : Int).toNat = 1 from rfl,
        List.getElem?_set_ne (by decide), List.getElem?_set_self]
      rw [hargs]; omega
    · intro _
      refine ⟨{ a1 with Name := "0", IsNotNull := true }, ?_, rfl⟩
      dsimp only
      rw [show (1 : Int).toNat = 1 from rfl, List.getElem?_set_self]
      rw [List.length_set, hargs]; omega

theorem modifyCall_returns (j : Nat) (f : BpfCall → Outcome BpfCall) (e : Env) (c c1 : BpfCall)
    (hc : e.s.Calls[j]? = some c) (hf : f c = .ok c1) :
    modifyCall j f e = .ok ((), { e with s := { e.s with Calls := e.s.Calls.set j c1 } }) := by
  unfold modifyCall
  refine Gen.bind_step (show Gen.getS e = .ok (e.s, e) from rfl) ?_
  dsimp only
  rw [hc]
  dsimp only
  refine Gen.bind_step (Gen.lift_step hf e) ?_
  rfl

theorem set_middle {α : Type} (pre post : List α) (a b : α) :
    (pre ++ a :: post).set pre.length b = pre ++ b :: post := by
  induction pre with
  | nil => rfl
  | cons x xs ih =>
    rw [List.cons_append, List.length_cons, List.set_cons_succ, ih]
    rfl

theorem getElem_middle {α : Type} (pre post : List α) (a : α) :
    (pre ++ a :: post)[pre.length]? = some a := by
  induction pre with
  | nil => simp
  | cons x xs ih =>
    rw [List.cons_append, List.length_cons, List.getElem?_cons_succ, ih]

/-- The repair of a leaking socket reference, when the program type has `sk_release`: the
release call becomes the last post-call of `ref.calls[0]`. -/
theorem addPostRelease_returns (ref : ObjRef) (shift : Nat) (e : Env) (c0 : Nat)
    (rest : List Nat) (c : BpfCall) (hcalls : ref.calls = c0 :: rest)
    (hc : e.s.Calls[c0 + shift]? = some c) (hv : ref.vars ≠ [])
    (hex : ∃ h ∈ e.s.pt.Helpers, h.Enum = "BPF_FUNC_sk_release")
    (hargs : ∀ h ∈ e.s.pt.Helpers, h.Enum = "BPF_FUNC_sk_release" →
      ∃ a0, NewBpfArg h 0 = .ok a0) :
    ∃ rel e1 a0, addPostRelease ref shift e = .ok (true, e1) ∧
      e1.s = { e.s with
        Calls := e.s.Calls.set (c0 + shift) { c with PostCalls := c.PostCalls ++ [rel] } } ∧
      rel.Helper.Enum = "BPF_FUNC_sk_release" ∧ rel.PostCalls = [] ∧
      rel.Args[0]? = some (some a0) ∧ a0.Name ∈ ref.vars := by
  obtain ⟨h, hh, hen⟩ := hex
  have hne := helpersAmong_ne_nil ["BPF_FUNC_sk_release"] e.s.pt.Helpers h hh
    (by rw [hen]; exact List.mem_singleton_self _)
  obtain ⟨helper, e1, hpick, hmem, hs1⟩ := pickAmong_returns _ e hne
  have hhelper := helpersAmong_subset _ _ _ hmem
  have henum : helper.Enum = "BPF_FUNC_sk_release" :=
    List.mem_singleton.mp (helpersAmong_enum _ _ _ hmem)
  obtain ⟨a0, ha0⟩ := hargs helper hhelper henum
  obtain ⟨rel, e2, v, hrel, hs2, hvm, hrh, hrp, hra, -⟩ :=
    newReleaseCall_returns ref helper false e1 a0 ha0 hv (fun hf => by cases hf)
  have hc2 : e2.s.Calls[c0 + shift]? = some c := by rw [hs2, hs1]; exact hc
  refine ⟨rel, { e2 with s := { e2.s with
      Calls := e2.s.Calls.set (c0 + shift) { c with PostCalls := c.PostCalls ++ [rel] } } },
    { a0 with Name := v }, ?_, ?_, by rw [hrh]; exact henum, hrp, hra, hvm⟩
  · unfold addPostRelease
    refine Gen.bind_step hpick ?_
    dsimp only
    refine Gen.bind_step hrel ?_
    refine Gen.bind_step (Gen.index_step (show ref.calls[(0 : Int).toNat]? = some c0 by
      rw [hcalls]; simp) (by decide) e2) ?_
    refine Gen.bind_step (modifyCall_returns (c0 + shift) rel.addPostCall e2 c _ hc2 rfl) ?_
    rfl
  · dsimp only
    rw [hs2, hs1]

/-- The repair of a leaking ring-buffer reference, when the program type has
`ringbuf_submit` or `ringbuf_discard`: the release call is appended to `s.Calls`. -/
theorem addTailRelease_returns (ref : ObjRef) (e : Env) (hv : ref.vars ≠ [])
    (hex : ∃ h ∈ e.s.pt.Helpers,
      h.Enum = "BPF_FUNC_ringbuf_submit" ∨ h.Enum = "BPF_FUNC_ringbuf_discard")
    (hargs : ∀ h ∈ e.s.pt.Helpers,
      h.Enum = "BPF_FUNC_ringbuf_submit" ∨ h.Enum = "BPF_FUNC_ringbuf_discard" →
      (∃ a0, NewBpfArg h 0 = .ok a0) ∧ ∃ a1, NewBpfArg h 1 = .ok a1) :
    ∃ rel e1 a0 a1, addTailRelease ref e = .ok (true, e1) ∧
      e1.s = { e.s with Calls := e.s.Calls ++ [rel] } ∧
      (rel.Helper.Enum = "BPF_FUNC_ringbuf_submit" ∨
        rel.Helper.Enum = "BPF_FUNC_ringbuf_discard") ∧ rel.PostCalls = [] ∧
      rel.Args[0]? = some (some a0) ∧ a0.Name ∈ ref.vars ∧
      rel.Args[1]? = some (some a1) ∧ a1.Name = "0" := by
  obtain ⟨h, hh, hen⟩ := hex
  have hne := helpersAmong_ne_nil ["BPF_FUNC_ringbuf_submit", "BPF_FUNC_ringbuf_discard"]
    e.s.pt.Helpers h hh (by rcases hen with hen | hen <;> rw [hen] <;> decide)
  obtain ⟨helper, e1, hpick, hmem, hs1⟩ := pickAmong_returns _ e hne
  have hhelper := helpersAmong_subset _ _ _ hmem
  have henum : helper.Enum = "BPF_FUNC_ringbuf_submit" ∨
      helper.Enum = "BPF_FUNC_ringbuf_discard" := by
    have := helpersAmong_enum _ _ _ hmem
    simpa only [List.mem_cons, List.mem_singleton, List.mem_nil_iff, or_false] using this
  obtain ⟨⟨a0, ha0⟩, ha1⟩ := hargs helper hhelper henum
  obtain ⟨rel, e2, v, hrel, hs2, hvm, hrh, hrp, hra, hrb⟩ :=
    newReleaseCall_returns ref helper true e1 a0 ha0 hv (fun _ => ha1)
  obtain ⟨a1, hb1, hb2⟩ := hrb rfl
  refine ⟨rel, { e2 with s := { e2.s with Calls := e2.s.Calls ++ [rel] } },
    { a0 with Name := v }, a1, ?_, ?_, by rw [hrh]; exact henum, hrp, hra, hvm, hb1, hb2⟩
  · unfold addTailRelease
    refine Gen.bind_step hpick ?_
    dsimp only
    refine Gen.bind_step hrel ?_
    refine Gen.bind_step (show Gen.modifyS _ e2 = .ok ((), _) from rfl) ?_
    rfl
  · dsimp only
    rw [hs2, hs1]

theorem fixRefLoop_cons (self : CallGen) (k : String) (idx : Nat) (rest : List (String × Nat))
    (t : RefTable) (shift : Nat) (e : Env) :
    fixRefLoop self ((k, idx) :: rest) t shift e
      = (fixRefEntry self t shift idx >>= fun p => fixRefLoop self rest p.1 p.2) e := rfl

/-! ## The fill loop with hints -/

theorem has_iff_mem (hints : HintSet) (k : ArgHint) : hints.has k = true ↔ k ∈ hints := by
  unfold HintSet.has
  rw [List.contains_iff_exists_mem_beq]
  constructor
  · rintro ⟨x, hx, hxe⟩
    have : k = x := by simpa using hxe
    rw [this]; exact hx
  · intro h
    exact ⟨k, h, by simp⟩

theorem has_delete_ne (hints : HintSet) {h k : ArgHint} (hne : k ≠ h) :
    (hints.delete h).has k = hints.has k := by
  rw [Bool.eq_iff_iff, has_iff_mem, has_iff_mem]
  unfold HintSet.delete
  rw [List.mem_filter]
  constructor
  · exact fun h => h.1
  · intro hk
    exact ⟨hk, by simpa using hne⟩

theorem has_delete_self (hints : HintSet) (h : ArgHint) : (hints.delete h).has h = false := by
  rw [← Bool.not_eq_true, has_iff_mem]
  unfold HintSet.delete
  rw [List.mem_filter]
  rintro ⟨_, h2⟩
  simp at h2

theorem fillLoop_false_sdHints (size : Int) (fuel : Nat) (st : FillState) :
    (fillLoop size false fuel st).sdHints = st.sdHints := by
  induction fuel generalizing st with
  | zero => rfl
  | succ n ih =>
    unfold fillLoop
    split
    · rfl
    · rw [ih]
      unfold fillStep
      simp only [Bool.false_and, Bool.false_eq_true, if_false]
      split
      · rfl
      · split
        · rfl
        · split <;> rfl

theorem fillStep_no_hints (size : Int) (st : FillState)
    (h1 : st.hints.has HintGenSpinlock = false) (h2 : st.hints.has HintGenTimer = false)
    (h3 : st.hints.has HintGenConstStr = false) :
    fillStep size true st = fillStep size false st := by
  unfold fillStep
  simp only [h1, h2, h3, Bool.and_false, Bool.false_and, Bool.false_eq_true, if_false]

theorem fillStep_false_hints (size : Int) (st : FillState) :
    (fillStep size false st).hints = st.hints := by
  unfold fillStep
  simp only [Bool.false_and, Bool.false_eq_true, if_false]
  split
  · rfl
  · split
    · rfl
    · split <;> rfl

theorem fillLoop_no_hints (size : Int) (fuel : Nat) (st : FillState)
    (h1 : st.hints.has HintGenSpinlock = false) (h2 : st.hints.has HintGenTimer = false)
    (h3 : st.hints.has HintGenConstStr = false) :
    fillLoop size true fuel st = fillLoop size false fuel st := by
  induction fuel generalizing st with
  | zero => rfl
  | succ n ih =>
    unfold fillLoop
    split
    · rfl
    · rw [fillStep_no_hints size st h1 h2 h3]
      have hh := fillStep_false_hints size st
      exact ih _ (by rw [hh]; exact h1) (by rw [hh]; exact h2) (by rw [hh]; exact h3)

/-- The fill loop once no hint is left to place: the fields that the specification
describes for the bytes that are left. -/
theorem fillLoop_rest (size : Int) (fuel : Nat) (st : FillState)
    (h1 : st.hints.has HintGenSpinlock = false) (h2 : st.hints.has HintGenTimer = false)
    (h3 : st.hints.has HintGenConstStr = false) (hf : (size - st.offset).toNat ≤ fuel) :
    (fillLoop size true fuel st).fieldTypes
        = st.fieldTypes ++ greedyFields (size - st.offset).toNat ∧
      (fillLoop size true fuel st).sdHints = st.sdHints := by
  rw [fillLoop_no_hints size fuel st h1 h2 h3]
  exact ⟨(fillLoop_greedy size fuel st hf).1, fillLoop_false_sdHints size fuel st⟩

theorem fillLoop_step (size : Int) (useHint : Bool) (n : Nat) (st : FillState)
    (h : st.offset < size) :
    fillLoop size useHint (n + 1) st = fillLoop size useHint n (fillStep size useHint st) := by
  rw [fillLoop]
  rw [if_neg (by omega)]

theorem fillStep_spin (size : Int) (st : FillState) (h : st.hints.has HintGenSpinlock = true) :
    fillStep size true st =
      { offset := st.offset + 4, hints := st.hints.delete HintGenSpinlock,
        sdHints := st.sdHints.set HintGenSpinlock,
        fieldTypes := st.fieldTypes ++ ["struct bpf_spin_lock"] } := by
  unfold fillStep
  simp only [h, Bool.and_self, if_true]

theorem fillStep_timer (size : Int) (st : FillState) (h1 : st.hints.has HintGenSpinlock = false)
    (h : st.hints.has HintGenTimer = true) :
    fillStep size true st =
      { offset := st.offset + 16, hints := st.hints.delete HintGenTimer,
        sdHints := st.sdHints.set HintGenTimer,
        fieldTypes := st.fieldTypes ++ ["struct bpf_timer"] } := by
  unfold fillStep
  simp only [h1, h, Bool.and_self, Bool.and_false, Bool.false_eq_true, if_true, if_false]

theorem fillStep_const_str (size : Int) (st : FillState)
    (h1 : st.hints.has HintGenSpinlock = false) (h2 : st.hints.has HintGenTimer = false)
    (h : st.hints.has HintGenConstStr = true) :
    fillStep size true st =
      { offset := st.offset + 8, hints := st.hints.delete HintGenConstStr,
        sdHints := st.sdHints.set HintGenConstStr,
        fieldTypes := st.fieldTypes ++ ["char [8]"] } := by
  unfold fillStep
  simp only [h1, h2, h, Bool.and_self, Bool.and_false, Bool.false_eq_true, if_true, if_false]

/-- What the fill loop of `generateStruct` builds when the hints fit into the room that is
left: the hint fields first, then the integer fields for the rest; the struct records the
hints placed. -/
theorem fillLoop_hinted (size : Int) (fuel : Nat) (st : FillState)
    (hroom : st.offset + occupiedSize st.hints ≤ size) (hf : (size - st.offset).toNat ≤ fuel) :
    (fillLoop size true fuel st).fieldTypes
        = st.fieldTypes ++ hintFields st.hints ++
          greedyFields (size - st.offset - occupiedSize st.hints).toNat ∧
      (fillLoop size true fuel st).sdHints = placedHints st.sdHints st.hints := by
  -- no spin lock and no timer left
  have step3 : ∀ (fuel : Nat) (st : FillState), st.hints.has HintGenSpinlock = false →
      st.hints.has HintGenTimer = false → st.offset + occupiedSize st.hints ≤ size →
      (size - st.offset).toNat ≤ fuel →
      (fillLoop size true fuel st).fieldTypes
          = st.fieldTypes ++ hintFields st.hints ++
            greedyFields (size - st.offset - occupiedSize st.hints).toNat ∧
        (fillLoop size true fuel st).sdHints = placedHints st.sdHints st.hints := by
    intro fuel st h1 h2 hroom hf
    cases h3 : st.hints.has HintGenConstStr with
    | false =>
      have ho : occupiedSize st.hints = 0 := by simp [occupiedSize, h1, h2, h3]
      have hfields : hintFields st.hints = [] := by simp [hintFields, h1, h2, h3]
      have hpl : placedHints st.sdHints st.hints = st.sdHints := by
        simp [placedHints, h1, h2, h3]
      rw [ho, hfields, hpl, sub_zero, List.append_nil]
      exact fillLoop_rest size fuel st h1 h2 h3 hf
    | true =>
      have ho : occupiedSize st.hints = 8 := by simp [occupiedSize, h1, h2, h3]
      have hfields : hintFields st.hints = ["char [8]"] := by simp [hintFields, h1, h2, h3]
      have hpl : placedHints st.sdHints st.hints = st.sdHints.set HintGenConstStr := by
        simp [placedHints, h1, h2, h3]
      rw [ho] at hroom
      obtain ⟨n, rfl⟩ : ∃ n, fuel = n + 1 := ⟨fuel - 1, by omega⟩
      rw [fillLoop_step size true n st (by omega), fillStep_const_str size st h1 h2 h3]
      have hr := fillLoop_rest size n
        { offset := st.offset + 8, hints := st.hints.delete HintGenConstStr,
          sdHints := st.sdHints.set HintGenConstStr,
          fieldTypes := st.fieldTypes ++ ["char [8]"] }
        (by show (st.hints.delete HintGenConstStr).has HintGenSpinlock = false
            rw [has_delete_ne _ (by decide)]; exact h1)
        (by show (st.hints.delete HintGenConstStr).has HintGenTimer = false
            rw [has_delete_ne _ (by decide)]; exact h2)
        (has_delete_self _ _) (by show (size - (st.offset + 8)).toNat ≤ n; omega)
      rw [hr.1, hr.2, ho, hfields, hpl]
      refine ⟨?_, rfl⟩
      show st.fieldTypes ++ ["char [8]"] ++ greedyFields (size - (st.offset + 8)).toNat = _
      rw [show size - (st.offset + 8) = size - st.offset - 8 by ring]
  -- no spin lock left
  have step2 : ∀ (fuel : Nat) (st : FillState), st.hints.has HintGenSpinlock = false →
      st.offset + occupiedSize st.hints ≤ size → (size - st.offset).toNat ≤ fuel →
      (fillLoop size true fuel st).fieldTypes
          = st.fieldTypes ++ hintFields st.hints ++
            greedyFields (size - st.offset - occupiedSize st.hints).toNat ∧
        (fillLoop size true fuel st).sdHints = placedHints st.sdHints st.hints := by
    intro fuel st h1 hroom hf
    cases h2 : st.hints.has HintGenTimer with
    | false => exact step3 fuel st h1 h2 hroom hf
    | true =>
      have hd1 : (st.hints.delete HintGenTimer).has HintGenSpinlock = false := by
        rw [has_delete_ne _ (by decide)]; exact h1
      have hd2 : (st.hints.delete HintGenTimer).has HintGenTimer = false := has_delete_self _ _
      have hd3 : (st.hints.delete HintGenTimer).has HintGenConstStr
          = st.hints.has HintGenConstStr := has_delete_ne _ (by decide)
      have ho : occupiedSize st.hints = 16 + occupiedSize (st.hints.delete HintGenTimer) := by
        simp only [occupiedSize, h1, h2, hd1, hd2, hd3]
        simp
      have hfields : hintFields st.hints
          = "struct bpf_timer" :: hintFields (st.hints.delete HintGenTimer) := by
        simp only [hintFields, h1, h2, hd1, hd2, hd3]
        simp
      have hpl : placedHints st.sdHints st.hints
          = placedHints (st.sdHints.set HintGenTimer) (st.hints.delete HintGenTimer) := by
        simp only [placedHints, h1, h2, hd1, hd2, hd3]
        simp
      have hocc : 0 ≤ occupiedSize (st.hints.delete HintGenTimer) := by
        unfold occupiedSize
        split <;> split <;> split <;> omega
      rw [ho] at hroom
      obtain ⟨n, rfl⟩ : ∃ n, fuel = n + 1 := ⟨fuel - 1, by omega⟩
      rw [fillLoop_step size true n st (by omega), fillStep_timer size st h1 h2]
      have hr := step3 n
        { offset := st.offset + 16, hints := st.hints.delete HintGenTimer,
          sdHints := st.sdHints.set HintGenTimer,
          fieldTypes := st.fieldTypes ++ ["struct bpf_timer"] } hd1 hd2
        (by show st.offset + 16 + occupiedSize (st.hints.delete HintGenTimer) ≤ size; omega)
        (by show (size - (st.offset + 16)).toNat ≤ n; omega)
      rw [hr.1, hr.2, ho, hfields, hpl]
      refine ⟨?_, rfl⟩
      show st.fieldTypes ++ ["struct bpf_timer"] ++ hintFields (st.hints.delete HintGenTimer) ++
        greedyFields (size - (st.offset + 16)
          - occupiedSize (st.hints.delete HintGenTimer)).toNat = _
      rw [show size - (st.offset + 16) - occupiedSize (st.hints.delete HintGenTimer)
          = size - st.offset - (16 + occupiedSize (st.hints.delete HintGenTimer)) by ring]
      simp
  cases h1 : st.hints.has HintGenSpinlock with
  | false => exact step2 fuel st h1 hroom hf
  | true =>
    have hd1 : (st.hints.delete HintGenSpinlock).has HintGenSpinlock = false :=
      has_delete_self _ _
    have hd2 : (st.hints.delete HintGenSpinlock).has HintGenTimer
        = st.hints.has HintGenTimer := has_delete_ne _ (by decide)
    have hd3 : (st.hints.delete HintGenSpinlock).has HintGenConstStr
        = st.hints.has HintGenConstStr := has_delete_ne _ (by decide)
    have ho : occupiedSize st.hints = 4 + occupiedSize (st.hints.delete HintGenSpinlock) := by
      simp only [occupiedSize, h1, hd1, hd2, hd3]
      simp
      ring
    have hfields : hintFields st.hints
        = "struct bpf_spin_lock" :: hintFields (st.hints.delete HintGenSpinlock) := by
      simp only [hintFields, h1, hd1, hd2, hd3]
      simp
    have hpl : placedHints st.sdHints st.hints
        = placedHints (st.sdHints.set HintGenSpinlock) (st.hints.delete HintGenSpinlock) := by
      simp only [placedHints, h1, hd1, hd2, hd3]
      simp
    have hocc : 0 ≤ occupiedSize (st.hints.delete HintGenSpinlock) := by
      unfold occupiedSize
      split <;> split <;> split <;> omega
    rw [ho] at hroom
    obtain ⟨n, rfl⟩ : ∃ n, fuel = n + 1 := ⟨fuel - 1, by omega⟩
    rw [fillLoop_step size true n st (by omega), fillStep_spin size st h1]
    have hr := step2 n
      { offset := st.offset + 4, hints := st.hints.delete HintGenSpinlock,
        sdHints := st.sdHints.set HintGenSpinlock,
        fieldTypes := st.fieldTypes ++ ["struct bpf_spin_lock"] } hd1
      (by show st.offset + 4 + occupiedSize (st.hints.delete HintGenSpinlock) ≤ size; omega)
      (by show (size - (st.offset + 4)).toNat ≤ n; omega)
    rw [hr.1, hr.2, ho, hfields, hpl]
    refine ⟨?_, rfl⟩
    show st.fieldTypes ++ ["struct bpf_spin_lock"] ++
      hintFields (st.hints.delete HintGenSpinlock) ++
      greedyFields (size - (st.offset + 4)
        - occupiedSize (st.hints.delete HintGenSpinlock)).toNat = _
    rw [show size - (st.offset + 4) - occupiedSize (st.hints.delete HintGenSpinlock)
        = size - st.offset - (4 + occupiedSize (st.hints.delete HintGenSpinlock)) by ring]
    simp

/-! ## The inputs that the call sites of the struct generator pass -/

theorem catalogue_size_shape :
    ∀ mt ∈ bpfMapTypes, sizeShape mt.KeySize = true ∧ sizeShape mt.ValSize = true := by
  decide!

theorem catalogue_hinted_val_pair :
    ∀ mt ∈ bpfMapTypes,
      (mt.Type_ = "BPF_MAP_TYPE_HASH" ∨ mt.Type_ = "BPF_MAP_TYPE_ARRAY" ∨
        mt.Type_ = "BPF_MAP_TYPE_CGROUP_STORAGE" ∨ mt.Type_ = "BPF_MAP_TYPE_SK_STORAGE" ∨
        mt.Type_ = "BPF_MAP_TYPE_INODE_STORAGE" ∨ mt.Type_ = "BPF_MAP_TYPE_TASK_STORAGE" ∨
        mt.Type_ = "BPF_MAP_TYPE_LRU_HASH") → mt.ValSize.length = 2 := by
  decide!

/-- A descriptor that passes the filter of `getHelperCompatMapTypes` for a hint with a spin
lock is of one of six types, and for a hint with a timer of one of three. -/
theorem helperCompatMapType_hints {s : BpfProgState} {call : BpfCall} {mt : BpfMapType}
    (h : helperCompatMapType s call mt = true) :
    (call.Hint.ArgHints.has HintGenSpinlock = true →
      mt.Type_ = "BPF_MAP_TYPE_HASH" ∨ mt.Type_ = "BPF_MAP_TYPE_ARRAY" ∨
      mt.Type_ = "BPF_MAP_TYPE_CGROUP_STORAGE" ∨ mt.Type_ = "BPF_MAP_TYPE_SK_STORAGE" ∨
      mt.Type_ = "BPF_MAP_TYPE_INODE_STORAGE" ∨ mt.Type_ = "BPF_MAP_TYPE_TASK_STORAGE") ∧
    (call.Hint.ArgHints.has HintGenTimer = true →
      mt.Type_ = "BPF_MAP_TYPE_HASH" ∨ mt.Type_ = "BPF_MAP_TYPE_LRU_HASH" ∨
      mt.Type_ = "BPF_MAP_TYPE_ARRAY") := by
  unfold helperCompatMapType at h
  obtain ⟨_, h⟩ := ite_false_eq_true h
  obtain ⟨_, h⟩ := ite_false_eq_true h
  obtain ⟨hspin, h⟩ := ite_false_eq_true h
  obtain ⟨htim, h⟩ := ite_false_eq_true h
  clear h
  constructor
  · intro hs
    by_contra hcon
    simp only [not_or] at hcon
    obtain ⟨c1, c2, c3, c4, c5, c6⟩ := hcon
    apply hspin
    simp [hs, c1, c2, c3, c4, c5, c6]
  · intro ht
    by_contra hcon
    simp only [not_or] at hcon
    obtain ⟨c1, c2, c3⟩ := hcon
    apply htim
    simp [ht, c1, c2, c3]

/-- With a constant-string hint `pickNewMapType` returns a descriptor of
`BPF_MAP_TYPE_ARRAY`. -/
theorem pickNewMapType_const_str {call : BpfCall} {l : List BpfMapType} {e e1 : Env}
    {mt : BpfMapType} (hc : call.Hint.ArgHints.has HintGenConstStr = true)
    (h : pickNewMapType call l e = .ok (some mt, e1)) : mt.Type_ = "BPF_MAP_TYPE_ARRAY" := by
  unfold pickNewMapType at h
  split at h
  · cases h
  · obtain ⟨hmt, _⟩ := Gen.pure_ok h
    have := List.find?_some hmt.symm
    simpa using this

/-- The descriptor of a new map is an entry of `bpfMapTypes`, and where its value constraint
has a third entry the hint of the call asks for no spin lock, timer or constant string. -/
theorem pickNewMapType_val {s : BpfProgState} {call : BpfCall} {e e1 : Env} {mt : BpfMapType}
    (h : pickNewMapType call (getHelperCompatMapTypes s call) e = .ok (some mt, e1)) :
    mt ∈ bpfMapTypes ∧ (mt.ValSize.length ≠ 2 → occupiedSize call.Hint.ArgHints = 0) := by
  obtain ⟨hmem, _⟩ := pickNewMapType_ok h
  unfold getHelperCompatMapTypes at hmem
  obtain ⟨hcat, hcompat⟩ := List.mem_filter.mp hmem
  refine ⟨hcat, ?_⟩
  intro hlen
  obtain ⟨hspin, htim⟩ := helperCompatMapType_hints hcompat
  have h1 : call.Hint.ArgHints.has HintGenSpinlock = false := by
    cases hv : call.Hint.ArgHints.has HintGenSpinlock with
    | false => rfl
    | true =>
      exfalso
      apply hlen
      apply catalogue_hinted_val_pair mt hcat
      rcases hspin hv with c | c | c | c | c | c <;> simp [c]
  have h2 : call.Hint.ArgHints.has HintGenTimer = false := by
    cases hv : call.Hint.ArgHints.has HintGenTimer with
    | false => rfl
    | true =>
      exfalso
      apply hlen
      apply catalogue_hinted_val_pair mt hcat
      rcases htim hv with c | c | c <;> simp [c]
  have h3 : call.Hint.ArgHints.has HintGenConstStr = false := by
    cases hv : call.Hint.ArgHints.has HintGenConstStr with
    | false => rfl
    | true =>
      exfalso
      apply hlen
      apply catalogue_hinted_val_pair mt hcat
      exact Or.inr (Or.inl (pickNewMapType_const_str hv h))
  simp [occupiedSize, h1, h2, h3]

/-- What the call sites pass to `generateStruct`, in numbers: a constraint `[min, max]` or
`[min, max, align]` with `0 ≤ min ≤ 128`, `min ≤ max ≤ 65536` and `align` 4 or 8 dividing
`min` (`align` is 1 for two entries); with `useHint` and three entries no hint that takes
space; and with `useHint` a `minSizeHint` that is -1 or a multiple of 8 from 0 to 128. -/
theorem structCallSite_shape {sc : List Int} {hints : HintSet} {useHint : Bool} {msh : Int}
    (h : structCallSite sc hints useHint msh) :
    ∃ min max align rest, sc = min :: max :: rest ∧
      ((rest = [] ∧ align = 1) ∨ (rest = [align] ∧ (align = 4 ∨ align = 8))) ∧
      0 ≤ min ∧ min ≤ 128 ∧ min ≤ max ∧ max ≤ 65536 ∧ align ∣ min ∧
      (useHint = true → align ≠ 1 → occupiedSize hints = 0) ∧
      (useHint = true → msh = -1 ∨ (0 ≤ msh ∧ (8 : Int) ∣ msh ∧ msh ≤ 128)) := by
  have shape : ∀ (l : List Int), sizeShape l = true →
      ∃ min max align rest, l = min :: max :: rest ∧
        ((rest = [] ∧ align = 1) ∨ (rest = [align] ∧ (align = 4 ∨ align = 8))) ∧
        0 ≤ min ∧ min ≤ 128 ∧ min ≤ max ∧ max ≤ 65536 ∧ align ∣ min ∧
        (align ≠ 1 → l.length ≠ 2) := by
    intro l hl
    match l, hl with
    | [min, max], hl =>
      simp only [sizeShape, decide_eq_true_eq] at hl
      exact ⟨min, max, 1, [], rfl, Or.inl ⟨rfl, rfl⟩, hl.1, hl.2.1, hl.2.2.1, hl.2.2.2,
        one_dvd _, fun hne => absurd rfl hne⟩
    | [min, max, align], hl =>
      simp only [sizeShape, decide_eq_true_eq] at hl
      exact ⟨min, max, align, [align], rfl, Or.inr ⟨rfl, hl.2.2.2.2.1⟩, hl.1, hl.2.1,
        hl.2.2.1, hl.2.2.2.1, Int.dvd_of_emod_eq_zero hl.2.2.2.2.2, fun _ => by simp⟩
    | [], hl => simp [sizeShape] at hl
    | [_], hl => simp [sizeShape] at hl
    | _ :: _ :: _ :: _ :: _, hl => simp [sizeShape] at hl
  rcases h with ⟨mt, hmt, rfl, rfl, rfl⟩ | ⟨s, call, e, e1, mt, hp, rfl, rfl, rfl, rfl, h0, h8, hle⟩ |
    ⟨mt, hmt, rfl, rfl, rfl, rfl⟩
  · obtain ⟨min, max, align, rest, hsc, hal, a, b, c, d, f, _⟩ :=
      shape _ (catalogue_size_shape mt hmt).1
    exact ⟨min, max, align, rest, hsc, hal, a, b, c, d, f, (fun hh => by cases hh),
      (fun hh => by cases hh)⟩
  · obtain ⟨hmt, hocc⟩ := pickNewMapType_val hp
    obtain ⟨min, max, align, rest, hsc, hal, a, b, c, d, f, g⟩ :=
      shape _ (catalogue_size_shape mt hmt).2
    refine ⟨min, max, align, rest, hsc, hal, a, b, c, d, f, fun _ hne => hocc (g hne), fun _ => ?_⟩
    split
    · exact Or.inr ⟨h0, h8, hle⟩
    · exact Or.inl rfl
  · obtain ⟨min, max, align, rest, hsc, hal, a, b, c, d, f, _⟩ :=
      shape _ (catalogue_size_shape mt hmt).2
    refine ⟨min, max, align, rest, hsc, hal, a, b, c, d, f, fun _ _ => rfl,
      fun _ => Or.inr ⟨le_refl _, dvd_zero _, by decide⟩⟩

/-! ## The struct generator at its call sites -/

theorem fieldSize_nonneg (t : String) : 0 ≤ fieldSize t := by
  unfold fieldSize
  repeat' split
  all_goals omega

theorem greedyFields_mem {n : Nat} {x : String} (h : x ∈ greedyFields n) :
    x = "uint64_t" ∨ x = "uint32_t" ∨ x = "uint16_t" ∨ x = "uint8_t" := by
  unfold greedyFields at h
  simp only [List.mem_append] at h
  rcases h with ((h | h) | h) | h
  · exact Or.inl (List.eq_of_mem_replicate h)
  · split at h
    · exact Or.inr (Or.inl (List.mem_singleton.mp h))
    · cases h
  · split at h
    · exact Or.inr (Or.inr (Or.inl (List.mem_singleton.mp h)))
    · cases h
  · split at h
    · exact Or.inr (Or.inr (Or.inr (List.mem_singleton.mp h)))
    · cases h

theorem greedyFields_sum (n : Nat) : ((greedyFields n).map fieldSize).sum = n := by
  have h8 : fieldSize "uint64_t" = 8 := by decide
  have h4 : fieldSize "uint32_t" = 4 := by decide
  have h2 : fieldSize "uint16_t" = 2 := by decide
  have h1 : fieldSize "uint8_t" = 1 := by decide
  unfold greedyFields
  simp only [List.map_append, List.sum_append, List.map_replicate, List.sum_replicate, h8,
    smul_eq_mul, nsmul_eq_mul]
  have e4 : ((if n % 8 ≥ 4 then ["uint32_t"] else []).map fieldSize).sum
      = if n % 8 ≥ 4 then 4 else 0 := by
    split <;> simp [h4]
  have e2 : ((if n % 4 ≥ 2 then ["uint16_t"] else []).map fieldSize).sum
      = if n % 4 ≥ 2 then 2 else 0 := by
    split <;> simp [h2]
  have e1 : ((if n % 2 = 1 then ["uint8_t"] else []).map fieldSize).sum
      = if n % 2 = 1 then 1 else 0 := by
    split <;> simp [h1]
  rw [e4, e2, e1]
  split <;> split <;> split <;> push_cast <;> omega

theorem hintFields_sum (hints : HintSet) :
    ((hintFields hints).map fieldSize).sum = occupiedSize hints := by
  have hs : fieldSize "struct bpf_spin_lock" = 4 := by decide
  have ht : fieldSize "struct bpf_timer" = 16 := by decide
  have hc : fieldSize "char [8]" = 8 := by decide
  unfold hintFields occupiedSize
  cases hints.has HintGenSpinlock <;> cases hints.has HintGenTimer <;>
    cases hints.has HintGenConstStr <;> simp [hs, ht, hc]

theorem has_set (l : HintSet) (h k : ArgHint) :
    (l.set h).has k = true ↔ l.has k = true ∨ k = h := by
  rw [has_iff_mem, has_iff_mem]
  unfold HintSet.set
  split
  · rename_i hc
    constructor
    · exact fun hk => Or.inl hk
    · rintro (hk | rfl)
      · exact hk
      · exact (has_iff_mem l k).mp hc
  · simp

theorem placedHints_has (hints : HintSet) (k : ArgHint)
    (hk : k = HintGenSpinlock ∨ k = HintGenTimer ∨ k = HintGenConstStr) :
    (placedHints [] hints).has k = hints.has k := by
  have e0 : ∀ j : ArgHint, HintSet.has [] j = false := fun _ => rfl
  have n01 : HintGenSpinlock ≠ HintGenTimer := by decide
  have n02 : HintGenSpinlock ≠ HintGenConstStr := by decide
  have n12 : HintGenTimer ≠ HintGenConstStr := by decide
  rw [Bool.eq_iff_iff]
  unfold placedHints
  dsimp only
  cases h1 : hints.has HintGenSpinlock <;> cases h2 : hints.has HintGenTimer <;>
    cases h3 : hints.has HintGenConstStr <;>
    simp only [if_true, if_false, Bool.false_eq_true, has_set, e0, false_or] <;>
    rcases hk with rfl | rfl | rfl <;>
    simp only [h1, h2, h3, n01, n02, n12, n01.symm, n02.symm, n12.symm, or_false, false_or,
      or_true, true_or, Bool.false_eq_true]

/-- A struct that `generateStruct` returns comes with `true` and records the hints that the
fill loop placed. -/
theorem generateStruct_hints {sc : List Int} {hints hints1 : HintSet} {useHint b : Bool}
    {msh : Int} {e e1 : Env} {sd : StructDef}
    (h : generateStruct sc hints useHint msh e = .ok (((some sd, b), hints1), e1)) :
    b = true ∧ sd.Hints = (fillLoop sd.Size useHint sd.Size.toNat { hints := hints }).sdHints := by
  unfold generateStruct at h
  obtain ⟨min0, ea, _, h⟩ := Gen.bind_ok h
  obtain ⟨max, eb, _, h⟩ := Gen.bind_ok h
  have key : ∀ (align : Int) (ec : Env),
      (match (if useHint = true then hintedMin min0 max hints msh else some min0) with
        | none => (pure ((none, false), hints) : Gen ((Option StructDef × Bool) × HintSet))
        | some min => do
          let r ← chooseSize min max align
          match r with
          | none => pure ((none, false), hints)
          | some size =>
            if size = 0 then pure ((none, true), hints)
            else do
              let st := fillLoop size useHint size.toNat { hints := hints }
              let s ← Gen.getS
              let sd : StructDef :=
                { Name := if st.fieldTypes.length = 1 then st.fieldTypes.headD ""
                          else "struct_" ++ toString s.Structs.length
                  FieldTypes := st.fieldTypes
                  Size := size
                  Hints := st.sdHints
                  IsStruct := st.fieldTypes.length != 1 }
              Gen.modifyS (fun s => { s with Structs := s.Structs ++ [sd] })
              pure ((some sd, true), st.hints)) ec = .ok (((some sd, b), hints1), e1) →
      b = true ∧
        sd.Hints = (fillLoop sd.Size useHint sd.Size.toNat { hints := hints }).sdHints := by
    intro align ec hk
    cases hm : (if useHint = true then hintedMin min0 max hints msh else some min0) with
    | none =>
      rw [hm] at hk
      obtain ⟨hr, _⟩ := Gen.pure_ok hk
      cases hr
    | some min =>
      rw [hm] at hk
      obtain ⟨r, ed, _, hk⟩ := Gen.bind_ok hk
      cases r with
      | none =>
        obtain ⟨hr, _⟩ := Gen.pure_ok hk
        cases hr
      | some size =>
        dsimp only at hk
        by_cases hz : size = 0
        · rw [if_pos hz] at hk
          obtain ⟨hr, _⟩ := Gen.pure_ok hk
          cases hr
        · rw [if_neg hz] at hk
          obtain ⟨s, ee, hs, hk⟩ := Gen.bind_ok hk
          obtain ⟨u, ef, _, hk⟩ := Gen.bind_ok hk
          obtain ⟨hr, _⟩ := Gen.pure_ok hk
          cases hr
          exact ⟨rfl, rfl⟩
  dsimp only at h
  by_cases hl : sc.length = 3
  · rw [if_pos hl] at h
    obtain ⟨align, ec, _, h⟩ := Gen.bind_ok h
    exact key align ec h
  · rw [if_neg hl] at h
    obtain ⟨align, ec, _, h⟩ := Gen.bind_ok h
    exact key align ec h

/-- The minimum that the `useHint` block makes is the given minimum, the space that the
hints take, or `minSizeHint`, and it is below none of them nor above the maximum. -/
theorem hintedMin_choice {min0 max msh min : Int} {hints : HintSet}
    (h : hintedMin min0 max hints msh = some min) :
    (min = min0 ∨ min = occupiedSize hints ∨ min = msh) ∧
      min0 ≤ min ∧ occupiedSize hints ≤ min ∧ msh ≤ min ∧ (min0 ≤ max → min ≤ max) := by
  unfold hintedMin at h
  dsimp only at h
  rcases ite_cases h with ⟨_, h⟩ | ⟨ho, h⟩
  · cases h
  rcases ite_cases h with ⟨_, h⟩ | ⟨hle, h⟩
  · cases h
  by_cases hc : occupiedSize hints > min0
  · rw [if_pos hc] at h
    rcases ite_cases h with ⟨hd, h⟩ | ⟨hd, h⟩
    · cases h
      exact ⟨Or.inr (Or.inr rfl), by omega, by omega, le_refl _, fun _ => by omega⟩
    · cases h
      refine ⟨Or.inr (Or.inl rfl), by omega, le_refl _, ?_, fun _ => by omega⟩
      by_contra hlt
      exact hd ⟨by omega, by omega⟩
  · rw [if_neg hc] at h
    rcases ite_cases h with ⟨hd, h⟩ | ⟨hd, h⟩
    · cases h
      exact ⟨Or.inr (Or.inr rfl), by omega, by omega, le_refl _, fun _ => by omega⟩
    · cases h
      refine ⟨Or.inl rfl, le_refl _, by omega, ?_, fun hm => hm⟩
      by_contra hlt
      exact hd ⟨by omega, by omega⟩

/-- The struct that `generateStruct` returns for an input of a call site: its size is from 1
to 128 and, with `useHint`, covers the space of the hints and `minSizeHint`; its fields are
those of the hints, then the integer fields for the rest; it records the hints placed. -/
theorem generateStruct_at_call_site {sc : List Int} {hints hints1 : HintSet}
    {useHint b : Bool} {msh : Int} {e e1 : Env} {sd : StructDef}
    (hcs : structCallSite sc hints useHint msh)
    (h : generateStruct sc hints useHint msh e = .ok (((some sd, b), hints1), e1)) :
    0 < sd.Size ∧ sd.Size ≤ 128 ∧
      (useHint = true → occupiedSize hints ≤ sd.Size ∧ msh ≤ sd.Size) ∧
      sd.FieldTypes = (if useHint then hintFields hints else []) ++
        greedyFields (sd.Size - (if useHint then occupiedSize hints else 0)).toNat ∧
      sd.Hints = (if useHint then placedHints [] hints else []) := by
  obtain ⟨min0, max, align, rest, rfl, hal, h0, h128, hmax, _, hdvd, hocc, hmsh⟩ :=
    structCallSite_shape hcs
  obtain ⟨rfl, hhints⟩ := generateStruct_hints h
  obtain ⟨hfields, _⟩ := generateStruct_some h
  obtain ⟨min, size, ea, eb, hm, hc, hres⟩ := generateStruct_chosen h
  have halign : (if rest.length = 1 then rest.headD 1 else 1) = align := by
    rcases hal with ⟨rfl, rfl⟩ | ⟨rfl, _⟩
    · rfl
    · rfl
  rw [halign] at hc
  rcases hres with ⟨_, hn⟩ | ⟨hz, sd1, hsd, hsize⟩
  · cases hn
  cases hsd
  subst hsize
  have hal0 : align = 1 ∨ align = 4 ∨ align = 8 := by
    rcases hal with ⟨_, rfl⟩ | ⟨_, hh⟩
    · exact Or.inl rfl
    · exact Or.inr hh
  -- the effective minimum
  have heff : min0 ≤ min ∧ min ≤ 128 ∧ min ≤ max ∧ align ∣ min ∧
      (useHint = true → occupiedSize hints ≤ min ∧ msh ≤ min) := by
    cases useHint with
    | false =>
      rw [if_neg (by decide)] at hm
      cases hm
      exact ⟨le_refl _, h128, hmax, hdvd, fun hh => by cases hh⟩
    | true =>
      rw [if_pos rfl] at hm
      obtain ⟨hch, c1, c2, c3, c4⟩ := hintedMin_choice hm
      have ho28 := occupiedSize_le hints
      have hm128 : msh ≤ 128 := by
        rcases hmsh rfl with hh | ⟨_, _, hh⟩
        · omega
        · exact hh
      refine ⟨c1, by rcases hch with hh | hh | hh <;> omega, c4 hmax, ?_, fun _ => ⟨c2, c3⟩⟩
      rcases hch with hh | hh | hh
      · rw [hh]; exact hdvd
      · by_cases ha1 : align = 1
        · rw [ha1]; exact one_dvd _
        · rw [hh, hocc rfl ha1]; exact dvd_zero _
      · rcases hmsh rfl with hneg | ⟨_, h8, _⟩
        · omega
        · rw [hh]
          rcases hal0 with rfl | rfl | rfl
          · exact one_dvd _
          · exact Dvd.dvd.trans (by decide) h8
          · exact h8
  obtain ⟨e1a, e2a, e3a, e4a, e5a⟩ := heff
  obtain ⟨_, heq, hlt⟩ := chooseSize_ok (by omega) hc
  have hsz : min ≤ sd.Size ∧ sd.Size ≤ 128 := by
    rcases lt_or_eq_of_le e3a with hl | he
    · obtain ⟨hcap, _, _, hge⟩ := hlt hl
      refine ⟨hge e4a, ?_⟩
      split at hcap <;> omega
    · rw [heq he]
      exact ⟨le_refl _, e2a⟩
  have hpos : 0 < sd.Size := by omega
  refine ⟨hpos, hsz.2, fun hu => ?_, ?_, ?_⟩
  · obtain ⟨a1, a2⟩ := e5a hu
    exact ⟨by omega, by omega⟩
  · rw [hfields]
    cases useHint with
    | false =>
      have := (fillLoop_greedy sd.Size sd.Size.toNat { hints := hints } (by simp)).1
      rw [this]
      simp
    | true =>
      obtain ⟨a1, _⟩ := e5a rfl
      have := (fillLoop_hinted sd.Size sd.Size.toNat { hints := hints }
        (by show (0 : Int) + occupiedSize hints ≤ sd.Size; omega) (by simp)).1
      rw [this]
      simp
  · rw [hhints]
    cases useHint with
    | false => exact fillLoop_false_sdHints _ _ _
    | true =>
      obtain ⟨a1, _⟩ := e5a rfl
      exact (fillLoop_hinted sd.Size sd.Size.toNat { hints := hints }
        (by show (0 : Int) + occupiedSize hints ≤ sd.Size; omega) (by simp)).2

theorem findMemberFrom_prefix (f : String) (pre post : List String) (i : Int)
    (hpre : f ∉ pre) : findMemberFrom f (pre ++ f :: post) i = i + pre.length := by
  induction pre generalizing i with
  | nil => simp [findMemberFrom]
  | cons x xs ih =>
    have hx : x ≠ f := fun hh => hpre (by rw [hh]; exact List.mem_cons_self _ _)
    have hxs : f ∉ xs := fun hh => hpre (List.mem_cons_of_mem _ hh)
    show findMemberFrom f (x :: (xs ++ f :: post)) i = _
    unfold findMemberFrom
    rw [if_neg hx, ih (i + 1) hxs]
    simp only [List.length_cons]
    push_cast
    ring

theorem offsetOfMemberFrom_sum (sd : StructDef) (todo i : Nat) (offset : Int)
    (h : i + todo ≤ sd.FieldTypes.length) :
    offsetOfMemberFrom sd todo i offset
      = .ok (offset + (((sd.FieldTypes.drop i).take todo).map fieldSize).sum) := by
  induction todo generalizing i offset with
  | zero => simp [offsetOfMemberFrom]
  | succ n ih =>
    have hi : i < sd.FieldTypes.length := by omega
    unfold offsetOfMemberFrom
    rw [List.getElem?_eq_getElem hi]
    dsimp only
    rw [ih (i + 1) _ (by omega), List.drop_eq_getElem_cons hi]
    simp only [List.take_succ_cons, List.map_cons, List.sum_cons]
    congr 1
    ring

/-- A field type that occurs once in a struct: `findMember` gives its index and
`offsetOfMember` of that index the bytes of the fields before it, which with its own bytes
do not exceed the bytes of all fields. -/
theorem member_placement (sd : StructDef) (pre post : List String) (f : String)
    (hf : sd.FieldTypes = pre ++ f :: post) (hpre : f ∉ pre) (hpost : f ∉ post) :
    sd.FieldTypes.count f = 1 ∧
      ∃ o, sd.offsetOfMember (sd.findMember f) = .ok o ∧
        o + fieldSize f ≤ (sd.FieldTypes.map fieldSize).sum := by
  refine ⟨?_, (pre.map fieldSize).sum, ?_, ?_⟩
  · rw [hf, List.count_append, List.count_cons_self, List.count_eq_zero_of_not_mem hpre,
      List.count_eq_zero_of_not_mem hpost]
  · have hfm : sd.findMember f = pre.length := by
      unfold StructDef.findMember
      rw [hf, findMemberFrom_prefix f pre post 0 hpre]
      simp
    rw [hfm]
    unfold StructDef.offsetOfMember
    rw [Int.toNat_ofNat, offsetOfMemberFrom_sum sd pre.length 0 0 (by rw [hf]; simp)]
    rw [hf]
    simp
  · rw [hf]
    simp only [List.map_append, List.sum_append, List.map_cons, List.sum_cons]
    have : 0 ≤ (post.map fieldSize).sum := by
      apply List.sum_nonneg
      intro x hx
      obtain ⟨t, _, rfl⟩ := List.mem_map.mp hx
      exact fieldSize_nonneg t
    omega

/-- C1: for every input that a call site passes to `generateStruct`, every state and random
source: if `generateStruct` returns a struct, the byte sizes of its `FieldTypes` (4 for
`struct bpf_spin_lock`, 16 for `struct bpf_timer`, 8 for `char [8]`, 8, 4, 2 and 1 for the
integer types) add up to its `Size`. -/
theorem generateStruct_size_law (sc : List Int) (hints hints1 : HintSet) (useHint b : Bool)
    (msh : Int) (e e1 : Env) (sd : StructDef)
    (hcs : structCallSite sc hints useHint msh)
    (h : generateStruct sc hints useHint msh e = .ok (((some sd, b), hints1), e1)) :
    (sd.FieldTypes.map fieldSize).sum = sd.Size := by
  obtain ⟨hpos, _, hcov, hfields, _⟩ := generateStruct_at_call_site hcs h
  rw [hfields, List.map_append, List.sum_append, greedyFields_sum]
  cases useHint with
  | false =>
    simp only [Bool.false_eq_true, if_false, List.map_nil, List.sum_nil]
    omega
  | true =>
    obtain ⟨ho, _⟩ := hcov rfl
    simp only [if_true, hintFields_sum]
    omega

/-- C2: for every struct that `generateStruct` returns for an input of a call site: if its
`Hints` has the spin lock, its `FieldTypes` has exactly one `struct bpf_spin_lock`, and
`offsetOfMember` of the member that `findMember` gives is at most `Size - 4`; likewise one
`struct bpf_timer` at an offset of at most `Size - 16` for the timer, and one `char [8]` at an
offset of at most `Size - 8` for the constant string. -/
theorem generateStruct_hint_placement (sc : List Int) (hints hints1 : HintSet)
    (useHint b : Bool) (msh : Int) (e e1 : Env) (sd : StructDef)
    (hcs : structCallSite sc hints useHint msh)
    (h : generateStruct sc hints useHint msh e = .ok (((some sd, b), hints1), e1)) :
    (sd.Hints.has HintGenSpinlock = true →
      sd.FieldTypes.count "struct bpf_spin_lock" = 1 ∧
      ∃ o, sd.offsetOfMember (sd.findMember "struct bpf_spin_lock") = .ok o ∧
        o ≤ sd.Size - 4) ∧
    (sd.Hints.has HintGenTimer = true →
      sd.FieldTypes.count "struct bpf_timer" = 1 ∧
      ∃ o, sd.offsetOfMember (sd.findMember "struct bpf_timer") = .ok o ∧ o ≤ sd.Size - 16) ∧
    (sd.Hints.has HintGenConstStr = true →
      sd.FieldTypes.count "char [8]" = 1 ∧
      ∃ o, sd.offsetOfMember (sd.findMember "char [8]") = .ok o ∧ o ≤ sd.Size - 8) := by
  have hlaw := generateStruct_size_law sc hints hints1 useHint b msh e e1 sd hcs h
  obtain ⟨_, _, _, hfields, hhints⟩ := generateStruct_at_call_site hcs h
  have hs : fieldSize "struct bpf_spin_lock" = 4 := by decide
  have ht : fieldSize "struct bpf_timer" = 16 := by decide
  have hc : fieldSize "char [8]" = 8 := by decide
  cases useHint with
  | false =>
    rw [hhints]
    refine ⟨fun hh => ?_, fun hh => ?_, fun hh => ?_⟩ <;> cases hh
  | true =>
    rw [if_pos rfl] at hfields hhints
    rw [hhints, placedHints_has _ _ (Or.inl rfl), placedHints_has _ _ (Or.inr (Or.inl rfl)),
      placedHints_has _ _ (Or.inr (Or.inr rfl))]
    rw [if_pos rfl] at hfields
    generalize (sd.Size - occupiedSize hints).toNat = m at hfields
    have hg : ∀ x, x ∈ greedyFields m → x = "uint64_t" ∨ x = "uint32_t" ∨ x = "uint16_t" ∨
        x = "uint8_t" := fun x hx => greedyFields_mem hx
    unfold hintFields at hfields
    refine ⟨fun h1 => ?_, fun h2 => ?_, fun h3 => ?_⟩
    · rw [h1, if_pos rfl] at hfields
      obtain ⟨hcount, o, ho, hle⟩ := member_placement sd []
        ((if hints.has HintGenTimer = true then ["struct bpf_timer"] else []) ++
          (if hints.has HintGenConstStr = true then ["char [8]"] else []) ++ greedyFields m)
        "struct bpf_spin_lock" (by rw [hfields]; simp) (by simp)
        (by
          intro hmem
          simp only [List.mem_append] at hmem
          rcases hmem with (hmem | hmem) | hmem
          · split at hmem
            · simp at hmem
            · cases hmem
          · split at hmem
            · simp at hmem
            · cases hmem
          · rcases hg _ hmem with c | c | c | c <;> simp at c)
      exact ⟨hcount, o, ho, by omega⟩
    · rw [h2, if_pos rfl] at hfields
      obtain ⟨hcount, o, ho, hle⟩ := member_placement sd
        (if hints.has HintGenSpinlock = true then ["struct bpf_spin_lock"] else [])
        ((if hints.has HintGenConstStr = true then ["char [8]"] else []) ++ greedyFields m)
        "struct bpf_timer" (by rw [hfields]; simp)
        (by
          intro hmem
          split at hmem
          · simp at hmem
          · cases hmem)
        (by
          intro hmem
          simp only [List.mem_append] at hmem
          rcases hmem with hmem | hmem
          · split at hmem
            · simp at hmem
            · cases hmem
          · rcases hg _ hmem with c | c | c | c <;> simp at c)
      exact ⟨hcount, o, ho, by omega⟩
    · rw [h3, if_pos rfl] at hfields
      obtain ⟨hcount, o, ho, hle⟩ := member_placement sd
        ((if hints.has HintGenSpinlock = true then ["struct bpf_spin_lock"] else []) ++
          (if hints.has HintGenTimer = true then ["struct bpf_timer"] else []))
        (greedyFields m) "char [8]" (by rw [hfields]; simp)
        (by
          intro hmem
          simp only [List.mem_append] at hmem
          rcases hmem with hmem | hmem
          · split at hmem
            · simp at hmem
            · cases hmem
          · split at hmem
            · simp at hmem
            · cases hmem)
        (by
          intro hmem
          rcases hg _ hmem with c | c | c | c <;> simp at c)
      exact ⟨hcount, o, ho, by omega⟩

/-- C18: with `useHint = true`, for every input that a call site passes: if `generateStruct`
returns a struct, its `Size` is at least `occupiedSize` of the input hints and at least
`minSizeHint`. -/
theorem generateStruct_size_covers_hints (sc : List Int) (hints hints1 : HintSet) (b : Bool)
    (msh : Int) (e e1 : Env) (sd : StructDef)
    (hcs : structCallSite sc hints true msh)
    (h : generateStruct sc hints true msh e = .ok (((some sd, b), hints1), e1)) :
    occupiedSize hints ≤ sd.Size ∧ msh ≤ sd.Size :=
  (generateStruct_at_call_site hcs h).2.2.1 rfl

/-- C39: for every input that a call site passes, every state and random source,
`generateStruct` returns without a fault. The effective minimum `m`, after the `useHint`
block has raised it, is from 0 to 128, so that the bound `min(max, 128) - m + 1` of the one
request to the random source, made when `m < max`, is positive and the case of a minimum
above 128 under a larger maximum does not arise; and a struct that is returned has a `Size`
of at most 128, so that `RetAccessSize`, a struct size rounded up to 8, stays within 128. -/
theorem generateStruct_total_at_call_sites (sc : List Int) (hints : HintSet) (useHint : Bool)
    (msh : Int) (e : Env) (hcs : structCallSite sc hints useHint msh) :
    (∃ r e1, generateStruct sc hints useHint msh e = .ok (r, e1)) ∧
    (∃ min max rest, sc = min :: max :: rest ∧ 0 ≤ min ∧ min ≤ max ∧
      ∀ m, (if useHint then hintedMin min max hints msh else some min) = some m →
        0 ≤ m ∧ m ≤ 128 ∧ (m < max → 0 < (if max > 128 then 128 else max) - m + 1)) ∧
    (∀ sd b hints1 e1, generateStruct sc hints useHint msh e = .ok (((some sd, b), hints1), e1) →
      0 < sd.Size ∧ sd.Size ≤ 128) := by
  obtain ⟨min, max, align, rest, rfl, hal, h0, h128, hmax, _, hdvd, hocc, hmsh⟩ :=
    structCallSite_shape hcs
  have hm128 : useHint = true → msh ≤ 128 := by
    intro hu
    rcases hmsh hu with hh | ⟨_, _, hh⟩
    · omega
    · exact hh
  refine ⟨?_, ⟨min, max, rest, rfl, h0, hmax, ?_⟩, ?_⟩
  · have hmsh1 : ∃ msh1, msh1 ≤ 128 ∧
        (if useHint then hintedMin min max hints msh else some min)
          = (if useHint then hintedMin min max hints msh1 else some min) ∧
        (useHint = true → msh1 = msh) := by
      cases useHint with
      | false => exact ⟨0, by decide, rfl, fun hh => by cases hh⟩
      | true => exact ⟨msh, hm128 rfl, rfl, fun _ => rfl⟩
    cases useHint with
    | false =>
      rcases hal with ⟨rfl, rfl⟩ | ⟨rfl, hal⟩
      · unfold generateStruct
        refine Gen.bind_total (show Gen.index [min, max] 0 e = .ok (min, e) from rfl) ?_
        refine Gen.bind_total (show Gen.index [min, max] 1 e = .ok (max, e) from rfl) ?_
        refine Gen.bind_total (show (if [min, max].length = 3 then Gen.index [min, max] 2
          else pure 1) e = .ok (1, e) from rfl) ?_
        exact generateStruct_tail_returns min max 1 hints false 0 (by decide) h128
          (by decide) e
      · unfold generateStruct
        refine Gen.bind_total
          (show Gen.index [min, max, align] 0 e = .ok (min, e) from rfl) ?_
        refine Gen.bind_total
          (show Gen.index [min, max, align] 1 e = .ok (max, e) from rfl) ?_
        refine Gen.bind_total (show (if [min, max, align].length = 3 then
          Gen.index [min, max, align] 2 else pure 1) e = .ok (align, e) from rfl) ?_
        exact generateStruct_tail_returns min max align hints false 0 (by omega) h128
          (by decide) e
    | true =>
      rcases hal with ⟨rfl, rfl⟩ | ⟨rfl, hal⟩
      · unfold generateStruct
        refine Gen.bind_total (show Gen.index [min, max] 0 e = .ok (min, e) from rfl) ?_
        refine Gen.bind_total (show Gen.index [min, max] 1 e = .ok (max, e) from rfl) ?_
        refine Gen.bind_total (show (if [min, max].length = 3 then Gen.index [min, max] 2
          else pure 1) e = .ok (1, e) from rfl) ?_
        exact generateStruct_tail_returns min max 1 hints true msh (by decide) h128
          (hm128 rfl) e
      · unfold generateStruct
        refine Gen.bind_total
          (show Gen.index [min, max, align] 0 e = .ok (min, e) from rfl) ?_
        refine Gen.bind_total
          (show Gen.index [min, max, align] 1 e = .ok (max, e) from rfl) ?_
        refine Gen.bind_total (show (if [min, max, align].length = 3 then
          Gen.index [min, max, align] 2 else pure 1) e = .ok (align, e) from rfl) ?_
        exact generateStruct_tail_returns min max align hints true msh (by omega) h128
          (hm128 rfl) e
  · intro m hm
    have hb : min ≤ m ∧ m ≤ 128 := by
      cases useHint with
      | true =>
        rw [if_pos rfl] at hm
        exact ⟨(hintedMin_choice hm).2.1, hintedMin_le h128 (hm128 rfl) hm⟩
      | false =>
        rw [if_neg (by decide)] at hm
        cases hm
        exact ⟨le_refl _, h128⟩
    refine ⟨by omega, hb.2, fun hlt => ?_⟩
    split <;> omega
  · intro sd b hints1 e1 h
    obtain ⟨hp, hle, _⟩ := generateStruct_at_call_site hcs h
    exact ⟨hp, hle⟩

/-- A call site with a spin-lock hint: the value of a new hash map for `map_lookup_elem` and
an access of 8 bytes. -/
theorem call_site_spin_lock : structCallSite [1, 4096] [HintGenSpinlock] true 8 := by
  have h : (pickNewMapType (callLookupHinted HintGenSpinlock 8)
      (getHelperCompatMapTypes envEmpty.s (callLookupHinted HintGenSpinlock 8))
      envEmpty).toOption.map (fun r => r.1.map (fun mt => mt.ValSize))
      = some (some [1, 4096]) := by decide!
  obtain ⟨⟨omt, e1⟩, hrun, hval⟩ := Outcome.ok_of_toOption_map h
  cases omt with
  | none => simp at hval
  | some mt =>
    simp only [Option.map_some', Option.some.injEq] at hval
    exact Or.inr (Or.inl ⟨_, _, _, e1, mt, hrun, hval.symm, rfl, rfl, by decide!, by decide,
      by decide, by decide⟩)

/-- A call site with a constant-string hint: the value of a new array map for
`map_lookup_elem` and an access of 16 bytes. -/
theorem call_site_const_str : structCallSite [1, 4096] [HintGenConstStr] true 16 := by
  have h : (pickNewMapType (callLookupHinted HintGenConstStr 16)
      (getHelperCompatMapTypes envEmpty.s (callLookupHinted HintGenConstStr 16))
      envEmpty).toOption.map (fun r => r.1.map (fun mt => mt.ValSize))
      = some (some [1, 4096]) := by decide!
  obtain ⟨⟨omt, e1⟩, hrun, hval⟩ := Outcome.ok_of_toOption_map h
  cases omt with
  | none => simp at hval
  | some mt =>
    simp only [Option.map_some', Option.some.injEq] at hval
    exact Or.inr (Or.inl ⟨_, _, _, e1, mt, hrun, hval.symm, rfl, rfl, by decide!, by decide,
      by decide, by decide⟩)

/-- A call site with an aligned constraint: the value of a new `BPF_MAP_TYPE_DEVMAP` map for
`map_lookup_elem` and an access of 8 bytes. -/
theorem call_site_devmap : structCallSite [4, 8, 4] [] true 8 := by
  have h : (pickNewMapType (callLookupSized 8)
      (getHelperCompatMapTypes c25Env.s (callLookupSized 8)) c25Env).toOption.map
      (fun r => r.1.map (fun mt => mt.ValSize)) = some (some [4, 8, 4]) := by decide!
  obtain ⟨⟨omt, e1⟩, hrun, hval⟩ := Outcome.ok_of_toOption_map h
  cases omt with
  | none => simp at hval
  | some mt =>
    simp only [Option.map_some', Option.some.injEq] at hval
    exact Or.inr (Or.inl ⟨_, _, _, e1, mt, hrun, hval.symm, rfl, rfl, by decide!, by decide,
      by decide, by decide⟩)

/-- A run for the value of a new hash map with a spin-lock hint and an access of 8 bytes:
the struct has the fields `struct bpf_spin_lock` and `uint32_t` and the size 8. -/
theorem generateStruct_size_law_witness :
    structCallSite [1, 4096] [HintGenSpinlock] true 8 ∧
    ∃ (sd : StructDef) (b : Bool) (hints1 : HintSet) (e1 : Env),
      generateStruct [1, 4096] [HintGenSpinlock] true 8 envEmpty
        = .ok (((some sd, b), hints1), e1) ∧
      sd.FieldTypes = ["struct bpf_spin_lock", "uint32_t"] ∧
      (sd.FieldTypes.map fieldSize).sum = sd.Size := by
  have h : (generateStruct [1, 4096] [HintGenSpinlock] true 8 envEmpty).toOption.map
      (fun r => r.1.1.1.map (fun sd => sd.FieldTypes))
      = some (some ["struct bpf_spin_lock", "uint32_t"]) := by decide!
  obtain ⟨⟨⟨⟨osd, b⟩, hints1⟩, e1⟩, hrun, hval⟩ := Outcome.ok_of_toOption_map h
  cases osd with
  | none => simp at hval
  | some sd =>
    simp only [Option.map_some', Option.some.injEq] at hval
    exact ⟨call_site_spin_lock, sd, b, hints1, e1, hrun, hval,
      generateStruct_size_law _ _ hints1 _ b _ _ e1 sd call_site_spin_lock hrun⟩

/-- A run for the value of a new array map with a constant-string hint and an access of 16
bytes: the struct has the fields `char [8]` and `uint64_t`. -/
theorem generateStruct_hint_placement_witness :
    structCallSite [1, 4096] [HintGenConstStr] true 16 ∧
    ∃ (sd : StructDef) (b : Bool) (hints1 : HintSet) (e1 : Env),
      generateStruct [1, 4096] [HintGenConstStr] true 16 envEmpty
        = .ok (((some sd, b), hints1), e1) ∧
      sd.FieldTypes = ["char [8]", "uint64_t"] ∧
      (sd.Hints.has HintGenSpinlock = true →
        sd.FieldTypes.count "struct bpf_spin_lock" = 1 ∧
        ∃ o, sd.offsetOfMember (sd.findMember "struct bpf_spin_lock") = .ok o ∧
          o ≤ sd.Size - 4) ∧
      (sd.Hints.has HintGenTimer = true →
        sd.FieldTypes.count "struct bpf_timer" = 1 ∧
        ∃ o, sd.offsetOfMember (sd.findMember "struct bpf_timer") = .ok o ∧
          o ≤ sd.Size - 16) ∧
      (sd.Hints.has HintGenConstStr = true →
        sd.FieldTypes.count "char [8]" = 1 ∧
        ∃ o, sd.offsetOfMember (sd.findMember "char [8]") = .ok o ∧ o ≤ sd.Size - 8) := by
  have h : (generateStruct [1, 4096] [HintGenConstStr] true 16 envEmpty).toOption.map
      (fun r => r.1.1.1.map (fun sd => sd.FieldTypes))
      = some (some ["char [8]", "uint64_t"]) := by decide!
  obtain ⟨⟨⟨⟨osd, b⟩, hints1⟩, e1⟩, hrun, hval⟩ := Outcome.ok_of_toOption_map h
  cases osd with
  | none => simp at hval
  | some sd =>
    simp only [Option.map_some', Option.some.injEq] at hval
    exact ⟨call_site_const_str, sd, b, hints1, e1, hrun, hval,
      generateStruct_hint_placement _ _ hints1 _ b _ _ e1 sd call_site_const_str hrun⟩

/-- A run for the value of a new `BPF_MAP_TYPE_DEVMAP` map, whose constraint is `[4, 8, 4]`,
and an access of 8 bytes: the struct has 8 bytes. -/
theorem generateStruct_size_covers_hints_witness :
    structCallSite [4, 8, 4] [] true 8 ∧
    ∃ (sd : StructDef) (b : Bool) (hints1 : HintSet) (e1 : Env),
      generateStruct [4, 8, 4] [] true 8 envEmpty = .ok (((some sd, b), hints1), e1) ∧
      sd.Size = 8 ∧ occupiedSize [] ≤ sd.Size ∧ 8 ≤ sd.Size := by
  have h : (generateStruct [4, 8, 4] [] true 8 envEmpty).toOption.map
      (fun r => r.1.1.1.map (fun sd => sd.Size)) = some (some 8) := by decide!
  obtain ⟨⟨⟨⟨osd, b⟩, hints1⟩, e1⟩, hrun, hval⟩ := Outcome.ok_of_toOption_map h
  cases osd with
  | none => simp at hval
  | some sd =>
    simp only [Option.map_some', Option.some.injEq] at hval
    exact ⟨call_site_devmap, sd, b, hints1, e1, hrun, hval,
      generateStruct_size_covers_hints _ _ hints1 b _ _ e1 sd call_site_devmap hrun⟩

/-- The value of an inner map of type `BPF_MAP_TYPE_STACK_TRACE`, whose constraint is
`[8, 4096, 8]`: `generateStruct` returns, with the bound 121 for the random source. -/
theorem generateStruct_total_at_call_sites_witness :
    structCallSite [8, 4096, 8] [] true 0 ∧
    (∃ r e1, generateStruct [8, 4096, 8] [] true 0 envEmpty = .ok (r, e1)) ∧
    (∃ min max rest, [8, 4096, 8] = min :: max :: rest ∧ 0 ≤ min ∧ min ≤ max ∧
      ∀ m, (if true then hintedMin min max [] 0 else some min) = some m →
        0 ≤ m ∧ m ≤ 128 ∧ (m < max → 0 < (if max > 128 then 128 else max) - m + 1)) ∧
    (∀ sd b hints1 e1,
      generateStruct [8, 4096, 8] [] true 0 envEmpty = .ok (((some sd, b), hints1), e1) →
      0 < sd.Size ∧ sd.Size ≤ 128) :=
  have hcs : structCallSite [8, 4096, 8] [] true 0 :=
    Or.inr (Or.inr ⟨stackTraceType, by decide!, rfl, rfl, rfl, rfl⟩)
  ⟨hcs, generateStruct_total_at_call_sites [8, 4096, 8] [] true 0 envEmpty hcs⟩

/-! ## Inputs beyond the call sites -/

/-- The laws above are laws of the inputs that the call sites pass, not of every input. The
constraint `[8, 4096, 8]` with the hints spin lock and constant string is passed by no call
site (a constraint with an alignment comes with no hint that takes space); for it
`generateStruct` returns a struct of `Size` 8 whose fields `struct bpf_spin_lock` and
`char [8]` take 12 bytes. The constraint `[200, 4096]` is passed by no call site either (its
minimum is above 128); for it the bound given to `Intn` is `128 - 200 + 1 = -71`. -/
theorem generateStruct_beyond_call_sites :
    (¬ structCallSite [8, 4096, 8] [HintGenSpinlock, HintGenConstStr] true 0) ∧
    ((generateStruct [8, 4096, 8] [HintGenSpinlock, HintGenConstStr] true 0 envEmpty).toOption.map
      (fun res => res.1.1.1.map
        (fun sd => (sd.FieldTypes, (sd.FieldTypes.map fieldSize).sum, sd.Size)))
      = some (some (["struct bpf_spin_lock", "char [8]"], 12, 8))) ∧
    (∀ hints useHint msh, ¬ structCallSite [200, 4096] hints useHint msh) ∧
    generateStruct [200, 4096] [] false 0 envEmpty = .fault "invalid argument to Intn" := by
  refine ⟨?_, by decide!, ?_, by rfl⟩
  · intro h
    obtain ⟨min, max, align, rest, hsc, hal, _, _, _, _, _, hocc, _⟩ := structCallSite_shape h
    simp only [List.cons.injEq] at hsc
    obtain ⟨_, _, hrest⟩ := hsc
    rcases hal with ⟨hr, _⟩ | ⟨hr, hal⟩
    · rw [hr] at hrest; cases hrest
    · rw [hr] at hrest
      simp only [List.cons.injEq, and_true] at hrest
      have hne : align ≠ 1 := by omega
      have := hocc rfl hne
      revert this
      decide
  · intro hints useHint msh h
    obtain ⟨min, max, align, rest, hsc, _, _, h128, _⟩ := structCallSite_shape h
    simp only [List.cons.injEq] at hsc
    omega

/-! ## The access size of a hint -/

theorem roundUp_eight {v r : Int} (h : roundUp v 8 = .ok r) :
    (8 : Int) ∣ r ∧ (0 ≤ v → v ≤ r ∧ r < v + 8) := by
  unfold roundUp at h
  rw [if_neg (by decide)] at h
  dsimp only at h
  have hr : r = (if v.tmod 8 ≠ 0 then v.tdiv 8 + 1 else v.tdiv 8) * 8 := by
    cases h
    rfl
  have hd := Int.tmod_add_tdiv v 8
  refine ⟨⟨_, by rw [hr]; ring⟩, fun hv => ?_⟩
  have h0 : 0 ≤ v.tmod 8 := Int.tmod_nonneg _ hv
  have h8 : v.tmod 8 < 8 := Int.tmod_lt_of_pos _ (by decide)
  rw [hr]
  split <;> omega

/-- The access size of the hint that `genHint` makes: 0, or the size of the key or value
struct of the map bound to the consumer, rounded up to a multiple of 8. -/
theorem genHint_access_size {producer : BpfHelperFunc} {consumer : BpfCall} {arg : Int}
    {e e1 : Env} {hint : BpfCallGenHint}
    (h : genHint producer consumer arg e = .ok (hint, e1)) :
    (hint.RetAccessSize = 0 ∨ ∃ m bm sd, consumer.ArgMap = some m ∧ e.s.Maps[m]? = some bm ∧
        (bm.Key = some sd ∨ bm.Val = some sd) ∧ roundUp sd.Size 8 = .ok hint.RetAccessSize) ∧
      (8 : Int) ∣ hint.RetAccessSize := by
  have main : hint.RetAccessSize = 0 ∨ ∃ m bm sd, consumer.ArgMap = some m ∧
      e.s.Maps[m]? = some bm ∧ (bm.Key = some sd ∨ bm.Val = some sd) ∧
      roundUp sd.Size 8 = .ok hint.RetAccessSize := by
    unfold genHint at h
    have hh := Gen.bind_ok h
    clear h
    obtain ⟨consumerArg, ea, ha, h⟩ := hh
    have hea : ea = e := (Gen.index_ok ha).2
    rw [hea] at h
    clear ha hea ea
    have hh := Gen.bind_ok h
    clear h
    obtain ⟨hint1, eb, h1, h⟩ := hh
    have r1 : hint1.RetAccessSize = 0 ∧ eb.s = e.s := by
      split at h1
      · obtain ⟨xdp, ec, hx, h1⟩ := Gen.bind_ok h1
        have hs := Gen.nOutOf_ok hx
        split at h1
        · obtain ⟨rfl, rfl⟩ := Gen.pure_ok h1
          exact ⟨rfl, hs⟩
        · obtain ⟨rfl, rfl⟩ := Gen.pure_ok h1
          exact ⟨rfl, hs⟩
      · obtain ⟨rfl, rfl⟩ := Gen.pure_ok h1
        exact ⟨rfl, rfl⟩
    have hh := Gen.bind_ok h
    clear h
    obtain ⟨am, ec, hm, h⟩ := hh
    have hh := Gen.bind_ok h
    clear h
    obtain ⟨hint6, ed, h6, h⟩ := hh
    have hh := Gen.bind_ok h
    clear h
    obtain ⟨hint7, ef, h7, h⟩ := hh
    have hfin : hint.RetAccessSize = hint7.RetAccessSize := by
      split at h
      · obtain ⟨rfl, _⟩ := Gen.pure_ok h
        rfl
      · obtain ⟨rfl, _⟩ := Gen.pure_ok h
        rfl
    rw [hfin]
    have ham : ∀ bm, am = some bm → ∃ m, consumer.ArgMap = some m ∧ e.s.Maps[m]? = some bm := by
      intro bm hbm
      cases hcm : consumer.ArgMap with
      | none =>
        rw [hcm] at hm
        obtain ⟨rfl, _⟩ := Gen.pure_ok hm
        cases hbm
      | some m =>
        rw [hcm] at hm
        obtain ⟨bm1, eg, hd, hm⟩ := Gen.bind_ok hm
        obtain ⟨rfl, _⟩ := Gen.pure_ok hm
        cases hbm
        obtain ⟨_, hget⟩ := derefMap_ok hd
        rw [r1.2] at hget
        exact ⟨m, rfl, hget⟩
    have r5 : ∀ (x : BpfCallGenHint), x.RetAccessSize = hint1.RetAccessSize →
        x.RetAccessSize = 0 := fun x hx => by rw [hx]; exact r1.1
    -- the hint before the two size steps has the access size 0
    have r6 : hint6.RetAccessSize = 0 ∨ ∃ m bm sd, consumer.ArgMap = some m ∧
        e.s.Maps[m]? = some bm ∧ (bm.Key = some sd ∨ bm.Val = some sd) ∧
        roundUp sd.Size 8 = .ok hint6.RetAccessSize := by
      cases am with
      | none =>
        obtain ⟨rfl, _⟩ := Gen.pure_ok h6
        left
        apply r5
        repeat' split
        all_goals rfl
      | some bm =>
        obtain ⟨m, hcm, hget⟩ := ham bm rfl
        dsimp only at h6
        cases hk : bm.Key with
        | none =>
          rw [hk] at h6
          obtain ⟨rfl, _⟩ := Gen.pure_ok h6
          left
          apply r5
          repeat' split
          all_goals rfl
        | some k =>
          rw [hk] at h6
          dsimp only at h6
          split at h6
          · obtain ⟨v, eg, hv, h6⟩ := Gen.bind_ok h6
            obtain ⟨rfl, _⟩ := Gen.pure_ok h6
            obtain ⟨hv, _⟩ := Gen.lift_ok hv
            exact Or.inr ⟨m, bm, k, hcm, hget, Or.inl hk, hv⟩
          · obtain ⟨rfl, _⟩ := Gen.pure_ok h6
            left
            apply r5
            repeat' split
            all_goals rfl
    cases am with
    | none =>
      obtain ⟨rfl, _⟩ := Gen.pure_ok h7
      exact r6
    | some bm =>
      obtain ⟨m, hcm, hget⟩ := ham bm rfl
      dsimp only at h7
      cases hv : bm.Val with
      | none =>
        rw [hv] at h7
        obtain ⟨rfl, _⟩ := Gen.pure_ok h7
        exact r6
      | some v =>
        rw [hv] at h7
        dsimp only at h7
        split at h7
        · obtain ⟨sz, eg, hsz, h7⟩ := Gen.bind_ok h7
          obtain ⟨rfl, _⟩ := Gen.pure_ok h7
          obtain ⟨hsz, _⟩ := Gen.lift_ok hsz
          exact Or.inr ⟨m, bm, v, hcm, hget, Or.inr hv, hsz⟩
        · obtain ⟨rfl, _⟩ := Gen.pure_ok h7
          exact r6
  refine ⟨main, ?_⟩
  rcases main with h0 | ⟨_, _, _, _, _, _, hr⟩
  · rw [h0]
    exact dvd_zero _
  · exact (roundUp_eight hr).1

/-! ## Where the size bound of a size slot comes from -/

theorem post_fault {α : Type} {P : α → Env → Prop} (msg : String) :
    Post P (Gen.fault msg : Gen α) := by
  constructor
  intro e a e1 h
  cases h

theorem post_bind_of {α β : Type} {Q : α → Prop} {P : β → Env → Prop} {m : Gen α}
    {f : α → Gen β} (hm : Post (fun a _ => Q a) m) (hf : ∀ a, Q a → Post P (f a)) :
    Post P (m >>= f) := by
  constructor
  intro e b e2 h
  obtain ⟨a, e1, h1, h2⟩ := Gen.bind_ok h
  exact (hf a (hm.run _ _ _ h1)).run _ _ _ h2

theorem post_ite {α : Type} {P : α → Env → Prop} {p : Prop} [Decidable p] {t f : Gen α}
    (ht : Post P t) (hf : Post P f) : Post P (if p then t else f) := by
  split <;> assumption

theorem size_kept_Scalar (n : Int) (call : BpfCall) (hk : call.StackVarSize = n) (arg : Int) :
    Post (fun r _ => r.2.StackVarSize = n) (ScalarValRegType.Generate call arg) := by
  unfold ScalarValRegType.Generate
  repeat' first
    | exact post_pure (fun _ => hk)
    | apply post_bind_any
    | intro _

theorem size_kept_PtrToCtx (n : Int) (call : BpfCall) (hk : call.StackVarSize = n) (arg : Int) :
    Post (fun r _ => r.2.StackVarSize = n) (PtrToCtxRegType.Generate call arg) := by
  unfold PtrToCtxRegType.Generate
  repeat' first
    | exact post_pure (fun _ => hk)
    | apply post_bind_any
    | intro _

theorem size_kept_Percpu (n : Int) (call : BpfCall) (hk : call.StackVarSize = n) (arg : Int) :
    Post (fun r _ => r.2.StackVarSize = n) (PtrToPercpuBtfIdRegType.Generate call arg) := by
  unfold PtrToPercpuBtfIdRegType.Generate
  repeat' first
    | exact post_pure (fun _ => hk)
    | apply post_bind_any
    | intro _

theorem size_kept_bindMapArg (n : Int) (call : BpfCall) (hk : call.StackVarSize = n)
    (a : BpfArg) (m : MapRef) :
    Post (fun r _ => r.2.StackVarSize = n) (bindMapArg a call m) := by
  unfold bindMapArg
  repeat' first
    | exact post_pure (fun _ => hk)
    | apply post_bind_any
    | intro _

theorem size_kept_ConstPtrToMap (n : Int) (call : BpfCall) (hk : call.StackVarSize = n)
    (mapFuel : Nat) (arg : Int) :
    Post (fun r _ => r.2.StackVarSize = n) (ConstPtrToMapRegType.Generate mapFuel call arg) := by
  unfold ConstPtrToMapRegType.Generate
  repeat' first
    | exact post_pure (fun _ => hk)
    | exact size_kept_bindMapArg _ _ hk _ _
    | apply post_bind_any
    | apply post_ite
    | intro _
    | split

theorem size_kept_nameFromProducer (n : Int) (call : BpfCall) (hk : call.StackVarSize = n)
    (a : BpfArg) (prodCall : BpfCall) (argType : String) :
    Post (fun r _ => r.2.StackVarSize = n) (nameFromProducer a call prodCall argType) := by
  unfold nameFromProducer
  repeat' first
    | exact post_pure (fun _ => hk)
    | exact post_fault _
    | apply post_bind_any
    | apply post_ite
    | intro _
    | split

/-- The helper route of the argument resolver does not write `call.StackVarSize`. -/
theorem size_kept_genRandBpfHelperCall (n : Int) (call : BpfCall) (hk : call.StackVarSize = n)
    (self : CallGen) (arg : Int) :
    Post (fun r _ => r.2.StackVarSize = n) (genRandBpfHelperCall self call arg) := by
  unfold genRandBpfHelperCall
  apply post_bind_any; intro a
  apply post_bind_any; intro p
  split
  apply post_bind_any; intro argType
  apply post_bind_any; intro picked
  split
  · exact post_pure (fun _ => hk)
  · apply post_bind_any; intro hint
    apply post_bind_any; intro res
    split
    · exact post_pure (fun _ => hk)
    · apply post_bind_of (size_kept_nameFromProducer n _ hk _ _ _)
      intro named hk1
      split
      rename_i named0 c1
      split
      · exact post_pure (fun _ => hk1)
      · apply post_bind_any; intro a2
        exact post_pure (fun _ => hk1)

theorem sizeSource_none {n : Int} {c1 : BpfCall} {e1 : Env} (h : sizeSource n none c1 e1) :
    c1.StackVarSize = n := by
  rcases h with h | ⟨a, ha, _⟩ | ⟨a, ha, _⟩
  · exact h
  · cases ha
  · cases ha

/-- The stack buffer that `PtrToStackRegType.Generate` returns is declared with
`call.StackVarSize` bytes; the method writes neither `call.ArgMap` nor the maps. -/
theorem PtrToStackRegType.Generate_buffer {call call1 : BpfCall} {arg : Int} {e e1 : Env}
    {r : Option BpfArg} (h : PtrToStackRegType.Generate call arg e = .ok ((r, call1), e1)) :
    call1.ArgMap = call.ArgMap ∧ e1.s.Maps = e.s.Maps ∧
      ∃ a, r = some a ∧ a.Prepare
        = "\tchar " ++ a.Name ++ "[" ++ toString call1.StackVarSize ++ "] = \x7b\x7d;\n" := by
  unfold PtrToStackRegType.Generate at h
  have hh := Gen.bind_ok h; clear h; obtain ⟨a, ea, ha, h⟩ := hh
  obtain ⟨-, rfl⟩ := Gen.lift_ok ha
  have hh := Gen.bind_ok h; clear h; obtain ⟨v0, eb, hv0, h⟩ := hh
  have hs := Gen.Intn_ok hv0
  have hh := Gen.bind_ok h; clear h; obtain ⟨vs, ec, hvs, h⟩ := hh
  have hsc : ec.s = eb.s := by
    cases hm : call.ArgMap with
    | none =>
      rw [hm] at hvs
      obtain ⟨-, rfl⟩ := Gen.pure_ok hvs
      rfl
    | some am =>
      rw [hm] at hvs
      dsimp only at hvs
      have hh := Gen.bind_ok hvs; clear hvs; obtain ⟨bm, e3, hbm, h2⟩ := hh
      obtain ⟨he3, -⟩ := derefMap_ok hbm
      have hh := Gen.bind_ok h2; clear h2; obtain ⟨argType, e4, hat, h2⟩ := hh
      obtain ⟨-, he4⟩ := Gen.index_ok hat
      have hh := Gen.bind_ok h2; clear h2; obtain ⟨v1, e5, hv1, h2⟩ := hh
      have h5 : e5 = e4 := by
        cases hk : bm.Key with
        | none =>
          rw [hk] at hv1
          exact (Gen.pure_ok hv1).2
        | some k =>
          rw [hk] at hv1
          dsimp only at hv1
          split at hv1
          · exact (Gen.lift_ok hv1).2
          · exact (Gen.pure_ok hv1).2
      have h6 : ec = e5 := by
        cases hv : bm.Val with
        | none =>
          rw [hv] at h2
          exact (Gen.pure_ok h2).2
        | some v =>
          rw [hv] at h2
          dsimp only at h2
          split at h2
          · exact (Gen.lift_ok h2).2
          · exact (Gen.pure_ok h2).2
      rw [h6, h5, he4, he3]
  have hh := Gen.bind_ok h; clear h; obtain ⟨s, ed, hgs, h⟩ := hh
  have hh := Gen.bind_ok h; clear h; obtain ⟨u, ee, hbump, h⟩ := hh
  obtain ⟨hp, rfl⟩ := Gen.pure_ok h
  have hed : ed = ec := by
    cases hgs
    rfl
  have hee : e1.s.Maps = ed.s.Maps := by
    unfold bumpVarId at hbump
    rw [Gen.modifyS_ok hbump]
  cases hp
  refine ⟨rfl, ?_, _, rfl, rfl⟩
  rw [hee, hed, hsc, hs]

/-- The access size that `pktAccessSize` gives: it keeps the packet flags of the argument,
and it leaves `call.StackVarSize` or sets it, with the access size, to a number below 128. -/
theorem pktAccessSize_size {call call1 : BpfCall} {arg : Int} {a a1 : BpfArg} {e e1 : Env}
    (h : pktAccessSize call arg a e = .ok ((a1, call1), e1)) :
    a1.IsPktAccess = a.IsPktAccess ∧ a1.IsPktMetaAccess = a.IsPktMetaAccess ∧
      (call1.StackVarSize = call.StackVarSize ∨
        (a1.AccessSize = call1.StackVarSize ∧ 0 ≤ call1.StackVarSize ∧
          call1.StackVarSize < 128)) := by
  unfold pktAccessSize at h
  have hh := Gen.bind_ok h; clear h; obtain ⟨argType, ea, -, h⟩ := hh
  have hh := Gen.bind_ok h; clear h; obtain ⟨am, eb, -, h⟩ := hh
  have hh := Gen.bind_ok h; clear h; obtain ⟨x1, ec, h1, h⟩ := hh
  have hh := Gen.bind_ok h; clear h; obtain ⟨x2, ed, h2, h⟩ := hh
  have hh := Gen.bind_ok h; clear h; obtain ⟨⟨x3, c3⟩, ee, h3, h⟩ := hh
  have f1 : x1.IsPktAccess = a.IsPktAccess ∧ x1.IsPktMetaAccess = a.IsPktMetaAccess := by
    cases am with
    | none => obtain ⟨rfl, -⟩ := Gen.pure_ok h1; exact ⟨rfl, rfl⟩
    | some bm =>
      dsimp only at h1
      cases hk : bm.Key with
      | none => rw [hk] at h1; obtain ⟨rfl, -⟩ := Gen.pure_ok h1; exact ⟨rfl, rfl⟩
      | some k =>
        rw [hk] at h1
        dsimp only at h1
        split at h1
        · have hh := Gen.bind_ok h1; clear h1; obtain ⟨v, eg, -, h1⟩ := hh
          obtain ⟨rfl, -⟩ := Gen.pure_ok h1
          exact ⟨rfl, rfl⟩
        · obtain ⟨rfl, -⟩ := Gen.pure_ok h1; exact ⟨rfl, rfl⟩
  have f2 : x2.IsPktAccess = x1.IsPktAccess ∧ x2.IsPktMetaAccess = x1.IsPktMetaAccess := by
    cases am with
    | none => obtain ⟨rfl, -⟩ := Gen.pure_ok h2; exact ⟨rfl, rfl⟩
    | some bm =>
      dsimp only at h2
      cases hv : bm.Val with
      | none => rw [hv] at h2; obtain ⟨rfl, -⟩ := Gen.pure_ok h2; exact ⟨rfl, rfl⟩
      | some v =>
        rw [hv] at h2
        dsimp only at h2
        split at h2
        · have hh := Gen.bind_ok h2; clear h2; obtain ⟨sz, eg, -, h2⟩ := hh
          obtain ⟨rfl, -⟩ := Gen.pure_ok h2
          exact ⟨rfl, rfl⟩
        · obtain ⟨rfl, -⟩ := Gen.pure_ok h2; exact ⟨rfl, rfl⟩
  obtain ⟨hp, -⟩ := Gen.pure_ok h
  by_cases hmem : argType = "ARG_PTR_TO_MEM" ∨ argType = "ARG_PTR_TO_MEM_OR_NULL" ∨
      argType = "ARG_PTR_TO_UNINIT_MEM"
  · rw [if_pos hmem] at h3
    have hh := Gen.bind_ok h3; clear h3; obtain ⟨size, eg, hsz, h3⟩ := hh
    obtain ⟨hr0, hr1⟩ := Gen.Intn_range hsz
    obtain ⟨h3p, -⟩ := Gen.pure_ok h3
    cases h3p
    have hni : argType ≠ "ARG_PTR_TO_INT" := by
      rcases hmem with rfl | rfl | rfl <;> decide
    have hnl : argType ≠ "ARG_PTR_TO_LONG" := by
      rcases hmem with rfl | rfl | rfl <;> decide
    dsimp only at hp
    rw [if_neg hni, if_neg hnl] at hp
    cases hp
    exact ⟨f2.1.trans f1.1, f2.2.trans f1.2, Or.inr ⟨rfl, hr0, hr1⟩⟩
  · rw [if_neg hmem] at h3
    obtain ⟨h3p, -⟩ := Gen.pure_ok h3
    cases h3p
    cases hp
    refine ⟨?_, ?_, Or.inl rfl⟩
    · split <;> split <;> exact f2.1.trans f1.1
    · split <;> split <;> exact f2.2.trans f1.2

/-- One pass of the context route: it returns no argument and the call unchanged in
`StackVarSize`, or an argument with the size as `sizeSource` tells. -/
theorem ctxAccessOnce_size (n : Int) (ts : List RegType) (call : BpfCall)
    (hk : call.StackVarSize = n) (arg : Int) :
    Post (fun r e1 => sizeSource n r.1 r.2 e1) (ctxAccessOnce ts call arg) := by
  constructor
  intro e r e1 h
  unfold ctxAccessOnce at h
  have hh := Gen.bind_ok h; clear h; obtain ⟨a, ea, -, h⟩ := hh
  have hh := Gen.bind_ok h; clear h; obtain ⟨k, eb, -, h⟩ := hh
  have hh := Gen.bind_ok h; clear h; obtain ⟨rt0, ec, -, h⟩ := hh
  have hh := Gen.bind_ok h; clear h; obtain ⟨s, ed, -, h⟩ := hh
  dsimp only at h
  cases hca : s.pt.ctxAccess with
  | none =>
    rw [hca] at h
    cases h
  | some ca =>
  rw [hca] at h
  dsimp only at h
  cases hlr : lookupRanges ca rt0.String with
  | none =>
    rw [hlr] at h
    obtain ⟨rfl, -⟩ := Gen.pure_ok h
    exact Or.inl hk
  | some ranges =>
  rw [hlr] at h
  dsimp only at h
  have hh := Gen.bind_ok h; clear h; obtain ⟨allowed, ee, -, h⟩ := hh
  by_cases hal : (!allowed) = true
  · rw [if_pos hal] at h
    obtain ⟨rfl, -⟩ := Gen.pure_ok h
    exact Or.inl hk
  rw [if_neg hal] at h
  have hh := Gen.bind_ok h; clear h; obtain ⟨r0, ef, -, h⟩ := hh
  have hh := Gen.bind_ok h; clear h; obtain ⟨field, eg, -, h⟩ := hh
  have hh := Gen.bind_ok h; clear h; obtain ⟨name, eh, -, h⟩ := hh
  have hh := Gen.bind_ok h; clear h; obtain ⟨⟨a2, c1⟩, ei, h2, h⟩ := hh
  have hh := Gen.bind_ok h; clear h; obtain ⟨⟨a3, c2⟩, ej, h3, h⟩ := hh
  obtain ⟨hp, -⟩ := Gen.pure_ok h
  cases hp
  show sizeSource n (some a3) c2 e1
  by_cases hmeta : rt0.String = "PTR_TO_PACKET_META"
  · rw [if_pos hmeta] at h2
    have hh := Gen.bind_ok h2; clear h2; obtain ⟨u, ek, -, h2⟩ := hh
    obtain ⟨-, fm, fs⟩ := pktAccessSize_size h2
    have hnp : ¬ rt0.String = "PTR_TO_PACKET" := by rw [hmeta]; decide
    rw [if_neg hnp] at h3
    obtain ⟨hq, -⟩ := Gen.pure_ok h3
    cases hq
    rcases fs with fs | ⟨f1, f2, f3⟩
    · exact Or.inl (fs.trans hk)
    · exact Or.inr (Or.inr ⟨_, rfl, Or.inr fm, f1, f2, f3⟩)
  · rw [if_neg hmeta] at h2
    obtain ⟨hq, -⟩ := Gen.pure_ok h2
    cases hq
    by_cases hpkt : rt0.String = "PTR_TO_PACKET"
    · rw [if_pos hpkt] at h3
      have hh := Gen.bind_ok h3; clear h3; obtain ⟨u, ek, -, h3⟩ := hh
      obtain ⟨fp, -, fs⟩ := pktAccessSize_size h3
      rcases fs with fs | ⟨f1, f2, f3⟩
      · exact Or.inl (fs.trans hk)
      · exact Or.inr (Or.inr ⟨_, rfl, Or.inl fp, f1, f2, f3⟩)
    · rw [if_neg hpkt] at h3
      obtain ⟨hq, -⟩ := Gen.pure_ok h3
      cases hq
      exact Or.inl hk

theorem ctxAccessLoop_size (n : Int) (ts : List RegType) (arg : Int) (left : Nat)
    (call : BpfCall) (hk : call.StackVarSize = n) :
    Post (fun r e1 => sizeSource n r.1 r.2 e1) (ctxAccessLoop ts arg left call) := by
  induction left generalizing call with
  | zero =>
    unfold ctxAccessLoop
    exact post_pure (fun _ => Or.inl hk)
  | succ k ih =>
    constructor
    intro e r e1 h
    unfold ctxAccessLoop at h
    have hh := Gen.bind_ok h; clear h; obtain ⟨⟨a, c1⟩, ea, h1, h⟩ := hh
    have hs := (ctxAccessOnce_size n ts call hk arg).run _ _ _ h1
    cases a with
    | some a1 =>
      obtain ⟨rfl, rfl⟩ := Gen.pure_ok h
      exact hs
    | none => exact (ih c1 (sizeSource_none hs)).run _ _ _ h

/-- The context route of the argument resolver writes `call.StackVarSize` only with the
access size of a packet pointer that it returns. -/
theorem genRandBpfCtxAccess_size (n : Int) (call : BpfCall) (hk : call.StackVarSize = n)
    (arg : Int) : Post (fun r e1 => sizeSource n r.1 r.2 e1) (genRandBpfCtxAccess call arg) := by
  unfold genRandBpfCtxAccess
  apply post_bind_any
  intro p
  split
  exact ctxAccessLoop_size n _ _ _ _ hk

theorem RegType.Generate_size_kept (n : Int) (t : RegType) (mapFuel : Nat) (call : BpfCall)
    (hk : call.StackVarSize = n) (arg : Int) :
    Post (fun r e1 => sizeSource n r.1 r.2 e1) (t.Generate mapFuel call arg) := by
  constructor
  intro e r e1 h
  unfold RegType.Generate at h
  split at h
  · exact Or.inl ((size_kept_Scalar n call hk arg).run _ _ _ h)
  · exact Or.inl ((size_kept_PtrToCtx n call hk arg).run _ _ _ h)
  · exact Or.inl ((size_kept_ConstPtrToMap n call hk mapFuel arg).run _ _ _ h)
  · obtain ⟨ro, c1⟩ := r
    obtain ⟨ham, hmaps, a, hr, hprep⟩ := PtrToStackRegType.Generate_buffer h
    refine Or.inr (Or.inl ⟨a, hr, hprep, ?_⟩)
    rcases PtrToStackRegType.Generate_size h with hlt | ⟨m, bm, k, hm, hget, hkey, hru⟩ |
      ⟨m, bm, v, hm, hget, hval, hru⟩
    · exact Or.inl hlt
    · exact Or.inr ⟨m, bm, k, ham.trans hm, by rw [hmaps]; exact hget, Or.inl hkey, hru⟩
    · exact Or.inr ⟨m, bm, v, ham.trans hm, by rw [hmaps]; exact hget, Or.inr hval, hru⟩
  · exact Or.inl ((size_kept_Percpu n call hk arg).run _ _ _ h)
  · obtain ⟨rfl, -⟩ := Gen.pure_ok h
    exact Or.inl hk

theorem directAccessLoop_size (n : Int) (mapFuel : Nat) (ts : List RegType) (arg : Int)
    (left : Nat) (call : BpfCall) (hk : call.StackVarSize = n) :
    Post (fun r e1 => sizeSource n r.1 r.2 e1) (directAccessLoop mapFuel ts arg left call) := by
  induction left generalizing call with
  | zero =>
    unfold directAccessLoop
    exact post_pure (fun _ => Or.inl hk)
  | succ k ih =>
    constructor
    intro e r e1 h
    unfold directAccessLoop at h
    have hh := Gen.bind_ok h; clear h; obtain ⟨i, ea, -, h⟩ := hh
    have hh := Gen.bind_ok h; clear h; obtain ⟨rt, eb, -, h⟩ := hh
    have hh := Gen.bind_ok h; clear h; obtain ⟨⟨a, c1⟩, ec, h1, h⟩ := hh
    have hs := (RegType.Generate_size_kept n rt mapFuel call hk arg).run _ _ _ h1
    cases a with
    | some a1 =>
      obtain ⟨rfl, rfl⟩ := Gen.pure_ok h
      exact hs
    | none => exact (ih c1 (sizeSource_none hs)).run _ _ _ h

/-- The direct route of the argument resolver writes `call.StackVarSize` only with the size
of a stack buffer that it returns. -/
theorem genRandDirectAccess_size (n : Int) (mapFuel : Nat) (call : BpfCall)
    (hk : call.StackVarSize = n) (arg : Int) :
    Post (fun r e1 => sizeSource n r.1 r.2 e1) (genRandDirectAccess mapFuel call arg) := by
  unfold genRandDirectAccess
  apply post_bind_any
  intro p
  split
  exact directAccessLoop_size n _ _ _ _ _ hk

/-- C35 (as amended): when `genBpfHelperCallArg` succeeds on a slot, the slot holds an
argument. If the slot is tagged `ARG_CONST_SIZE` or `ARG_CONST_SIZE_OR_ZERO`, the `Umax` of
that argument equals `call.StackVarSize` as it stands after the slot was resolved. For every
slot that value is the one the call had before the slot was resolved, unless the stored
argument is a stack buffer declared with that many bytes (a number below 64, or the size of
the key or value struct of the bound map rounded up to 8), or a packet pointer with that
access size (a number below 128). -/
theorem genBpfHelperCallArg_size_source (mapFuel : Nat) (self : CallGen)
    (call call1 : BpfCall) (arg : Int) (e e1 : Env)
    (h : genBpfHelperCallArg mapFuel self call arg e = .ok ((true, call1), e1)) :
    ∃ t a, call.Helper.Args[arg.toNat]? = some t ∧ call1.Args[arg.toNat]? = some (some a) ∧
      (t = "ARG_CONST_SIZE" ∨ t = "ARG_CONST_SIZE_OR_ZERO" → a.Umax = call1.StackVarSize) ∧
      sizeSource call.StackVarSize (some a) call1 e1 := by
  unfold genBpfHelperCallArg at h
  have hh := Gen.bind_ok h; clear h; obtain ⟨argType, ea, hat, h⟩ := hh
  obtain ⟨-, hget, -⟩ := Gen.index_get hat
  have hh := Gen.bind_ok h; clear h; obtain ⟨⟨r1, c1⟩, eb, h1, h⟩ := hh
  dsimp only at h
  have hh := Gen.bind_ok h; clear h; obtain ⟨⟨r2, c2⟩, ec, h2, h⟩ := hh
  dsimp only at h
  have hh := Gen.bind_ok h; clear h; obtain ⟨⟨r3, c3⟩, ed, h3, h⟩ := hh
  dsimp only at h
  have hh := Gen.bind_ok h; clear h; obtain ⟨⟨r4, c4⟩, ee, h4, h⟩ := hh
  dsimp only at h
  have s1 : c1.StackVarSize = call.StackVarSize := by
    split at h1
    · have hh := Gen.bind_ok h1; clear h1; obtain ⟨a, ef, -, h1⟩ := hh
      obtain ⟨hp, -⟩ := Gen.pure_ok h1
      cases hp
      rfl
    · obtain ⟨hp, -⟩ := Gen.pure_ok h1
      cases hp
      rfl
  have s2 : c2.StackVarSize = call.StackVarSize := by
    cases r1 with
    | some a =>
      obtain ⟨hp, -⟩ := Gen.pure_ok h2
      cases hp
      exact s1
    | none =>
      dsimp only at h2
      have hh := Gen.bind_ok h2; clear h2; obtain ⟨via, ef, -, h2⟩ := hh
      split at h2
      · exact (size_kept_genRandBpfHelperCall _ c1 s1 self arg).run _ _ _ h2
      · obtain ⟨hp, -⟩ := Gen.pure_ok h2
        cases hp
        exact s1
  have s3 : sizeSource call.StackVarSize r3 c3 ed := by
    cases r2 with
    | some a =>
      obtain ⟨hp, -⟩ := Gen.pure_ok h3
      cases hp
      exact Or.inl s2
    | none =>
      dsimp only at h3
      have hh := Gen.bind_ok h3; clear h3; obtain ⟨via, ef, -, h3⟩ := hh
      split at h3
      · exact (genRandBpfCtxAccess_size _ c2 s2 arg).run _ _ _ h3
      · obtain ⟨hp, -⟩ := Gen.pure_ok h3
        cases hp
        exact Or.inl s2
  have s4 : sizeSource call.StackVarSize r4 c4 ee := by
    cases r3 with
    | some a =>
      obtain ⟨hp, he⟩ := Gen.pure_ok h4
      cases hp
      rw [he]
      exact s3
    | none =>
      dsimp only at h4
      exact (genRandDirectAccess_size _ mapFuel c3 (sizeSource_none s3) arg).run _ _ _ h4
  cases r4 with
  | none =>
    dsimp only at h
    have := (Gen.pure_ok h).1
    cases this
  | some a =>
    dsimp only at h
    have fin : ∀ a1 : BpfArg, a1.Prepare = a.Prepare → a1.Name = a.Name →
        a1.IsPktAccess = a.IsPktAccess → a1.IsPktMetaAccess = a.IsPktMetaAccess →
        a1.AccessSize = a.AccessSize →
        (argType = "ARG_CONST_SIZE" ∨ argType = "ARG_CONST_SIZE_OR_ZERO" →
          a1.Umax = c4.StackVarSize) →
        (if c4.isRefReleaseCall ≠ -1 ∧ arg ≠ 0 ∧ a1.IsNotNull = false ∧ a1.CanBeNull = false
          then pure (false, c4) else storeArg c4 arg a1) ee = .ok ((true, call1), e1) →
        ∃ t a, call.Helper.Args[arg.toNat]? = some t ∧
          call1.Args[arg.toNat]? = some (some a) ∧
          (t = "ARG_CONST_SIZE" ∨ t = "ARG_CONST_SIZE_OR_ZERO" →
            a.Umax = call1.StackVarSize) ∧
          sizeSource call.StackVarSize (some a) call1 e1 := by
      intro a1 p1 p2 p3 p4 p5 p6 hfin
      split at hfin
      · have := (Gen.pure_ok hfin).1
        cases this
      · obtain ⟨-, h0, hlt, rfl, rfl⟩ := storeArg_ok hfin
        refine ⟨argType, a1, hget, ?_, p6, ?_⟩
        · dsimp only
          rw [List.getElem?_set_self]
          omega
        · rcases s4 with hs | ⟨a0, ha0, hprep, hrange⟩ | ⟨a0, ha0, hflag, hacc, hr0, hr1⟩
          · exact Or.inl hs
          · cases ha0
            exact Or.inr (Or.inl ⟨a1, rfl, by rw [p1, p2]; exact hprep, hrange⟩)
          · cases ha0
            exact Or.inr (Or.inr ⟨a1, rfl, by rw [p3, p4]; exact hflag,
              by rw [p5]; exact hacc, hr0, hr1⟩)
    by_cases ht : argType = "ARG_CONST_SIZE" ∨ argType = "ARG_CONST_SIZE_OR_ZERO"
    · rw [if_pos ht] at h
      exact fin { a with Umax := c4.StackVarSize } rfl rfl rfl rfl rfl (fun _ => rfl) h
    · rw [if_neg ht] at h
      exact fin a rfl rfl rfl rfl rfl (fun hh => absurd hh ht) h

/-- C35 (example): the size slot of `sk_lookup_tcp` after a 16-byte stack buffer: the stored
argument has `Umax = 16`, the size of the buffer, which resolving the size slot left as it
was. -/
theorem genBpfHelperCallArg_size_source_witness :
    ∃ (call1 : BpfCall) (e1 : Env),
      genBpfHelperCallArg 1 (genBpfHelperCall 1 1) callSized 2 c35Env = .ok ((true, call1), e1) ∧
      call1.StackVarSize = 16 ∧
      ∃ t a, callSized.Helper.Args[(2 : Int).toNat]? = some t ∧
        call1.Args[(2 : Int).toNat]? = some (some a) ∧
        (t = "ARG_CONST_SIZE" ∨ t = "ARG_CONST_SIZE_OR_ZERO" → a.Umax = call1.StackVarSize) ∧
        sizeSource callSized.StackVarSize (some a) call1 e1 := by
  have h : (genBpfHelperCallArg 1 (genBpfHelperCall 1 1) callSized 2 c35Env).toOption.map
      (fun r => (r.1.1, r.1.2.StackVarSize)) = some (true, 16) := by decide!
  obtain ⟨⟨⟨b, call1⟩, e1⟩, hrun, hp⟩ := Outcome.ok_of_toOption_map h
  have hb : b = true := congrArg Prod.fst hp
  have hs : call1.StackVarSize = 16 := congrArg Prod.snd hp
  subst hb
  exact ⟨call1, e1, hrun, hs,
    genBpfHelperCallArg_size_source 1 (genBpfHelperCall 1 1) callSized call1 2 c35Env e1 hrun⟩

/-- C35 (counterexample): for `csum_diff` over a program type with packet access, slot 0 is
resolved through the context to `PTR_TO_PACKET` with an access of 100 bytes, which is written
to `call.StackVarSize`; no map is bound and no argument is a stack buffer. The size slot 1
is then resolved to a scalar whose `Umax` is 100: not a size that
`PtrToStackRegType.Generate` set, and not below 64. -/
theorem size_bound_from_packet_access :
    ((genBpfHelperCallArg 1 (genBpfHelperCall 1 1) (NewBpfCall hCsumDiff (newBpfCallGenHint none))
        0 >>= fun p => genBpfHelperCallArg 1 (genBpfHelperCall 1 1) p.2 1) c35PktEnv).toOption.map
      (fun r => (r.1.1, r.1.2.StackVarSize, r.1.2.ArgMap)) = some (true, 100, none) ∧
    ((genBpfHelperCallArg 1 (genBpfHelperCall 1 1) (NewBpfCall hCsumDiff (newBpfCallGenHint none))
        0 >>= fun p => genBpfHelperCallArg 1 (genBpfHelperCall 1 1) p.2 1) c35PktEnv).toOption.map
      (fun r => r.1.2.Args.map (fun o => o.map (fun a => (a.ArgType, a.Name, a.Prepare))))
      = some [some ("ARG_PTR_TO_MEM_OR_NULL", "v8", ""),
          some ("ARG_CONST_SIZE_OR_ZERO", "v10", "\tint64_t v10 = 100;\n"), none, none, none] ∧
    ((genBpfHelperCallArg 1 (genBpfHelperCall 1 1) (NewBpfCall hCsumDiff (newBpfCallGenHint none))
        0 >>= fun p => genBpfHelperCallArg 1 (genBpfHelperCall 1 1) p.2 1) c35PktEnv).toOption.map
      (fun r => r.1.2.Args.map (fun o => o.map (fun a => (a.IsPktAccess, a.AccessSize, a.Umax))))
      = some [some (true, 100, -1), some (false, 0, 100), none, none, none] := by
  decide!

/-! ## The scan of `FixRef`: what it keeps true of the table -/

theorem lookup_append_some {k : String} {v : Nat} (l m : List (String × Nat))
    (h : l.lookup k = some v) : (l ++ m).lookup k = some v := by
  induction l with
  | nil => cases h
  | cons p rest ih =>
    obtain ⟨k1, i1⟩ := p
    by_cases hk : k = k1
    · subst hk
      rw [lookup_cons_eq] at h
      rw [List.cons_append, lookup_cons_eq]
      exact h
    · rw [lookup_cons_ne hk] at h
      rw [List.cons_append, lookup_cons_ne hk]
      exact ih h

theorem lookup_append_none {k : String} (l m : List (String × Nat))
    (h : l.lookup k = none) : (l ++ m).lookup k = m.lookup k := by
  induction l with
  | nil => rfl
  | cons p rest ih =>
    obtain ⟨k1, i1⟩ := p
    by_cases hk : k = k1
    · subst hk
      rw [lookup_cons_eq] at h
      cases h
    · rw [lookup_cons_ne hk] at h
      rw [List.cons_append, lookup_cons_ne hk]
      exact ih h

theorem lookup_mem {k : String} {v : Nat} {l : List (String × Nat)}
    (h : l.lookup k = some v) : (k, v) ∈ l := by
  induction l with
  | nil => cases h
  | cons p rest ih =>
    obtain ⟨k1, i1⟩ := p
    by_cases hk : k = k1
    · subst hk
      rw [lookup_cons_eq] at h
      cases h
      exact List.mem_cons_self _ _
    · rw [lookup_cons_ne hk] at h
      exact List.mem_cons_of_mem _ (ih h)

theorem setKey_mem {k : String} {idx : Nat} {l : List (String × Nat)} {p : String × Nat}
    (h : p ∈ setKey k idx l) : p = (k, idx) ∨ p ∈ l := by
  induction l with
  | nil =>
    unfold setKey at h
    exact Or.inl (List.mem_singleton.mp h)
  | cons q rest ih =>
    obtain ⟨k1, i1⟩ := q
    unfold setKey at h
    by_cases hk : k1 = k
    · rw [if_pos hk] at h
      rcases List.mem_cons.mp h with h | h
      · exact Or.inl h
      · exact Or.inr (List.mem_cons_of_mem _ h)
    · rw [if_neg hk] at h
      rcases List.mem_cons.mp h with h | h
      · exact Or.inr (by rw [h]; exact List.mem_cons_self _ _)
      · rcases ih h with h | h
        · exact Or.inl h
        · exact Or.inr (List.mem_cons_of_mem _ h)

theorem aliasStep_mono (vars : List String) (c : BpfCall) {v : String} (h : v ∈ vars) :
    v ∈ aliasStep vars c := by
  unfold aliasStep
  split
  · split
    · exact List.mem_append_left _ h
    · exact h
  · exact h

theorem aliasVars_snoc (vars : List String) (cs : List BpfCall) (c : BpfCall) :
    aliasVars vars (cs ++ [c]) = aliasStep (aliasVars vars cs) c := by
  unfold aliasVars
  rw [List.foldl_append]
  rfl

theorem aliasVars_base (vars : List String) (cs : List BpfCall) {v : String} (h : v ∈ vars) :
    v ∈ aliasVars vars cs := by
  induction cs using List.reverseRecOn with
  | nil => exact h
  | append_singleton xs c ih =>
    rw [aliasVars_snoc]
    exact aliasStep_mono _ _ ih

theorem ScanInv.mono {i : Nat} {acq : BpfCall} {typ : Int} {n n1 : Nat}
    {al al1 : List BpfCall} {t : RefTable} (h : ScanInv i acq typ n al t) (hn : n ≤ n1)
    (hal : ∀ v, v ∈ aliasVars [acq.Ret] al → v ∈ aliasVars [acq.Ret] al1) :
    ScanInv i acq typ n1 al1 t := by
  obtain ⟨s1, s2, s3, s4⟩ := h
  refine ⟨?_, s2, s3, ?_⟩
  · intro j r hr
    obtain ⟨hv, k, hk, hlt⟩ := s1 j r hr
    exact ⟨hv, k, hk, by omega⟩
  · intro idx r hr hh
    obtain ⟨a, b, c⟩ := s4 idx r hr hh
    exact ⟨a, fun v hv => hal v (b v hv), c⟩

/-- The table keeps the invariant when the count of an object is written. -/
theorem ScanInv.update {i : Nat} {acq : BpfCall} {typ : Int} {n : Nat} {al : List BpfCall}
    {t : RefTable} (h : ScanInv i acq typ n al t) (idx : Nat) (f : ObjRef → ObjRef)
    (hf : ∀ r, (f r).vars = r.vars ∧ (f r).calls = r.calls ∧ (f r).typ = r.typ) :
    ScanInv i acq typ n al (t.update idx f) := by
  unfold RefTable.update
  cases hx : t.refs[idx]? with
  | none => exact h
  | some r0 =>
    dsimp only
    obtain ⟨s1, s2, s3, s4⟩ := h
    have hlen : idx < t.refs.length := (List.getElem?_eq_some_iff.mp hx).1
    have hget : ∀ (j : Nat) (r : ObjRef), (t.refs.set idx (f r0))[j]? = some r →
        ∃ r1 : ObjRef, t.refs[j]? = some r1 ∧ r.vars = r1.vars ∧ r.calls = r1.calls ∧
          r.typ = r1.typ := by
      intro j r hr
      by_cases hj : idx = j
      · subst hj
        rw [List.getElem?_set_self hlen] at hr
        cases hr
        exact ⟨r0, hx, (hf r0).1, (hf r0).2.1, (hf r0).2.2⟩
      · rw [List.getElem?_set_ne hj] at hr
        exact ⟨r, hr, rfl, rfl, rfl⟩
    refine ⟨?_, ?_, ?_, ?_⟩
    · intro j r hr
      obtain ⟨r1, h1, hv, hc, -⟩ := hget j r hr
      rw [hv, hc]
      exact s1 j r1 h1
    · intro j1 j2 r1 r2 h1 h2 hh
      obtain ⟨q1, g1, -, c1, -⟩ := hget j1 r1 h1
      obtain ⟨q2, g2, -, c2, -⟩ := hget j2 r2 h2
      rw [c1, c2] at hh
      exact s2 j1 j2 q1 q2 g1 g2 hh
    · intro p hp
      show p.2 < (t.refs.set idx (f r0)).length
      rw [List.length_set]
      exact s3 p hp
    · intro j r hr hh
      obtain ⟨r1, h1, hv, hc, hty⟩ := hget j r hr
      rw [hc] at hh
      rw [hv, hty]
      exact s4 j r1 h1 hh

/-- The table keeps the invariant when an object is made for a variable that has no key. At
the index of the acquire call the object is made with its type and for its result. -/
theorem ScanInv.create {i : Nat} {acq : BpfCall} {typ : Int} {n : Nat} {al : List BpfCall}
    {t : RefTable} (h : ScanInv i acq typ n al t) (v : String) (om : Option MapRef)
    (ty : Int) (hnone : t.keys.lookup v = none) (hi : n = i → ty = typ ∧ v = acq.Ret) :
    ScanInv i acq typ (n + 1) al
      { refs := t.refs ++ [{ vars := [v], objMap := om, typ := ty, count := 0, calls := [n] }],
        keys := t.keys ++ [(v, t.refs.length)] } := by
  obtain ⟨s1, s2, s3, s4⟩ := h
  have hget : ∀ (j : Nat) (r : ObjRef),
      (t.refs ++ [ObjRef.mk [v] om ty 0 [n]])[j]? = some r →
      (j < t.refs.length ∧ t.refs[j]? = some r) ∨
        (j = t.refs.length ∧ r = ObjRef.mk [v] om ty 0 [n]) := by
    intro j r hr
    by_cases hj : j < t.refs.length
    · rw [List.getElem?_append_left hj] at hr
      exact Or.inl ⟨hj, hr⟩
    · rw [List.getElem?_append_right (by omega)] at hr
      have hz : j - t.refs.length = 0 := by
        by_contra hne
        obtain ⟨m, hm⟩ : ∃ m, j - t.refs.length = m + 1 := ⟨j - t.refs.length - 1, by omega⟩
        rw [hm] at hr
        simp at hr
      rw [hz] at hr
      simp only [List.getElem?_cons_zero, Option.some.injEq] at hr
      exact Or.inr ⟨by omega, hr.symm⟩
  refine ⟨?_, ?_, ?_, ?_⟩
  · intro j r hr
    rcases hget j r hr with ⟨-, h1⟩ | ⟨-, rfl⟩
    · obtain ⟨hv, k, hk, hlt⟩ := s1 j r h1
      exact ⟨hv, k, hk, by omega⟩
    · exact ⟨List.cons_ne_nil _ _, n, rfl, by omega⟩
  · intro j1 j2 r1 r2 h1 h2 hh
    rcases hget j1 r1 h1 with ⟨l1, g1⟩ | ⟨l1, rfl⟩ <;>
      rcases hget j2 r2 h2 with ⟨l2, g2⟩ | ⟨l2, rfl⟩
    · exact s2 j1 j2 r1 r2 g1 g2 hh
    · obtain ⟨-, k, hk, hlt⟩ := s1 j1 r1 g1
      rw [hk] at hh
      simp only [List.head?_cons, Option.some.injEq] at hh
      omega
    · obtain ⟨-, k, hk, hlt⟩ := s1 j2 r2 g2
      rw [hk] at hh
      simp only [List.head?_cons, Option.some.injEq] at hh
      omega
    · omega
  · intro p hp
    show p.2 < (t.refs ++ [ObjRef.mk [v] om ty 0 [n]]).length
    rw [List.length_append, List.length_singleton]
    rcases List.mem_append.mp hp with hp | hp
    · have := s3 p hp
      omega
    · rw [List.mem_singleton.mp hp]
      show t.refs.length < _
      omega
  · intro idx r hr hh
    have hkeys : ∀ k, (t.keys ++ [(v, t.refs.length)]).lookup k = some idx →
        t.keys.lookup k = some idx ∨ (k = v ∧ idx = t.refs.length) := by
      intro k hk
      cases hl : t.keys.lookup k with
      | some x =>
        rw [lookup_append_some _ _ hl] at hk
        exact Or.inl hk
      | none =>
        rw [lookup_append_none _ _ hl] at hk
        by_cases hkv : k = v
        · subst hkv
          rw [lookup_cons_eq] at hk
          cases hk
          exact Or.inr ⟨rfl, rfl⟩
        · rw [lookup_cons_ne hkv] at hk
          cases hk
    rcases hget idx r hr with ⟨hlt, h1⟩ | ⟨heq, rfl⟩
    · obtain ⟨a, b, c⟩ := s4 idx r h1 hh
      refine ⟨a, b, fun k hk => ?_⟩
      rcases hkeys k hk with hk | ⟨-, hk⟩
      · exact c k hk
      · omega
    · simp only [List.head?_cons, Option.some.injEq] at hh
      obtain ⟨hty, hv⟩ := hi hh
      refine ⟨hty, ?_, fun k hk => ?_⟩
      · intro w hw
        rw [List.mem_singleton.mp hw, hv]
        exact aliasVars_base _ _ (List.mem_singleton_self _)
      · rcases hkeys k hk with hk | ⟨hk, -⟩
        · have := s3 _ (lookup_mem hk)
          have h2 : idx < t.refs.length := this
          omega
        · rw [hk]
          exact List.mem_singleton_self _

/-- The table keeps the invariant when a propagate call adds its result to the object that
the key of its argument points to. -/
theorem ScanInv.propagate {i : Nat} {acq : BpfCall} {typ : Int} {n : Nat}
    {al al1 : List BpfCall} {t : RefTable} (h : ScanInv i acq typ n al t) (m : Nat)
    (ret v : String) (idx : Nat) (hl : t.keys.lookup v = some idx)
    (hmono : ∀ w, w ∈ aliasVars [acq.Ret] al → w ∈ aliasVars [acq.Ret] al1)
    (hstep : ∀ r : ObjRef, t.refs[idx]? = some r → r.calls.head? = some i →
      ret ∈ aliasVars [acq.Ret] al1) :
    ScanInv i acq typ n al1
      { t.update idx (fun r => { r with calls := r.calls ++ [m], vars := r.vars ++ [ret] }) with
        keys := setKey ret idx
          (t.update idx
            (fun r => { r with calls := r.calls ++ [m], vars := r.vars ++ [ret] })).keys } := by
  obtain ⟨s1, s2, s3, s4⟩ := h
  have hidx : idx < t.refs.length := s3 _ (lookup_mem hl)
  obtain ⟨r0, hr0⟩ : ∃ r0, t.refs[idx]? = some r0 :=
    ⟨t.refs[idx], List.getElem?_eq_getElem hidx⟩
  have hupd : t.update idx (fun r => { r with calls := r.calls ++ [m], vars := r.vars ++ [ret] })
      = RefTable.mk (t.refs.set idx (ObjRef.mk (r0.vars ++ [ret]) r0.objMap r0.typ r0.count (r0.calls ++ [m]))) t.keys := by
    unfold RefTable.update
    rw [hr0]
  rw [hupd]
  dsimp only
  have hhead : (r0.calls ++ [m]).head? = r0.calls.head? := by
    obtain ⟨-, k, hk, -⟩ := s1 idx r0 hr0
    cases hc : r0.calls with
    | nil => rw [hc] at hk; cases hk
    | cons x xs => rfl
  have hget : ∀ (j : Nat) (r : ObjRef),
      (t.refs.set idx (ObjRef.mk (r0.vars ++ [ret]) r0.objMap r0.typ r0.count (r0.calls ++ [m])))[j]?
        = some r →
      (j ≠ idx ∧ t.refs[j]? = some r) ∨
        (j = idx ∧ r = (ObjRef.mk (r0.vars ++ [ret]) r0.objMap r0.typ r0.count (r0.calls ++ [m]))) := by
    intro j r hr
    by_cases hj : idx = j
    · subst hj
      rw [List.getElem?_set_self hidx] at hr
      cases hr
      exact Or.inr ⟨rfl, rfl⟩
    · rw [List.getElem?_set_ne hj] at hr
      exact Or.inl ⟨fun hh => hj hh.symm, hr⟩
  have hold : ∀ (j : Nat) (r : ObjRef),
      (t.refs.set idx (ObjRef.mk (r0.vars ++ [ret]) r0.objMap r0.typ r0.count (r0.calls ++ [m])))[j]?
        = some r →
      ∃ r1 : ObjRef, t.refs[j]? = some r1 ∧ r.calls.head? = r1.calls.head? ∧ r.typ = r1.typ ∧
        (∀ w, w ∈ r1.vars → w ∈ r.vars) := by
    intro j r hr
    rcases hget j r hr with ⟨-, h1⟩ | ⟨hj, rfl⟩
    · exact ⟨r, h1, rfl, rfl, fun w hw => hw⟩
    · rw [hj]
      exact ⟨r0, hr0, hhead, rfl, fun w hw => List.mem_append_left _ hw⟩
  refine ⟨?_, ?_, ?_, ?_⟩
  · intro j r hr
    obtain ⟨r1, h1, hc, -, hv⟩ := hold j r hr
    obtain ⟨hne, k, hk, hlt⟩ := s1 j r1 h1
    refine ⟨?_, k, by rw [hc]; exact hk, hlt⟩
    obtain ⟨w, ws, hw⟩ := List.exists_cons_of_ne_nil hne
    intro hnil
    have := hv w (by rw [hw]; exact List.mem_cons_self _ _)
    rw [hnil] at this
    cases this
  · intro j1 j2 r1 r2 h1 h2 hh
    obtain ⟨q1, g1, c1, -, -⟩ := hold j1 r1 h1
    obtain ⟨q2, g2, c2, -, -⟩ := hold j2 r2 h2
    rw [c1, c2] at hh
    exact s2 j1 j2 q1 q2 g1 g2 hh
  · intro p hp
    show p.2 < (t.refs.set idx _).length
    rw [List.length_set]
    rcases setKey_mem hp with rfl | hp
    · exact hidx
    · exact s3 p hp
  · intro j r hr hh
    have hkeys : ∀ k, (setKey ret idx t.keys).lookup k = some j →
        (k = ret ∧ j = idx) ∨ (k ≠ ret ∧ t.keys.lookup k = some j) := by
      intro k hk
      rw [lookup_setKey] at hk
      by_cases hkr : k = ret
      · rw [if_pos hkr] at hk
        cases hk
        exact Or.inl ⟨hkr, rfl⟩
      · rw [if_neg hkr] at hk
        exact Or.inr ⟨hkr, hk⟩
    rcases hget j r hr with ⟨hne, h1⟩ | ⟨hj, rfl⟩
    · obtain ⟨a, b, c⟩ := s4 j r h1 hh
      refine ⟨a, fun w hw => hmono w (b w hw), fun k hk => ?_⟩
      rcases hkeys k hk with ⟨-, hk⟩ | ⟨-, hk⟩
      · exact absurd hk hne
      · exact c k hk
    · subst hj
      have hh0 : r0.calls.head? = some i := by
        rw [← hhead]
        exact hh
      obtain ⟨a, b, c⟩ := s4 j r0 hr0 hh0
      refine ⟨a, ?_, fun k hk => ?_⟩
      · intro w hw
        rcases List.mem_append.mp hw with hw | hw
        · exact hmono w (b w hw)
        · rw [List.mem_singleton.mp hw]
          exact hstep r0 hr0 hh0
      · rcases hkeys k hk with ⟨hk, -⟩ | ⟨-, hk⟩
        · rw [hk]
          exact List.mem_append_right _ (List.mem_singleton_self _)
        · exact List.mem_append_left _ (c k hk)

theorem isRefAcquireCall_env {c : BpfCall} {e e1 : Env} {v : Int}
    (h : c.isRefAcquireCall e = .ok (v, e1)) : e1 = e := by
  unfold BpfCall.isRefAcquireCall at h
  have hh := Gen.bind_ok h; clear h; obtain ⟨b, ea, hb, h⟩ := hh
  have hea : ea = e := by
    by_cases h1 : c.Helper.Enum = "BPF_FUNC_sk_lookup_tcp" ∨
        c.Helper.Enum = "BPF_FUNC_sk_lookup_udp" ∨ c.Helper.Enum = "BPF_FUNC_skc_lookup_tcp"
    · rw [if_pos h1] at hb
      exact (Gen.pure_ok hb).2
    · rw [if_neg h1] at hb
      by_cases h2 : c.Helper.Enum = "BPF_FUNC_map_lookup_elem"
      · rw [if_pos h2] at hb
        cases hm : c.ArgMap with
        | none =>
          rw [hm] at hb
          cases hb
        | some m =>
          rw [hm] at hb
          have hh := Gen.bind_ok hb; clear hb; obtain ⟨bm, eb, hd, hb⟩ := hh
          obtain ⟨hd1, -⟩ := derefMap_ok hd
          rw [(Gen.pure_ok hb).2, hd1]
      · rw [if_neg h2] at hb
        exact (Gen.pure_ok hb).2
  split at h
  · rw [(Gen.pure_ok h).2, hea]
  · rw [(Gen.pure_ok h).2, hea]

theorem argName_ok {c : BpfCall} {v : String} (h : c.argName 0 = .ok v) :
    ∃ a rest, c.Args = some a :: rest ∧ a.Name = v := by
  unfold BpfCall.argName at h
  obtain ⟨o, ho, h⟩ := Outcome.bind_returns h
  unfold Outcome.index at ho
  rw [if_neg (by decide)] at ho
  cases hargs : c.Args with
  | nil =>
    rw [hargs] at ho
    cases ho
  | cons x rest =>
    rw [hargs] at ho
    have hx : o = x := by
      have h0 : (x :: rest)[Int.toNat 0]? = some x := by simp
      rw [h0] at ho
      cases ho
      rfl
    subst hx
    cases o with
    | none => cases h
    | some a =>
      cases h
      exact ⟨a, rest, rfl, rfl⟩

theorem aliasVars_grow (vars : List String) (al : List BpfCall) (c : BpfCall) (w : String)
    (h : w ∈ aliasVars vars al) : w ∈ aliasVars vars (al ++ [c]) := by
  rw [aliasVars_snoc]
  exact aliasStep_mono _ _ h

/-- One pass of the first loop of `FixRef` keeps the invariant of the table and leaves the
environment as it is. -/
theorem refScanStep_inv {i : Nat} {acq : BpfCall} {typ : Int} {n : Nat}
    {al al1 : List BpfCall} {t t1 : RefTable} {c : BpfCall} {e e1 : Env}
    (hacq : acq.isRefAcquireCall e = .ok (typ, e)) (htyp : typ ≠ -1)
    (hinv : ScanInv i acq typ n al t) (hc : n = i → c = acq)
    (hle : n ≤ i → al1 = al) (hgt : i < n → al1 = al ++ [c])
    (h : refScanStep n c t e = .ok (t1, e1)) :
    ScanInv i acq typ (n + 1) al1 t1 ∧ e1 = e := by
  have hmono : ∀ w, w ∈ aliasVars [acq.Ret] al → w ∈ aliasVars [acq.Ret] al1 := by
    intro w hw
    by_cases hn : n ≤ i
    · rw [hle hn]; exact hw
    · rw [hgt (by omega)]; exact aliasVars_grow _ _ _ _ hw
  unfold refScanStep at h
  have hh := Gen.bind_ok h; clear h; obtain ⟨acqv, ea, ha, h⟩ := hh
  have hea := isRefAcquireCall_env ha
  subst hea
  have hself : n = i → acqv = typ := by
    intro hn
    rw [hc hn, hacq] at ha
    cases ha
    rfl
  dsimp only at h
  have hh := Gen.bind_ok h; clear h; obtain ⟨t2, eb, h2, h⟩ := hh
  -- the table after the acquire and the release parts
  have hcount : ∀ (d : Int) (r : ObjRef),
      ({ r with count := r.count + d } : ObjRef).vars = r.vars ∧
      ({ r with count := r.count + d } : ObjRef).calls = r.calls ∧
      ({ r with count := r.count + d } : ObjRef).typ = r.typ := fun _ _ => ⟨rfl, rfl, rfl⟩
  have hentry : ∀ (v : String) (ty : Int) (f : ObjRef → ObjRef),
      (∀ r, (f r).vars = r.vars ∧ (f r).calls = r.calls ∧ (f r).typ = r.typ) →
      (n = i → ty = typ ∧ v = acq.Ret) →
      ScanInv i acq typ (n + 1) al ((t.entry v c n ty).1.update (t.entry v c n ty).2 f) := by
    intro v ty f hf hi
    unfold RefTable.entry
    cases hl : t.keys.lookup v with
    | some idx => exact (hinv.mono (Nat.le_succ n) (fun _ hw => hw)).update idx f hf
    | none => exact (hinv.create v c.ArgMap ty hl hi).update _ f hf
  have h2inv : ScanInv i acq typ (n + 1) al t2 ∧ eb = ea := by
    by_cases hav : acqv ≠ -1
    · obtain ⟨hrel, -⟩ := acquire_not_release ha hav
      rw [if_pos hav, if_neg (show ¬ (c.isRefReleaseCall ≠ -1) from fun hh => hh hrel)] at h2
      obtain ⟨rfl, rfl⟩ := Gen.pure_ok h2
      refine ⟨?_, rfl⟩
      exact hentry c.Ret acqv _ (fun r => ⟨rfl, rfl, rfl⟩)
        (fun hn => ⟨hself hn, by rw [hc hn]⟩)
    · rw [if_neg hav] at h2
      by_cases hrv : c.isRefReleaseCall ≠ -1
      · rw [if_pos hrv] at h2
        have hh := Gen.bind_ok h2; clear h2; obtain ⟨v, ec, hv, h2⟩ := hh
        obtain ⟨-, rfl⟩ := Gen.lift_ok hv
        obtain ⟨rfl, rfl⟩ := Gen.pure_ok h2
        refine ⟨?_, rfl⟩
        exact hentry v c.isRefReleaseCall _ (fun r => ⟨rfl, rfl, rfl⟩)
          (fun hn => absurd (hself hn) (fun hh => hav (by rw [hh]; exact htyp)))
      · rw [if_neg hrv] at h2
        obtain ⟨rfl, rfl⟩ := Gen.pure_ok h2
        exact ⟨hinv.mono (Nat.le_succ n) (fun _ hw => hw), rfl⟩
  obtain ⟨hinv2, rfl⟩ := h2inv
  by_cases hpv : c.isRefPropagateCall ≠ -1
  · rw [if_pos hpv] at h
    have hh := Gen.bind_ok h; clear h; obtain ⟨v, ec, hv, h⟩ := hh
    obtain ⟨hname, rfl⟩ := Gen.lift_ok hv
    cases hl : t2.keys.lookup v with
    | none =>
      rw [hl] at h
      obtain ⟨rfl, rfl⟩ := Gen.pure_ok h
      exact ⟨hinv2.mono (le_refl _) hmono, rfl⟩
    | some idx =>
      rw [hl] at h
      obtain ⟨rfl, rfl⟩ := Gen.pure_ok h
      refine ⟨?_, rfl⟩
      apply hinv2.propagate n c.Ret v idx hl hmono
      intro r hr hhead
      have hni : n ≠ i := by
        intro hn
        have hav : acqv ≠ -1 := by rw [hself hn]; exact htyp
        exact hpv (acquire_not_release ha hav).2
      have hlt : i < n := by
        obtain ⟨-, k, hk, hkn⟩ := hinv2.1 idx r hr
        rw [hhead] at hk
        cases hk
        omega
      rw [hgt hlt, aliasVars_snoc]
      obtain ⟨a, rest, hargs, han⟩ := argName_ok hname
      rw [aliasStep_of_args hargs, han]
      have hv_in : v ∈ aliasVars [acq.Ret] al :=
        (hinv2.2.2.2 idx r hr hhead).2.1 v ((hinv2.2.2.2 idx r hr hhead).2.2 v hl)
      rw [if_pos ⟨hpv, hv_in⟩]
      exact List.mem_append_right _ (List.mem_singleton_self _)
  · rw [if_neg hpv] at h
    obtain ⟨rfl, rfl⟩ := Gen.pure_ok h
    exact ⟨hinv2.mono (le_refl _) hmono, rfl⟩

/-- The first loop of `FixRef` keeps the invariant of the table and leaves the environment as
it is. -/
theorem refScanFrom_inv {i : Nat} {acq : BpfCall} {typ : Int} {e : Env}
    (hacq : acq.isRefAcquireCall e = .ok (typ, e)) (htyp : typ ≠ -1)
    (done l : List BpfCall) (hat : (done ++ l)[i]? = some acq) (t t1 : RefTable) (e1 : Env)
    (hinv : ScanInv i acq typ done.length (done.drop (i + 1)) t)
    (h : refScanFrom l done.length t e = .ok (t1, e1)) :
    ScanInv i acq typ (done ++ l).length ((done ++ l).drop (i + 1)) t1 ∧ e1 = e := by
  induction l generalizing done t with
  | nil =>
    obtain ⟨rfl, rfl⟩ := Gen.pure_ok h
    rw [List.append_nil]
    exact ⟨hinv, rfl⟩
  | cons c rest ih =>
    rw [refScanFrom_cons] at h
    have hh := Gen.bind_ok h; clear h; obtain ⟨t2, ea, hs, h⟩ := hh
    have hci : done.length = i → c = acq := by
      intro hn
      rw [← hn, List.getElem?_append_right (le_refl _), Nat.sub_self] at hat
      simp only [List.getElem?_cons_zero, Option.some.injEq] at hat
      exact hat
    obtain ⟨hinv2, rfl⟩ := @refScanStep_inv _ _ _ _ _ ((done ++ [c]).drop (i + 1)) _ _ _ _ _ hacq htyp hinv hci
      (by
        intro hle
        have h1 : List.drop (i + 1) done = [] := List.drop_eq_nil_of_le (by omega)
        have h2 : List.drop (i + 1) (done ++ [c]) = [] :=
          List.drop_eq_nil_of_le (by rw [List.length_append, List.length_singleton]; omega)
        rw [h1, h2])
      (by
        intro hgt
        rw [List.drop_append_of_le_length (by omega)])
      hs
    have := ih (done ++ [c]) (by rw [List.append_assoc]; exact hat) t2
      (by rw [List.length_append, List.length_singleton]; exact hinv2)
      (by rw [List.length_append, List.length_singleton]; exact h)
    rw [List.append_assoc] at this
    exact this

/-! ## The repair loop of `FixRef` -/

theorem pickAmong_none (choose : List BpfHelperFunc → List BpfHelperFunc) (e : Env)
    (h : choose e.s.pt.Helpers = []) : pickAmong choose e = .ok (none, e) := by
  unfold pickAmong
  refine Gen.bind_step (show Gen.getS e = .ok (e.s, e) from rfl) ?_
  dsimp only
  rw [if_pos (by rw [h]; rfl)]
  rfl

theorem helpersAmong_exists {enums : List String} {l : List BpfHelperFunc}
    (h : helpersAmong enums l ≠ []) : ∃ x ∈ l, x.Enum ∈ enums := by
  obtain ⟨x, rest, hx⟩ := List.exists_cons_of_ne_nil h
  have hm : x ∈ helpersAmong enums l := by rw [hx]; exact List.mem_cons_self _ _
  exact ⟨x, helpersAmong_subset _ _ _ hm, helpersAmong_enum _ _ _ hm⟩

/-- One pass of the second loop of `FixRef` for an object that is not released more often
than acquired: nothing is written, or the object is a leaking socket and a release call
becomes the last post-call of its first call, or it is a leaking ring-buffer record and a
release call is appended to `s.Calls`; in both cases its count becomes 0. -/
theorem fixRefEntry_step (self : CallGen) (t : RefTable) (j : Nat) (r : ObjRef) (e : Env)
    (k : Nat) (c : BpfCall) (hr : t.refs[j]? = some r) (hcount : 0 ≤ r.count)
    (hv : r.vars ≠ []) (hhead : r.calls.head? = some k) (hc : e.s.Calls[k]? = some c)
    (hargs1 : ∀ h ∈ e.s.pt.Helpers, h.Enum = "BPF_FUNC_sk_release" →
      ∃ a0, NewBpfArg h 0 = .ok a0)
    (hargs2 : ∀ h ∈ e.s.pt.Helpers,
      h.Enum = "BPF_FUNC_ringbuf_submit" ∨ h.Enum = "BPF_FUNC_ringbuf_discard" →
      (∃ a0, NewBpfArg h 0 = .ok a0) ∧ ∃ a1, NewBpfArg h 1 = .ok a1) :
    ∃ t1 e1, fixRefEntry self t 0 j e = .ok ((t1, 0), e1) ∧ e1.s.pt = e.s.pt ∧
      ((t1 = t ∧ e1.s.Calls = e.s.Calls ∧
          (r.count = 0 ∨
            (r.typ = 1 ∧ ¬ ∃ h ∈ e.s.pt.Helpers, h.Enum = "BPF_FUNC_sk_release") ∨
            (r.typ = 2 ∧ ¬ ∃ h ∈ e.s.pt.Helpers, h.Enum = "BPF_FUNC_ringbuf_submit" ∨
              h.Enum = "BPF_FUNC_ringbuf_discard") ∨
            (r.typ ≠ 1 ∧ r.typ ≠ 2))) ∨
        (0 < r.count ∧ r.typ = 1 ∧ t1 = t.update j (fun r => { r with count := 0 }) ∧
          ∃ rel, SockRel rel r.vars ∧
            e1.s.Calls = e.s.Calls.set k { c with PostCalls := c.PostCalls ++ [rel] }) ∨
        (0 < r.count ∧ r.typ = 2 ∧ t1 = t.update j (fun r => { r with count := 0 }) ∧
          ∃ rel, RingRel rel r.vars ∧ e1.s.Calls = e.s.Calls ++ [rel])) := by
  obtain ⟨rest, hcalls⟩ : ∃ rest, r.calls = k :: rest := by
    cases hcs : r.calls with
    | nil => rw [hcs] at hhead; cases hhead
    | cons x xs =>
      rw [hcs] at hhead
      simp only [List.head?_cons, Option.some.injEq] at hhead
      exact ⟨xs, by rw [hhead]⟩
  unfold fixRefEntry
  rw [hr]
  dsimp only
  rw [if_neg (show ¬ (r.count < 0) by omega)]
  by_cases hpos : r.count > 0
  · by_cases h1 : r.typ = 1
    · have h2 : ¬ r.typ = 2 := by omega
      by_cases hne : helpersAmong ["BPF_FUNC_sk_release"] e.s.pt.Helpers = []
      · refine ⟨t, e, ?_, rfl, Or.inl ⟨rfl, rfl, Or.inr (Or.inl ⟨h1, ?_⟩)⟩⟩
        · refine Gen.bind_step (show (pure 0 : Gen Nat) e = .ok (0, e) from rfl) ?_
          rw [if_pos hpos, if_pos h1, if_neg h2]
          have hrun : addPostRelease r 0 e = .ok (false, e) := by
            unfold addPostRelease
            refine Gen.bind_step (pickAmong_none _ e hne) ?_
            rfl
          refine Gen.bind_step hrun ?_
          refine Gen.bind_step (show (pure false : Gen Bool) e = .ok (false, e) from rfl) ?_
          rfl
        · rintro ⟨h, hh, hen⟩
          exact helpersAmong_ne_nil _ _ h hh (by rw [hen]; exact List.mem_singleton_self _) hne
      · obtain ⟨x, hx, hxe⟩ := helpersAmong_exists hne
        obtain ⟨rel, e1, a0, hrun, hs, q1, q2, q3, q4⟩ :=
          addPostRelease_returns r 0 e k rest c hcalls (by rw [Nat.add_zero]; exact hc) hv
            ⟨x, hx, List.mem_singleton.mp hxe⟩ hargs1
        refine ⟨t.update j (fun r => { r with count := 0 }), e1, ?_, by rw [hs],
          Or.inr (Or.inl ⟨hpos, h1, rfl, rel, ⟨q1, q2, a0, q3, q4⟩, by rw [hs]; rfl⟩)⟩
        refine Gen.bind_step (show (pure 0 : Gen Nat) e = .ok (0, e) from rfl) ?_
        rw [if_pos hpos, if_pos h1, if_neg h2]
        refine Gen.bind_step hrun ?_
        refine Gen.bind_step (show (pure false : Gen Bool) e1 = .ok (false, e1) from rfl) ?_
        rfl
    · by_cases h2 : r.typ = 2
      · by_cases hne : helpersAmong ["BPF_FUNC_ringbuf_submit", "BPF_FUNC_ringbuf_discard"]
            e.s.pt.Helpers = []
        · refine ⟨t, e, ?_, rfl, Or.inl ⟨rfl, rfl, Or.inr (Or.inr (Or.inl ⟨h2, ?_⟩))⟩⟩
          · refine Gen.bind_step (show (pure 0 : Gen Nat) e = .ok (0, e) from rfl) ?_
            rw [if_pos hpos, if_neg h1, if_pos h2]
            refine Gen.bind_step (show (pure false : Gen Bool) e = .ok (false, e) from rfl) ?_
            have hrun : addTailRelease r e = .ok (false, e) := by
              unfold addTailRelease
              refine Gen.bind_step (pickAmong_none _ e hne) ?_
              rfl
            refine Gen.bind_step hrun ?_
            rfl
          · rintro ⟨h, hh, hen⟩
            exact helpersAmong_ne_nil _ _ h hh
              (by rcases hen with hen | hen <;> rw [hen] <;> decide) hne
        · obtain ⟨x, hx, hxe⟩ := helpersAmong_exists hne
          obtain ⟨rel, e1, a0, a1, hrun, hs, q1, q2, q3, q4, q5, q6⟩ :=
            addTailRelease_returns r e hv
              ⟨x, hx, by simpa only [List.mem_cons, List.mem_singleton, List.mem_nil_iff,
                or_false] using hxe⟩ hargs2
          refine ⟨t.update j (fun r => { r with count := 0 }), e1, ?_, by rw [hs],
            Or.inr (Or.inr ⟨hpos, h2, rfl, rel, ⟨q1, q2, ⟨a0, q3, q4⟩, a1, q5, q6⟩,
              by rw [hs]⟩)⟩
          refine Gen.bind_step (show (pure 0 : Gen Nat) e = .ok (0, e) from rfl) ?_
          rw [if_pos hpos, if_neg h1, if_pos h2]
          refine Gen.bind_step (show (pure false : Gen Bool) e = .ok (false, e) from rfl) ?_
          refine Gen.bind_step hrun ?_
          rfl
      · refine ⟨t, e, ?_, rfl, Or.inl ⟨rfl, rfl, Or.inr (Or.inr (Or.inr ⟨h1, h2⟩))⟩⟩
        refine Gen.bind_step (show (pure 0 : Gen Nat) e = .ok (0, e) from rfl) ?_
        rw [if_pos hpos, if_neg h1, if_neg h2]
        refine Gen.bind_step (show (pure false : Gen Bool) e = .ok (false, e) from rfl) ?_
        refine Gen.bind_step (show (pure false : Gen Bool) e = .ok (false, e) from rfl) ?_
        rfl
  · refine ⟨t, e, ?_, rfl, Or.inl ⟨rfl, rfl, Or.inl (by omega)⟩⟩
    refine Gen.bind_step (show (pure 0 : Gen Nat) e = .ok (0, e) from rfl) ?_
    rw [if_neg hpos]
    rfl

theorem update_get (t : RefTable) (j : Nat) (f : ObjRef → ObjRef) (j1 : Nat) :
    (t.update j f).refs[j1]? = if j1 = j then (t.refs[j]?).map f else t.refs[j1]? := by
  unfold RefTable.update
  cases hx : t.refs[j]? with
  | none =>
    dsimp only
    by_cases hj : j1 = j
    · rw [if_pos hj, hj, hx]
      rfl
    · rw [if_neg hj]
  | some r =>
    dsimp only
    have hlen : j < t.refs.length := (List.getElem?_eq_some_iff.mp hx).1
    by_cases hj : j1 = j
    · rw [if_pos hj, hj, List.getElem?_set_self hlen]
      rfl
    · rw [if_neg hj, List.getElem?_set_ne (fun hh => hj hh.symm)]

theorem countP_set {α : Type} (p : α → Bool) (l : List α) (j : Nat) (x y : α)
    (h : l[j]? = some x) :
    (l.set j y).countP p + (if p x then 1 else 0) = l.countP p + (if p y then 1 else 0) := by
  induction l generalizing j with
  | nil => cases h
  | cons a rest ih =>
    cases j with
    | zero =>
      simp only [List.getElem?_cons_zero, Option.some.injEq] at h
      subst h
      rw [List.set_cons_zero, List.countP_cons, List.countP_cons]
      omega
    | succ m =>
      rw [List.getElem?_cons_succ] at h
      rw [List.set_cons_succ, List.countP_cons, List.countP_cons]
      have := ih m h
      omega

theorem update_countP (t : RefTable) (j : Nat) (r : ObjRef) (f : ObjRef → ObjRef)
    (p : ObjRef → Bool) (h : t.refs[j]? = some r) :
    (t.update j f).refs.countP p + (if p r then 1 else 0)
      = t.refs.countP p + (if p (f r) then 1 else 0) := by
  unfold RefTable.update
  rw [h]
  exact countP_set p t.refs j r (f r) h

theorem callsUpTo_refl (l : List BpfCall) : CallsUpTo l l := by
  refine ⟨rfl, fun k c hc => ⟨[], ?_⟩⟩
  rw [hc, List.append_nil]
  cases c
  rfl

theorem callsUpTo_set {old L : List BpfCall} (h : CallsUpTo old L) (k : Nat) (c : BpfCall)
    (rel : BpfCall) (hc : L[k]? = some c) :
    CallsUpTo old (L.set k { c with PostCalls := c.PostCalls ++ [rel] }) := by
  obtain ⟨hlen, hall⟩ := h
  refine ⟨by rw [List.length_set]; exact hlen, fun k1 c1 hc1 => ?_⟩
  obtain ⟨extra, hex⟩ := hall k1 c1 hc1
  by_cases hk : k = k1
  · subst hk
    rw [hex] at hc
    cases hc
    refine ⟨extra ++ [rel], ?_⟩
    rw [List.getElem?_set_self (List.getElem?_eq_some_iff.mp hex).1]
    simp only [List.append_assoc]
  · rw [List.getElem?_set_ne hk]
    exact ⟨extra, hex⟩

/-- One pass of the second loop of `FixRef` keeps the state of the repair, closes the leak if
it visits the leaking object, and leaves a closed leak closed. -/
theorem fixRefEntry_repairs (self : CallGen) (e : Env) (t : RefTable) (idx : Nat)
    (ref : ObjRef) (i : Nat) (acq : BpfCall) (typ : Int)
    (hs1 : ∀ (j : Nat) (r : ObjRef), t.refs[j]? = some r →
      r.vars ≠ [] ∧ ∃ k, r.calls.head? = some k ∧ k < e.s.Calls.length)
    (hs2 : ∀ (j1 j2 : Nat) (r1 r2 : ObjRef), t.refs[j1]? = some r1 → t.refs[j2]? = some r2 →
      r1.calls.head? = r2.calls.head? → j1 = j2)
    (hbal : ∀ r ∈ t.refs, 0 ≤ r.count)
    (href : t.refs[idx]? = some ref) (hhead : ref.calls.head? = some i)
    (hleak : 0 < ref.count) (hreftyp : ref.typ = typ) (htyp : typ = 1 ∨ typ = 2)
    (hsock : typ = 1 → ∃ h ∈ e.s.pt.Helpers, h.Enum = "BPF_FUNC_sk_release")
    (hring : typ = 2 → ∃ h ∈ e.s.pt.Helpers,
      h.Enum = "BPF_FUNC_ringbuf_submit" ∨ h.Enum = "BPF_FUNC_ringbuf_discard")
    (hargs1 : ∀ h ∈ e.s.pt.Helpers, h.Enum = "BPF_FUNC_sk_release" →
      ∃ a0, NewBpfArg h 0 = .ok a0)
    (hargs2 : ∀ h ∈ e.s.pt.Helpers,
      h.Enum = "BPF_FUNC_ringbuf_submit" ∨ h.Enum = "BPF_FUNC_ringbuf_discard" →
      (∃ a0, NewBpfArg h 0 = .ok a0) ∧ ∃ a1, NewBpfArg h 1 = .ok a1)
    (j : Nat) (hj : j < t.refs.length)
    (t1 : RefTable) (e1 : Env) (L T : List BpfCall) (hbase : RepairBase e t t1 e1 L T) :
    ∃ t2 e2 L2 T2, fixRefEntry self t1 0 j e1 = .ok ((t2, 0), e2) ∧
      RepairBase e t t2 e2 L2 T2 ∧
      (∀ rel, LeakClosed e t idx ref i acq typ rel t1 L T →
        LeakClosed e t idx ref i acq typ rel t2 L2 T2) ∧
      (LeakOpen e t idx ref i acq t1 L T →
        (j = idx → ∃ rel, LeakClosed e t idx ref i acq typ rel t2 L2 T2) ∧
        (j ≠ idx → LeakOpen e t idx ref i acq t2 L2 T2)) := by
  obtain ⟨bpt, brefs, bcalls, bup, bring, bcount⟩ := hbase
  obtain ⟨r, hr⟩ : ∃ r, t.refs[j]? = some r := ⟨t.refs[j], List.getElem?_eq_getElem hj⟩
  obtain ⟨r1, hr1, rv, rt, rc, rcount⟩ := brefs j r hr
  obtain ⟨hvars, k, hk, hkn⟩ := hs1 j r hr
  obtain ⟨c0, hc0⟩ : ∃ c0, e.s.Calls[k]? = some c0 :=
    ⟨e.s.Calls[k], List.getElem?_eq_getElem hkn⟩
  obtain ⟨extra, hLk⟩ := bup.2 k c0 hc0
  have hkL : k < L.length := by rw [bup.1]; exact hkn
  have hck : e1.s.Calls[k]? = some { c0 with PostCalls := c0.PostCalls ++ extra } := by
    rw [bcalls, List.getElem?_append_left hkL]
    exact hLk
  have hrcount : 0 ≤ r1.count := by
    have hmem : r ∈ t.refs := by
      obtain ⟨hlt, heq⟩ := List.getElem?_eq_some_iff.mp hr
      rw [← heq]
      exact List.getElem_mem _
    have := hbal r hmem
    rcases rcount with h | h <;> omega
  -- facts about the leaking object
  have hidx_head : j ≠ idx → k ≠ i := by
    intro hne hki
    apply hne
    exact hs2 j idx r ref hr href (by rw [hk, hhead, hki])
  have hbal_abs : j ≠ idx → othersBalanced t idx → ¬ (0 < r1.count) := by
    intro hne hb hpos
    have := hb j r hr hne
    rcases rcount with h | h <;> omega
  obtain ⟨t2, e2, hrun, hpt, hcase⟩ := fixRefEntry_step self t1 j r1 e1 k
    { c0 with PostCalls := c0.PostCalls ++ extra } hr1 hrcount (by rw [rv]; exact hvars)
    (by rw [rc]; exact hk) hck (by rw [bpt]; exact hargs1) (by rw [bpt]; exact hargs2)
  have hrefs2 : ∀ (r0 : ObjRef), t2 = t1.update j (fun r => { r with count := 0 }) →
      ∀ (j1 : Nat) (q : ObjRef), t.refs[j1]? = some q →
      ∃ q1 : ObjRef, t2.refs[j1]? = some q1 ∧ q1.vars = q.vars ∧ q1.typ = q.typ ∧
        q1.calls = q.calls ∧ (q1.count = q.count ∨ q1.count = 0) := by
    intro _ ht2 j1 q hq
    obtain ⟨q1, hq1, a, b, c, d⟩ := brefs j1 q hq
    rw [ht2, update_get]
    by_cases hjj : j1 = j
    · subst hjj
      rw [if_pos rfl, hq1]
      exact ⟨_, rfl, a, b, c, Or.inr rfl⟩
    · rw [if_neg hjj]
      exact ⟨q1, hq1, a, b, c, d⟩
  have hkeep : ∀ (j1 : Nat), j1 ≠ j → t2 = t1.update j (fun r => { r with count := 0 }) →
      t2.refs[j1]? = t1.refs[j1]? := by
    intro j1 hne ht2
    rw [ht2, update_get, if_neg hne]
  rcases hcase with ⟨rfl, hcalls2, hwhy⟩ | ⟨hpos, hty, ht2, rel, hrel, hcalls2⟩ |
    ⟨hpos, hty, ht2, rel, hrel, hcalls2⟩
  · -- nothing is written
    refine ⟨t2, e2, L, T, hrun, ⟨hpt.trans bpt, brefs, hcalls2.trans bcalls, bup, bring, bcount⟩,
      fun rel hcl => hcl, fun hop => ⟨fun hji => ?_, fun _ => hop⟩⟩
    exfalso
    subst hji
    rw [href] at hr
    cases hr
    obtain ⟨⟨q, hq, hqc⟩, -, -⟩ := hop
    rw [hr1] at hq
    cases hq
    rcases hwhy with h | ⟨h, hno⟩ | ⟨h, hno⟩ | ⟨h1, h2⟩
    · omega
    · rw [bpt] at hno
      exact hno (hsock (by rw [← hreftyp, ← rt]; exact h))
    · rw [bpt] at hno
      exact hno (hring (by rw [← hreftyp, ← rt]; exact h))
    · rw [rt, hreftyp] at h1 h2
      rcases htyp with h | h
      · exact h1 h
      · exact h2 h
  · -- a post-call for a leaking socket
    have hset : e2.s.Calls = L.set k
        { c0 with PostCalls := c0.PostCalls ++ extra ++ [rel] } ++ T := by
      rw [hcalls2, bcalls, List.set_append_left _ _ hkL]
    have hbase2 : RepairBase e t t2 e2
        (L.set k { c0 with PostCalls := c0.PostCalls ++ extra ++ [rel] }) T := by
      refine ⟨hpt.trans bpt, hrefs2 r1 ht2, hset, callsUpTo_set bup k _ rel hLk, bring, ?_⟩
      have := update_countP t1 j r1 (fun r => { r with count := 0 }) ObjRef.leaksRecord hr1
      have p1 : ObjRef.leaksRecord r1 = false := by
        unfold ObjRef.leaksRecord
        rw [hty]
        exact decide_eq_false (fun h => absurd h.1 (by decide))
      have p2 : ObjRef.leaksRecord { r1 with count := 0 } = false := by
        unfold ObjRef.leaksRecord
        simp
      rw [p1, p2] at this
      rw [ht2]
      simp only [Bool.false_eq_true, if_false, Nat.add_zero] at this
      omega
    refine ⟨t2, e2, _, T, hrun, hbase2, ?_, ?_⟩
    · intro rel0 hcl
      obtain ⟨⟨q, hq, hqc⟩, c1, c2⟩ := hcl
      have hne : j ≠ idx := by
        intro hji
        subst hji
        rw [hr1] at hq
        cases hq
        omega
      refine ⟨⟨q, by rw [hkeep idx (fun hh => hne hh.symm) ht2]; exact hq, hqc⟩, ?_, ?_⟩
      · intro h1
        obtain ⟨a, b, -⟩ := c1 h1
        refine ⟨a, ?_, fun hb => absurd hpos (hbal_abs hne hb)⟩
        rw [List.getElem?_set_ne (hidx_head hne)]
        exact b
      · intro h2
        obtain ⟨a, b, -⟩ := c2 h2
        exact ⟨a, b, fun hb => absurd hpos (hbal_abs hne hb)⟩
    · intro hop
      obtain ⟨⟨q, hq, hqc⟩, hLi, hexact⟩ := hop
      refine ⟨fun hji => ?_, fun hne => ?_⟩
      · subst hji
        rw [href] at hr
        cases hr
        rw [hhead] at hk
        cases hk
        rw [hLk] at hLi
        have hc0 : ({ c0 with PostCalls := c0.PostCalls ++ extra } : BpfCall) = acq := by
          cases hLi
          rfl
        have htyp1 : typ = 1 := by rw [← hreftyp, ← rt]; exact hty
        refine ⟨rel, ⟨{ r1 with count := 0 }, ?_, rfl⟩, fun _ => ⟨?_, ?_, ?_⟩,
          fun h2 => absurd (htyp1.symm.trans h2) (by decide)⟩
        · rw [ht2, update_get, if_pos rfl, hr1]
          rfl
        · rw [← rv]
          exact hrel
        · rw [List.getElem?_set_self hkL, ← hc0]
        · intro hb
          obtain ⟨hL, hT⟩ := hexact hb
          refine ⟨?_, hT⟩
          rw [← hc0, ← hL]
      · refine ⟨⟨q, by rw [hkeep idx (fun hh => hne hh.symm) ht2]; exact hq, hqc⟩, ?_,
          fun hb => absurd hpos (hbal_abs hne hb)⟩
        rw [List.getElem?_set_ne (hidx_head hne)]
        exact hLi
  · -- a release appended for a leaking ring-buffer record
    have happ : e2.s.Calls = L ++ (T ++ [rel]) := by
      rw [hcalls2, bcalls, List.append_assoc]
    have hbase2 : RepairBase e t t2 e2 L (T ++ [rel]) := by
      refine ⟨hpt.trans bpt, hrefs2 r1 ht2, happ, bup, ?_, ?_⟩
      · intro x hx
        rcases List.mem_append.mp hx with hx | hx
        · exact bring x hx
        · rw [List.mem_singleton.mp hx]
          exact ⟨r1.vars, hrel⟩
      · have := update_countP t1 j r1 (fun r => { r with count := 0 }) ObjRef.leaksRecord hr1
        have p1 : ObjRef.leaksRecord r1 = true := by
          unfold ObjRef.leaksRecord
          exact decide_eq_true ⟨hty, hpos⟩
        have p2 : ObjRef.leaksRecord { r1 with count := 0 } = false := by
          unfold ObjRef.leaksRecord
          simp
        rw [p1, p2] at this
        rw [ht2, List.length_append, List.length_singleton]
        simp only [if_true, Bool.false_eq_true, if_false, Nat.add_zero] at this
        omega
    refine ⟨t2, e2, L, T ++ [rel], hrun, hbase2, ?_, ?_⟩
    · intro rel0 hcl
      obtain ⟨⟨q, hq, hqc⟩, c1, c2⟩ := hcl
      have hne : j ≠ idx := by
        intro hji
        subst hji
        rw [hr1] at hq
        cases hq
        omega
      refine ⟨⟨q, by rw [hkeep idx (fun hh => hne hh.symm) ht2]; exact hq, hqc⟩, ?_, ?_⟩
      · intro h1
        obtain ⟨a, b, -⟩ := c1 h1
        exact ⟨a, b, fun hb => absurd hpos (hbal_abs hne hb)⟩
      · intro h2
        obtain ⟨a, b, -⟩ := c2 h2
        exact ⟨a, List.mem_append_left _ b, fun hb => absurd hpos (hbal_abs hne hb)⟩
    · intro hop
      obtain ⟨⟨q, hq, hqc⟩, hLi, hexact⟩ := hop
      refine ⟨fun hji => ?_, fun hne => ?_⟩
      · subst hji
        rw [href] at hr
        cases hr
        have htyp2 : typ = 2 := by rw [← hreftyp, ← rt]; exact hty
        refine ⟨rel, ⟨{ r1 with count := 0 }, ?_, rfl⟩,
          fun h1 => absurd (htyp2.symm.trans h1) (by decide), fun _ => ⟨?_, ?_, ?_⟩⟩
        · rw [ht2, update_get, if_pos rfl, hr1]
          rfl
        · rw [← rv]
          exact hrel
        · exact List.mem_append_right _ (List.mem_singleton_self _)
        · intro hb
          obtain ⟨hL, hT⟩ := hexact hb
          exact ⟨hL, by rw [hT]; rfl⟩
      · exact ⟨⟨q, by rw [hkeep idx (fun hh => hne hh.symm) ht2]; exact hq, hqc⟩, hLi,
          fun hb => absurd hpos (hbal_abs hne hb)⟩

/-- The second loop of `FixRef` over the entries `l`: a closed leak stays closed, and an open
leak is closed if the loop visits the leaking object. -/
theorem fixRefLoop_repairs (self : CallGen) (e : Env) (t : RefTable) (idx : Nat)
    (ref : ObjRef) (i : Nat) (acq : BpfCall) (typ : Int)
    (hs1 : ∀ (j : Nat) (r : ObjRef), t.refs[j]? = some r →
      r.vars ≠ [] ∧ ∃ k, r.calls.head? = some k ∧ k < e.s.Calls.length)
    (hs2 : ∀ (j1 j2 : Nat) (r1 r2 : ObjRef), t.refs[j1]? = some r1 → t.refs[j2]? = some r2 →
      r1.calls.head? = r2.calls.head? → j1 = j2)
    (hbal : ∀ r ∈ t.refs, 0 ≤ r.count)
    (href : t.refs[idx]? = some ref) (hhead : ref.calls.head? = some i)
    (hleak : 0 < ref.count) (hreftyp : ref.typ = typ) (htyp : typ = 1 ∨ typ = 2)
    (hsock : typ = 1 → ∃ h ∈ e.s.pt.Helpers, h.Enum = "BPF_FUNC_sk_release")
    (hring : typ = 2 → ∃ h ∈ e.s.pt.Helpers,
      h.Enum = "BPF_FUNC_ringbuf_submit" ∨ h.Enum = "BPF_FUNC_ringbuf_discard")
    (hargs1 : ∀ h ∈ e.s.pt.Helpers, h.Enum = "BPF_FUNC_sk_release" →
      ∃ a0, NewBpfArg h 0 = .ok a0)
    (hargs2 : ∀ h ∈ e.s.pt.Helpers,
      h.Enum = "BPF_FUNC_ringbuf_submit" ∨ h.Enum = "BPF_FUNC_ringbuf_discard" →
      (∃ a0, NewBpfArg h 0 = .ok a0) ∧ ∃ a1, NewBpfArg h 1 = .ok a1)
    (l : List (String × Nat)) (hl : ∀ p ∈ l, p.2 < t.refs.length)
    (t1 : RefTable) (e1 : Env) (L T : List BpfCall) (hbase : RepairBase e t t1 e1 L T) :
    (∀ rel, LeakClosed e t idx ref i acq typ rel t1 L T →
      ∃ e2 t2 L2 T2, fixRefLoop self l t1 0 e1 = .ok ((), e2) ∧ RepairBase e t t2 e2 L2 T2 ∧
        LeakClosed e t idx ref i acq typ rel t2 L2 T2) ∧
    (LeakOpen e t idx ref i acq t1 L T → idx ∈ l.map Prod.snd →
      ∃ e2 t2 L2 T2 rel, fixRefLoop self l t1 0 e1 = .ok ((), e2) ∧
        RepairBase e t t2 e2 L2 T2 ∧ LeakClosed e t idx ref i acq typ rel t2 L2 T2) := by
  induction l generalizing t1 e1 L T with
  | nil =>
    refine ⟨fun rel hcl => ⟨e1, t1, L, T, rfl, hbase, hcl⟩, fun _ hmem => ?_⟩
    cases hmem
  | cons p rest ih =>
    obtain ⟨k0, j⟩ := p
    have hj : j < t.refs.length := hl (k0, j) (List.mem_cons_self _ _)
    have hrest : ∀ p ∈ rest, p.2 < t.refs.length :=
      fun p hp => hl p (List.mem_cons_of_mem _ hp)
    obtain ⟨t2, e2, L2, T2, hrun, hbase2, hclosed, hopen⟩ :=
      fixRefEntry_repairs self e t idx ref i acq typ hs1 hs2 hbal href hhead hleak hreftyp htyp
        hsock hring hargs1 hargs2 j hj t1 e1 L T hbase
    obtain ⟨ih1, ih2⟩ := ih hrest t2 e2 L2 T2 hbase2
    constructor
    · intro rel hcl
      obtain ⟨e3, t3, L3, T3, hrun3, hb3, hc3⟩ := ih1 rel (hclosed rel hcl)
      refine ⟨e3, t3, L3, T3, ?_, hb3, hc3⟩
      rw [fixRefLoop_cons]
      exact Gen.bind_step hrun hrun3
    · intro hop hmem
      by_cases hji : j = idx
      · obtain ⟨rel, hcl⟩ := (hopen hop).1 hji
        obtain ⟨e3, t3, L3, T3, hrun3, hb3, hc3⟩ := ih1 rel hcl
        refine ⟨e3, t3, L3, T3, rel, ?_, hb3, hc3⟩
        rw [fixRefLoop_cons]
        exact Gen.bind_step hrun hrun3
      · have hmem2 : idx ∈ rest.map Prod.snd := by
          rw [List.map_cons] at hmem
          rcases List.mem_cons.mp hmem with h | h
          · exact absurd h.symm hji
          · exact h
        obtain ⟨e3, t3, L3, T3, rel, hrun3, hb3, hc3⟩ := ih2 ((hopen hop).2 hji) hmem2
        refine ⟨e3, t3, L3, T3, rel, ?_, hb3, hc3⟩
        rw [fixRefLoop_cons]
        exact Gen.bind_step hrun hrun3

/-- C33: for a call sequence `pre ++ [acq] ++ post` in which `acq` is an acquire call of
type 1 or 2, where the scan of `FixRef` made an object for `acq` that is still under a key
and has a positive count (an acquire without release), and no object is released more often
than acquired (for such an object `FixRef` runs the call generator, which may not return):
over a program type that has the release helper (with the arguments that `FixRef` fills in)
and for every order in which `range` visits `objRefMap`, `FixRef` returns.
Its calls are then `L ++ T`, where `L` are the calls as before up to further post-calls and
`T` are ring-buffer releases, at most one for every leaking record. For type 1 the call at
the place of `acq` in `L` is `acq` with exactly one `sk_release` call `rel` appended to its
post-calls; for type 2 one `ringbuf_submit` or `ringbuf_discard` call `rel` is in `T`, with
argument 1 named `0`. In both cases argument 0 of `rel` is named by a member of the alias
set of the reference. If no other object has a count that differs from 0, `s.Calls` is left
as it is but for the post-call of `acq` (type 1), or has `rel` appended and is unchanged
otherwise (type 2). -/
theorem FixRef_repairs_leak (mapFuel fuel : Nat)
    (visit : List (String × Nat) → List (String × Nat)) (e : Env) (pre post : List BpfCall)
    (acq : BpfCall) (typ : Int) (t : RefTable) (idx : Nat) (ref : ObjRef)
    (hvisit : ∀ ks, (visit ks).Perm ks)
    (hcalls : e.s.Calls = pre ++ acq :: post)
    (hacq : acq.isRefAcquireCall e = .ok (typ, e)) (htyp : typ = 1 ∨ typ = 2)
    (hscan : ∃ e0, refScanFrom e.s.Calls 0 {} e = .ok (t, e0))
    (href : t.refs[idx]? = some ref) (hhead : ref.calls.head? = some pre.length)
    (hkey : ∃ k, (k, idx) ∈ t.keys) (hleak : 0 < ref.count)
    (hbal : ∀ r ∈ t.refs, 0 ≤ r.count)
    (hsock : typ = 1 → ∃ h ∈ e.s.pt.Helpers, h.Enum = "BPF_FUNC_sk_release")
    (hring : typ = 2 → ∃ h ∈ e.s.pt.Helpers,
      h.Enum = "BPF_FUNC_ringbuf_submit" ∨ h.Enum = "BPF_FUNC_ringbuf_discard")
    (hargs1 : ∀ h ∈ e.s.pt.Helpers, h.Enum = "BPF_FUNC_sk_release" →
      ∃ a0, NewBpfArg h 0 = .ok a0)
    (hargs2 : ∀ h ∈ e.s.pt.Helpers,
      h.Enum = "BPF_FUNC_ringbuf_submit" ∨ h.Enum = "BPF_FUNC_ringbuf_discard" →
      (∃ a0, NewBpfArg h 0 = .ok a0) ∧ ∃ a1, NewBpfArg h 1 = .ok a1) :
    ∃ (e1 : Env) (rel : BpfCall) (a0 : BpfArg) (L T : List BpfCall),
      FixRef mapFuel fuel visit e = .ok ((), e1) ∧
      rel.PostCalls = [] ∧ rel.Args[0]? = some (some a0) ∧
      a0.Name ∈ aliasVars [acq.Ret] post ∧
      e1.s.Calls = L ++ T ∧ CallsUpTo e.s.Calls L ∧ (∀ x ∈ T, ∃ vars, RingRel x vars) ∧
      T.length ≤ t.refs.countP ObjRef.leaksRecord ∧
      (typ = 1 → rel.Helper.Enum = "BPF_FUNC_sk_release" ∧
        L[pre.length]? = some { acq with PostCalls := acq.PostCalls ++ [rel] } ∧
        (othersBalanced t idx →
          e1.s.Calls = pre ++ { acq with PostCalls := acq.PostCalls ++ [rel] } :: post)) ∧
      (typ = 2 →
        (rel.Helper.Enum = "BPF_FUNC_ringbuf_submit" ∨
          rel.Helper.Enum = "BPF_FUNC_ringbuf_discard") ∧ rel ∈ T ∧
        (∃ a1, rel.Args[1]? = some (some a1) ∧ a1.Name = "0") ∧
        (othersBalanced t idx → e1.s.Calls = pre ++ acq :: post ++ [rel])) := by
  have hne : typ ≠ -1 := by rcases htyp with rfl | rfl <;> decide
  obtain ⟨e0, hscan⟩ := hscan
  have hat : e.s.Calls[pre.length]? = some acq := by
    rw [hcalls]
    exact getElem_middle pre post acq
  have hinv0 : ScanInv pre.length acq typ ([] : List BpfCall).length
      (([] : List BpfCall).drop (pre.length + 1)) {} :=
    ⟨fun j r hr => (by cases hr), fun j1 j2 r1 r2 h1 => (by cases h1),
      fun p hp => (by cases hp), fun j r hr => (by cases hr)⟩
  obtain ⟨hinv, he0⟩ := refScanFrom_inv hacq hne [] e.s.Calls
    (by rw [List.nil_append]; exact hat) {} t e0 hinv0 hscan
  rw [he0] at hscan
  clear he0
  rw [List.nil_append] at hinv
  have hpost : e.s.Calls.drop (pre.length + 1) = post := by
    rw [hcalls, List.drop_append_eq_append_drop, List.drop_eq_nil_of_le (by omega)]
    rw [show pre.length + 1 - pre.length = 1 by omega]
    rfl
  rw [hpost] at hinv
  obtain ⟨s1, s2, s3, s4⟩ := hinv
  obtain ⟨hreftyp, hvars, -⟩ := s4 idx ref href hhead
  have hl : ∀ p ∈ visit t.keys, p.2 < t.refs.length :=
    fun p hp => s3 p ((hvisit t.keys).mem_iff.mp hp)
  have hmem : idx ∈ (visit t.keys).map Prod.snd := by
    obtain ⟨k, hk⟩ := hkey
    exact List.mem_map.mpr ⟨(k, idx), (hvisit t.keys).mem_iff.mpr hk, rfl⟩
  have hbase : RepairBase e t t e e.s.Calls [] :=
    ⟨rfl, fun j r hr => ⟨r, hr, rfl, rfl, rfl, Or.inl rfl⟩, by rw [List.append_nil],
      callsUpTo_refl _, fun x hx => (by cases hx), by simp⟩
  have hopen : LeakOpen e t idx ref pre.length acq t e.s.Calls [] :=
    ⟨⟨ref, href, rfl⟩, hat, fun _ => ⟨rfl, rfl⟩⟩
  obtain ⟨e1, t1, L, T, rel, hrun, hb, hcl⟩ :=
    (fixRefLoop_repairs (genBpfHelperCall mapFuel fuel) e t idx ref pre.length acq typ s1 s2
      hbal href hhead hleak hreftyp htyp hsock hring hargs1 hargs2 (visit t.keys) hl t e
      e.s.Calls [] hbase).2 hopen hmem
  obtain ⟨-, -, bcalls, bup, bring, bcount⟩ := hb
  obtain ⟨-, c1, c2⟩ := hcl
  have hrun1 : FixRef mapFuel fuel visit e = .ok ((), e1) := by
    unfold FixRef
    refine Gen.bind_step (show Gen.getS e = .ok (e.s, e) from rfl) ?_
    refine Gen.bind_step hscan ?_
    exact hrun
  have hrelfacts : rel.PostCalls = [] ∧ ∃ a0, rel.Args[0]? = some (some a0) ∧
      a0.Name ∈ ref.vars := by
    rcases htyp with h | h
    · obtain ⟨⟨-, q2, q3⟩, -⟩ := c1 h
      exact ⟨q2, q3⟩
    · obtain ⟨⟨-, q2, q3, -⟩, -⟩ := c2 h
      exact ⟨q2, q3⟩
  obtain ⟨hrp, a0, ha0, ha0v⟩ := hrelfacts
  refine ⟨e1, rel, a0, L, T, hrun1, hrp, ha0, hvars _ ha0v, bcalls, bup, bring, by omega,
    fun h1 => ?_, fun h2 => ?_⟩
  · obtain ⟨⟨q1, -, -⟩, hLi, hex⟩ := c1 h1
    refine ⟨q1, hLi, fun hb => ?_⟩
    obtain ⟨hL, hT⟩ := hex hb
    rw [bcalls, hL, hT, List.append_nil, hcalls]
    exact set_middle pre post acq _
  · obtain ⟨⟨q1, -, -, q4⟩, hin, hex⟩ := c2 h2
    refine ⟨q1, hin, q4, fun hb => ?_⟩
    obtain ⟨hL, hT⟩ := hex hb
    rw [bcalls, hL, hT, hcalls, List.append_assoc]

theorem ptRefs_release_args :
    (∀ h ∈ ptRefs.Helpers, h.Enum = "BPF_FUNC_sk_release" → ∃ a0, NewBpfArg h 0 = .ok a0) ∧
    (∀ h ∈ ptRefs.Helpers,
      h.Enum = "BPF_FUNC_ringbuf_submit" ∨ h.Enum = "BPF_FUNC_ringbuf_discard" →
      (∃ a0, NewBpfArg h 0 = .ok a0) ∧ ∃ a1, NewBpfArg h 1 = .ok a1) := by
  constructor
  · intro h hh he
    have hh1 : h ∈ [hPrandom, hSkLookupTcp, hSkRelease, hRingbufReserve, hRingbufSubmit] := hh
    simp only [List.mem_cons, List.mem_singleton, List.mem_nil_iff, or_false] at hh1
    rcases hh1 with rfl | rfl | rfl | rfl | rfl
    · exact absurd he (by decide)
    · exact absurd he (by decide)
    · exact ⟨_, rfl⟩
    · exact absurd he (by decide)
    · exact absurd he (by decide)
  · intro h hh he
    have hh1 : h ∈ [hPrandom, hSkLookupTcp, hSkRelease, hRingbufReserve, hRingbufSubmit] := hh
    simp only [List.mem_cons, List.mem_singleton, List.mem_nil_iff, or_false] at hh1
    rcases hh1 with rfl | rfl | rfl | rfl | rfl
    · exact absurd he (by decide)
    · exact absurd he (by decide)
    · exact absurd he (by decide)
    · exact absurd he (by decide)
    · exact ⟨⟨_, rfl⟩, ⟨_, rfl⟩⟩

/-- C33 (examples): in `[sk_lookup_tcp v1, sk_release(v1), sk_lookup_tcp v4]` the first
socket is released and the second leaks: `FixRef` attaches one `sk_release` on `v4` to the
second lookup and leaves `s.Calls` as it is otherwise. In
`[ringbuf_reserve v1, sk_lookup_tcp v4]` both references leak: the lookup gets its one
`sk_release` post-call, and the one call that `FixRef` appends is the release of the other
reference. -/
theorem FixRef_repairs_leak_witness :
    (∃ (e1 : Env) (rel : BpfCall) (a0 : BpfArg),
      FixRef 1 2 id c33BalEnv = .ok ((), e1) ∧
      rel.PostCalls = [] ∧ rel.Args[0]? = some (some a0) ∧ a0.Name ∈ ["v4"] ∧
      rel.Helper.Enum = "BPF_FUNC_sk_release" ∧
      e1.s.Calls = [callOn hSkLookupTcp "ctx" "v1", callOn hSkRelease "v1" "",
        { callOn hSkLookupTcp "ctx" "v4" with PostCalls := [rel] }]) ∧
    (∃ (e1 : Env) (rel : BpfCall) (a0 : BpfArg) (L T : List BpfCall),
      FixRef 1 2 id c33TwoEnv = .ok ((), e1) ∧
      rel.PostCalls = [] ∧ rel.Args[0]? = some (some a0) ∧ a0.Name ∈ ["v4"] ∧
      rel.Helper.Enum = "BPF_FUNC_sk_release" ∧ e1.s.Calls = L ++ T ∧
      L[1]? = some { callOn hSkLookupTcp "ctx" "v4" with PostCalls := [rel] } ∧
      CallsUpTo c33TwoEnv.s.Calls L ∧ (∀ x ∈ T, ∃ vars, RingRel x vars) ∧ T.length ≤ 1) := by
  constructor
  · obtain ⟨e1, rel, a0, L, T, hrun, h1, h2, h3, -, -, -, -, h4, -⟩ :=
      FixRef_repairs_leak 1 2 id c33BalEnv
        [callOn hSkLookupTcp "ctx" "v1", callOn hSkRelease "v1" ""] []
        (callOn hSkLookupTcp "ctx" "v4") 1
        (RefTable.mk [ObjRef.mk ["v1"] none 1 0 [0], ObjRef.mk ["v4"] none 1 1 [2]]
          [("v1", 0), ("v4", 1)]) 1 (ObjRef.mk ["v4"] none 1 1 [2])
        (fun ks => List.Perm.refl ks) rfl rfl (Or.inl rfl) ⟨c33BalEnv, by rfl⟩ rfl rfl
        ⟨"v4", by decide⟩ (by decide) (by decide) (fun _ => ⟨hSkRelease, by decide, rfl⟩)
        (fun h => absurd h (by decide)) ptRefs_release_args.1 ptRefs_release_args.2
    obtain ⟨q1, -, q3⟩ := h4 rfl
    refine ⟨e1, rel, a0, hrun, h1, h2, h3, q1, q3 ?_⟩
    intro j r hr hj
    match j, hr, hj with
    | 0, hr, _ =>
      cases hr
      rfl
    | 1, _, hj => exact absurd rfl hj
    | (n + 2), hr, _ => cases hr
  · obtain ⟨e1, rel, a0, L, T, hrun, h1, h2, h3, hLT, hup, hring, hlen, h4, -⟩ :=
      FixRef_repairs_leak 1 2 id c33TwoEnv [callOn hRingbufReserve "map_0" "v1"] []
        (callOn hSkLookupTcp "ctx" "v4") 1
        (RefTable.mk [ObjRef.mk ["v1"] none 2 1 [0], ObjRef.mk ["v4"] none 1 1 [1]]
          [("v1", 0), ("v4", 1)]) 1 (ObjRef.mk ["v4"] none 1 1 [1])
        (fun ks => List.Perm.refl ks) rfl rfl (Or.inl rfl) ⟨c33TwoEnv, by rfl⟩ rfl rfl
        ⟨"v4", by decide⟩ (by decide) (by decide) (fun _ => ⟨hSkRelease, by decide, rfl⟩)
        (fun h => absurd h (by decide)) ptRefs_release_args.1 ptRefs_release_args.2
    obtain ⟨q1, q2, -⟩ := h4 rfl
    exact ⟨e1, rel, a0, L, T, hrun, h1, h2, h3, q1, hLT, q2, hup, hring, hlen⟩

end Brf
